import Mathlib

/-! # Snapshot delta decoding and client entity bookkeeping

A shallow embedding of `source/qcommon/snap_read.cpp` and of the entity
bookkeeping of `source/cgame/cg_ents.cpp`.

Conventions of the embedding.

* The wire primitives (`MSG_Read*`, `MSG_SkipData`) are not part of the sources
  at hand; they are the fields of `MsgOps`, over an arbitrary message type.
  Every function that reads from the wire takes the message and returns the
  advanced message.
* Frames live in a frame store `Frames`; a `snapshot_t *` is an address of that
  store (`Option Nat`, `none` being `NULL`), so that two pointers to the same
  ring slot alias as they do in the source.
* `Com_Error( ERR_DROP, ... )` is the outcome `Res.drop`; dereferencing a null
  pointer is `Res.undef`; loops are given an iteration budget, and a loop that
  exceeds it yields `Res.fuel`.
* `Com_Printf` and `_SHOWNET` only print and are left out, and with them the
  `shownet` arguments.
* A `float` is a rational number. In `CG_UpdateLinearProjectilePosition` and
  `CG_NewPacketEntityState` a `float` operation is the exact operation followed
  by the rounding `f32` to 24 significant bits, and the operators of `Vec3`,
  which are defined outside the sources, are parameters of the environment. The
  extrapolated origin of `CG_LerpGenericEnt` is computed with exact vector
  arithmetic.
-/

namespace Forksow

/-! ## Data model -/

/-- The reasons of `Com_Error( ERR_DROP, ... )` in `snap_read.cpp`, and the two
of `CG_UpdateEntities` in `cg_ents.cpp`. -/
inductive DropReason where
  | badNumber
  | endOfMessage
  | notGamecommands
  | tooManyGamecommands
  | tooMuchGamecommands
  | tooManyTargets
  | notMatchInfo
  | notPlayerinfo
  | notPacketentities
  | ownerNotInSnapshot
  | unknownEntityType
deriving DecidableEq, Repr

/-- Outcome of a routine that may drop the connection. -/
inductive Res (α : Type) where
  | ok (a : α)
  | drop (r : DropReason)
  | undef
  | fuel
deriving Repr

structure Vec3 where
  x : ℚ
  y : ℚ
  z : ℚ
deriving DecidableEq

/-- Entity type tags used by the client bookkeeping; `other` stands for every
remaining tag of the enumeration. -/
inductive EntityType where
  | ET_GENERIC
  | ET_PLAYER
  | ET_CORPSE
  | ET_GRENADE
  | other (tag : Nat)
deriving DecidableEq

/-- The fields of `SyncEntityState` that the embedded functions read or write;
`rest` stands for the remaining fields of the record. -/
structure SyncEntityState where
  number : Int
  type : EntityType
  origin : Vec3
  origin2 : Vec3
  model : Nat
  teleported : Bool
  linearMovement : Bool
  linearMovementVelocity : Vec3
  linearMovementTimeStamp : Int
  linearMovementTimeDelta : Int
  ownerNum : Int
  svflags : Nat
  team : Int
  effects : Nat
  rest : Nat
deriving DecidableEq

/-- The fields of `pmove` inside `SyncPlayerState` that are used. -/
structure pmove_state_t where
  pm_type : Nat
  pm_flags : Nat
deriving DecidableEq

structure SyncPlayerState where
  playerNum : Nat
  POVnum : Nat
  pmove : pmove_state_t
  team : Int
  rest : Nat
deriving DecidableEq

/-- The game state is only passed through `MSG_ReadDeltaGameState`. -/
structure SyncGameState where
  rest : Nat
deriving DecidableEq

structure gcommand_t where
  all : Bool
  commandOffset : Nat
  targets : Nat → Nat

/-- The frame record `snapshot_t`. Arrays are functions of the index; the
callers only use indices inside the array. -/
structure snapshot_t where
  valid : Bool
  serverFrame : Int
  serverTime : Int
  ucmdExecuted : Int
  delta : Bool
  allentities : Bool
  multipov : Bool
  deltaFrameNum : Int
  numEntities : Nat
  parsedEntities : Nat → SyncEntityState
  gameState : SyncGameState
  numplayers : Nat
  playerStates : Nat → SyncPlayerState
  playerState : SyncPlayerState
  numgamecommands : Nat
  gamecommands : Nat → gcommand_t
  gamecommandsData : Nat → Nat
  gamecommandsDataHead : Nat

def Vec3.zero : Vec3 := ⟨0, 0, 0⟩

/-- The all-zero entity state, `SyncEntityState nullstate = { }`. -/
def SyncEntityState.zero : SyncEntityState :=
  { number := 0, type := EntityType.ET_GENERIC, origin := Vec3.zero, origin2 := Vec3.zero,
    model := 0, teleported := false, linearMovement := false,
    linearMovementVelocity := Vec3.zero, linearMovementTimeStamp := 0,
    linearMovementTimeDelta := 0, ownerNum := 0, svflags := 0, team := 0, effects := 0,
    rest := 0 }

def SyncPlayerState.zero : SyncPlayerState :=
  { playerNum := 0, POVnum := 0, pmove := { pm_type := 0, pm_flags := 0 }, team := 0,
    rest := 0 }

/-- The frame after `memset( newframe, 0, sizeof( snapshot_t ) )`. -/
def snapshot_t.zero : snapshot_t :=
  { valid := false, serverFrame := 0, serverTime := 0, ucmdExecuted := 0, delta := false,
    allentities := false, multipov := false, deltaFrameNum := 0, numEntities := 0,
    parsedEntities := fun _ => SyncEntityState.zero, gameState := { rest := 0 },
    numplayers := 0, playerStates := fun _ => SyncPlayerState.zero,
    playerState := SyncPlayerState.zero, numgamecommands := 0,
    gamecommands := fun _ => { all := false, commandOffset := 0, targets := fun _ => 0 },
    gamecommandsData := fun _ => 0, gamecommandsDataHead := 0 }

/-- The frame store: address to frame. -/
abbrev Frames := Nat → snapshot_t

/-- The constants of the headers that are not among the sources, and the string
copy `Q_strncpyz( dest, src, size )`, given the buffer, the offset of `dest` in
it, the source text and `size`. `gamecommandsDataSize` is
`sizeof( newframe->gamecommandsData )`, `targetsSize` is
`sizeof( gcmd->targets )` and `playerStatesSize` is the number of elements of
the array `playerStates` of `snapshot_t`. -/
structure Consts where
  MAX_EDICTS : Nat
  MAX_PARSE_ENTITIES : Nat
  UPDATE_BACKUP : Nat
  MAX_PARSE_GAMECOMMANDS : Nat
  gamecommandsDataSize : Nat
  targetsSize : Nat
  playerStatesSize : Nat
  Q_strncpyz : (Nat → Nat) → Nat → List Nat → Nat → (Nat → Nat)
  FRAMESNAP_FLAG_DELTA : Nat
  FRAMESNAP_FLAG_ALLENTITIES : Nat
  FRAMESNAP_FLAG_MULTIPOV : Nat
  svc_playerinfo : Nat
  svc_packetentities : Nat
  svc_gamecommands : Nat
  svc_match : Nat

/-- The wire primitives called by `snap_read.cpp`, over a message type `M`.
A read returns the value and the advanced message. -/
structure MsgOps (M : Type) where
  readcount : M → Nat
  cursize : M → Nat
  MSG_ReadEntityNumber : M → (Int × Bool) × M
  MSG_ReadDeltaEntity : M → SyncEntityState → SyncEntityState × M
  MSG_ReadIntBase128 : M → Int × M
  MSG_ReadUintBase128 : M → Nat × M
  MSG_ReadUint8 : M → Nat × M
  MSG_ReadInt16 : M → Int × M
  MSG_ReadString : M → List Nat × M
  MSG_ReadData : M → Nat → List Nat × M
  MSG_SkipData : M → Nat → M
  MSG_ReadDeltaGameState : M → Option SyncGameState → SyncGameState × M
  MSG_ReadDeltaPlayerState : M → Option SyncPlayerState → SyncPlayerState × M

/-! ## `snap_read.cpp`: the entity merge -/

/-- The index `i & ( MAX_PARSE_ENTITIES - 1 )`. -/
def Consts.entIndex (c : Consts) (i : Nat) : Nat :=
  i &&& (c.MAX_PARSE_ENTITIES - 1)

/-- `SNAP_ParseDeltaEntity`: `old` is the value of `*old` at the call. -/
def SNAP_ParseDeltaEntity {M : Type} (ops : MsgOps M) (c : Consts) (msg : M) (mem : Frames)
    (frame : Nat) (newnum : Int) (old : SyncEntityState) : M × Frames :=
  let f := mem frame
  let idx := c.entIndex f.numEntities
  let r := ops.MSG_ReadDeltaEntity msg old
  (r.2, Function.update mem frame
    { f with
      numEntities := f.numEntities + 1
      parsedEntities := Function.update f.parsedEntities idx { r.1 with number := newnum } })

/-- The local variables `oldindex`, `oldnum` and `oldstate` of
`SNAP_ParsePacketEntities`; `oldstate` is the index of the pointed entry of
`oldframe->parsedEntities`, `none` for `NULL`. -/
structure Cursor where
  oldindex : Nat
  oldnum : Int
  oldstate : Option Nat
deriving DecidableEq

/-- The value `*oldstate`. -/
def derefOld (mem : Frames) (oldframe : Option Nat) (cur : Cursor) : Option SyncEntityState :=
  match oldframe, cur.oldstate with
  | some o, some p => some ((mem o).parsedEntities p)
  | _, _ => none

/-- The block `oldindex++; if( oldindex >= oldframe->numEntities ) ... else ...`
that follows every use of a base entry. -/
def advanceOld (c : Consts) (mem : Frames) (oldframe : Option Nat) (cur : Cursor) :
    Option Cursor :=
  match oldframe with
  | none => none
  | some o =>
    let oldindex := cur.oldindex + 1
    if oldindex ≥ (mem o).numEntities then
      some { cur with oldindex := oldindex, oldnum := 99999 }
    else
      let p := c.entIndex oldindex
      some { oldindex := oldindex, oldnum := ((mem o).parsedEntities p).number,
             oldstate := some p }

/-- The statements that copy `*oldstate` to the new frame and advance the base
cursor (lines 145 to 154, and 219 to 228). -/
def copyOld (c : Consts) (mem : Frames) (oldframe : Option Nat) (newframe : Nat)
    (cur : Cursor) : Option (Frames × Cursor) :=
  match derefOld mem oldframe cur with
  | none => none
  | some e =>
    let f := mem newframe
    let mem1 := Function.update mem newframe
      { f with
        parsedEntities := Function.update f.parsedEntities (c.entIndex f.numEntities) e
        numEntities := f.numEntities + 1 }
    match advanceOld c mem1 oldframe cur with
    | none => none
    | some cur1 => some (mem1, cur1)

/-- The loop `while( oldnum < newnum )`. -/
def copyUnchanged (c : Consts) (oldframe : Option Nat) (newframe : Nat) (newnum : Int) :
    Nat → Frames → Cursor → Res (Frames × Cursor)
  | 0, _, _ => Res.fuel
  | k + 1, mem, cur =>
    if cur.oldnum < newnum then
      match copyOld c mem oldframe newframe cur with
      | none => Res.undef
      | some (mem1, cur1) => copyUnchanged c oldframe newframe newnum k mem1 cur1
    else Res.ok (mem, cur)

/-- The loop `while( oldnum != 99999 )` after the terminator. -/
def copyRemaining (c : Consts) (oldframe : Option Nat) (newframe : Nat) :
    Nat → Frames → Cursor → Res Frames
  | 0, _, _ => Res.fuel
  | k + 1, mem, cur =>
    if cur.oldnum ≠ 99999 then
      match copyOld c mem oldframe newframe cur with
      | none => Res.undef
      | some (mem1, cur1) => copyRemaining c oldframe newframe k mem1 cur1
    else Res.ok mem

/-- The loop `while( true )` of `SNAP_ParsePacketEntities`, up to its `break`. -/
def parseTokens {M : Type} (ops : MsgOps M) (c : Consts) (oldframe : Option Nat)
    (newframe : Nat) (baselines : Int → SyncEntityState) :
    Nat → M → Frames → Cursor → Res (M × Frames × Cursor)
  | 0, _, _, _ => Res.fuel
  | k + 1, msg, mem, cur =>
    let r := ops.MSG_ReadEntityNumber msg
    let newnum := r.1.1
    let remove := r.1.2
    let msg1 := r.2
    if newnum ≥ c.MAX_EDICTS then Res.drop DropReason.badNumber
    else if ops.readcount msg1 > ops.cursize msg1 then Res.drop DropReason.endOfMessage
    else if newnum = 0 then Res.ok (msg1, mem, cur)
    else
      match copyUnchanged c oldframe newframe newnum k mem cur with
      | Res.drop e => Res.drop e
      | Res.undef => Res.undef
      | Res.fuel => Res.fuel
      | Res.ok (mem1, cur1) =>
        if cur1.oldnum > newnum then
          if remove then
            parseTokens ops c oldframe newframe baselines k msg1 mem1 cur1
          else
            let s := SNAP_ParseDeltaEntity ops c msg1 mem1 newframe newnum (baselines newnum)
            parseTokens ops c oldframe newframe baselines k s.1 s.2 cur1
        else if cur1.oldnum = newnum then
          if remove then
            match advanceOld c mem1 oldframe cur1 with
            | none => Res.undef
            | some cur2 => parseTokens ops c oldframe newframe baselines k msg1 mem1 cur2
          else
            match derefOld mem1 oldframe cur1 with
            | none => Res.undef
            | some e =>
              let s := SNAP_ParseDeltaEntity ops c msg1 mem1 newframe newnum e
              match advanceOld c s.2 oldframe cur1 with
              | none => Res.undef
              | some cur2 => parseTokens ops c oldframe newframe baselines k s.1 s.2 cur2
        else
          parseTokens ops c oldframe newframe baselines k msg1 mem1 cur1

/-- The initial base cursor (lines 116 to 124), read after
`newframe->numEntities = 0`. -/
def initCursor (c : Consts) (mem : Frames) (oldframe : Option Nat) : Cursor :=
  match oldframe with
  | none => { oldindex := 0, oldnum := 99999, oldstate := none }
  | some o =>
    if 0 ≥ (mem o).numEntities then { oldindex := 0, oldnum := 99999, oldstate := none }
    else
      { oldindex := 0, oldnum := ((mem o).parsedEntities (c.entIndex 0)).number,
        oldstate := some (c.entIndex 0) }

/-- `SNAP_ParsePacketEntities`. -/
def SNAP_ParsePacketEntities {M : Type} (ops : MsgOps M) (c : Consts) (fuel : Nat) (msg : M)
    (mem : Frames) (oldframe : Option Nat) (newframe : Nat)
    (baselines : Int → SyncEntityState) : Res (M × Frames) :=
  let mem0 := Function.update mem newframe { mem newframe with numEntities := 0 }
  match parseTokens ops c oldframe newframe baselines fuel msg mem0
      (initCursor c mem0 oldframe) with
  | Res.drop e => Res.drop e
  | Res.undef => Res.undef
  | Res.fuel => Res.fuel
  | Res.ok (msg1, mem1, cur1) =>
    match copyRemaining c oldframe newframe fuel mem1 cur1 with
    | Res.drop e => Res.drop e
    | Res.undef => Res.undef
    | Res.fuel => Res.fuel
    | Res.ok mem2 => Res.ok (msg1, mem2)

/-- The entity list of a frame: the entries `0 .. numEntities - 1`, each read
at `i & ( MAX_PARSE_ENTITIES - 1 )` as the consumers of a frame do. -/
def entityList (c : Consts) (f : snapshot_t) : List SyncEntityState :=
  (List.range f.numEntities).map (fun i => f.parsedEntities (c.entIndex i))

/-! ## `snap_read.cpp`: the frame header and the frame -/

/-- Modelled from the spec: `UPDATE_MASK`, a macro of a header that is not
among the sources; the slot of a frame is `serverFrame & (ring_capacity - 1)`,
the capacity being `UPDATE_BACKUP`. -/
def Consts.UPDATE_MASK (c : Consts) : Nat :=
  c.UPDATE_BACKUP - 1

/-- The value of an unsigned wire integer stored into an `int`. -/
def wrapInt32 (v : Nat) : Int :=
  ((v + 2 ^ 31) % 2 ^ 32 : Nat) - 2 ^ 31

/-- The value of an unsigned wire integer stored into an `int64_t`. -/
def wrapInt64 (v : Nat) : Int :=
  ((v + 2 ^ 63) % 2 ^ 64 : Nat) - 2 ^ 63

/-- The index `x & UPDATE_MASK` of a two's complement integer `x`. -/
def Consts.ringIndex (c : Consts) (x : Int) : Nat :=
  (x % 2 ^ 64).toNat &&& c.UPDATE_MASK

/-- The statements of `SNAP_ParseFrameHeader` that fill the zeroed frame (lines
247 to 260): `serverTime` and `snapNum` have been read, `deltaFrameNum`,
`ucmdExecuted` and the flags are read here, and `valid` is still false. -/
def readHeaderFields {M : Type} (ops : MsgOps M) (c : Consts) (serverTime snapNum : Int)
    (msg : M) : snapshot_t × M :=
  let r3 := ops.MSG_ReadUintBase128 msg
  let r4 := ops.MSG_ReadUintBase128 r3.2
  let r5 := ops.MSG_ReadUint8 r4.2
  let flags := r5.1
  ({ snapshot_t.zero with
      serverTime := serverTime
      serverFrame := snapNum
      deltaFrameNum := wrapInt64 r3.1
      ucmdExecuted := wrapInt64 r4.1
      delta := decide (flags &&& c.FRAMESNAP_FLAG_DELTA ≠ 0)
      multipov := decide (flags &&& c.FRAMESNAP_FLAG_MULTIPOV ≠ 0)
      allentities := decide (flags &&& c.FRAMESNAP_FLAG_ALLENTITIES ≠ 0)
      valid := false }, r5.2)

/-- The validation of the new frame `f` (lines 266 to 284) against the store
`mem`, in which the new frame has already been written. -/
def validateDelta (c : Consts) (mem : Frames) (backup : Option Nat) (f : snapshot_t) : Bool :=
  if !f.delta then true
  else if f.deltaFrameNum ≤ 0 then false
  else
    match backup with
    | none => false
    | some b =>
      let deltaframe := mem (b + c.ringIndex f.deltaFrameNum)
      if !deltaframe.valid then false
      else if deltaframe.serverFrame ≠ f.deltaFrameNum then false
      else true

/-- `SNAP_ParseFrameHeader`. The result is the message after the header, the
frame store and the address of the new frame; `backup` is the address of slot 0
of the ring, so that `&backup[i]` is `backup + i`. -/
def SNAP_ParseFrameHeader {M : Type} (ops : MsgOps M) (c : Consts) (msg : M) (mem : Frames)
    (newframe : Option Nat) (backup : Option Nat) : Res (M × Frames × Nat) :=
  let r1 := ops.MSG_ReadIntBase128 msg
  let r2 := ops.MSG_ReadUintBase128 r1.2
  let snapNum := wrapInt32 r2.1
  let newframe1 :=
    match backup with
    | some b => some (b + c.ringIndex snapNum)
    | none => newframe
  match newframe1 with
  | none => Res.undef
  | some nf =>
    let h := readHeaderFields ops c r1.1 snapNum r2.2
    let mem1 := Function.update mem nf h.1
    Res.ok (h.2, Function.update mem1 nf { h.1 with valid := validateDelta c mem1 backup h.1 }, nf)

/-- The loop `while( ( framediff = MSG_ReadInt16( msg ) ) != -1 )` of
`SNAP_ParseFrame`. -/
def parseGameCommands {M : Type} (ops : MsgOps M) (c : Consts) (lastFrame : Option Nat)
    (newframe : Nat) : Nat → M → Frames → Res (M × Frames)
  | 0, _, _ => Res.fuel
  | k + 1, msg, mem =>
    let r := ops.MSG_ReadInt16 msg
    let framediff := r.1
    if framediff ≠ -1 then
      let rs := ops.MSG_ReadString r.2
      let text := rs.1
      let nf := mem newframe
      let fresh :=
        match lastFrame with
        | none => true
        | some l => !(mem l).valid || decide (nf.serverFrame > (mem l).serverFrame + framediff)
      if nf.valid && fresh then
        let n1 := nf.numgamecommands + 1
        if n1 > c.MAX_PARSE_GAMECOMMANDS then Res.drop DropReason.tooManyGamecommands
        else if nf.gamecommandsDataHead + text.length ≥ c.gamecommandsDataSize then
          Res.drop DropReason.tooMuchGamecommands
        else
          let gcmd : gcommand_t :=
            { nf.gamecommands (n1 - 1) with all := true, commandOffset := nf.gamecommandsDataHead }
          let nf1 : snapshot_t :=
            { nf with
              numgamecommands := n1
              gamecommandsData := c.Q_strncpyz nf.gamecommandsData nf.gamecommandsDataHead text
                (c.gamecommandsDataSize - nf.gamecommandsDataHead)
              gamecommandsDataHead := nf.gamecommandsDataHead + text.length + 1 }
          if nf.multipov then
            let rt := ops.MSG_ReadUint8 rs.2
            let numtargets := rt.1
            if numtargets ≠ 0 then
              if numtargets > c.targetsSize then Res.drop DropReason.tooManyTargets
              else
                let rd := ops.MSG_ReadData rt.2 numtargets
                let gcmd1 : gcommand_t :=
                  { gcmd with
                    all := false
                    targets := fun i => if i < numtargets then rd.1.getD i 0 else gcmd.targets i }
                parseGameCommands ops c lastFrame newframe k rd.2
                  (Function.update mem newframe
                    { nf1 with gamecommands := Function.update nf.gamecommands (n1 - 1) gcmd1 })
            else
              parseGameCommands ops c lastFrame newframe k rt.2
                (Function.update mem newframe
                  { nf1 with gamecommands := Function.update nf.gamecommands (n1 - 1) gcmd })
          else
            parseGameCommands ops c lastFrame newframe k rs.2
              (Function.update mem newframe
                { nf1 with gamecommands := Function.update nf.gamecommands (n1 - 1) gcmd })
      else if nf.multipov then
        let rt := ops.MSG_ReadUint8 rs.2
        parseGameCommands ops c lastFrame newframe k (ops.MSG_SkipData rt.2 rt.1) mem
      else
        parseGameCommands ops c lastFrame newframe k rs.2 mem
    else Res.ok (r.2, mem)

/-- The loop `while( ( cmd = MSG_ReadUint8( msg ) ) )` of `SNAP_ParseFrame`;
the result carries the final `numplayers`. The array `playerStates` is a
function of the index and the loop, as in the source, does not compare
`numplayers` with the number of elements of the array: a player state stored
at an index from `playerStatesSize` on stays in the function, where the source
writes past the end of the array. The statements about the memory around the
new frame are made for a player count within `playerStatesSize`. -/
def parsePlayerInfos {M : Type} (ops : MsgOps M) (c : Consts) (deltaframe : Option Nat)
    (newframe : Nat) : Nat → Nat → M → Frames → Res (M × Frames × Nat)
  | 0, _, _, _ => Res.fuel
  | k + 1, numplayers, msg, mem =>
    let r := ops.MSG_ReadUint8 msg
    let cmd := r.1
    if cmd ≠ 0 then
      if cmd ≠ c.svc_playerinfo then Res.drop DropReason.notPlayerinfo
      else
        let oldstate :=
          match deltaframe with
          | none => none
          | some d =>
            if (mem d).numplayers ≥ numplayers then some ((mem d).playerStates numplayers)
            else none
        let rp := ops.MSG_ReadDeltaPlayerState r.2 oldstate
        let nf := mem newframe
        parsePlayerInfos ops c deltaframe newframe k (numplayers + 1) rp.2
          (Function.update mem newframe
            { nf with playerStates := Function.update nf.playerStates numplayers rp.1 })
    else Res.ok (r.2, mem, numplayers)

/-- The pointer `deltaframe` of `SNAP_ParseFrame` (lines 302 to 313), for the
new frame `f` and the ring at address `b`. -/
def deltaFrameOf (c : Consts) (b : Nat) (f : snapshot_t) : Option Nat :=
  if f.delta then
    if f.deltaFrameNum > 0 then some (b + c.ringIndex f.deltaFrameNum) else none
  else none

/-- `SNAP_ParseFrame`. The result is the message after the frame, the frame
store and the address of the new frame. -/
def SNAP_ParseFrame {M : Type} (ops : MsgOps M) (c : Consts) (fuel : Nat) (msg : M)
    (mem : Frames) (lastFrame : Option Nat) (backup : Option Nat)
    (baselines : Int → SyncEntityState) : Res (M × Frames × Nat) :=
  match SNAP_ParseFrameHeader ops c msg mem none backup, backup with
  | Res.drop e, _ => Res.drop e
  | Res.undef, _ => Res.undef
  | Res.fuel, _ => Res.fuel
  | Res.ok _, none => Res.undef
  | Res.ok (msg1, mem1, newframe), some b =>
    let deltaframe := deltaFrameOf c b (mem1 newframe)
    -- read game commands
    let rc := ops.MSG_ReadUint8 msg1
    if rc.1 ≠ c.svc_gamecommands then Res.drop DropReason.notGamecommands
    else
      match parseGameCommands ops c lastFrame newframe fuel rc.2 mem1 with
      | Res.drop e => Res.drop e
      | Res.undef => Res.undef
      | Res.fuel => Res.fuel
      | Res.ok (msg2, mem2) =>
        -- read match info
        let rm := ops.MSG_ReadUint8 msg2
        if rm.1 ≠ c.svc_match then Res.drop DropReason.notMatchInfo
        else
          let rg := ops.MSG_ReadDeltaGameState rm.2 (deltaframe.map (fun d => (mem2 d).gameState))
          let mem3 := Function.update mem2 newframe { mem2 newframe with gameState := rg.1 }
          -- read playerinfos
          match parsePlayerInfos ops c deltaframe newframe fuel 0 rg.2 mem3 with
          | Res.drop e => Res.drop e
          | Res.undef => Res.undef
          | Res.fuel => Res.fuel
          | Res.ok (msg4, mem4, numplayers) =>
            let mem5 := Function.update mem4 newframe
              { mem4 newframe with
                numplayers := numplayers
                playerState := (mem4 newframe).playerStates 0 }
            -- read packet entities
            let rp := ops.MSG_ReadUint8 msg4
            if rp.1 ≠ c.svc_packetentities then Res.drop DropReason.notPacketentities
            else
              match SNAP_ParsePacketEntities ops c fuel rp.2 mem5 deltaframe newframe
                  baselines with
              | Res.drop e => Res.drop e
              | Res.undef => Res.undef
              | Res.fuel => Res.fuel
              | Res.ok (msg6, mem6) => Res.ok (msg6, mem6, newframe)

/-- Rounding of a rational to the nearest integer, ties to the even one. -/
def roundEven (x : ℚ) : Int :=
  if x - ⌊x⌋ < 1 / 2 then ⌊x⌋
  else if x - ⌊x⌋ > 1 / 2 then ⌊x⌋ + 1
  else if ⌊x⌋ % 2 = 0 then ⌊x⌋ else ⌊x⌋ + 1

/-- The value of an exact quantity stored into a `float`: rounding to the
nearest number with 24 significant bits, ties to the even one. A `float`
operation is the exact operation followed by this rounding, and the conversion
of an integer to `float` is this rounding. The exponent range of the format is
not part of the embedding: no result becomes infinite, and small results keep
24 bits. -/
def f32 (x : ℚ) : ℚ :=
  if x = 0 then 0
  else (roundEven (x / 2 ^ (Int.log 2 |x| - 23)) : ℚ) * 2 ^ (Int.log 2 |x| - 23)

/-- The value of an `int64_t` stored into an `int`. -/
def toInt32 (x : Int) : Int :=
  (x + 2 ^ 31) % 2 ^ 32 - 2 ^ 31

/-- The value of a floating point quantity stored into an integer: the
fractional part is dropped. -/
def truncToInt (q : ℚ) : Int :=
  if 0 ≤ q then Int.floor q else Int.ceil q

/-- The fields `origin` and `origin2` of `InterpolatedEntity`; its other fields
(`scale`, `color`, `model`, `axis`) are not represented. -/
structure InterpolatedEntity where
  origin : Vec3
  origin2 : Vec3
deriving DecidableEq

/-- The fields of `centity_t` that the embedded functions read or write. The
arrays `localEffects`, `lastVelocities` and `lastVelocitiesFrames` are functions
of the index; a `Vec4` of `lastVelocities` is a function of the component. -/
structure centity_t where
  current : SyncEntityState
  prev : SyncEntityState
  serverFrame : Int
  interpolated : InterpolatedEntity
  type : EntityType
  effects : Nat
  velocity : Vec3
  canExtrapolate : Bool
  canExtrapolatePrev : Bool
  prevVelocity : Vec3
  microSmooth : Int
  microSmoothOrigin : Vec3
  microSmoothOrigin2 : Vec3
  trailOrigin : Vec3
  localEffects : Nat → Int
  laserOrigin : Vec3
  laserPoint : Vec3
  laserOriginOld : Vec3
  laserPointOld : Vec3
  linearProjectileCanDraw : Bool
  lastVelocitiesFrames : Nat → Int
  lastVelocities : Nat → Nat → ℚ

/-- The fields of `cg` that the embedded functions read or write; `viewType`
is `cg.view.type`. -/
structure cg_state_t where
  frame : snapshot_t
  oldFrame : snapshot_t
  fireEvents : Bool
  firstFrame : Bool
  predictedPlayerState : SyncPlayerState
  predictFrom : Int
  multiviewPlayerNum : Nat
  viewType : Nat

/-- The fields of `cgs` that the embedded functions read. -/
structure cg_static_t where
  playerNum : Nat
  precacheDone : Bool
  demoPlaying : Bool
  snapFrameTime : Nat
  extrapolationTime : Nat

/-- What the entity bookkeeping takes from the rest of the program: the macro
`ISEVENTENTITY`, the collision model queries (`CM_TryFindCModel` is reduced to
whether a model is found), `GS_MatchPaused( &client_gs )`, `GS_LinearMovement`
(the move time and the origin it writes), the vector length, the operators
`Vec3 - Vec3`, `Vec3 * float` and `Vec3 / float`, which are defined outside
these sources, and the values of `PROJECTILE_PRESTEP`, `VIEWDEF_PLAYERVIEW`,
`cl.serverTime` and `cg_projectileAntilagOffset->value`. -/
structure CgEnv where
  ISEVENTENTITY : SyncEntityState → Bool
  CM_IsBrushModel : Nat → Bool
  CM_TryFindCModel : Nat → Bool
  GS_MatchPaused : Bool
  GS_LinearMovement : SyncEntityState → Int → Int × Vec3
  Length : Vec3 → ℚ
  Vec3sub : Vec3 → Vec3 → Vec3
  Vec3scale : Vec3 → ℚ → Vec3
  Vec3div : Vec3 → ℚ → Vec3
  PROJECTILE_PRESTEP : ℚ
  VIEWDEF_PLAYERVIEW : Nat
  clServerTime : Int
  projectileAntilagOffset : ℚ

/-- The client game state: `cg`, `cgs`, the table `cg_entities`, and the entity
numbers whose player-model animation state has been reset (the calls of
`CG_PModel_ClearEventAnimations` and the `memset` of
`cg_entPModels[ number ].animState`), most recent first. -/
structure Client where
  cg : cg_state_t
  cgs : cg_static_t
  cg_entities : Int → centity_t
  animResets : List Int

/-- The macro `ISVIEWERENTITY( entNum )`. -/
def ISVIEWERENTITY (env : CgEnv) (cl : Client) (entNum : Int) : Bool :=
  decide (cl.cg.predictedPlayerState.POVnum > 0) &&
    decide ((cl.cg.predictedPlayerState.POVnum : Int) = entNum) &&
    decide (cl.cg.viewType = env.VIEWDEF_PLAYERVIEW)

/-- `CG_UpdateLinearProjectilePosition`: the result and the updated record. In
`serverTime += linearMovementTimeDelta * value` the product and the sum are
`float` operations on the operands converted to `float`, and the sum is stored
back into the `int64_t`. -/
def CG_UpdateLinearProjectilePosition (env : CgEnv) (cl : Client) (cent : centity_t) :
    Bool × centity_t :=
  let state := cent.current
  if !state.linearMovement then (false, cent)
  else
    let serverTime0 : Int :=
      if env.GS_MatchPaused then cl.cg.frame.serverTime
      else env.clServerTime + cl.cgs.extrapolationTime
    let found := env.CM_TryFindCModel state.model
    let serverTime : Int :=
      if !found then
        if !cl.cgs.demoPlaying && decide (env.projectileAntilagOffset > 0) &&
            !ISVIEWERENTITY env cl state.ownerNum &&
            decide (cl.cgs.playerNum + 1 ≠ cl.cg.predictedPlayerState.POVnum) then
          truncToInt (f32 (f32 (serverTime0 : ℚ)
            + f32 (f32 (state.linearMovementTimeDelta : ℚ) * env.projectileAntilagOffset)))
        else serverTime0
      else serverTime0
    let r := env.GS_LinearMovement state serverTime
    let moveTime := r.1
    let cent1 : centity_t := { cent with current := { state with origin := r.2 } }
    if moveTime < 0 ∧ found = false then
      let maxBackOffset : ℚ :=
        if ISVIEWERENTITY env cl state.ownerNum then f32 (env.PROJECTILE_PRESTEP - 86)
        else f32 (env.PROJECTILE_PRESTEP - 52)
      if env.Length (env.Vec3sub cent1.current.origin cent1.current.origin2) > maxBackOffset then
        (false, cent1)
      else (true, cent1)
    else (true, cent1)

/-- The server time at which `CG_UpdateLinearProjectilePosition` evaluates the
movement of `state` (lines 37 to 51): the frame time when the match is paused,
else the client time plus the extrapolation time, with the anti-lag offset
added when no collision model is found for the model of the state. -/
def linearServerTime (env : CgEnv) (cl : Client) (state : SyncEntityState) : Int :=
  let serverTime0 : Int :=
    if env.GS_MatchPaused then cl.cg.frame.serverTime
    else env.clServerTime + cl.cgs.extrapolationTime
  if !env.CM_TryFindCModel state.model then
    if !cl.cgs.demoPlaying && decide (env.projectileAntilagOffset > 0) &&
        !ISVIEWERENTITY env cl state.ownerNum &&
        decide (cl.cgs.playerNum + 1 ≠ cl.cg.predictedPlayerState.POVnum) then
      truncToInt (f32 (f32 (serverTime0 : ℚ)
        + f32 (f32 (state.linearMovementTimeDelta : ℚ) * env.projectileAntilagOffset)))
    else serverTime0
  else serverTime0

/-- `CG_ExtrapolateLinearProjectile`: the record after the call. The axis
computed by `AnglesToAxis` is not part of the record kept here. -/
def CG_ExtrapolateLinearProjectile (env : CgEnv) (cl : Client) (cent : centity_t) : centity_t :=
  let r := CG_UpdateLinearProjectilePosition env cl cent
  { r.2 with
    linearProjectileCanDraw := r.1
    interpolated := { origin := r.2.current.origin, origin2 := r.2.current.origin } }

/-- `CG_NewPacketEntityState`. The differences of the jump test are `float`
subtractions, and `snapTime` is the difference of the two server times
converted to `float`. -/
def CG_NewPacketEntityState (env : CgEnv) (cl : Client) (state : SyncEntityState) : Client :=
  let cent0 := cl.cg_entities state.number
  let cent : centity_t := { cent0 with prevVelocity := Vec3.zero, canExtrapolatePrev := false }
  if env.ISEVENTENTITY state then
    let cent1 : centity_t :=
      { cent with
        prev := cent.current
        current := state
        serverFrame := toInt32 cl.cg.frame.serverFrame
        velocity := Vec3.zero
        canExtrapolate := false }
    { cl with cg_entities := Function.update cl.cg_entities state.number cent1 }
  else if state.linearMovement then
    let prev :=
      if cent.serverFrame ≠ cl.cg.oldFrame.serverFrame ∨ state.teleported = true ∨
          state.linearMovement ≠ cent.current.linearMovement ∨
          state.linearMovementTimeStamp ≠ cent.current.linearMovementTimeStamp then state
      else cent.current
    let cent1 : centity_t :=
      { cent with
        prev := prev
        current := state
        serverFrame := toInt32 cl.cg.frame.serverFrame
        velocity := Vec3.zero
        canExtrapolate := false }
    let r := CG_UpdateLinearProjectilePosition env cl cent1
    let cent2 : centity_t :=
      { r.2 with
        linearProjectileCanDraw := r.1
        velocity := r.2.current.linearMovementVelocity
        trailOrigin := r.2.current.origin }
    { cl with cg_entities := Function.update cl.cg_entities state.number cent2 }
  else
    -- if it moved too much force the teleported bit
    let sf1 : Int :=
      if |f32 (cent.current.origin.x - state.origin.x)| > 512
          ∨ |f32 (cent.current.origin.y - state.origin.y)| > 512
          ∨ |f32 (cent.current.origin.z - state.origin.z)| > 512 then -99
      else cent.serverFrame
    -- some data changes will force no lerping
    let sf2 : Int :=
      if state.model ≠ cent.current.model ∨ state.teleported = true ∨
          state.linearMovement ≠ cent.current.linearMovement then -99
      else sf1
    let fresh : Bool := decide (sf2 ≠ cl.cg.oldFrame.serverFrame)
    let initAnim : Bool :=
      fresh && cl.cg.frame.valid &&
        (decide (state.type = EntityType.ET_PLAYER) || decide (state.type = EntityType.ET_CORPSE))
    let cent1 : centity_t :=
      { cent with
        serverFrame := sf2
        prev := if fresh then state else cent.current
        localEffects := if fresh then fun _ => 0 else cent.localEffects
        lastVelocities := if initAnim then fun _ _ => 0 else cent.lastVelocities
        lastVelocitiesFrames := if initAnim then fun _ => 0 else cent.lastVelocitiesFrames
        microSmooth := if fresh then 0 else cent.microSmooth }
    let cent2 : centity_t :=
      { cent1 with
        current := state
        trailOrigin := state.origin
        prevVelocity := cent1.velocity
        canExtrapolatePrev := cent1.canExtrapolate
        canExtrapolate := false
        velocity := Vec3.zero
        serverFrame := toInt32 cl.cg.frame.serverFrame }
    -- set up velocities for this entity
    let cent3 : centity_t :=
      if cl.cgs.extrapolationTime ≠ 0 ∧
          (cent2.current.type = EntityType.ET_PLAYER ∨
            cent2.current.type = EntityType.ET_CORPSE) then
        { cent2 with
          velocity := cent2.current.origin2
          prevVelocity := cent2.prev.origin2
          canExtrapolate := true
          canExtrapolatePrev := true }
      else if cent2.prev.origin ≠ cent2.current.origin then
        let snapTime0 : ℚ := f32 ((cl.cg.frame.serverTime - cl.cg.oldFrame.serverTime : Int) : ℚ)
        let snapTime : ℚ := if snapTime0 = 0 then f32 (cl.cgs.snapFrameTime : ℚ) else snapTime0
        { cent2 with
          velocity :=
            env.Vec3div
              (env.Vec3scale (env.Vec3sub cent2.current.origin cent2.prev.origin) 1000)
              snapTime }
      else cent2
    let cent4 : centity_t :=
      if cent3.current.type = EntityType.ET_GENERIC ∨ cent3.current.type = EntityType.ET_PLAYER
          ∨ cent3.current.type = EntityType.ET_GRENADE
          ∨ cent3.current.type = EntityType.ET_CORPSE then
        { cent3 with canExtrapolate := true }
      else cent3
    let cent5 : centity_t :=
      if env.CM_IsBrushModel cent4.current.model then { cent4 with canExtrapolate := false }
      else cent4
    { cl with
      cg_entities := Function.update cl.cg_entities state.number cent5
      animResets := if initAnim then state.number :: cl.animResets else cl.animResets }

/-- What `CG_LostMultiviewPOV`, `CG_UpdatePlayerState` and `CG_NewFrameSnap`
take from the rest of the program, on top of `CgEnv`: `client_gs.maxclients`,
the values of `PM_SPECTATOR`, `PM_CHASECAM` and `PMF_NO_PREDICTION`, the value
of `GS_MatchPaused( &client_gs )` once `client_gs.gameState` is the given game
state, the value of `cg_projectileAntilagOffset` after
`Cvar_ForceSet( "cg_projectileAntilagOffset", cg_projectileAntilagOffset->dvalue )`,
and the functions called when a new server frame begins, as functions of the
client state. `CG_UpdateEntities`, defined further down in `cg_ents.cpp`, may
end in `Com_Error( ERR_DROP, ... )`; it is a field here, and `sourceFrameEnv`
sets it to the embedding of the function of `cg_ents.cpp`. `CG_GameCommand` is
given the offset of the command text in `cg.frame.gamecommandsData`. -/
structure FrameEnv extends CgEnv where
  maxclients : Int
  PM_SPECTATOR : Nat
  PM_CHASECAM : Nat
  PMF_NO_PREDICTION : Nat
  GS_MatchPausedAt : SyncGameState → Bool
  forcedAntilagOffset : ℚ
  CG_BuildSolidList : Client → Client
  ResetAnnouncerSpeakers : Client → Client
  CG_UpdateEntities : Client → Res Client
  CG_CheckPredictionError : Client → Client
  CG_GameCommand : Nat → Client → Client
  CG_FireEvents : Bool → Client → Client

/-- The local variables `best`, `index` and `fallback` of
`CG_LostMultiviewPOV`. -/
structure PovSearch where
  best : Int
  index : Int
  fallback : Int
deriving DecidableEq

/-- The loop of `CG_LostMultiviewPOV` from player index `i`, with `k`
iterations left. The difference of the two `int` values is taken exactly. -/
def lostMultiviewPOVLoop (env : FrameEnv) (cg : cg_state_t) : Nat → Nat → PovSearch → PovSearch
  | 0, _, s => s
  | k + 1, i, s =>
    let value : Int :=
      |toInt32 (cg.frame.playerStates i).playerNum - toInt32 cg.multiviewPlayerNum|
    if value = s.best ∧ (i : Int) > s.index then lostMultiviewPOVLoop env cg k (i + 1) s
    else if value < s.best then
      if (cg.frame.playerStates i).pmove.pm_type = env.PM_SPECTATOR then
        lostMultiviewPOVLoop env cg k (i + 1) { s with fallback := i }
      else lostMultiviewPOVLoop env cg k (i + 1) { s with best := value, index := i }
    else lostMultiviewPOVLoop env cg k (i + 1) s

/-- `CG_LostMultiviewPOV`. -/
def CG_LostMultiviewPOV (env : FrameEnv) (cl : Client) : Int :=
  let s := lostMultiviewPOVLoop env cl.cg cl.cg.frame.numplayers 0
    { best := env.maxclients, index := -1, fallback := -1 }
  if s.index > -1 then s.index else s.fallback

/-- `CG_SetFramePlayerState`: the frame `*frame` after the call. -/
def CG_SetFramePlayerState (env : FrameEnv) (cl : Client) (frame : snapshot_t) (index : Int) :
    snapshot_t :=
  let ps := frame.playerStates index.toNat
  if cl.cgs.demoPlaying || cl.cg.frame.multipov then
    let pm_flags := ps.pmove.pm_flags ||| env.PMF_NO_PREDICTION
    let pm_type := if ps.pmove.pm_type ≠ env.PM_SPECTATOR then env.PM_CHASECAM else ps.pmove.pm_type
    { frame with playerState := { ps with pmove := { pm_type := pm_type, pm_flags := pm_flags } } }
  else { frame with playerState := ps }

/-- The loops `index = -1; for( i ... ) if( p( playerStates[i] ) ) { index = i; break; }`
of `CG_UpdatePlayerState`, from player index `i` with `k` iterations left: the
value of `index` after the loop. -/
def findPlayerState (p : SyncPlayerState → Bool) (f : snapshot_t) : Nat → Nat → Int
  | 0, _ => -1
  | k + 1, i => if p (f.playerStates i) then (i : Int) else findPlayerState p f k (i + 1)

/-- The value of `index` at line 237 of `CG_UpdatePlayerState`, after the
search for the current POV. -/
def selectPlayerState (env : FrameEnv) (cl : Client) : Int :=
  if cl.cg.frame.multipov then
    -- find the playerState containing our current POV, then cycle playerStates
    let found := findPlayerState
      (fun ps => decide (ps.playerNum < (env.maxclients % 2 ^ 32).toNat)
        && decide (ps.playerNum = cl.cg.multiviewPlayerNum))
      cl.cg.frame cl.cg.frame.numplayers 0
    -- the POV was lost, find the closer one
    let lost :=
      if found < 0 ∨ (cl.cg.frame.playerStates found.toNat).pmove.pm_type = env.PM_SPECTATOR
      then CG_LostMultiviewPOV env cl
      else found
    if lost < 0 then 0 else lost
  else 0

/-- `CG_UpdatePlayerState`. -/
def CG_UpdatePlayerState (env : FrameEnv) (cl : Client) : Client :=
  let index : Int := selectPlayerState env cl
  let cl1 : Client :=
    { cl with
      cg := { cl.cg with multiviewPlayerNum := (cl.cg.frame.playerStates index.toNat).playerNum } }
  -- current
  let cl2 : Client :=
    { cl1 with cg := { cl1.cg with frame := CG_SetFramePlayerState env cl1 cl1.cg.frame index } }
  -- old
  let old := findPlayerState (fun ps => decide (ps.playerNum = cl2.cg.multiviewPlayerNum))
    cl2.cg.oldFrame cl2.cg.oldFrame.numplayers 0
  -- use the current one for old frame too, if correct POV wasn't found
  let cl3 : Client :=
    if old = -1 then
      { cl2 with
        cg := { cl2.cg with
                oldFrame := { cl2.cg.oldFrame with playerState := cl2.cg.frame.playerState } } }
    else
      { cl2 with cg := { cl2.cg with oldFrame := CG_SetFramePlayerState env cl2 cl2.cg.oldFrame old } }
  { cl3 with cg := { cl3.cg with predictedPlayerState := cl3.cg.frame.playerState } }

/-- The calls that `CG_NewFrameSnap` makes to functions outside this
embedding, in the order of the calls. -/
inductive CgCall where
  | Cvar_ForceSet
  | CG_BuildSolidList
  | ResetAnnouncerSpeakers
  | CG_UpdateEntities
  | CG_CheckPredictionError
  | CG_GameCommand (commandOffset : Nat)
  | CG_FireEvents
deriving DecidableEq

/-- What a call of `CG_NewFrameSnap` leaves: the returned value, the client
state, `client_gs.gameState`, the value of `cg_projectileAntilagOffset`, and
the calls made. -/
structure FrameSnapResult where
  ret : Bool
  client : Client
  gameState : SyncGameState
  projectileAntilagOffset : ℚ
  calls : List CgCall

/-- The loop over `frame->numEntities` of `CG_NewFrameSnap`, from index `i` with
`k` iterations left. -/
def newPacketEntities (env : CgEnv) (c : Consts) (frame : snapshot_t) : Nat → Nat → Client → Client
  | 0, _, cl => cl
  | k + 1, i, cl =>
    newPacketEntities env c frame k (i + 1)
      (CG_NewPacketEntityState env cl (frame.parsedEntities (c.entIndex i)))

/-- The loop over `cg.frame.numgamecommands` of `CG_NewFrameSnap`, from index
`i`. The targets are only read when `all` is clear; reading them with a
negative `target` is outside the array. -/
def dispatchGameCommands (env : FrameEnv) :
    Nat → Nat → Client → List CgCall → Res (Client × List CgCall)
  | 0, _, _, _ => Res.fuel
  | k + 1, i, cl, calls =>
    if i < cl.cg.frame.numgamecommands then
      let target : Int := toInt32 ((cl.cg.frame.playerState.POVnum : Int) - 1)
      let gcmd := cl.cg.frame.gamecommands i
      if gcmd.all then
        dispatchGameCommands env k (i + 1) (env.CG_GameCommand gcmd.commandOffset cl)
          (calls ++ [CgCall.CG_GameCommand gcmd.commandOffset])
      else if target < 0 then Res.undef
      else if gcmd.targets (target.toNat >>> 3) &&& (1 <<< (target.toNat &&& 7)) ≠ 0 then
        dispatchGameCommands env k (i + 1) (env.CG_GameCommand gcmd.commandOffset cl)
          (calls ++ [CgCall.CG_GameCommand gcmd.commandOffset])
      else dispatchGameCommands env k (i + 1) cl calls
    else Res.ok (cl, calls)

/-- Lines 279 to 281 of `CG_NewFrameSnap`: whether `Cvar_ForceSet` is called. -/
def antilagOffsetForced (env : FrameEnv) : Bool :=
  decide (env.projectileAntilagOffset > 1 ∨ env.projectileAntilagOffset < 0)

/-- The value of `cg_projectileAntilagOffset` after lines 279 to 281. -/
def antilagOffsetAfter (env : FrameEnv) : ℚ :=
  if antilagOffsetForced env then env.forcedAntilagOffset else env.projectileAntilagOffset

/-- Lines 270 to 287 of `CG_NewFrameSnap`: the frame shift, the player state
and the entity records; `frame` and `lerpframe` are the values of `*frame` and
`*lerpframe`, `none` for a null `lerpframe`. The entity records are updated in
the environment that has `client_gs.gameState` and the cvar as these lines
leave them. -/
def receiveFrame (env : FrameEnv) (c : Consts) (cl : Client) (frame : snapshot_t)
    (lerpframe : Option snapshot_t) : Client :=
  let oldFrame := match lerpframe with
    | some l => l
    | none => frame
  let cl1 : Client := { cl with cg := { cl.cg with oldFrame := oldFrame, frame := frame } }
  let env1 : CgEnv :=
    { env.toCgEnv with
      GS_MatchPaused := env.GS_MatchPausedAt frame.gameState
      projectileAntilagOffset := antilagOffsetAfter env }
  let cl2 := CG_UpdatePlayerState env cl1
  newPacketEntities env1 c frame frame.numEntities 0 cl2

/-- `CG_NewFrameSnap`, given the values of `*frame` and `*lerpframe`. -/
def CG_NewFrameSnap (env : FrameEnv) (c : Consts) (fuel : Nat) (cl : Client)
    (frame : snapshot_t) (lerpframe : Option snapshot_t) : Res FrameSnapResult :=
  let calls0 : List CgCall := if antilagOffsetForced env then [CgCall.Cvar_ForceSet] else []
  let cl3 := receiveFrame env c cl frame lerpframe
  if !cl3.cgs.precacheDone || !cl3.cg.frame.valid then
    Res.ok { ret := false, client := cl3, gameState := frame.gameState,
             projectileAntilagOffset := antilagOffsetAfter env, calls := calls0 }
  else
    -- a new server frame begins now
    let cl4 := env.CG_BuildSolidList cl3
    let cl5 := env.ResetAnnouncerSpeakers cl4
    match env.CG_UpdateEntities cl5 with
    | Res.drop r => Res.drop r
    | Res.undef => Res.undef
    | Res.fuel => Res.fuel
    | Res.ok cl6 =>
      let cl7 := env.CG_CheckPredictionError cl6
      -- force the prediction to be restarted from the new snapshot
      let cl8 : Client := { cl7 with cg := { cl7.cg with predictFrom := 0, fireEvents := true } }
      match dispatchGameCommands env fuel 0 cl8
          (calls0 ++ [CgCall.CG_BuildSolidList, CgCall.ResetAnnouncerSpeakers,
            CgCall.CG_UpdateEntities, CgCall.CG_CheckPredictionError]) with
      | Res.drop r => Res.drop r
      | Res.undef => Res.undef
      | Res.fuel => Res.fuel
      | Res.ok (cl9, calls) =>
        let cl10 := env.CG_FireEvents true cl9
        -- not the first frame anymore
        Res.ok { ret := true,
                 client := { cl10 with cg := { cl10.cg with firstFrame := false } },
                 gameState := frame.gameState, projectileAntilagOffset := antilagOffsetAfter env,
                 calls := calls ++ [CgCall.CG_FireEvents] }

/-- Entity number `n` is the number of one of the `numEntities` entities of the
frame, as the loops over `parsedEntities` read them. -/
def Listed (c : Consts) (frame : snapshot_t) (n : Int) : Prop :=
  ∃ i, i < frame.numEntities ∧ (frame.parsedEntities (c.entIndex i)).number = n

/-! ## `cg_ents.cpp`: `CG_UpdateEntities` -/

/-- What `CG_UpdateEntities` takes from outside these sources: the tags of the
entity types named in its `switch` that `EntityType` keeps under `other`, the
flags `SVF_ONLYTEAM`, `SVF_ONLYOWNER` and `SVF_OWNERANDCHASERS`, the value of
`cg.view.playerPrediction`, and the functions `CG_UpdatePlayerModelEnt` and
`AddAnnouncerSpeaker`, given the number of the entity record they are called
on. -/
structure UpdateOps where
  ET_ROCKET : Nat
  ET_ARBULLET : Nat
  ET_BUBBLE : Nat
  ET_RIFLEBULLET : Nat
  ET_STAKE : Nat
  ET_BLAST : Nat
  ET_GHOST : Nat
  ET_DECAL : Nat
  ET_LASERBEAM : Nat
  ET_JUMPPAD : Nat
  ET_PAINKILLER_JUMPPAD : Nat
  ET_EVENT : Nat
  ET_SOUNDEVENT : Nat
  ET_BOMB : Nat
  ET_BOMB_SITE : Nat
  ET_LASER : Nat
  ET_SPIKES : Nat
  ET_SPEAKER : Nat
  SVF_ONLYTEAM : Nat
  SVF_ONLYOWNER : Nat
  SVF_OWNERANDCHASERS : Nat
  playerPrediction : Bool
  CG_UpdatePlayerModelEnt : Int → Client → Client
  AddAnnouncerSpeaker : Int → Client → Client

/-- The enumerator `LOCALEFFECT_LASERBEAM` of `cg_local.h`. -/
def LOCALEFFECT_LASERBEAM : Nat := 1

/-- `CG_UpdateGenericEnt`: `interpolated` is cleared; the fields `scale`,
`color` and `model` that are set afterwards are not represented. -/
def CG_UpdateGenericEnt (cent : centity_t) : centity_t :=
  { cent with interpolated := { origin := Vec3.zero, origin2 := Vec3.zero } }

/-- `CG_UpdateSpikes`: `CG_UpdateGenericEnt`, then calls of `S_StartEntitySound`,
which act on the sound system only. -/
def CG_UpdateSpikes (cent : centity_t) : centity_t :=
  CG_UpdateGenericEnt cent

/-- `CG_UpdateLaserbeamEnt` on the record of entity `number`: the record of the
owner of the beam is written. -/
def CG_UpdateLaserbeamEnt (env : CgEnv) (ops : UpdateOps) (cl : Client) (number : Int) :
    Res Client :=
  let cent := cl.cg_entities number
  if ops.playerPrediction && ISVIEWERENTITY env cl cent.current.ownerNum then Res.ok cl
  else
    let owner := cl.cg_entities cent.current.ownerNum
    if owner.serverFrame ≠ cl.cg.frame.serverFrame then Res.drop DropReason.ownerNotInSnapshot
    else
      Res.ok { cl with
        cg_entities := Function.update cl.cg_entities cent.current.ownerNum
          { owner with
            localEffects :=
              Function.update owner.localEffects LOCALEFFECT_LASERBEAM (env.clServerTime + 10)
            -- laser->s.origin is beam start, laser->s.origin2 is beam end
            laserOriginOld := cent.prev.origin
            laserPointOld := cent.prev.origin2
            laserOrigin := cent.current.origin
            laserPoint := cent.current.origin2 } }

/-- The call `CG_UpdateGenericEnt( cent )` on the record of entity `number`. -/
def updateGeneric (cl : Client) (number : Int) : Client :=
  { cl with
    cg_entities := Function.update cl.cg_entities number
      (CG_UpdateGenericEnt (cl.cg_entities number)) }

/-- The `switch( cent->type )` of `CG_UpdateEntities` on the record of entity
`number`, for a type with the tag `t` that `EntityType` keeps under `other`.
The tags are compared in the order of the `case` labels. -/
def updateOtherType (env : CgEnv) (ops : UpdateOps) (cl : Client) (number : Int) (t : Nat) :
    Res Client :=
  if t = ops.ET_ROCKET ∨ t = ops.ET_ARBULLET ∨ t = ops.ET_BUBBLE ∨ t = ops.ET_RIFLEBULLET
      ∨ t = ops.ET_STAKE ∨ t = ops.ET_BLAST then Res.ok (updateGeneric cl number)
  else if t = ops.ET_GHOST then Res.ok cl
  else if t = ops.ET_DECAL then Res.ok cl
  else if t = ops.ET_LASERBEAM then CG_UpdateLaserbeamEnt env ops cl number
  else if t = ops.ET_JUMPPAD ∨ t = ops.ET_PAINKILLER_JUMPPAD then Res.ok cl
  else if t = ops.ET_EVENT ∨ t = ops.ET_SOUNDEVENT then Res.ok cl
  else if t = ops.ET_BOMB ∨ t = ops.ET_BOMB_SITE then Res.ok cl
  else if t = ops.ET_LASER then Res.ok cl
  else if t = ops.ET_SPIKES then
    Res.ok { cl with
      cg_entities := Function.update cl.cg_entities number
        (CG_UpdateSpikes (cl.cg_entities number)) }
  else if t = ops.ET_SPEAKER then Res.ok (ops.AddAnnouncerSpeaker number (updateGeneric cl number))
  else Res.drop DropReason.unknownEntityType

/-- The `switch( cent->type )` of `CG_UpdateEntities` on the record of entity
`number`. -/
def updateEntityType (env : CgEnv) (ops : UpdateOps) (cl : Client) (number : Int) : Res Client :=
  match (cl.cg_entities number).type with
  | EntityType.ET_GENERIC => Res.ok (updateGeneric cl number)
  | EntityType.ET_GRENADE => Res.ok (updateGeneric cl number)
  | EntityType.ET_PLAYER => Res.ok (ops.CG_UpdatePlayerModelEnt number cl)
  | EntityType.ET_CORPSE => Res.ok (ops.CG_UpdatePlayerModelEnt number cl)
  | EntityType.other t => updateOtherType env ops cl number t

/-- The body of the loop of `CG_UpdateEntities` for index `pnum`; `continue`
gives the client state as it is. `checked_cast< int >` is the conversion of the
number. -/
def updateEntity (env : CgEnv) (ops : UpdateOps) (c : Consts) (cl : Client) (pnum : Nat) :
    Res Client :=
  let state := cl.cg.frame.parsedEntities (c.entIndex pnum)
  if cl.cgs.demoPlaying = true ∧
      ((state.svflags &&& ops.SVF_ONLYTEAM ≠ 0 ∧ cl.cg.predictedPlayerState.team ≠ state.team) ∨
        ((state.svflags &&& ops.SVF_ONLYOWNER ≠ 0 ∨ state.svflags &&& ops.SVF_OWNERANDCHASERS ≠ 0)
          ∧ (cl.cg.predictedPlayerState.POVnum : Int) ≠ state.ownerNum)) then
    Res.ok cl
  else
    let cent := cl.cg_entities state.number
    let cl1 : Client :=
      { cl with
        cg_entities := Function.update cl.cg_entities state.number
          { cent with type := state.type, effects := state.effects } }
    updateEntityType env ops cl1 state.number

/-- The loop of `CG_UpdateEntities` from index `pnum`; the bound
`cg.frame.numEntities` is read at every iteration. -/
def updateEntities (env : CgEnv) (ops : UpdateOps) (c : Consts) : Nat → Nat → Client → Res Client
  | 0, _, _ => Res.fuel
  | k + 1, pnum, cl =>
    if pnum < cl.cg.frame.numEntities then
      match updateEntity env ops c cl pnum with
      | Res.ok cl1 => updateEntities env ops c k (pnum + 1) cl1
      | Res.drop r => Res.drop r
      | Res.undef => Res.undef
      | Res.fuel => Res.fuel
    else Res.ok cl

/-- `CG_UpdateEntities`. -/
def CG_UpdateEntities (env : CgEnv) (ops : UpdateOps) (c : Consts) (fuel : Nat) (cl : Client) :
    Res Client :=
  updateEntities env ops c fuel 0 cl

/-- One token of the entity section: the entity number, the remove bit, and
the effect `delta` of the delta payload on the state it is decoded against. -/
structure Token where
  number : Int
  remove : Bool
  delta : SyncEntityState → SyncEntityState

/-- The entity produced for token `t` decoded against `old`: the decoded state
with `number` set to the token number. -/
def Token.decode (t : Token) (old : SyncEntityState) : SyncEntityState :=
  { t.delta old with number := t.number }

/-- Message `msg` starts with the token stream `ts`, and `msg1` is the message
after it: each token is an entity number, read inside the message, followed by
a delta payload unless the remove bit is set. -/
def EncodesTokens {M : Type} (ops : MsgOps M) : M → List Token → M → Prop
  | msg, [], msg1 => msg = msg1
  | msg, t :: ts, msg1 =>
    ∃ m1 m2, ops.MSG_ReadEntityNumber msg = ((t.number, t.remove), m1) ∧
      ops.readcount m1 ≤ ops.cursize m1 ∧
      (if t.remove then m2 = m1 else ∀ old, ops.MSG_ReadDeltaEntity m1 old = (t.delta old, m2)) ∧
      EncodesTokens ops m2 ts msg1

/-- Message `msg` holds the token stream `ts` followed by the terminator, an
entity number 0 read inside the message, and `msg1` is the message after the
terminator. -/
def Encodes {M : Type} (ops : MsgOps M) (msg : M) (ts : List Token) (msg1 : M) : Prop :=
  ∃ m, EncodesTokens ops msg ts m ∧
    ∃ rm, ops.MSG_ReadEntityNumber m = ((0, rm), msg1) ∧ ops.readcount msg1 ≤ ops.cursize msg1

/-- The three-way merge on lists: the base entries below the token are kept,
then the token is applied to the base entry of its number, or to the baseline
when the base has none. -/
def refMerge (B : Int → SyncEntityState) : List Token → List SyncEntityState → List SyncEntityState
  | [], L => L
  | t :: ts, L =>
    L.takeWhile (fun e => decide (e.number < t.number)) ++
      match L.dropWhile (fun e => decide (e.number < t.number)) with
      | [] => if t.remove then refMerge B ts [] else t.decode (B t.number) :: refMerge B ts []
      | e :: es =>
        if e.number > t.number then
          if t.remove then refMerge B ts (e :: es)
          else t.decode (B t.number) :: refMerge B ts (e :: es)
        else
          if t.remove then refMerge B ts es else t.decode e :: refMerge B ts es

/-- What token `t` contributes to the merge of base list `L`: nothing when the
remove bit is set, else the token decoded against the base entry of its number,
or against the baseline when the base has no such entry. -/
def tokenPart (B : Int → SyncEntityState) (t : Token) (L : List SyncEntityState) :
    List SyncEntityState :=
  if t.remove then []
  else [t.decode ((L.find? (fun e => decide (e.number = t.number))).getD (B t.number))]

/-- Entities in strictly ascending order of `number`. -/
def Ascending (L : List SyncEntityState) : Prop :=
  L.Pairwise (fun a b => a.number < b.number)

/-- Tokens in strictly ascending order of `number`. -/
def AscendingTokens (T : List Token) : Prop :=
  T.Pairwise (fun a b => a.number < b.number)

/-- The merge as the specification words it: `x` belongs to the merge of base
list `L`, baseline table `B` and token stream `T` when it is (i) an entity of
`L` that has no token, or (ii) a non-remove token whose number is in `L`,
decoded against that entity of `L`, or (iii) a non-remove token whose number is
not in `L`, decoded against the baseline of its number. -/
def MergeSpec (B : Int → SyncEntityState) (T : List Token) (L : List SyncEntityState)
    (x : SyncEntityState) : Prop :=
  (x ∈ L ∧ ∀ t ∈ T, t.number ≠ x.number) ∨
  (∃ t ∈ T, t.remove = false ∧ ∃ e ∈ L, e.number = t.number ∧ x = t.decode e) ∨
  (∃ t ∈ T, t.remove = false ∧ (∀ e ∈ L, e.number ≠ t.number) ∧ x = t.decode (B t.number))

/-- The base frame seen through `oldframe`; a null base has no entities. -/
def baseFrame (mem : Frames) : Option Nat → snapshot_t
  | none => snapshot_t.zero
  | some o => mem o

/-- The state of the merge between two statements: the base frame `old` is
reached through `oldframe` and is not the new frame, the base cursor stands
before the base entries `rest`, and the new frame has received the list `acc`,
which it holds as long as `acc` fits its entity array. -/
structure MergeInv (c : Consts) (oldframe : Option Nat) (newframe : Nat) (old : snapshot_t)
    (mem : Frames) (cur : Cursor) (rest acc : List SyncEntityState) : Prop where
  base : ∀ o, oldframe = some o → o ≠ newframe ∧ mem o = old
  nobase : oldframe = none → old.numEntities = 0
  rest_eq : (entityList c old).drop cur.oldindex = rest
  exhausted : rest = [] → cur.oldnum = 99999
  head : ∀ e es, rest = e :: es →
    cur.oldnum = e.number ∧ cur.oldstate = some (c.entIndex cur.oldindex)
  count : (mem newframe).numEntities = acc.length
  out : acc.length ≤ c.MAX_PARSE_ENTITIES → entityList c (mem newframe) = acc

/-- The base cursor can be used: unless `oldnum` is the sentinel 99999, the base
frame is not null, `oldindex` is below its `numEntities` and `oldstate` points
at the entry of that index. -/
def CursorSafe (c : Consts) (mem : Frames) (oldframe : Option Nat) (cur : Cursor) : Prop :=
  cur.oldnum ≠ 99999 →
    ∃ o, oldframe = some o ∧ cur.oldindex < (mem o).numEntities ∧
      cur.oldstate = some (c.entIndex cur.oldindex)

/-- The routine dereferenced no null pointer, and `P` holds of its result when
it returned. -/
def Res.Defined {α : Type} (P : α → Prop) : Res α → Prop
  | Res.ok a => P a
  | Res.undef => False
  | _ => True

/-- Frames `f` and `g` hold the same game commands. -/
def CommandsEq (f g : snapshot_t) : Prop :=
  g.numgamecommands = f.numgamecommands ∧ g.gamecommands = f.gamecommands ∧
  g.gamecommandsDataHead = f.gamecommandsDataHead ∧ g.gamecommandsData = f.gamecommandsData

/-- The game commands of a frame are at strictly increasing offsets of its text
buffer, all below the head of the buffer. -/
def CommandsPlaced (f : snapshot_t) : Prop :=
  (∀ i, i < f.numgamecommands → (f.gamecommands i).commandOffset < f.gamecommandsDataHead) ∧
  (∀ i j, i < j → j < f.numgamecommands →
    (f.gamecommands i).commandOffset < (f.gamecommands j).commandOffset)

/-- The test of `SNAP_ParseFrame` on a game command read with frame offset
`framediff`: the new frame is valid, and `lastFrame` is null, or is not valid,
or has a frame number that `framediff` places before the new frame. -/
def CommandAccepted (mem : Frames) (lastFrame : Option Nat) (newframe : Nat)
    (framediff : Int) : Prop :=
  (mem newframe).valid = true ∧
    ∀ l, lastFrame = some l →
      (mem l).valid = false ∨ (mem newframe).serverFrame > (mem l).serverFrame + framediff

/-- From frame `f` to `g` the game commands only grow: the validity is the same,
the commands of `f` are still in `g`, nothing is recorded in a frame that is
not valid, and the commands recorded since `f` lie at increasing offsets
between the head of the text buffer of `f` and that of `g`. -/
def CommandsGrow (f g : snapshot_t) : Prop :=
  g.valid = f.valid ∧ f.numgamecommands ≤ g.numgamecommands ∧
  f.gamecommandsDataHead ≤ g.gamecommandsDataHead ∧
  (∀ i, i < f.numgamecommands → g.gamecommands i = f.gamecommands i) ∧
  (f.valid = false → g.numgamecommands = f.numgamecommands) ∧
  (∀ i, f.numgamecommands ≤ i → i < g.numgamecommands →
    f.gamecommandsDataHead ≤ (g.gamecommands i).commandOffset ∧
    (g.gamecommands i).commandOffset < g.gamecommandsDataHead) ∧
  (∀ i j, f.numgamecommands ≤ i → i < j → j < g.numgamecommands →
    (g.gamecommands i).commandOffset < (g.gamecommands j).commandOffset)

/-- Frames `f` and `g` have the same header fields. -/
def HeaderEq (f g : snapshot_t) : Prop :=
  g.valid = f.valid ∧ g.serverFrame = f.serverFrame ∧ g.serverTime = f.serverTime ∧
  g.ucmdExecuted = f.ucmdExecuted ∧ g.delta = f.delta ∧ g.allentities = f.allentities ∧
  g.multipov = f.multipov ∧ g.deltaFrameNum = f.deltaFrameNum

/-- Store `mem1` differs from `mem` at most in the frame at `addr`, whose header
fields are the same in both. -/
def FrameOnly (addr : Nat) (mem mem1 : Frames) : Prop :=
  (∀ a, a ≠ addr → mem1 a = mem a) ∧ HeaderEq (mem addr) (mem1 addr)

/-- Store `mem1` differs from `mem` at most in the frame at `addr`, whose header
fields and entity list are the same in both. -/
def KeepsEntities (addr : Nat) (mem mem1 : Frames) : Prop :=
  FrameOnly addr mem mem1 ∧ (mem1 addr).numEntities = (mem addr).numEntities ∧
    (mem1 addr).parsedEntities = (mem addr).parsedEntities

/-- Message `msg` holds `n` game commands and the terminator `-1`, and `msg1` is
the message after the terminator, when the commands are read as an ignored
command is: the frame offset, the string and, in a multi-POV frame, the target
count and that many skipped bytes. -/
def SkipsCommands {M : Type} (ops : MsgOps M) (multipov : Bool) : M → Nat → M → Prop
  | msg, 0, msg1 => (ops.MSG_ReadInt16 msg).1 = -1 ∧ msg1 = (ops.MSG_ReadInt16 msg).2
  | msg, n + 1, msg1 =>
    (ops.MSG_ReadInt16 msg).1 ≠ -1 ∧
      SkipsCommands ops multipov
        (if multipov then
          ops.MSG_SkipData (ops.MSG_ReadUint8 (ops.MSG_ReadString (ops.MSG_ReadInt16 msg).2).2).2
            (ops.MSG_ReadUint8 (ops.MSG_ReadString (ops.MSG_ReadInt16 msg).2).2).1
        else (ops.MSG_ReadString (ops.MSG_ReadInt16 msg).2).2) n msg1

/-- Message `msg` holds `n` player states, each announced by `svc_playerinfo`
and followed by a delta whose length does not depend on its base, and the
terminator 0; `msg1` is the message after the terminator. -/
def HoldsPlayers {M : Type} (ops : MsgOps M) (c : Consts) : M → Nat → M → Prop
  | msg, 0, msg1 => (ops.MSG_ReadUint8 msg).1 = 0 ∧ msg1 = (ops.MSG_ReadUint8 msg).2
  | msg, n + 1, msg1 =>
    (ops.MSG_ReadUint8 msg).1 = c.svc_playerinfo ∧ c.svc_playerinfo ≠ 0 ∧
      ∃ m2, (∀ old, (ops.MSG_ReadDeltaPlayerState (ops.MSG_ReadUint8 msg).2 old).2 = m2) ∧
        HoldsPlayers ops c m2 n msg1

/-- The slots of the ring at address `b` are all invalid. -/
def RingEmpty (c : Consts) (b : Nat) (mem : Frames) : Prop :=
  ∀ i, i < c.UPDATE_BACKUP → (mem (b + i)).valid = false

/-- Store `mem` results from an empty ring at address `b` by a sequence of
`SNAP_ParseFrame` calls whose frames have consecutive numbers, the last of them
`newest`. -/
inductive ConsecutiveRing {M : Type} (ops : MsgOps M) (c : Consts) (b : Nat)
    (B : Int → SyncEntityState) : Frames → Int → Prop where
  | empty (mem : Frames) (newest : Int) (h : RingEmpty c b mem) :
      ConsecutiveRing ops c b B mem newest
  | parse (mem : Frames) (newest : Int) (fuel : Nat) (msg : M) (lastFrame : Option Nat)
      (msg1 : M) (mem1 : Frames) (nf : Nat)
      (hring : ConsecutiveRing ops c b B mem newest)
      (hrun : SNAP_ParseFrame ops c fuel msg mem lastFrame (some b) B = Res.ok (msg1, mem1, nf))
      (hnum : (mem1 nf).serverFrame = newest + 1) :
      ConsecutiveRing ops c b B mem1 (newest + 1)

/-! ## A word-stream codec

A small concrete codec used to run the embedding on concrete messages: the
message is a list of integer words and every primitive consumes whole words. -/

structure WordMsg where
  data : List Int
  readcount : Nat
  cursize : Nat
deriving DecidableEq

/-- Read one word; past the end the value is `0` and `readcount` still grows. -/
def WordMsg.readWord (m : WordMsg) : Int × WordMsg :=
  (m.data.headD 0, { m with data := m.data.tail, readcount := m.readcount + 1 })

/-- Read `n` words. -/
def WordMsg.readWords : Nat → WordMsg → List Int × WordMsg
  | 0, m => ([], m)
  | n + 1, m =>
    let r := m.readWord
    let rs := WordMsg.readWords n r.2
    (r.1 :: rs.1, rs.2)

/-- The word codec: an entity number is one word whose sign is the remove bit,
an entity delta is three words that replace the origin, a string is a length
word followed by its characters, game and player state deltas are one word. -/
def wordOps : MsgOps WordMsg where
  readcount := fun m => m.readcount
  cursize := fun m => m.cursize
  MSG_ReadEntityNumber := fun m => ((m.readWord.1.natAbs, decide (m.readWord.1 < 0)), m.readWord.2)
  MSG_ReadDeltaEntity := fun m old =>
    let r := WordMsg.readWords 3 m
    ({ old with origin := ⟨r.1.getD 0 0, r.1.getD 1 0, r.1.getD 2 0⟩ }, r.2)
  MSG_ReadIntBase128 := fun m => m.readWord
  MSG_ReadUintBase128 := fun m => (m.readWord.1.toNat, m.readWord.2)
  MSG_ReadUint8 := fun m => (m.readWord.1.toNat, m.readWord.2)
  MSG_ReadInt16 := fun m => m.readWord
  MSG_ReadString := fun m =>
    let r := WordMsg.readWords m.readWord.1.toNat m.readWord.2
    (r.1.map Int.toNat, r.2)
  MSG_ReadData := fun m n =>
    let r := WordMsg.readWords n m
    (r.1.map Int.toNat, r.2)
  MSG_SkipData := fun m n => (WordMsg.readWords n m).2
  MSG_ReadDeltaGameState := fun m _ => ({ rest := m.readWord.1.toNat }, m.readWord.2)
  MSG_ReadDeltaPlayerState := fun m old =>
    ({ (old.getD SyncPlayerState.zero) with playerNum := m.readWord.1.toNat }, m.readWord.2)

/-- A message holding the given words, unread. -/
def WordMsg.ofWords (ws : List Int) : WordMsg :=
  { data := ws, readcount := 0, cursize := ws.length }

/-- Constants used for the concrete runs. -/
def smallConsts : Consts :=
  { MAX_EDICTS := 1024, MAX_PARSE_ENTITIES := 1024, UPDATE_BACKUP := 32,
    MAX_PARSE_GAMECOMMANDS := 64, gamecommandsDataSize := 256, targetsSize := 32,
    playerStatesSize := 256,
    Q_strncpyz := fun buf off text size i =>
      if off ≤ i ∧ i < off + min text.length (size - 1) then text.getD (i - off) 0
      else if i = off + min text.length (size - 1) ∧ 0 < size then 0
      else buf i,
    FRAMESNAP_FLAG_DELTA := 1, FRAMESNAP_FLAG_ALLENTITIES := 2, FRAMESNAP_FLAG_MULTIPOV := 4,
    svc_playerinfo := 3, svc_packetentities := 4, svc_gamecommands := 5, svc_match := 6 }

/-- The all-zero baseline table. -/
def zeroBaselines : Int → SyncEntityState := fun _ => SyncEntityState.zero

/-- The entity list of the frame at `addr` after a successful parse. -/
def Res.entitiesAt {M : Type} (c : Consts) (addr : Nat) : Res (M × Frames) → Option (List SyncEntityState)
  | Res.ok s => some (entityList c (s.2 addr))
  | _ => none

/-- An entity with the given number and first origin coordinate. -/
def entAt (n : Int) (px py pz : ℚ) : SyncEntityState :=
  { SyncEntityState.zero with number := n, origin := ⟨px, py, pz⟩ }

/-- A frame holding the given entity list. -/
def frameOf (es : List SyncEntityState) : snapshot_t :=
  { snapshot_t.zero with numEntities := es.length, parsedEntities := fun i => es.getD i SyncEntityState.zero }

/-! ## Concrete runs -/

/-- A token that sets the origin, as the word codec decodes it. -/
def originToken (n : Int) (px py pz : ℚ) : Token :=
  { number := n, remove := false, delta := fun old => { old with origin := ⟨px, py, pz⟩ } }

/-- A remove token. -/
def removeToken (n : Int) : Token :=
  { number := n, remove := true, delta := fun old => old }

/-- Scenario 1: the base frame `[1, 3, 5]` at address `0`. -/
def scenario1Mem : Frames := fun a =>
  if a = 0 then frameOf [entAt 1 0 0 0, entAt 3 0 0 0, entAt 5 0 0 0] else snapshot_t.zero

/-- Scenario 1: `delta(3, pos=10), remove(5), end` in the word codec. -/
def scenario1Msg : WordMsg := WordMsg.ofWords [3, 10, 0, 0, -5, 0]

def scenario1Tokens : List Token := [originToken 3 10 0 0, removeToken 5]

/-- The reason of the drop, when the routine dropped the connection. -/
def Res.dropReason {α : Type} : Res α → Option DropReason
  | Res.drop r => some r
  | _ => none

/-- A message whose second entity number is out of range. -/
def badNumberMsg : WordMsg := WordMsg.ofWords [3, 10, 0, 0, 2000]

/-- Scenario 2: a baseline table whose entry 7 is at the origin and carries a
model, so that it differs from the all-zero state. -/
def scenario2Baselines : Int → SyncEntityState := fun n =>
  if n = 7 then { SyncEntityState.zero with number := 7, model := 42 } else SyncEntityState.zero

/-- Scenario 2: `delta(7, pos=(1,2,3)), end` in the word codec. -/
def scenario2Msg : WordMsg := WordMsg.ofWords [7, 1, 2, 3, 0]

/-- A frame store of empty frames. -/
def emptyMem : Frames := fun _ => snapshot_t.zero

/-- A token stream of 1025 non-remove tokens: number 8, then 1024 times
number 7. -/
def longTokens : List Token :=
  originToken 8 1 2 3 :: List.replicate 1024 (originToken 7 0 0 0)

/-- The words of `n` tokens `delta(7, pos=(0,0,0))` followed by the terminator. -/
def sevenWords : Nat → List Int
  | 0 => [0]
  | n + 1 => 7 :: 0 :: 0 :: 0 :: sevenWords n

/-- The message of `longTokens` in the word codec. -/
def longMsg : WordMsg :=
  { data := 8 :: 1 :: 2 :: 3 :: sevenWords 1024, readcount := 0, cursize := 4101 }

/-- The `valid` flag of the frame returned by a frame or header parse. -/
def Res.frameValid {M : Type} : Res (M × Frames × Nat) → Option Bool
  | Res.ok s => some (s.2.1 s.2.2).valid
  | _ => none

/-- A valid stand-alone frame with the given frame number. -/
def validFrame (n : Int) : snapshot_t :=
  { snapshot_t.zero with valid := true, serverFrame := n }

/-- Scenario 3: a ring at address 0 whose slot 31 holds frame 127, the frame
that overwrote frame 95. -/
def scenario3Mem : Frames := fun a =>
  if a = 31 then validFrame 127 else snapshot_t.zero

/-- A ring at address 0 whose slot 31 holds frame 95. -/
def ring95Mem : Frames := fun a =>
  if a = 31 then validFrame 95 else snapshot_t.zero

/-- The header of frame 100, delta from frame 95: server time, frame number,
delta frame number, executed command counter and flags. -/
def header100Msg : WordMsg := WordMsg.ofWords [5000, 100, 95, 0, 1]

/-- The store after a parse, and `mem` when the parse did not return. -/
def Res.storeOr {M : Type} (mem : Frames) : Res (M × Frames × Nat) → Frames
  | Res.ok s => s.2.1
  | _ => mem

/-- The `serverFrame` of the frame returned by a parse. -/
def Res.frameNumber {M : Type} : Res (M × Frames × Nat) → Option Int
  | Res.ok s => some (s.2.1 s.2.2).serverFrame
  | _ => none

/-- The `deltaFrameNum` of the frame returned by a parse. -/
def Res.frameDeltaNum {M : Type} : Res (M × Frames × Nat) → Option Int
  | Res.ok s => some (s.2.1 s.2.2).deltaFrameNum
  | _ => none

/-- The `delta` flag of the frame returned by a parse. -/
def Res.frameDelta {M : Type} : Res (M × Frames × Nat) → Option Bool
  | Res.ok s => some (s.2.1 s.2.2).delta
  | _ => none

/-- The message after a parse. -/
def Res.msgAfter {M : Type} : Res (M × Frames × Nat) → Option M
  | Res.ok s => some s.1
  | _ => none

/-- Frame 100, delta from frame 95, with one game command (frame offset 0,
empty string), one player state and the entity token `delta(7, pos=(1,2,3))`. -/
def frame100Msg : WordMsg :=
  WordMsg.ofWords [5000, 100, 95, 0, 1, 5, 0, 0, -1, 6, 0, 3, 9, 0, 4, 7, 1, 2, 3, 0]

/-- A stand-alone multi-POV frame 50 with one game command, the empty string
with frame offset 0, addressed to 33 target bytes. -/
def targetsFrameMsg : WordMsg :=
  WordMsg.ofWords ([0, 50, 0, 0, 4, 5, 0, 0, 33] ++ List.replicate 33 0 ++ [-1, 6, 0, 0, 4, 0])

/-- A store with an empty ring at address 0 and, at address 40, a valid frame
with number 1000. -/
def lastFrameMem : Frames := fun a =>
  if a = 40 then validFrame 1000 else snapshot_t.zero

/-- A frame message in the word codec with no game command, no player state
and no entity: the header (server time, frame number, delta frame number,
executed command counter, flags), `svc_gamecommands` and the command
terminator, `svc_match` and the game state, the player terminator,
`svc_packetentities` and the entity terminator. -/
def emptyFrameMsg (snapNum deltaNum flags : Int) : WordMsg :=
  WordMsg.ofWords [0, snapNum, deltaNum, 0, flags, 5, -1, 6, 0, 0, 4, 0]

/-- The ring at address 0 after the stand-alone frame 1. -/
def ringAfter1 : Frames :=
  Res.storeOr emptyMem
    (SNAP_ParseFrame wordOps smallConsts 3 (emptyFrameMsg 1 0 0) emptyMem none (some 0)
      zeroBaselines)

/-- The ring at address 0 after the stand-alone frames 1 and 40. -/
def ringAfter40 : Frames :=
  Res.storeOr ringAfter1
    (SNAP_ParseFrame wordOps smallConsts 3 (emptyFrameMsg 40 0 0) ringAfter1 none (some 0)
      zeroBaselines)

/-- The ring at address 0 after the stand-alone frame 100. -/
def ringAfter100 : Frames :=
  Res.storeOr emptyMem
    (SNAP_ParseFrame wordOps smallConsts 3 (emptyFrameMsg 100 0 0) emptyMem none (some 0)
      zeroBaselines)



/-- A cleared entity record. -/
def centity_t.zero : centity_t :=
  { current := SyncEntityState.zero
    prev := SyncEntityState.zero
    serverFrame := 0
    interpolated := { origin := Vec3.zero, origin2 := Vec3.zero }
    type := EntityType.ET_GENERIC
    effects := 0
    velocity := Vec3.zero
    canExtrapolate := false
    canExtrapolatePrev := false
    prevVelocity := Vec3.zero
    microSmooth := 0
    microSmoothOrigin := Vec3.zero
    microSmoothOrigin2 := Vec3.zero
    trailOrigin := Vec3.zero
    localEffects := fun _ => 0
    laserOrigin := Vec3.zero
    laserPoint := Vec3.zero
    laserOriginOld := Vec3.zero
    laserPointOld := Vec3.zero
    linearProjectileCanDraw := false
    lastVelocitiesFrames := fun _ => 0
    lastVelocities := fun _ _ => 0 }

/-- An environment with no event entities and no collision models, in which a
linear movement stays at the first origin. The operators of `Vec3` work on each
component with one `float` operation, the division through the reciprocal of
the divisor. -/
def plainEnv : CgEnv :=
  { ISEVENTENTITY := fun _ => false
    CM_IsBrushModel := fun _ => false
    CM_TryFindCModel := fun _ => false
    GS_MatchPaused := false
    GS_LinearMovement := fun s _ => (0, s.origin)
    Length := fun v => |v.x| + |v.y| + |v.z|
    Vec3sub := fun a b => ⟨f32 (a.x - b.x), f32 (a.y - b.y), f32 (a.z - b.z)⟩
    Vec3scale := fun v k => ⟨f32 (v.x * k), f32 (v.y * k), f32 (v.z * k)⟩
    Vec3div := fun v k => ⟨f32 (v.x * f32 (1 / k)), f32 (v.y * f32 (1 / k)), f32 (v.z * f32 (1 / k))⟩
    PROJECTILE_PRESTEP := 100
    VIEWDEF_PLAYERVIEW := 0
    clServerTime := 0
    projectileAntilagOffset := 0 }

/-- Scenario 4: frame 8 follows frame 7; entity 5 was in frame 7 at the origin,
with two steps of smoothing recorded, and its previous sample was at
`(-10, 0, 0)`. -/
def jumpClient : Client :=
  { cg :=
      { frame := { validFrame 8 with serverTime := 1016 }
        oldFrame := { validFrame 7 with serverTime := 1000 }
        fireEvents := false
        firstFrame := false
        predictedPlayerState := SyncPlayerState.zero
        predictFrom := 0
        multiviewPlayerNum := 0
        viewType := 0 }
    cgs :=
      { playerNum := 0
        precacheDone := true
        demoPlaying := false
        snapFrameTime := 16
        extrapolationTime := 0 }
    cg_entities := fun n =>
      if n = 5 then
        { centity_t.zero with
          current := entAt 5 0 0 0
          prev := entAt 5 (-10) 0 0
          serverFrame := 7
          microSmooth := 2 }
      else centity_t.zero
    animResets := [] }

/-- An environment in which model 1 is a brush model. -/
def brushEnv : CgEnv :=
  { plainEnv with CM_IsBrushModel := fun m => decide (m = 1) }

/-- Scenario 4 with extrapolation enabled. -/
def xerpClient : Client :=
  { jumpClient with cgs := { jumpClient.cgs with extrapolationTime := 50 } }

/-- A player entity with number 5 whose model is the brush model 1. -/
def moverState : SyncEntityState :=
  { entAt 5 3 0 0 with type := EntityType.ET_PLAYER, model := 1 }

/-- An environment in which the entities of type tag 100 are event entities. -/
def eventEnv : CgEnv :=
  { plainEnv with ISEVENTENTITY := fun s => decide (s.type = EntityType.other 100) }

/-- An event entity with number 5 at `(600, 0, 0)`. -/
def eventState : SyncEntityState :=
  { entAt 5 600 0 0 with type := EntityType.other 100 }

/-- Scenario 5: frame 8 follows frame 7; entity 6, a linear projectile of
model 1 launched at time 900, was in frame 7 at `(1, 0, 0)`. -/
def projectileClient : Client :=
  { jumpClient with
    cg_entities := fun n =>
      if n = 6 then
        { centity_t.zero with
          current :=
            { entAt 6 1 0 0 with linearMovement := true, linearMovementTimeStamp := 900,
                                 model := 1 }
          prev := entAt 6 0 0 0
          serverFrame := 7 }
      else centity_t.zero }

/-- The projectile of scenario 5 as frame 8 carries it, at `(2, 0, 0)`, with the
given model and launch time. -/
def projectileState (model : Nat) (stamp : Int) : SyncEntityState :=
  { entAt 6 2 0 0 with linearMovement := true, linearMovementTimeStamp := stamp, model := model }

/-- An environment at client time 950 with an anti-lag offset of 1.0 and no
collision models, where `GS_LinearMovement` gives the time since the launch
and the position reached from `origin2` at the velocity of the movement. -/
def flightEnv : CgEnv :=
  { plainEnv with
    GS_LinearMovement := fun s t =>
      (t - s.linearMovementTimeStamp,
        ⟨s.origin2.x + s.linearMovementVelocity.x * (t - s.linearMovementTimeStamp) / 1000,
         s.origin2.y + s.linearMovementVelocity.y * (t - s.linearMovementTimeStamp) / 1000,
         s.origin2.z + s.linearMovementVelocity.z * (t - s.linearMovementTimeStamp) / 1000⟩)
    clServerTime := 950
    projectileAntilagOffset := 1 }

/-- A projectile of entity number 6 launched at time 900 from `origin2` equal to
zero at 200 units per second along x, transmitted with the given origin. -/
def rocketState (x : ℚ) : SyncEntityState :=
  { entAt 6 x 0 0 with
    linearMovement := true
    linearMovementTimeStamp := 900
    linearMovementVelocity := ⟨200, 0, 0⟩ }

/-- The record of the rocket of `rocketState`, as transmitted at `(2, 0, 0)`. -/
def rocketRecord : centity_t :=
  { centity_t.zero with current := rocketState 2, serverFrame := 8 }

/-- The environment of `flightEnv` at client time 850, before the launch of the
rocket, without anti-lag offset and with a prestep of 60. -/
def earlyEnv : CgEnv :=
  { flightEnv with clServerTime := 850, projectileAntilagOffset := 0, PROJECTILE_PRESTEP := 60 }

/-- The environment of `flightEnv` at client time `2 ^ 24 + 1`, which no `float`
holds, with an anti-lag offset of 1.0 and a prestep of 60. -/
def lateEnv : CgEnv :=
  { flightEnv with clServerTime := 16777217, PROJECTILE_PRESTEP := 60 }

/-- The record of a projectile of entity number 6 launched at time `2 ^ 24 + 1`
from `origin2` equal to zero at 100000 units per second along x. -/
def lateRecord : centity_t :=
  { centity_t.zero with
    current :=
      { entAt 6 2 0 0 with
        linearMovement := true
        linearMovementTimeStamp := 16777217
        linearMovementVelocity := ⟨100000, 0, 0⟩ }
    serverFrame := 8 }

/-- Scenario 6: `delta(3, pos=10), remove(4), remove(5), end` in the word codec,
against the base `[1, 3, 5]` of scenario 1; entity 4 is not in the base. -/
def strayMsg : WordMsg := WordMsg.ofWords [3, 10, 0, 0, -4, -5, 0]

/-- An environment for the frame functions: eight clients, the calls made when
a new server frame begins leave the client state as it is. -/
def plainFrameEnv : FrameEnv :=
  { plainEnv with
    maxclients := 8
    PM_SPECTATOR := 2
    PM_CHASECAM := 3
    PMF_NO_PREDICTION := 4
    GS_MatchPausedAt := fun _ => false
    forcedAntilagOffset := 0
    CG_BuildSolidList := fun cl => cl
    ResetAnnouncerSpeakers := fun cl => cl
    CG_UpdateEntities := fun cl => Res.ok cl
    CG_CheckPredictionError := fun cl => cl
    CG_GameCommand := fun _ cl => cl
    CG_FireEvents := fun _ cl => cl }

/-- A player state with the given player number, `pm_type` and `POVnum`. -/
def playerAt (playerNum pm_type POVnum : Nat) : SyncPlayerState :=
  { playerNum := playerNum, POVnum := POVnum, pmove := { pm_type := pm_type, pm_flags := 0 },
    team := 0, rest := 0 }

/-- A valid multi-POV frame 8 with the given player states. -/
def povFrame (ps : List SyncPlayerState) : snapshot_t :=
  { validFrame 8 with
    multipov := true
    numplayers := ps.length
    playerStates := fun i => ps.getD i SyncPlayerState.zero }

/-- A client whose `cg.frame` is the multi-POV frame of the given player states
and which follows the given player number. -/
def povClient (ps : List SyncPlayerState) (followed : Nat) : Client :=
  { jumpClient with
    cg := { jumpClient.cg with frame := povFrame ps, multiviewPlayerNum := followed } }

/-- Scenario 7: players 3 and 5 are spectators (type 2), players 6 and 2 are
not. -/
def scenario7Players : List SyncPlayerState :=
  [playerAt 3 2 4, playerAt 6 0 7, playerAt 2 0 3, playerAt 5 2 6]

/-- Scenario 8: player 6, at index 1, is a spectator, and so is the first of
the two player states numbered 2. -/
def scenario8Players : List SyncPlayerState :=
  [playerAt 3 0 4, playerAt 6 2 7, playerAt 2 2 3, playerAt 2 0 3]

/-- The value returned by `CG_NewFrameSnap`, when it returns. -/
def Res.snapRet : Res FrameSnapResult → Option Bool
  | Res.ok r => some r.ret
  | _ => none

/-- The calls made by `CG_NewFrameSnap`, when it returns. -/
def Res.snapCalls : Res FrameSnapResult → Option (List CgCall)
  | Res.ok r => some r.calls
  | _ => none

/-- The client state value `g` after `CG_NewFrameSnap`, when it returns. -/
def Res.snapClient {α : Type} (g : Client → α) : Res FrameSnapResult → Option α
  | Res.ok r => some (g r.client)
  | _ => none

/-- A game command for the players whose bits are set in the given target
bytes. -/
def commandFor (all : Bool) (commandOffset : Nat) (targets : List Nat) : gcommand_t :=
  { all := all, commandOffset := commandOffset, targets := fun i => targets.getD i 0 }

/-- Scenario 9: the valid single-POV frame `n` of player of view 11, with four
game commands: one for all, one for player 11 (bit 2 of byte 1), one for
player 3 and one for players 9, 10 and 12. -/
def commandFrame (n : Int) : snapshot_t :=
  { validFrame n with
    numplayers := 1
    playerStates := fun _ => playerAt 0 0 11
    numgamecommands := 4
    gamecommands := fun i =>
      [commandFor true 0 [], commandFor false 10 [0, 4], commandFor false 20 [4, 0],
        commandFor false 30 [0, 11]].getD i (commandFor false 0 []) }

/-- Frame 9 of scenario 9 listing two entities, entity 5 at `(600, 0, 0)` and the
rocket of `rocketState`, with the given validity. -/
def entityFrame (valid : Bool) : snapshot_t :=
  { commandFrame 9 with
    valid := valid
    numEntities := 2
    parsedEntities := fun i => [entAt 5 600 0 0, rocketState 2].getD i SyncEntityState.zero }

/-- Scenario 4 on the first frame, with a prediction under way. -/
def firstClient : Client :=
  { jumpClient with cg := { jumpClient.cg with firstFrame := true, predictFrom := 5 } }

/-- Scenario 4 before the precache is done, with a prediction under way. -/
def loadingClient : Client :=
  { jumpClient with
    cg := { jumpClient.cg with predictFrom := 5 }
    cgs := { jumpClient.cgs with precacheDone := false } }

/-- Scenario 4 with local effects and a velocity recorded for entity 5. -/
def historyClient : Client :=
  { jumpClient with
    cg_entities := fun n =>
      if n = 5 then
        { jumpClient.cg_entities 5 with localEffects := fun _ => 3, velocity := ⟨1, 0, 0⟩ }
      else centity_t.zero }

/-! ## `sv_client.cpp`: the user commands of a client -/

/-- The fields of `usercmd_t` that the embedded functions read or write; `rest`
stands for the other fields. -/
structure usercmd_t where
  serverTimeStamp : Int
  msec : Nat
  rest : Nat
deriving DecidableEq

/-- The command after `memset( &nullcmd, 0, sizeof( nullcmd ) )`. -/
def usercmd_t.zero : usercmd_t :=
  { serverTimeStamp := 0, msec := 0, rest := 0 }

/-- The fields of `client_t` that the embedded functions read or write. The
arrays `ucmds` and `frame_latency` are functions of the index; `UcmdReceived`
and `UcmdExecuted` are `unsigned int`. -/
structure client_t where
  state : Nat
  lastframe : Int
  UcmdReceived : Nat
  UcmdExecuted : Nat
  UcmdTime : Int
  ucmds : Nat → usercmd_t
  frame_latency : Nat → Int

/-- What `SV_ParseMoveCommand` takes from outside its own body: the three wire
primitives over the message type `M` (`MSG_ReadUint8` gives the value as
converted to `unsigned int`), the constants `CMD_MASK`, `CS_SPAWNED` and
`LATENCY_COUNTS`, the times `svs.gametime` and `svc.snapFrameTime`, the
conversion `latencyOf` of a latency to the element type of `frame_latency`,
and the effect of `SV_DropClient` on the client. -/
structure SvOps (M : Type) where
  MSG_ReadInt32 : M → Int × M
  MSG_ReadUint8 : M → Nat × M
  MSG_ReadDeltaUsercmd : M → usercmd_t → usercmd_t × M
  CMD_MASK : Nat
  CS_SPAWNED : Nat
  LATENCY_COUNTS : Nat
  gametime : Int
  snapFrameTime : Int
  latencyOf : Int → Int
  SV_DropClient : client_t → client_t

/-- One call of `MSG_ReadDeltaUsercmd`: the loop index `i`, the command it is
decoded against and the command decoded into slot `i & CMD_MASK`. -/
structure UcmdRead where
  index : Nat
  base : usercmd_t
  cmd : usercmd_t
deriving DecidableEq

/-- The loop `for( i = ucmdFirst; i < ucmdHead; i++ )` of `SV_ParseMoveCommand`,
at index `i` with `n` iterations left, that is `n = ucmdHead - i`. The result
is the message, the ring and the calls of `MSG_ReadDeltaUsercmd` made, in
order, after the calls `reads` made before. -/
def readUsercmds {M : Type} (ops : SvOps M) (ucmdFirst : Nat) :
    Nat → Nat → M → (Nat → usercmd_t) → List UcmdRead → M × (Nat → usercmd_t) × List UcmdRead
  | 0, _, msg, ucmds, reads => (msg, ucmds, reads)
  | n + 1, i, msg, ucmds, reads =>
    -- first one isn't delta compressed
    let base := if i = ucmdFirst then usercmd_t.zero else ucmds ((i - 1) &&& ops.CMD_MASK)
    let r := ops.MSG_ReadDeltaUsercmd msg base
    readUsercmds ops ucmdFirst n (i + 1) r.2 (Function.update ucmds (i &&& ops.CMD_MASK) r.1)
      (reads ++ [{ index := i, base := base, cmd := r.1 }])

/-- The outcome of `SV_ParseMoveCommand`: the message and the client after the
call, whether `SV_DropClient` was called, and the calls of
`MSG_ReadDeltaUsercmd` in order. -/
structure MoveResult (M : Type) where
  msg : M
  client : client_t
  dropped : Bool
  reads : List UcmdRead

/-- Lines 716 to 746 of `SV_ParseMoveCommand`, after the test of the declared
count: the user commands are read and the acknowledged frame is recorded;
`lastframe`, `ucmdHead` and `ucmdCount` are the values read and `msg` is the
message after them. -/
def receiveUsercmds {M : Type} (ops : SvOps M) (client : client_t) (lastframe : Int)
    (ucmdHead ucmdCount : Nat) (msg : M) : MoveResult M :=
  let ucmdFirst : Nat := if ucmdHead > ucmdCount then ucmdHead - ucmdCount else 0
  let client1 : client_t :=
    { client with UcmdReceived := if ucmdHead < 1 then 0 else ucmdHead - 1 }
  -- read the user commands
  let l := readUsercmds ops ucmdFirst (ucmdHead - ucmdFirst) ucmdFirst msg client1.ucmds []
  let client2 : client_t := { client1 with ucmds := l.2.1 }
  if client2.state ≠ ops.CS_SPAWNED then
    { msg := l.1, client := { client2 with lastframe := -1 }, dropped := false,
      reads := l.2.2 }
  else
    -- calc ping
    if lastframe ≠ client2.lastframe then
      let client3 : client_t := { client2 with lastframe := lastframe }
      if client3.lastframe > 0 then
        { msg := l.1,
          client :=
            { client3 with
              frame_latency := Function.update client3.frame_latency
                (client3.lastframe.toNat &&& (ops.LATENCY_COUNTS - 1))
                (ops.latencyOf (ops.gametime
                  - ((client3.ucmds (client3.UcmdReceived &&& ops.CMD_MASK)).serverTimeStamp
                      + ops.snapFrameTime))) },
          dropped := false, reads := l.2.2 }
      else { msg := l.1, client := client3, dropped := false, reads := l.2.2 }
    else { msg := l.1, client := client2, dropped := false, reads := l.2.2 }

/-- `SV_ParseMoveCommand`. -/
def SV_ParseMoveCommand {M : Type} (ops : SvOps M) (client : client_t) (msg : M) :
    MoveResult M :=
  let r1 := ops.MSG_ReadInt32 msg
  let lastframe : Int := r1.1
  -- read the id of the first ucmd we will receive
  let r2 := ops.MSG_ReadInt32 r1.2
  let ucmdHead : Nat := (r2.1 % 2 ^ 32).toNat
  -- read the number of ucmds we will receive
  let r3 := ops.MSG_ReadUint8 r2.2
  let ucmdCount : Nat := r3.1
  if ucmdCount > ops.CMD_MASK then
    { msg := r3.2, client := ops.SV_DropClient client, dropped := true, reads := [] }
  else receiveUsercmds ops client lastframe ucmdHead ucmdCount r3.2

/-- The commands of the spec for `n` commands in `msg`: the first is decoded
against `base`, each later one against the command before it. The result is
the list of the decoded commands and the message after them. -/
def refUcmdChain {M : Type} (ops : SvOps M) : Nat → M → usercmd_t → List usercmd_t × M
  | 0, msg, _ => ([], msg)
  | n + 1, msg, base =>
    let r := ops.MSG_ReadDeltaUsercmd msg base
    let rs := refUcmdChain ops n r.2 r.1
    (r.1 :: rs.1, rs.2)

/-- The server side of the word codec: a 32 bit integer and a byte are one
word, a user command delta is one word added to the time stamp of the command
it is decoded against. The ring has 8 slots, and `SV_DropClient` marks the
client with state 1. -/
def svWordOps : SvOps WordMsg where
  MSG_ReadInt32 := fun m => m.readWord
  MSG_ReadUint8 := fun m => (m.readWord.1.toNat, m.readWord.2)
  MSG_ReadDeltaUsercmd := fun m base =>
    ({ base with serverTimeStamp := base.serverTimeStamp + m.readWord.1 }, m.readWord.2)
  CMD_MASK := 7
  CS_SPAWNED := 4
  LATENCY_COUNTS := 16
  gametime := 5000
  snapFrameTime := 16
  latencyOf := fun x => x
  SV_DropClient := fun cl => { cl with state := 1 }

/-- A spawned client that has received the commands up to number 9, with the
time stamp `100 * s` in slot `s` of the ring, and frame 20 acknowledged. -/
def spawnedClient : client_t :=
  { state := 4, lastframe := 20, UcmdReceived := 9, UcmdExecuted := 9, UcmdTime := 100,
    ucmds := fun s => { serverTimeStamp := 100 * s, msec := 0, rest := 0 },
    frame_latency := fun _ => 0 }

/-- A move command: frame 21 acknowledged, command head 12, three commands with
the time stamp deltas 1000, 16 and 17. -/
def moveMsg : WordMsg := WordMsg.ofWords [21, 12, 3, 1000, 16, 17]

/-- A move command that declares 8 commands, more than `CMD_MASK`. -/
def overflowMsg : WordMsg := WordMsg.ofWords [21, 12, 8, 1000, 16, 17]

/-- The fields of a client that `SV_ParseMoveCommand` may write, with the ring
read at the slots 0 to 7. -/
def client_t.summary (cl : client_t) : Nat × Int × Nat × List Int :=
  (cl.state, cl.lastframe, cl.UcmdReceived,
    (List.range 8).map (fun s => (cl.ucmds s).serverTimeStamp))

/-- The calls of `MSG_ReadDeltaUsercmd` of the spec for the commands `cs` read
from index `i` on: the first is decoded against `base`, each later one against
the command before it. -/
def chainReads : Nat → usercmd_t → List usercmd_t → List UcmdRead
  | _, _, [] => []
  | i, base, cmd :: cs => { index := i, base := base, cmd := cmd } :: chainReads (i + 1) cmd cs

/-- The ring after the commands of `reads` are stored, in order, each into slot
`index & CMD_MASK`. -/
def writeReads {M : Type} (ops : SvOps M) (reads : List UcmdRead) (ucmds : Nat → usercmd_t) :
    Nat → usercmd_t :=
  reads.foldl (fun u r => Function.update u (r.index &&& ops.CMD_MASK) r.cmd) ucmds

/-- The value of `ucmdHead` that `SV_ParseMoveCommand` reads from `msg`. -/
def moveHead {M : Type} (ops : SvOps M) (msg : M) : Nat :=
  ((ops.MSG_ReadInt32 (ops.MSG_ReadInt32 msg).2).1 % 2 ^ 32).toNat

/-- The value of `ucmdCount` that `SV_ParseMoveCommand` reads from `msg`. -/
def moveCount {M : Type} (ops : SvOps M) (msg : M) : Nat :=
  (ops.MSG_ReadUint8 (ops.MSG_ReadInt32 (ops.MSG_ReadInt32 msg).2).2).1

/-- The message after `SV_ParseMoveCommand` has read `lastframe`, `ucmdHead` and
`ucmdCount`. -/
def moveBody {M : Type} (ops : SvOps M) (msg : M) : M :=
  (ops.MSG_ReadUint8 (ops.MSG_ReadInt32 (ops.MSG_ReadInt32 msg).2).2).2

/-- A stand-alone multi-POV frame 60 with three game commands of frame offset
0: the text `[104, 105]` with no target, the text `[33]` with the one target
byte `1`, and the empty text with no target. -/
def threeCommandsMsg : WordMsg :=
  WordMsg.ofWords [0, 60, 0, 0, 4, 5, 0, 2, 104, 105, 0, 0, 1, 33, 1, 1, 0, 0, 0, -1,
    6, 0, 0, 4, 0]

/-- Frame 9 listing two entities, entity 5 at `(3, 0, 0)` and the rocket of
`rocketState`. -/
def nearFrame : snapshot_t :=
  { validFrame 9 with
    numEntities := 2
    parsedEntities := fun i => [entAt 5 3 0 0, rocketState 2].getD i SyncEntityState.zero }

/-- What `SV_FindNextUserCommand` and `SV_ExecuteClientThinks` take from
outside their own bodies: the constants `CMD_MASK` and `CS_SPAWNED`, the time
`svs.gametime`, the value of `sv_maxclients->integer`, the test
`client->edict->r.svflags & SVF_FAKECLIENT` by client number, the helper
`Clamp( lo, x, hi )`, the conversion `msecOf` of an `unsigned int` to the type
of the field `msec` of a command, and the effect of `ClientThink` on the
client: its arguments are the client number, the slot of the ring that `ucmd`
points to, `timeDelta` and the client before the call. -/
structure ThinkOps where
  CMD_MASK : Nat
  CS_SPAWNED : Nat
  gametime : Int
  maxclients : Int
  fakeClient : Nat → Bool
  Clamp : Int → Int → Int → Int
  msecOf : Nat → Nat
  ClientThink : Nat → Nat → Int → client_t → client_t

/-- The loop `for( i = client->UcmdExecuted + 1; i <= client->UcmdReceived; i++ )`
of `SV_FindNextUserCommand` at index `i`, an `unsigned int`; `ucmd` is the slot
of the ring that the pointer `ucmd` points to, `none` for NULL. -/
def findNextUserCommand (ops : ThinkOps) (client : client_t) :
    Nat → Nat → Option Nat → Int → Res (Option Nat)
  | 0, _, _, _ => Res.fuel
  | k + 1, i, ucmd, higherTime =>
    if i ≤ client.UcmdReceived then
      -- skip backups if already executed
      if client.UcmdTime ≥ (client.ucmds (i &&& ops.CMD_MASK)).serverTimeStamp then
        findNextUserCommand ops client k ((i + 1) % 2 ^ 32) ucmd higherTime
      else if ucmd = none ∨ (client.ucmds (i &&& ops.CMD_MASK)).serverTimeStamp < higherTime then
        findNextUserCommand ops client k ((i + 1) % 2 ^ 32) (some (i &&& ops.CMD_MASK))
          (client.ucmds (i &&& ops.CMD_MASK)).serverTimeStamp
      else findNextUserCommand ops client k ((i + 1) % 2 ^ 32) ucmd higherTime
    else Res.ok ucmd

/-- `SV_FindNextUserCommand`. The result is the slot of the ring that the
returned pointer points to, `none` for NULL; the body makes no assignment
through `client`. -/
def SV_FindNextUserCommand (ops : ThinkOps) (fuel : Nat) (client : Option client_t) :
    Res (Option Nat) :=
  match client with
  | none => Res.ok none
  | some cl => findNextUserCommand ops cl fuel ((cl.UcmdExecuted + 1) % 2 ^ 32) none ops.gametime

/-- One call of `ClientThink`: the slot of the ring that `ucmd` points to, the
command in that slot at the call, and `timeDelta`. -/
structure ThinkCall where
  slot : Nat
  cmd : usercmd_t
  timeDelta : Int
deriving DecidableEq

/-- The loop `while( ( ucmd = SV_FindNextUserCommand( client ) ) != NULL )` of
`SV_ExecuteClientThinks` with `k` iterations of fuel left; `fuel` is the fuel of
each call of `SV_FindNextUserCommand`. The result is the client and the calls of
`ClientThink` made, in order, after the calls `calls` made before. -/
def executeThinks (ops : ThinkOps) (clientNum : Nat) (fuel : Nat) :
    Nat → client_t → List ThinkCall → Res (client_t × List ThinkCall)
  | 0, _, _ => Res.fuel
  | k + 1, client, calls =>
    match SV_FindNextUserCommand ops fuel (some client) with
    | Res.drop e => Res.drop e
    | Res.undef => Res.undef
    | Res.fuel => Res.fuel
    | Res.ok none => Res.ok (client, calls)
    | Res.ok (some s) =>
      let msec : Nat :=
        ((ops.Clamp 1 ((client.ucmds s).serverTimeStamp - client.UcmdTime) 200) % 2 ^ 32).toNat
      let client1 : client_t :=
        { client with
          ucmds := Function.update client.ucmds s { client.ucmds s with msec := ops.msecOf msec } }
      let timeDelta : Int :=
        if client1.lastframe > 0 then
          -(toInt32 (ops.gametime - (client1.ucmds s).serverTimeStamp))
        else 0
      let client2 := ops.ClientThink clientNum s timeDelta client1
      executeThinks ops clientNum fuel k
        { client2 with UcmdTime := (client2.ucmds s).serverTimeStamp }
        (calls ++ [{ slot := s, cmd := client1.ucmds s, timeDelta := timeDelta }])

/-- The outcome of `SV_ExecuteClientThinks`: the array `svs.clients` after the
call and the calls of `ClientThink` in order. -/
structure ThinkResult where
  clients : Nat → client_t
  calls : List ThinkCall

/-- `SV_ExecuteClientThinks` on the array `svs.clients`. -/
def SV_ExecuteClientThinks (ops : ThinkOps) (fuel : Nat) (clients : Nat → client_t)
    (clientNum : Int) : Res ThinkResult :=
  if clientNum ≥ ops.maxclients ∨ clientNum < 0 then Res.ok { clients := clients, calls := [] }
  else
    let client := clients clientNum.toNat
    if client.state < ops.CS_SPAWNED then Res.ok { clients := clients, calls := [] }
    else if ops.fakeClient clientNum.toNat then Res.ok { clients := clients, calls := [] }
    else
      -- don't let client command time delay too far away in the past
      let minUcmdTime : Int := if ops.gametime > 999 then ops.gametime - 999 else 0
      let client1 : client_t :=
        if client.UcmdTime < minUcmdTime then { client with UcmdTime := minUcmdTime } else client
      match executeThinks ops clientNum.toNat fuel fuel client1 [] with
      | Res.drop e => Res.drop e
      | Res.undef => Res.undef
      | Res.fuel => Res.fuel
      | Res.ok (client2, calls) =>
        -- we did the entire update
        Res.ok { clients := Function.update clients clientNum.toNat
                   { client2 with UcmdExecuted := client2.UcmdReceived },
                 calls := calls }

/-- The time stamp of the command with index `i`, in slot `i & CMD_MASK`. -/
def stampAt (ops : ThinkOps) (cl : client_t) (i : Nat) : Int :=
  (cl.ucmds (i &&& ops.CMD_MASK)).serverTimeStamp

/-- Index `best` is the next command among the indices from `s` up to, and not
including, `e`: no index for no command with a time stamp above
`client.UcmdTime`, and otherwise the index of the smallest such time stamp, the
lowest index on ties. -/
def NextCommand (ops : ThinkOps) (cl : client_t) (s e : Nat) : Option Nat → Prop
  | none => ∀ j, s ≤ j → j < e → ¬ cl.UcmdTime < stampAt ops cl j
  | some b =>
    s ≤ b ∧ b < e ∧ cl.UcmdTime < stampAt ops cl b ∧
      ∀ j, s ≤ j → j < e → cl.UcmdTime < stampAt ops cl j →
        stampAt ops cl b ≤ stampAt ops cl j ∧ (stampAt ops cl j = stampAt ops cl b → b ≤ j)

/-- The calls of `ClientThink` form a chain from the command time `t`: each
command has a time stamp above the command time, which its time stamp then
becomes, and `msec` is the difference of the two clamped to 1 and 200. -/
def ThinkChain : Int → List ThinkCall → Prop
  | _, [] => True
  | t, c :: cs =>
    t < c.cmd.serverTimeStamp ∧
      c.cmd.msec = (max 1 (min (c.cmd.serverTimeStamp - t) 200)).toNat ∧
      ThinkChain c.cmd.serverTimeStamp cs

/-- The command time after the calls `calls` from the command time `t`. -/
def chainEnd : Int → List ThinkCall → Int
  | t, [] => t
  | _, c :: cs => chainEnd c.cmd.serverTimeStamp cs

/-- A concrete environment: a ring of 8 slots, 8 clients of which client 7 is a
fake client, the game time 5000, and a `ClientThink` that leaves the client as
it is. -/
def thinkOps : ThinkOps :=
  { CMD_MASK := 7
    CS_SPAWNED := 4
    gametime := 5000
    maxclients := 8
    fakeClient := fun n => decide (n = 7)
    Clamp := fun lo x hi => max lo (min x hi)
    msecOf := fun n => n % 256
    ClientThink := fun _ _ _ cl => cl }

/-- A spawned client with the commands 10, 11 and 12 pending, of time stamps
4600, 4550 and 4900, and the command time 4500. -/
def pendingClient : client_t :=
  { state := 4, lastframe := 20, UcmdReceived := 12, UcmdExecuted := 9, UcmdTime := 4500,
    ucmds := fun s => { serverTimeStamp := [0, 100, 4600, 4550, 4900].getD s 0, msec := 0, rest := 0 },
    frame_latency := fun _ => 0 }

/-- The client of `pendingClient` with the time stamp 4550 for command 12 as
for command 11. -/
def tiedClient : client_t :=
  { pendingClient with
    ucmds := fun s => { serverTimeStamp := [0, 100, 4600, 4550, 4550].getD s 0, msec := 0, rest := 0 } }

/-- The array `svs.clients` after `SV_ExecuteClientThinks`, or `clients` when
the call did not return. -/
def Res.clientsOr (clients : Nat → client_t) : Res ThinkResult → Nat → client_t
  | Res.ok r => r.clients
  | _ => clients

/-- The calls of `ClientThink` made by a call of `SV_ExecuteClientThinks` that
returned. -/
def Res.thinkCalls : Res ThinkResult → Option (List ThinkCall)
  | Res.ok r => some r.calls
  | _ => none

/-- The clients are all the client of `pendingClient`. -/
def pendingClients : Nat → client_t := fun _ => pendingClient

/-- The clients are all the client of `pendingClient` before it is spawned, in
state 3. -/
def connectingClients : Nat → client_t := fun _ => { pendingClient with state := 3 }

/-- Scenario 4 with entity 5 at `(7 / 131072, 0, 0)` in frame 7. -/
def edgeClient : Client :=
  { jumpClient with
    cg_entities := fun n =>
      if n = 5 then
        { centity_t.zero with
          current := entAt 5 (7 / 131072) 0 0
          prev := entAt 5 0 0 0
          serverFrame := 7
          microSmooth := 2 }
      else centity_t.zero }

/-- Entity 5 at `(8388609 / 16384, 0, 0)`, which is 512 and one unit of the
last place of the `float` format. -/
def edgeState : SyncEntityState := entAt 5 (8388609 / 16384) 0 0

/-! # Theorems -/

/-! ## Entity lists -/

theorem entIndex_of_lt (c : Consts) {j k : Nat} (hP : c.MAX_PARSE_ENTITIES = 2 ^ j)
    (hk : k < c.MAX_PARSE_ENTITIES) : c.entIndex k = k := by
  unfold Consts.entIndex
  rw [hP] at hk ⊢
  exact Nat.and_pow_two_sub_one_of_lt_two_pow hk

theorem entIndex_eq_mod (c : Consts) {j : Nat} (hP : c.MAX_PARSE_ENTITIES = 2 ^ j) (k : Nat) :
    c.entIndex k = k % c.MAX_PARSE_ENTITIES := by
  unfold Consts.entIndex
  rw [hP]
  exact Nat.and_pow_two_sub_one_eq_mod k j

theorem entityList_length (c : Consts) (f : snapshot_t) :
    (entityList c f).length = f.numEntities := by
  simp [entityList]

/-- The frame `f` with `e` stored at the end of its entity list, as the
statements `parsedEntities[numEntities & mask] = e; numEntities++` do. -/
theorem entityList_push (c : Consts) {j : Nat} (hP : c.MAX_PARSE_ENTITIES = 2 ^ j)
    (f : snapshot_t) (e : SyncEntityState) (h : f.numEntities < c.MAX_PARSE_ENTITIES) :
    entityList c { f with
      parsedEntities := Function.update f.parsedEntities (c.entIndex f.numEntities) e
      numEntities := f.numEntities + 1 } = entityList c f ++ [e] := by
  unfold entityList
  simp only [List.range_succ, List.map_append, List.map_cons, List.map_nil]
  congr 1
  · apply List.map_congr_left
    intro k hk
    have hk' : k < f.numEntities := List.mem_range.mp hk
    rw [entIndex_of_lt c hP (lt_trans hk' h), entIndex_of_lt c hP h]
    exact Function.update_noteq (Nat.ne_of_lt hk') _ _
  · simp

theorem entityList_drop (c : Consts) (f : snapshot_t) {i : Nat} (h : i < f.numEntities) :
    (entityList c f).drop i
      = f.parsedEntities (c.entIndex i) :: (entityList c f).drop (i + 1) := by
  have hlen : i < (entityList c f).length := by rw [entityList_length]; exact h
  rw [List.drop_eq_getElem_cons hlen]
  simp [entityList]

theorem entityList_drop_nil (c : Consts) (f : snapshot_t) {i : Nat} (h : f.numEntities ≤ i) :
    (entityList c f).drop i = [] := by
  apply List.drop_eq_nil_of_le
  rw [entityList_length]; exact h


/-! ## The merge loop follows the reference merge -/

section
variable {c : Consts} {oldframe : Option Nat} {newframe : Nat} {old : snapshot_t}
  {mem : Frames} {cur : Cursor} {acc : List SyncEntityState}

theorem MergeInv.index_lt {e : SyncEntityState} {es : List SyncEntityState}
    (h : MergeInv c oldframe newframe old mem cur (e :: es) acc) :
    cur.oldindex < old.numEntities := by
  by_contra hlt
  have := entityList_drop_nil c old (Nat.le_of_not_lt hlt)
  rw [h.rest_eq] at this
  exact List.cons_ne_nil _ _ this

theorem MergeInv.head_eq {e : SyncEntityState} {es : List SyncEntityState}
    (h : MergeInv c oldframe newframe old mem cur (e :: es) acc) :
    e = old.parsedEntities (c.entIndex cur.oldindex) ∧
      es = (entityList c old).drop (cur.oldindex + 1) := by
  have h1 := entityList_drop c old h.index_lt
  rw [h.rest_eq] at h1
  injection h1 with ha hb
  exact ⟨ha, hb⟩

theorem MergeInv.oldframe_some {e : SyncEntityState} {es : List SyncEntityState}
    (h : MergeInv c oldframe newframe old mem cur (e :: es) acc) :
    ∃ o, oldframe = some o ∧ o ≠ newframe ∧ mem o = old := by
  cases ho : oldframe with
  | none =>
    have h0 := h.nobase ho
    have := h.index_lt
    omega
  | some o => exact ⟨o, rfl, h.base o ho⟩

theorem MergeInv.deref {e : SyncEntityState} {es : List SyncEntityState}
    (h : MergeInv c oldframe newframe old mem cur (e :: es) acc) :
    derefOld mem oldframe cur = some e := by
  obtain ⟨o, ho, _, hm⟩ := h.oldframe_some
  have hs := (h.head e es rfl).2
  subst ho
  simp only [derefOld, hs, hm]
  rw [← h.head_eq.1]

/-- Advancing the base cursor past the entry it stands on. -/
theorem MergeInv.advance {e : SyncEntityState} {es : List SyncEntityState}
    (h : MergeInv c oldframe newframe old mem cur (e :: es) acc) :
    ∃ cur1, advanceOld c mem oldframe cur = some cur1 ∧
      MergeInv c oldframe newframe old mem cur1 es acc := by
  obtain ⟨o, ho, hne, hm⟩ := h.oldframe_some
  subst ho
  simp only [advanceOld, hm]
  by_cases hx : cur.oldindex + 1 ≥ old.numEntities
  · rw [if_pos hx]
    refine ⟨_, rfl, ?_⟩
    have hes : es = [] := by
      rw [h.head_eq.2]; exact entityList_drop_nil c old hx
    exact
      { base := h.base, nobase := h.nobase
        rest_eq := by rw [hes]; exact entityList_drop_nil c old hx
        exhausted := fun _ => rfl
        head := by intro e1 es1 h1; rw [hes] at h1; cases h1
        count := h.count
        out := h.out }
  · rw [if_neg hx]
    refine ⟨_, rfl, ?_⟩
    have hlt : cur.oldindex + 1 < old.numEntities := Nat.lt_of_not_ge hx
    have hd := entityList_drop c old hlt
    exact
      { base := h.base, nobase := h.nobase
        rest_eq := h.head_eq.2.symm
        exhausted := by
          intro h1
          rw [h.head_eq.2, hd] at h1
          cases h1
        head := by
          intro e1 es1 h1
          rw [h.head_eq.2, hd] at h1
          injection h1 with ha hb
          exact ⟨by rw [← ha], rfl⟩
        count := h.count
        out := h.out }

/-- Storing an entity at the end of the new frame's list. -/
theorem MergeInv.push {rest : List SyncEntityState} {j : Nat}
    (hP : c.MAX_PARSE_ENTITIES = 2 ^ j)
    (h : MergeInv c oldframe newframe old mem cur rest acc) (e : SyncEntityState) :
    MergeInv c oldframe newframe old
      (Function.update mem newframe
        { mem newframe with
          parsedEntities := Function.update (mem newframe).parsedEntities
            (c.entIndex (mem newframe).numEntities) e
          numEntities := (mem newframe).numEntities + 1 })
      cur rest (acc ++ [e]) := by
  exact
    { base := by
        intro o ho
        obtain ⟨hne, hm⟩ := h.base o ho
        exact ⟨hne, by rw [Function.update_noteq hne]; exact hm⟩
      nobase := h.nobase
      rest_eq := h.rest_eq
      exhausted := h.exhausted
      head := h.head
      count := by
        rw [Function.update_same]
        simp only [List.length_append, List.length_singleton, h.count]
      out := by
        intro hlen
        simp only [List.length_append, List.length_singleton] at hlen
        have hn : (mem newframe).numEntities < c.MAX_PARSE_ENTITIES := by
          rw [h.count]; omega
        rw [Function.update_same, entityList_push c hP _ e hn, h.out (by omega)] }

/-- Copying the base entry under the cursor. -/
theorem MergeInv.copyOld {e : SyncEntityState} {es : List SyncEntityState} {j : Nat}
    (hP : c.MAX_PARSE_ENTITIES = 2 ^ j)
    (h : MergeInv c oldframe newframe old mem cur (e :: es) acc) :
    ∃ mem1 cur1, Forksow.copyOld c mem oldframe newframe cur = some (mem1, cur1) ∧
      MergeInv c oldframe newframe old mem1 cur1 es (acc ++ [e]) := by
  have h1 := h.push hP e
  obtain ⟨cur1, hadv, h2⟩ := h1.advance
  refine ⟨_, cur1, ?_, h2⟩
  simp only [Forksow.copyOld, h.deref, hadv]

/-- Decoding a delta into the new frame. -/
theorem MergeInv.parseDelta {M : Type} (ops : MsgOps M) {rest : List SyncEntityState} {j : Nat}
    (hP : c.MAX_PARSE_ENTITIES = 2 ^ j)
    (h : MergeInv c oldframe newframe old mem cur rest acc)
    (msg : M) (newnum : Int) (e : SyncEntityState) :
    MergeInv c oldframe newframe old
      (SNAP_ParseDeltaEntity ops c msg mem newframe newnum e).2 cur rest
      (acc ++ [{ (ops.MSG_ReadDeltaEntity msg e).1 with number := newnum }]) :=
  h.push hP _

end


section
variable {c : Consts} {oldframe : Option Nat} {newframe : Nat} {old : snapshot_t}

/-- The loop `while( oldnum < newnum )` copies the base entries below `newnum`. -/
theorem copyUnchanged_spec {j : Nat} (hP : c.MAX_PARSE_ENTITIES = 2 ^ j) (newnum : Int)
    (hnew : newnum ≤ 99999) :
    ∀ (fuel : Nat) (mem : Frames) (cur : Cursor) (rest acc : List SyncEntityState),
      MergeInv c oldframe newframe old mem cur rest acc →
      rest.length < fuel →
      ∃ mem1 cur1, copyUnchanged c oldframe newframe newnum fuel mem cur = Res.ok (mem1, cur1) ∧
        MergeInv c oldframe newframe old mem1 cur1
          (rest.dropWhile (fun e => decide (e.number < newnum)))
          (acc ++ rest.takeWhile (fun e => decide (e.number < newnum))) ∧
        ¬ cur1.oldnum < newnum := by
  intro fuel
  induction fuel with
  | zero => intro mem cur rest acc _ hf; exact absurd hf (Nat.not_lt_zero _)
  | succ k ih =>
    intro mem cur rest acc h hf
    cases rest with
    | nil =>
      have hnum := h.exhausted rfl
      have hn : ¬ cur.oldnum < newnum := by rw [hnum]; omega
      refine ⟨mem, cur, ?_, ?_, hn⟩
      · simp only [copyUnchanged, if_neg hn]
      · simpa using h
    | cons e es =>
      have hnum := (h.head e es rfl).1
      by_cases hlt : e.number < newnum
      · have htw : (e :: es).takeWhile (fun e => decide (e.number < newnum))
            = e :: es.takeWhile (fun e => decide (e.number < newnum)) := by
          simp [List.takeWhile_cons, hlt]
        have hdw : (e :: es).dropWhile (fun e => decide (e.number < newnum))
            = es.dropWhile (fun e => decide (e.number < newnum)) := by
          simp [List.dropWhile_cons, hlt]
        simp only [List.length_cons] at hf
        obtain ⟨mem1, cur1, hc, h1⟩ := h.copyOld hP
        obtain ⟨mem2, cur2, hr, h2, hn2⟩ := ih mem1 cur1 es (acc ++ [e]) h1 (by omega)
        refine ⟨mem2, cur2, ?_, ?_, hn2⟩
        · have hlt' : cur.oldnum < newnum := by rw [hnum]; exact hlt
          simp only [copyUnchanged, if_pos hlt', hc, hr]
        · rw [htw, hdw]
          simpa using h2
      · have htw : (e :: es).takeWhile (fun e => decide (e.number < newnum)) = [] := by
          simp [List.takeWhile_cons, hlt]
        have hdw : (e :: es).dropWhile (fun e => decide (e.number < newnum)) = e :: es := by
          simp [List.dropWhile_cons, hlt]
        have hn : ¬ cur.oldnum < newnum := by rw [hnum]; exact hlt
        refine ⟨mem, cur, ?_, ?_, hn⟩
        · simp only [copyUnchanged, if_neg hn]
        · rw [htw, hdw]; simpa using h

/-- The loop `while( oldnum != 99999 )` copies what is left of the base. -/
theorem copyRemaining_spec {j : Nat} (hP : c.MAX_PARSE_ENTITIES = 2 ^ j) :
    ∀ (fuel : Nat) (mem : Frames) (cur : Cursor) (rest acc : List SyncEntityState),
      MergeInv c oldframe newframe old mem cur rest acc →
      (∀ e ∈ rest, e.number ≠ 99999) →
      rest.length < fuel →
      ∃ mem1, copyRemaining c oldframe newframe fuel mem cur = Res.ok mem1 ∧
        (mem1 newframe).numEntities = (acc ++ rest).length ∧
        ((acc ++ rest).length ≤ c.MAX_PARSE_ENTITIES →
          entityList c (mem1 newframe) = acc ++ rest) := by
  intro fuel
  induction fuel with
  | zero => intro mem cur rest acc _ _ hf; exact absurd hf (Nat.not_lt_zero _)
  | succ k ih =>
    intro mem cur rest acc h hne hf
    cases rest with
    | nil =>
      have hnum := h.exhausted rfl
      refine ⟨mem, ?_, ?_, ?_⟩
      · simp only [copyRemaining, hnum, ne_eq, not_true_eq_false, if_false]
      · simpa using h.count
      · simpa using h.out
    | cons e es =>
      have hnum := (h.head e es rfl).1
      have hne1 : cur.oldnum ≠ 99999 := by
        rw [hnum]; exact hne e (List.mem_cons_self _ _)
      simp only [List.length_cons] at hf
      obtain ⟨mem1, cur1, hc, h1⟩ := h.copyOld hP
      obtain ⟨mem2, hr, h2, h3⟩ := ih mem1 cur1 es (acc ++ [e]) h1
        (fun x hx => hne x (List.mem_cons_of_mem _ hx)) (by omega)
      refine ⟨mem2, ?_, ?_, ?_⟩
      · simp only [copyRemaining, if_pos hne1, hc, hr]
      · simpa using h2
      · simpa using h3

end


section
variable {c : Consts} {oldframe : Option Nat} {newframe : Nat} {old : snapshot_t}

theorem parseDelta_fst {M : Type} (ops : MsgOps M) (c : Consts) (msg : M) (mem : Frames)
    (frame : Nat) (newnum : Int) (e : SyncEntityState) :
    (SNAP_ParseDeltaEntity ops c msg mem frame newnum e).1 = (ops.MSG_ReadDeltaEntity msg e).2 :=
  rfl

/-- The token loop on a message that starts with the tokens `ts`: it reaches
the head of the loop at the message after them, having merged them as
`refMerge` does. -/
theorem parseTokens_tokens {M : Type} (ops : MsgOps M) {j : Nat}
    (hP : c.MAX_PARSE_ENTITIES = 2 ^ j) (hE : c.MAX_EDICTS ≤ 99999)
    (B : Int → SyncEntityState) :
    ∀ (ts : List Token) (fuel : Nat) (msg msg1 : M) (mem : Frames) (cur : Cursor)
      (rest acc : List SyncEntityState),
      EncodesTokens ops msg ts msg1 →
      (∀ t ∈ ts, t.number ≠ 0 ∧ t.number < c.MAX_EDICTS) →
      MergeInv c oldframe newframe old mem cur rest acc →
      rest.length + ts.length < fuel →
      ∃ mem1 cur1 rest1 acc1,
        parseTokens ops c oldframe newframe B fuel msg mem cur
          = parseTokens ops c oldframe newframe B (fuel - ts.length) msg1 mem1 cur1 ∧
        MergeInv c oldframe newframe old mem1 cur1 rest1 acc1 ∧
        acc1 ++ rest1 = acc ++ refMerge B ts rest ∧ rest1 <:+ rest := by
  intro ts
  induction ts with
  | nil =>
    intro fuel msg msg1 mem cur rest acc henc _ h _
    have hm : msg = msg1 := henc
    subst hm
    exact ⟨mem, cur, rest, acc, rfl, h, rfl, List.suffix_refl _⟩
  | cons t ts ih =>
    intro fuel msg msg1 mem cur rest acc henc htok h hf
    cases fuel with
    | zero => exact absurd hf (Nat.not_lt_zero _)
    | succ k =>
      obtain ⟨m1, m2, hr, hrc, hpay, henc2⟩ := henc
      obtain ⟨ht0, htE⟩ := htok t (List.mem_cons_self _ _)
      have htok2 : ∀ t1 ∈ ts, t1.number ≠ 0 ∧ t1.number < c.MAX_EDICTS :=
        fun t1 h1 => htok t1 (List.mem_cons_of_mem _ h1)
      simp only [List.length_cons] at hf
      have hfuel : k + 1 - (ts.length + 1) = k - ts.length := by omega
      rw [List.length_cons, hfuel]
      obtain ⟨mem1, cur1, hc, h1, hn1⟩ :=
        copyUnchanged_spec hP t.number (by omega) k mem cur rest acc h (by omega)
      have hdwlen : (rest.dropWhile (fun e => decide (e.number < t.number))).length
          ≤ rest.length := (List.dropWhile_suffix _).length_le
      have hsuf : rest.dropWhile (fun e => decide (e.number < t.number)) <:+ rest :=
        List.dropWhile_suffix _
      have c1 : ¬ t.number ≥ (c.MAX_EDICTS : Int) := by omega
      have c2 : ¬ ops.readcount m1 > ops.cursize m1 := by omega
      rw [refMerge]
      rw [parseTokens]
      simp only [hr, c1, c2, ht0, if_false, hc]
      cases hdw : rest.dropWhile (fun e => decide (e.number < t.number)) with
      | nil =>
        rw [hdw] at h1 hdwlen hsuf
        simp only [hdw]
        have hnum := h1.exhausted rfl
        have c3 : cur1.oldnum > t.number := by rw [hnum]; omega
        simp only [c3, if_true]
        cases hrm : t.remove with
        | true =>
          simp only [hrm, if_true] at hpay ⊢
          subst hpay
          obtain ⟨mem2, cur2, rest2, acc2, hp, h2, heq, hs2⟩ :=
            ih k m2 msg1 mem1 cur1 [] _ henc2 htok2 h1
              (by simp only [List.length_nil]; omega)
          exact ⟨mem2, cur2, rest2, acc2, hp, h2, by rw [heq, List.append_assoc],
            hs2.trans hsuf⟩
        | false =>
          simp only [hrm, Bool.false_eq_true, if_false] at hpay ⊢
          have h1' := h1.parseDelta ops hP m1 t.number (B t.number)
          rw [hpay] at h1'
          obtain ⟨mem2, cur2, rest2, acc2, hp, h2, heq, hs2⟩ :=
            ih k m2 msg1 _ cur1 [] _ henc2 htok2 h1'
              (by simp only [List.length_nil]; omega)
          refine ⟨mem2, cur2, rest2, acc2, ?_, h2, ?_, hs2.trans hsuf⟩
          · rw [← hp, parseDelta_fst, hpay]
          · rw [heq]; simp [Token.decode]
      | cons e es =>
        rw [hdw] at h1 hdwlen hsuf
        simp only [hdw, List.length_cons] at hdwlen ⊢
        have hnum := (h1.head e es rfl).1
        rw [hnum] at hn1
        have hes : es <:+ rest := (List.suffix_cons e es).trans hsuf
        by_cases hgt : e.number > t.number
        · have c3 : cur1.oldnum > t.number := by rw [hnum]; exact hgt
          simp only [c3, hgt, if_true]
          cases hrm : t.remove with
          | true =>
            simp only [hrm, if_true] at hpay ⊢
            subst hpay
            obtain ⟨mem2, cur2, rest2, acc2, hp, h2, heq, hs2⟩ :=
              ih k m2 msg1 mem1 cur1 (e :: es) _ henc2 htok2 h1
                (by simp only [List.length_cons]; omega)
            exact ⟨mem2, cur2, rest2, acc2, hp, h2, by rw [heq, List.append_assoc],
              hs2.trans hsuf⟩
          | false =>
            simp only [hrm, Bool.false_eq_true, if_false] at hpay ⊢
            have h1' := h1.parseDelta ops hP m1 t.number (B t.number)
            rw [hpay] at h1'
            obtain ⟨mem2, cur2, rest2, acc2, hp, h2, heq, hs2⟩ :=
              ih k m2 msg1 _ cur1 (e :: es) _ henc2 htok2 h1'
                (by simp only [List.length_cons]; omega)
            refine ⟨mem2, cur2, rest2, acc2, ?_, h2, ?_, hs2.trans hsuf⟩
            · rw [← hp, parseDelta_fst, hpay]
            · rw [heq]; simp [Token.decode]
        · have heq0 : e.number = t.number := by omega
          have c3 : ¬ cur1.oldnum > t.number := by rw [hnum]; exact hgt
          have c4 : cur1.oldnum = t.number := by rw [hnum]; exact heq0
          simp only [hgt, if_false]
          simp only [c4, gt_iff_lt, lt_self_iff_false, if_false, if_true]
          cases hrm : t.remove with
          | true =>
            simp only [hrm, if_true] at hpay ⊢
            subst hpay
            obtain ⟨cur2, hadv, h2⟩ := h1.advance
            simp only [hadv]
            obtain ⟨mem3, cur3, rest3, acc3, hp, h3, heq, hs3⟩ :=
              ih k m2 msg1 mem1 cur2 es _ henc2 htok2 h2 (by omega)
            exact ⟨mem3, cur3, rest3, acc3, hp, h3, by rw [heq, List.append_assoc],
              hs3.trans hes⟩
          | false =>
            simp only [hrm, Bool.false_eq_true, if_false] at hpay ⊢
            simp only [h1.deref]
            have h1' := h1.parseDelta ops hP m1 t.number e
            rw [hpay] at h1'
            obtain ⟨cur2, hadv, h2⟩ := h1'.advance
            simp only [hadv]
            obtain ⟨mem3, cur3, rest3, acc3, hp, h3, heq, hs3⟩ :=
              ih k m2 msg1 _ cur2 es _ henc2 htok2 h2 (by omega)
            refine ⟨mem3, cur3, rest3, acc3, ?_, h3, ?_, hs3.trans hes⟩
            · rw [← hp, parseDelta_fst, hpay]
            · rw [heq]; simp [Token.decode]


/-- The token loop on a message that holds the tokens `ts` and the terminator. -/
theorem parseTokens_spec {M : Type} (ops : MsgOps M) {j : Nat}
    (hP : c.MAX_PARSE_ENTITIES = 2 ^ j) (hE0 : 0 < c.MAX_EDICTS) (hE : c.MAX_EDICTS ≤ 99999)
    (B : Int → SyncEntityState) (ts : List Token) (fuel : Nat) (msg msg1 : M) (mem : Frames)
    (cur : Cursor) (rest acc : List SyncEntityState)
    (henc : Encodes ops msg ts msg1)
    (htok : ∀ t ∈ ts, t.number ≠ 0 ∧ t.number < c.MAX_EDICTS)
    (h : MergeInv c oldframe newframe old mem cur rest acc)
    (hf : rest.length + ts.length < fuel) :
    ∃ mem1 cur1 rest1 acc1,
      parseTokens ops c oldframe newframe B fuel msg mem cur = Res.ok (msg1, mem1, cur1) ∧
      MergeInv c oldframe newframe old mem1 cur1 rest1 acc1 ∧
      acc1 ++ rest1 = acc ++ refMerge B ts rest ∧ rest1 <:+ rest := by
  obtain ⟨m, htoks, rm, hr, hrc⟩ := henc
  obtain ⟨mem1, cur1, rest1, acc1, hp, h1, heq, hs⟩ :=
    parseTokens_tokens ops hP hE B ts fuel msg m mem cur rest acc htoks htok h hf
  refine ⟨mem1, cur1, rest1, acc1, ?_, h1, heq, hs⟩
  rw [hp]
  obtain ⟨k, hk⟩ : ∃ k, fuel - ts.length = k + 1 := ⟨fuel - ts.length - 1, by omega⟩
  have c1 : ¬ (0 : Int) ≥ (c.MAX_EDICTS : Int) := by omega
  have c2 : ¬ ops.readcount msg1 > ops.cursize msg1 := by omega
  rw [hk]
  simp only [parseTokens, hr, c1, c2, if_false, if_true]

end


/-- The state at the head of the token loop. -/
theorem mergeInv_init (c : Consts) (mem : Frames) (oldframe : Option Nat) (newframe : Nat)
    (hne : ∀ o, oldframe = some o → o ≠ newframe) :
    MergeInv c oldframe newframe (baseFrame mem oldframe)
      (Function.update mem newframe { mem newframe with numEntities := 0 })
      (initCursor c (Function.update mem newframe { mem newframe with numEntities := 0 })
        oldframe)
      (entityList c (baseFrame mem oldframe)) [] := by
  cases oldframe with
  | none =>
    exact
      { base := by intro o ho; cases ho
        nobase := fun _ => rfl
        rest_eq := rfl
        exhausted := fun _ => rfl
        head := by
          intro e es h1
          simp [baseFrame, entityList, snapshot_t.zero] at h1
        count := by simp
        out := by intro _; simp [entityList] }
  | some o =>
    have hno : o ≠ newframe := hne o rfl
    have hm : (Function.update mem newframe { mem newframe with numEntities := 0 }) o = mem o :=
      Function.update_noteq hno _ _
    by_cases h0 : 0 ≥ (mem o).numEntities
    · have hz : (mem o).numEntities = 0 := by omega
      have hnil : entityList c (mem o) = [] := by simp [entityList, hz]
      exact
        { base := by
            intro o1 ho1
            cases ho1
            exact ⟨hno, hm⟩
          nobase := by intro h1; cases h1
          rest_eq := by simp [initCursor, hm, hz, baseFrame]
          exhausted := by intro _; simp [initCursor, hm, hz]
          head := by
            intro e es h1
            simp only [baseFrame, hnil] at h1
            cases h1
          count := by simp
          out := by intro _; simp [entityList] }
    · have hpos : 0 < (mem o).numEntities := by omega
      have hd := entityList_drop c (mem o) hpos
      simp only [List.drop_zero] at hd
      exact
        { base := by
            intro o1 ho1
            cases ho1
            exact ⟨hno, hm⟩
          nobase := by intro h1; cases h1
          rest_eq := by simp [initCursor, hm, h0, baseFrame]
          exhausted := by
            intro h1
            simp only [baseFrame] at h1
            rw [hd] at h1
            cases h1
          head := by
            intro e es h1
            simp only [baseFrame] at h1
            rw [hd] at h1
            injection h1 with ha hb
            simp only [initCursor, hm, h0, if_false]
            exact ⟨by rw [← ha], trivial⟩
          count := by simp
          out := by intro _; simp [entityList] }

/-- `SNAP_ParsePacketEntities` computes `refMerge` of the token stream and the
base list: it stores that many entities, and the new frame holds the merge
whenever it fits the entity array. -/
theorem parsePacketEntities_eq_refMerge {M : Type} (ops : MsgOps M) (c : Consts) {j : Nat}
    (hP : c.MAX_PARSE_ENTITIES = 2 ^ j) (hE0 : 0 < c.MAX_EDICTS) (hE : c.MAX_EDICTS ≤ 99999)
    (B : Int → SyncEntityState) (mem : Frames) (oldframe : Option Nat) (newframe : Nat)
    (hne : ∀ o, oldframe = some o → o ≠ newframe)
    (ts : List Token) (msg msg1 : M) (henc : Encodes ops msg ts msg1)
    (htok : ∀ t ∈ ts, t.number ≠ 0 ∧ t.number < c.MAX_EDICTS)
    (hbase : ∀ e ∈ entityList c (baseFrame mem oldframe), e.number ≠ 99999)
    (fuel : Nat) (hf : (baseFrame mem oldframe).numEntities + ts.length < fuel) :
    ∃ mem1, SNAP_ParsePacketEntities ops c fuel msg mem oldframe newframe B
        = Res.ok (msg1, mem1) ∧
      (mem1 newframe).numEntities
        = (refMerge B ts (entityList c (baseFrame mem oldframe))).length ∧
      ((refMerge B ts (entityList c (baseFrame mem oldframe))).length
          ≤ c.MAX_PARSE_ENTITIES →
        entityList c (mem1 newframe)
          = refMerge B ts (entityList c (baseFrame mem oldframe))) := by
  have h0 := mergeInv_init c mem oldframe newframe hne
  have hl := entityList_length c (baseFrame mem oldframe)
  obtain ⟨mem1, cur1, rest1, acc1, hp, h1, heq, hs⟩ :=
    parseTokens_spec ops hP hE0 hE B ts fuel msg msg1 _ _ _ [] henc htok h0
      (by rw [hl]; exact hf)
  simp only [List.nil_append] at heq
  obtain ⟨mem2, hc, hcount, hout⟩ := copyRemaining_spec hP fuel mem1 cur1 rest1 acc1 h1
    (fun e he => hbase e (hs.subset he))
    (by have := hs.length_le; rw [hl] at this; omega)
  rw [heq] at hcount hout
  refine ⟨mem2, ?_, hcount, hout⟩
  simp only [SNAP_ParsePacketEntities, hp, hc]


/-! ## The reference merge on ascending lists -/

theorem filter_lt_of_all_ge {L : List SyncEntityState} {k : Int}
    (h : ∀ e ∈ L, k ≤ e.number) : L.filter (fun e => decide (e.number < k)) = [] := by
  rw [List.filter_eq_nil_iff]
  intro e he
  have := h e he
  simp only [decide_eq_true_eq]
  omega

theorem filter_gt_of_all_gt {L : List SyncEntityState} {k : Int}
    (h : ∀ e ∈ L, k < e.number) : L.filter (fun e => decide (k < e.number)) = L := by
  rw [List.filter_eq_self]
  intro e he
  simpa using h e he

theorem find_eq_none_of_all_ne {L : List SyncEntityState} {k : Int}
    (h : ∀ e ∈ L, e.number ≠ k) : L.find? (fun e => decide (e.number = k)) = none := by
  rw [List.find?_eq_none]
  intro e he
  simpa using h e he

/-- On an ascending base list the merge step splits the base into the entries
below the token, the token's own contribution, and the merge of the entries
above it with the remaining tokens. -/
theorem refMerge_cons_of_ascending (B : Int → SyncEntityState) (t : Token) (ts : List Token) :
    ∀ (L : List SyncEntityState), Ascending L →
      refMerge B (t :: ts) L
        = L.filter (fun e => decide (e.number < t.number)) ++ tokenPart B t L ++
            refMerge B ts (L.filter (fun e => decide (t.number < e.number))) := by
  intro L
  induction L with
  | nil =>
    intro _
    rw [refMerge]
    cases hrm : t.remove <;> simp [tokenPart, hrm]
  | cons e es ih =>
    intro hs
    have hs' : (∀ a ∈ es, e.number < a.number) ∧ Ascending es := List.pairwise_cons.mp hs
    obtain ⟨hhd, htl⟩ := hs'
    rcases lt_trichotomy e.number t.number with hlt | heq | hgt
    · have h1 := ih htl
      rw [refMerge] at h1 ⊢
      have hne : ¬ e.number = t.number := by omega
      have hng : ¬ t.number < e.number := by omega
      simp only [List.takeWhile_cons, List.dropWhile_cons, hlt, decide_True, if_true,
        List.filter_cons, hng, decide_False, Bool.false_eq_true, if_false, List.cons_append]
      rw [h1]
      simp [tokenPart, List.find?_cons, hne]
    · have hall : ∀ a ∈ es, t.number < a.number := fun a ha => by have := hhd a ha; omega
      have hnl : ¬ e.number < t.number := by omega
      have hng : ¬ t.number < e.number := by omega
      have hng' : ¬ e.number > t.number := by omega
      rw [refMerge]
      simp only [List.takeWhile_cons, List.dropWhile_cons, hnl, decide_False,
        Bool.false_eq_true, if_false, List.filter_cons, hng, hng', List.nil_append]
      rw [filter_lt_of_all_ge (fun a ha => le_of_lt (hall a ha)), filter_gt_of_all_gt hall]
      cases hrm : t.remove <;> simp [tokenPart, hrm, List.find?_cons, heq]
    · have hall : ∀ a ∈ es, t.number < a.number := fun a ha => by have := hhd a ha; omega
      have hnl : ¬ e.number < t.number := by omega
      have hne : ¬ e.number = t.number := by omega
      have hgt' : e.number > t.number := hgt
      rw [refMerge]
      simp only [List.takeWhile_cons, List.dropWhile_cons, hnl, decide_False,
        Bool.false_eq_true, if_false, List.filter_cons, hgt, hgt', decide_True, if_true,
        List.nil_append]
      rw [filter_lt_of_all_ge (fun a ha => le_of_lt (hall a ha)), filter_gt_of_all_gt hall,
        tokenPart, List.find?_cons]
      simp only [hne, decide_False]
      rw [find_eq_none_of_all_ne (fun a ha => by have := hall a ha; omega)]
      cases hrm : t.remove <;> simp


theorem find_of_ascending {L : List SyncEntityState} (hL : Ascending L) {e : SyncEntityState}
    (he : e ∈ L) : L.find? (fun a => decide (a.number = e.number)) = some e := by
  induction L with
  | nil => cases he
  | cons a as ih =>
    obtain ⟨hhd, htl⟩ := List.pairwise_cons.mp hL
    rcases List.mem_cons.mp he with h | h
    · subst h; simp [List.find?_cons]
    · have hne : ¬ a.number = e.number := by have := hhd e h; omega
      simp only [List.find?_cons, hne, decide_False]
      exact ih htl h

theorem mem_tokenPart (B : Int → SyncEntityState) (t : Token) {L : List SyncEntityState}
    (hL : Ascending L) (x : SyncEntityState) :
    x ∈ tokenPart B t L ↔
      t.remove = false ∧
        ((∃ e ∈ L, e.number = t.number ∧ x = t.decode e) ∨
          ((∀ e ∈ L, e.number ≠ t.number) ∧ x = t.decode (B t.number))) := by
  unfold tokenPart
  cases hrm : t.remove with
  | true => simp
  | false =>
    simp only [Bool.false_eq_true, if_false, List.mem_singleton, true_and]
    by_cases hex : ∃ e ∈ L, e.number = t.number
    · obtain ⟨e, he, hn⟩ := hex
      have hf := find_of_ascending hL he
      rw [hn] at hf
      rw [hf, Option.getD_some]
      constructor
      · intro hx; exact Or.inl ⟨e, he, hn, hx⟩
      · rintro (⟨e1, he1, hn1, hx⟩ | ⟨hall, _⟩)
        · have hf1 := find_of_ascending hL he1
          rw [hn1, hf] at hf1
          injection hf1 with h2
          rw [h2]; exact hx
        · exact absurd hn (hall e he)
    · have hall : ∀ e ∈ L, e.number ≠ t.number := fun e he hn => hex ⟨e, he, hn⟩
      rw [find_eq_none_of_all_ne hall, Option.getD_none]
      constructor
      · intro hx; exact Or.inr ⟨hall, hx⟩
      · rintro (⟨e1, he1, hn1, _⟩ | ⟨_, hx⟩)
        · exact absurd hn1 (hall e1 he1)
        · exact hx

/-- On ascending inputs `refMerge` holds exactly the entities of `MergeSpec`. -/
theorem mem_refMerge_iff (B : Int → SyncEntityState) :
    ∀ (T : List Token) (L : List SyncEntityState), AscendingTokens T → Ascending L →
      ∀ x, x ∈ refMerge B T L ↔ MergeSpec B T L x := by
  intro T
  induction T with
  | nil =>
    intro L _ _ x
    simp [refMerge, MergeSpec]
  | cons t ts ih =>
    intro L hT hL x
    obtain ⟨hhd, hts⟩ := List.pairwise_cons.mp hT
    have hL' : Ascending (L.filter (fun e => decide (t.number < e.number))) :=
      List.Pairwise.filter _ hL
    rw [refMerge_cons_of_ascending B t ts L hL]
    simp only [List.mem_append, List.mem_filter, decide_eq_true_eq]
    rw [ih _ hts hL', mem_tokenPart B t hL]
    unfold MergeSpec
    constructor
    · rintro ((⟨hx, hlt⟩ | ⟨hrm, htok⟩) | hC)
      · refine Or.inl ⟨hx, ?_⟩
        intro t1 ht1
        rcases List.mem_cons.mp ht1 with h | h
        · subst h; omega
        · have := hhd t1 h; omega
      · rcases htok with ⟨e, he, hn, hx⟩ | ⟨hall, hx⟩
        · exact Or.inr (Or.inl ⟨t, List.mem_cons_self _ _, hrm, e, he, hn, hx⟩)
        · exact Or.inr (Or.inr ⟨t, List.mem_cons_self _ _, hrm, hall, hx⟩)
      · rcases hC with ⟨hx, hall⟩ | ⟨t1, ht1, hrm, e, he, hn, hx⟩ | ⟨t1, ht1, hrm, hall, hx⟩
        · simp only [List.mem_filter, decide_eq_true_eq] at hx
          refine Or.inl ⟨hx.1, ?_⟩
          intro t2 ht2
          rcases List.mem_cons.mp ht2 with h | h
          · subst h; omega
          · exact hall t2 h
        · simp only [List.mem_filter, decide_eq_true_eq] at he
          exact Or.inr (Or.inl ⟨t1, List.mem_cons_of_mem _ ht1, hrm, e, he.1, hn, hx⟩)
        · refine Or.inr (Or.inr ⟨t1, List.mem_cons_of_mem _ ht1, hrm, ?_, hx⟩)
          intro e he
          by_cases hgt : t.number < e.number
          · exact hall e (by simp only [List.mem_filter, decide_eq_true_eq]; exact ⟨he, hgt⟩)
          · have := hhd t1 ht1; omega
    · rintro (⟨hx, hall⟩ | ⟨t1, ht1, hrm, e, he, hn, hx⟩ | ⟨t1, ht1, hrm, hall, hx⟩)
      · have hne := hall t (List.mem_cons_self _ _)
        rcases lt_or_gt_of_ne hne with hlt | hgt
        · refine Or.inr (Or.inl ⟨?_, fun t2 ht2 => hall t2 (List.mem_cons_of_mem _ ht2)⟩)
          simp only [List.mem_filter, decide_eq_true_eq]
          exact ⟨hx, hlt⟩
        · exact Or.inl (Or.inl ⟨hx, hgt⟩)
      · rcases List.mem_cons.mp ht1 with h | h
        · subst h
          exact Or.inl (Or.inr ⟨hrm, Or.inl ⟨e, he, hn, hx⟩⟩)
        · refine Or.inr (Or.inr (Or.inl ⟨t1, h, hrm, e, ?_, hn, hx⟩))
          simp only [List.mem_filter, decide_eq_true_eq]
          have := hhd t1 h
          exact ⟨he, by omega⟩
      · rcases List.mem_cons.mp ht1 with h | h
        · subst h
          exact Or.inl (Or.inr ⟨hrm, Or.inr ⟨hall, hx⟩⟩)
        · refine Or.inr (Or.inr (Or.inr ⟨t1, h, hrm, ?_, hx⟩))
          intro e he
          simp only [List.mem_filter, decide_eq_true_eq] at he
          exact hall e he.1


theorem number_of_mergeSpec {B : Int → SyncEntityState} {T : List Token}
    {L : List SyncEntityState} {x : SyncEntityState} (h : MergeSpec B T L x) :
    (∃ e ∈ L, e.number = x.number) ∨ (∃ t ∈ T, t.remove = false ∧ t.number = x.number) := by
  rcases h with ⟨hx, _⟩ | ⟨t, ht, hrm, e, _, _, hx⟩ | ⟨t, ht, hrm, _, hx⟩
  · exact Or.inl ⟨x, hx, rfl⟩
  · exact Or.inr ⟨t, ht, hrm, by rw [hx]; rfl⟩
  · exact Or.inr ⟨t, ht, hrm, by rw [hx]; rfl⟩

/-- The reference merge of ascending inputs is ascending. -/
theorem ascending_refMerge (B : Int → SyncEntityState) :
    ∀ (T : List Token) (L : List SyncEntityState), AscendingTokens T → Ascending L →
      Ascending (refMerge B T L) := by
  intro T
  induction T with
  | nil => intro L _ hL; simpa [refMerge] using hL
  | cons t ts ih =>
    intro L hT hL
    obtain ⟨hhd, hts⟩ := List.pairwise_cons.mp hT
    have hL' : Ascending (L.filter (fun e => decide (t.number < e.number))) :=
      List.Pairwise.filter _ hL
    have hup : ∀ b ∈ refMerge B ts (L.filter (fun e => decide (t.number < e.number))),
        t.number < b.number := by
      intro b hb
      rcases number_of_mergeSpec ((mem_refMerge_iff B ts _ hts hL' b).mp hb) with
        ⟨e, he, hn⟩ | ⟨t1, ht1, _, hn⟩
      · simp only [List.mem_filter, decide_eq_true_eq] at he
        omega
      · have := hhd t1 ht1; omega
    have htp : ∀ b ∈ tokenPart B t L, b.number = t.number := by
      intro b hb
      unfold tokenPart at hb
      cases hrm : t.remove with
      | true => simp [hrm] at hb
      | false =>
        simp only [hrm, Bool.false_eq_true, if_false, List.mem_singleton] at hb
        rw [hb]; rfl
    rw [refMerge_cons_of_ascending B t ts L hL]
    unfold Ascending
    rw [List.pairwise_append, List.pairwise_append]
    refine ⟨⟨List.Pairwise.filter _ hL, ?_, ?_⟩, ih _ hts hL', ?_⟩
    · unfold tokenPart
      cases t.remove <;> simp
    · intro a ha b hb
      simp only [List.mem_filter, decide_eq_true_eq] at ha
      rw [htp b hb]; exact ha.2
    · intro a ha b hb
      have hb' := hup b hb
      rcases List.mem_append.mp ha with h | h
      · simp only [List.mem_filter, decide_eq_true_eq] at h
        omega
      · rw [htp a h]; exact hb'

/-- The reference merge is no longer than the base list plus the non-remove
tokens of the stream. -/
theorem refMerge_length_le (B : Int → SyncEntityState) :
    ∀ (T : List Token) (L : List SyncEntityState),
      (refMerge B T L).length ≤ L.length + (T.filter (fun t => !t.remove)).length := by
  intro T
  induction T with
  | nil => intro L; simp [refMerge]
  | cons t ts ih =>
    intro L
    have hsplit := List.takeWhile_append_dropWhile (fun e => decide (e.number < t.number)) L
    have hlen : L.length
        = (L.takeWhile (fun e => decide (e.number < t.number))).length
          + (L.dropWhile (fun e => decide (e.number < t.number))).length := by
      rw [← List.length_append, hsplit]
    rw [refMerge]
    cases hdw : L.dropWhile (fun e => decide (e.number < t.number)) with
    | nil =>
      rw [hdw] at hlen
      have h1 := ih []
      cases hrm : t.remove <;>
        simp only [hdw, hrm, List.length_append, List.filter_cons, Bool.not_true, Bool.not_false,
          Bool.false_eq_true, if_false, if_true, List.length_cons, List.length_nil] at hlen h1 ⊢ <;>
        omega
    | cons e es =>
      rw [hdw] at hlen
      have h1 := ih (e :: es)
      have h2 := ih es
      by_cases hgt : e.number > t.number <;> cases hrm : t.remove <;>
        simp only [hdw, hrm, hgt, List.length_append, List.filter_cons, Bool.not_true,
          Bool.not_false, Bool.false_eq_true, if_false, if_true, List.length_cons,
          List.length_nil] at hlen h1 h2 ⊢ <;>
        omega

/-- An ascending list with numbers in `[lb, E)` has at most `E - lb` entries. -/
theorem ascending_length_le (E : Int) :
    ∀ (L : List SyncEntityState) (lb : Int), Ascending L →
      (∀ e ∈ L, lb ≤ e.number ∧ e.number < E) → L = [] ∨ (L.length : Int) ≤ E - lb := by
  intro L
  induction L with
  | nil => intro _ _ _; exact Or.inl rfl
  | cons a as ih =>
    intro lb hL hr
    obtain ⟨hhd, htl⟩ := List.pairwise_cons.mp hL
    have ha := hr a (List.mem_cons_self _ _)
    right
    rcases ih (a.number + 1) htl (fun e he => by
        have := hhd e he
        have := hr e (List.mem_cons_of_mem _ he)
        omega) with h | h
    · subst h; simp only [List.length_singleton, Nat.cast_one]; omega
    · simp only [List.length_cons, Nat.cast_add, Nat.cast_one]; omega


/-! ## Claims on the entity merge -/

theorem refMerge_fits (c : Consts) (hEP : c.MAX_EDICTS ≤ c.MAX_PARSE_ENTITIES + 1)
    (B : Int → SyncEntityState) (T : List Token) (L : List SyncEntityState)
    (hT : AscendingTokens T) (hL : Ascending L)
    (hTr : ∀ t ∈ T, 1 ≤ t.number ∧ t.number < c.MAX_EDICTS)
    (hLr : ∀ e ∈ L, 1 ≤ e.number ∧ e.number < c.MAX_EDICTS) :
    (refMerge B T L).length ≤ c.MAX_PARSE_ENTITIES := by
  have hr : ∀ x ∈ refMerge B T L, (1 : Int) ≤ x.number ∧ x.number < (c.MAX_EDICTS : Int) := by
    intro x hx
    rcases number_of_mergeSpec ((mem_refMerge_iff B T L hT hL x).mp hx) with
      ⟨e, he, hn⟩ | ⟨t, ht, _, hn⟩
    · rw [← hn]; exact hLr e he
    · rw [← hn]; exact hTr t ht
  rcases ascending_length_le (c.MAX_EDICTS : Int) _ 1 (ascending_refMerge B T L hT hL) hr with
    h | h
  · rw [h]; simp
  · omega

/-- C1. For a base list `L` and a token stream `T`, both strictly ascending
with numbers in `[1, MAX_EDICTS)`, carried by a message that ends with the
terminator, `SNAP_ParsePacketEntities` returns normally and the entity list of
the new frame is strictly ascending and holds exactly (i) the entities of `L`
without token, unchanged, (ii) the non-remove tokens whose number is in `L`,
decoded against that entity, and (iii) the non-remove tokens whose number is
not in `L`, decoded against the baseline of their number. -/
theorem SNAP_ParsePacketEntities_merge {M : Type} (ops : MsgOps M) (c : Consts) (j : Nat)
    (hP : c.MAX_PARSE_ENTITIES = 2 ^ j) (hE0 : 0 < c.MAX_EDICTS) (hE : c.MAX_EDICTS ≤ 99999)
    (hEP : c.MAX_EDICTS ≤ c.MAX_PARSE_ENTITIES + 1)
    (B : Int → SyncEntityState) (mem : Frames) (oldframe : Option Nat) (newframe : Nat)
    (hne : ∀ o, oldframe = some o → o ≠ newframe)
    (T : List Token) (msg msg1 : M) (henc : Encodes ops msg T msg1)
    (hL : Ascending (entityList c (baseFrame mem oldframe)))
    (hLr : ∀ e ∈ entityList c (baseFrame mem oldframe), 1 ≤ e.number ∧ e.number < c.MAX_EDICTS)
    (hT : AscendingTokens T)
    (hTr : ∀ t ∈ T, 1 ≤ t.number ∧ t.number < c.MAX_EDICTS)
    (fuel : Nat) (hf : (baseFrame mem oldframe).numEntities + T.length < fuel) :
    ∃ mem1, SNAP_ParsePacketEntities ops c fuel msg mem oldframe newframe B
        = Res.ok (msg1, mem1) ∧
      Ascending (entityList c (mem1 newframe)) ∧
      ∀ x, x ∈ entityList c (mem1 newframe)
        ↔ MergeSpec B T (entityList c (baseFrame mem oldframe)) x := by
  obtain ⟨mem1, hrun, _, hout⟩ :=
    parsePacketEntities_eq_refMerge ops c hP hE0 hE B mem oldframe newframe hne T msg msg1 henc
      (fun t ht => by have := hTr t ht; omega)
      (fun e he => by have := hLr e he; omega) fuel hf
  have hout' := hout (refMerge_fits c hEP B T _ hT hL hTr hLr)
  refine ⟨mem1, hrun, ?_, ?_⟩
  · rw [hout']; exact ascending_refMerge B T _ hT hL
  · intro x; rw [hout']; exact mem_refMerge_iff B T _ hT hL x

theorem scenario1_encodes :
    Encodes wordOps scenario1Msg scenario1Tokens { data := [], readcount := 6, cursize := 6 } :=
  ⟨_, ⟨_, _, rfl, by decide, fun _ => rfl, _, _, rfl, by decide, rfl, rfl⟩,
    false, rfl, by decide⟩

/-- Scenario 1 run through C1: base `[1, 3, 5]`, tokens `delta(3), remove(5)`,
terminator; the new frame holds entity 1 unchanged and entity 3 updated. -/
theorem SNAP_ParsePacketEntities_merge_witness :
    Res.entitiesAt smallConsts 1
        (SNAP_ParsePacketEntities wordOps smallConsts 6 scenario1Msg scenario1Mem (some 0) 1
          zeroBaselines)
      = some [entAt 1 0 0 0, entAt 3 10 0 0] ∧
    ∃ mem1, SNAP_ParsePacketEntities wordOps smallConsts 6 scenario1Msg scenario1Mem (some 0) 1
        zeroBaselines = Res.ok ({ data := [], readcount := 6, cursize := 6 }, mem1) ∧
      Ascending (entityList smallConsts (mem1 1)) ∧
      ∀ x, x ∈ entityList smallConsts (mem1 1)
        ↔ MergeSpec zeroBaselines scenario1Tokens
            (entityList smallConsts (baseFrame scenario1Mem (some 0))) x :=
  ⟨by decide,
    SNAP_ParsePacketEntities_merge wordOps smallConsts 10 (by decide) (by decide) (by decide)
      (by decide) zeroBaselines scenario1Mem (some 0) 1
      (by intro o h; cases h; decide) scenario1Tokens scenario1Msg _ scenario1_encodes
      (by unfold Ascending; decide) (by decide) (by unfold AscendingTokens; decide) (by decide)
      6 (by decide)⟩

/-- C2. For a strictly ascending base list and a strictly ascending token
stream, numbers in `[1, MAX_EDICTS)`, `SNAP_ParsePacketEntities` returns
normally with `numEntities` at most the size of the base plus the number of
non-remove tokens; and when that count is at most `MAX_PARSE_ENTITIES`, the
entity list of the new frame is strictly ascending by number, has no duplicate
number and does not contain number 0. -/
theorem SNAP_ParsePacketEntities_ascending {M : Type} (ops : MsgOps M) (c : Consts) (j : Nat)
    (hP : c.MAX_PARSE_ENTITIES = 2 ^ j) (hE0 : 0 < c.MAX_EDICTS) (hE : c.MAX_EDICTS ≤ 99999)
    (B : Int → SyncEntityState) (mem : Frames) (oldframe : Option Nat) (newframe : Nat)
    (hne : ∀ o, oldframe = some o → o ≠ newframe)
    (T : List Token) (msg msg1 : M) (henc : Encodes ops msg T msg1)
    (hL : Ascending (entityList c (baseFrame mem oldframe)))
    (hLr : ∀ e ∈ entityList c (baseFrame mem oldframe), 1 ≤ e.number ∧ e.number < c.MAX_EDICTS)
    (hT : AscendingTokens T)
    (hTr : ∀ t ∈ T, 1 ≤ t.number ∧ t.number < c.MAX_EDICTS)
    (fuel : Nat) (hf : (baseFrame mem oldframe).numEntities + T.length < fuel) :
    ∃ mem1, SNAP_ParsePacketEntities ops c fuel msg mem oldframe newframe B
        = Res.ok (msg1, mem1) ∧
      (mem1 newframe).numEntities
        ≤ (baseFrame mem oldframe).numEntities + (T.filter (fun t => !t.remove)).length ∧
      ((mem1 newframe).numEntities ≤ c.MAX_PARSE_ENTITIES →
        Ascending (entityList c (mem1 newframe)) ∧
        ((entityList c (mem1 newframe)).map (fun e => e.number)).Nodup ∧
        ∀ e ∈ entityList c (mem1 newframe), e.number ≠ 0) := by
  obtain ⟨mem1, hrun, hcount, hout⟩ :=
    parsePacketEntities_eq_refMerge ops c hP hE0 hE B mem oldframe newframe hne T msg msg1 henc
      (fun t ht => by have := hTr t ht; omega)
      (fun e he => by have := hLr e he; omega) fuel hf
  refine ⟨mem1, hrun, ?_, ?_⟩
  · rw [hcount, ← entityList_length c (baseFrame mem oldframe)]
    exact refMerge_length_le B T _
  · intro hfit
    rw [hcount] at hfit
    have hasc := ascending_refMerge B T _ hT hL
    rw [hout hfit]
    refine ⟨hasc, ?_, ?_⟩
    · unfold List.Nodup
      rw [List.pairwise_map]
      exact List.Pairwise.imp (fun h => ne_of_lt h) hasc
    · intro e he
      rcases number_of_mergeSpec ((mem_refMerge_iff B T _ hT hL e).mp he) with
        ⟨e1, he1, hn⟩ | ⟨t, ht, _, hn⟩
      · have := hLr e1 he1; omega
      · have := hTr t ht; omega

/-- Scenario 1 run through C2. -/
theorem SNAP_ParsePacketEntities_ascending_witness :
    ∃ mem1, SNAP_ParsePacketEntities wordOps smallConsts 6 scenario1Msg scenario1Mem (some 0) 1
        zeroBaselines = Res.ok ({ data := [], readcount := 6, cursize := 6 }, mem1) ∧
      (mem1 1).numEntities
        ≤ (baseFrame scenario1Mem (some 0)).numEntities
          + (scenario1Tokens.filter (fun t => !t.remove)).length ∧
      ((mem1 1).numEntities ≤ smallConsts.MAX_PARSE_ENTITIES →
        Ascending (entityList smallConsts (mem1 1)) ∧
        ((entityList smallConsts (mem1 1)).map (fun e => e.number)).Nodup ∧
        ∀ e ∈ entityList smallConsts (mem1 1), e.number ≠ 0) :=
  SNAP_ParsePacketEntities_ascending wordOps smallConsts 10 (by decide) (by decide) (by decide)
    zeroBaselines scenario1Mem (some 0) 1
    (by intro o h; cases h; decide) scenario1Tokens scenario1Msg _ scenario1_encodes
    (by unfold Ascending; decide) (by decide) (by unfold AscendingTokens; decide) (by decide)
    6 (by decide)

/-- C9. On a message that starts with tokens whose numbers are non-zero, below
`MAX_EDICTS` and read inside the message, followed by an entity number that is
0, out of range, or read past the end of the message, `SNAP_ParsePacketEntities`
drops the connection exactly when that last number is at least `MAX_EDICTS` or
the read cursor exceeds the message size right after reading it, and returns
normally otherwise. -/
theorem SNAP_ParsePacketEntities_drop_iff {M : Type} (ops : MsgOps M) (c : Consts) (j : Nat)
    (hP : c.MAX_PARSE_ENTITIES = 2 ^ j) (hE : c.MAX_EDICTS ≤ 99999)
    (B : Int → SyncEntityState) (mem : Frames) (oldframe : Option Nat) (newframe : Nat)
    (hne : ∀ o, oldframe = some o → o ≠ newframe)
    (T : List Token) (msg m : M) (htoks : EncodesTokens ops msg T m)
    (hvalid : ∀ t ∈ T, t.number ≠ 0 ∧ t.number < c.MAX_EDICTS)
    (hbase : ∀ e ∈ entityList c (baseFrame mem oldframe), e.number ≠ 99999)
    (hstop : (ops.MSG_ReadEntityNumber m).1.1 = 0 ∨
      (ops.MSG_ReadEntityNumber m).1.1 ≥ c.MAX_EDICTS ∨
      ops.readcount (ops.MSG_ReadEntityNumber m).2 > ops.cursize (ops.MSG_ReadEntityNumber m).2)
    (fuel : Nat) (hf : (baseFrame mem oldframe).numEntities + T.length < fuel) :
    ((∃ r, SNAP_ParsePacketEntities ops c fuel msg mem oldframe newframe B = Res.drop r) ↔
      ((ops.MSG_ReadEntityNumber m).1.1 ≥ c.MAX_EDICTS ∨
        ops.readcount (ops.MSG_ReadEntityNumber m).2
          > ops.cursize (ops.MSG_ReadEntityNumber m).2)) ∧
    (¬ ((ops.MSG_ReadEntityNumber m).1.1 ≥ c.MAX_EDICTS ∨
        ops.readcount (ops.MSG_ReadEntityNumber m).2
          > ops.cursize (ops.MSG_ReadEntityNumber m).2) →
      ∃ mem1, SNAP_ParsePacketEntities ops c fuel msg mem oldframe newframe B
        = Res.ok ((ops.MSG_ReadEntityNumber m).2, mem1)) := by
  have h0 := mergeInv_init c mem oldframe newframe hne
  have hl := entityList_length c (baseFrame mem oldframe)
  obtain ⟨mem1, cur1, rest1, acc1, hp, h1, _, hs⟩ :=
    parseTokens_tokens ops hP hE B T fuel msg m _ _ _ [] htoks hvalid h0 (by rw [hl]; exact hf)
  obtain ⟨k, hk⟩ : ∃ k, fuel - T.length = k + 1 := ⟨fuel - T.length - 1, by omega⟩
  rw [hk] at hp
  by_cases hbad : (ops.MSG_ReadEntityNumber m).1.1 ≥ c.MAX_EDICTS
  · have hrun : SNAP_ParsePacketEntities ops c fuel msg mem oldframe newframe B
        = Res.drop DropReason.badNumber := by
      simp only [SNAP_ParsePacketEntities, hp, parseTokens, hbad, if_true]
    exact ⟨⟨fun _ => Or.inl hbad, fun _ => ⟨_, hrun⟩⟩, fun hn => absurd (Or.inl hbad) hn⟩
  · by_cases hover : ops.readcount (ops.MSG_ReadEntityNumber m).2
        > ops.cursize (ops.MSG_ReadEntityNumber m).2
    · have hrun : SNAP_ParsePacketEntities ops c fuel msg mem oldframe newframe B
          = Res.drop DropReason.endOfMessage := by
        simp only [SNAP_ParsePacketEntities, hp, parseTokens, hbad, hover, if_true, if_false]
      exact ⟨⟨fun _ => Or.inr hover, fun _ => ⟨_, hrun⟩⟩, fun hn => absurd (Or.inr hover) hn⟩
    · have hzero : (ops.MSG_ReadEntityNumber m).1.1 = 0 := by
        rcases hstop with h | h | h
        · exact h
        · exact absurd h hbad
        · exact absurd h hover
      obtain ⟨mem2, hc, _, _⟩ := copyRemaining_spec hP fuel mem1 cur1 rest1 acc1 h1
        (fun e he => hbase e (hs.subset he))
        (by have := hs.length_le; rw [hl] at this; omega)
      have hrun : SNAP_ParsePacketEntities ops c fuel msg mem oldframe newframe B
          = Res.ok ((ops.MSG_ReadEntityNumber m).2, mem2) := by
        have c0 : ¬ (0 : Int) ≥ (c.MAX_EDICTS : Int) := by rw [hzero] at hbad; exact hbad
        simp only [SNAP_ParsePacketEntities, hp, parseTokens, hover, hzero, c0, if_true,
          if_false, hc]
      refine ⟨⟨?_, ?_⟩, fun _ => ⟨mem2, hrun⟩⟩
      · rintro ⟨r, hr⟩
        rw [hrun] at hr
        cases hr
      · rintro (h | h)
        · exact absurd h hbad
        · exact absurd h hover

/-- A message with token `delta(3)` followed by the entity number 2000 is
dropped with the bad-number reason. -/
theorem SNAP_ParsePacketEntities_drop_iff_witness :
    Res.dropReason (SNAP_ParsePacketEntities wordOps smallConsts 6 badNumberMsg scenario1Mem
        (some 0) 1 zeroBaselines) = some DropReason.badNumber ∧
    ((∃ r, SNAP_ParsePacketEntities wordOps smallConsts 6 badNumberMsg scenario1Mem (some 0) 1
        zeroBaselines = Res.drop r) ↔
      ((wordOps.MSG_ReadEntityNumber { data := [2000], readcount := 4, cursize := 5 }).1.1
          ≥ smallConsts.MAX_EDICTS ∨
        wordOps.readcount
            (wordOps.MSG_ReadEntityNumber { data := [2000], readcount := 4, cursize := 5 }).2
          > wordOps.cursize
            (wordOps.MSG_ReadEntityNumber { data := [2000], readcount := 4, cursize := 5 }).2)) :=
  ⟨by decide,
    (SNAP_ParsePacketEntities_drop_iff wordOps smallConsts 10 (by decide) (by decide)
      zeroBaselines scenario1Mem (some 0) 1 (by intro o h; cases h; decide)
      [originToken 3 10 0 0] badNumberMsg { data := [2000], readcount := 4, cursize := 5 }
      ⟨_, _, rfl, by decide, fun _ => rfl, rfl⟩ (by decide) (by decide)
      (Or.inr (Or.inl (by decide))) 6 (by decide)).1⟩

/-- With an empty base every non-remove token is decoded against the baseline
of its number, in wire order. -/
theorem refMerge_nil_base (B : Int → SyncEntityState) :
    ∀ (T : List Token), (∀ t ∈ T, t.remove = false) →
      refMerge B T [] = T.map (fun t => t.decode (B t.number)) := by
  intro T
  induction T with
  | nil => intro _; rfl
  | cons t ts ih =>
    intro h
    have hrm := h t (List.mem_cons_self _ _)
    rw [refMerge]
    simp only [List.takeWhile_nil, List.dropWhile_nil, hrm, Bool.false_eq_true, if_false,
      List.nil_append, List.map_cons]
    rw [ih (fun t1 h1 => h t1 (List.mem_cons_of_mem _ h1))]

/-- C6, amended. When the base frame is absent or its entity list is empty,
for every stream of at most `MAX_PARSE_ENTITIES` non-remove tokens with numbers
in `[1, MAX_EDICTS)`, the entity list of the new frame is the list of the
tokens, in wire order, each decoded against the baseline of its number and
carrying its number. -/
theorem SNAP_ParsePacketEntities_baseline {M : Type} (ops : MsgOps M) (c : Consts) (j : Nat)
    (hP : c.MAX_PARSE_ENTITIES = 2 ^ j) (hE0 : 0 < c.MAX_EDICTS) (hE : c.MAX_EDICTS ≤ 99999)
    (B : Int → SyncEntityState) (mem : Frames) (oldframe : Option Nat) (newframe : Nat)
    (hne : ∀ o, oldframe = some o → o ≠ newframe)
    (hempty : (baseFrame mem oldframe).numEntities = 0)
    (T : List Token) (msg msg1 : M) (henc : Encodes ops msg T msg1)
    (hrm : ∀ t ∈ T, t.remove = false)
    (hTr : ∀ t ∈ T, 1 ≤ t.number ∧ t.number < c.MAX_EDICTS)
    (hlen : T.length ≤ c.MAX_PARSE_ENTITIES)
    (fuel : Nat) (hf : T.length < fuel) :
    ∃ mem1, SNAP_ParsePacketEntities ops c fuel msg mem oldframe newframe B
        = Res.ok (msg1, mem1) ∧
      entityList c (mem1 newframe) = T.map (fun t => t.decode (B t.number)) ∧
      (entityList c (mem1 newframe)).map (fun e => e.number) = T.map (fun t => t.number) := by
  have hnil : entityList c (baseFrame mem oldframe) = [] := by
    simp [entityList, hempty]
  obtain ⟨mem1, hrun, _, hout⟩ :=
    parsePacketEntities_eq_refMerge ops c hP hE0 hE B mem oldframe newframe hne T msg msg1 henc
      (fun t ht => by have := hTr t ht; omega)
      (fun e he => by rw [hnil] at he; cases he) fuel (by rw [hempty]; omega)
  rw [hnil, refMerge_nil_base B T hrm] at hout
  have hout' := hout (by simpa using hlen)
  refine ⟨mem1, hrun, hout', ?_⟩
  rw [hout', List.map_map]
  rfl

/-- Scenario 2: no base frame, baseline 7 at the origin, token
`delta(7, pos=(1,2,3))`; the new frame holds entity 7 at `(1,2,3)` with the
model of the baseline. -/
theorem SNAP_ParsePacketEntities_baseline_witness :
    Res.entitiesAt smallConsts 1
        (SNAP_ParsePacketEntities wordOps smallConsts 2 scenario2Msg emptyMem none 1
          scenario2Baselines)
      = some [{ SyncEntityState.zero with number := 7, model := 42, origin := ⟨1, 2, 3⟩ }] ∧
    ∃ mem1, SNAP_ParsePacketEntities wordOps smallConsts 2 scenario2Msg emptyMem none 1
        scenario2Baselines = Res.ok ({ data := [], readcount := 5, cursize := 5 }, mem1) ∧
      entityList smallConsts (mem1 1)
        = [originToken 7 1 2 3].map (fun t => t.decode (scenario2Baselines t.number)) ∧
      (entityList smallConsts (mem1 1)).map (fun e => e.number)
        = [originToken 7 1 2 3].map (fun t => t.number) :=
  ⟨by decide,
    SNAP_ParsePacketEntities_baseline wordOps smallConsts 10 (by decide) (by decide) (by decide)
      scenario2Baselines emptyMem none 1 (by intro o h; cases h) rfl
      [originToken 7 1 2 3] scenario2Msg _
      ⟨_, ⟨_, _, rfl, by decide, fun _ => rfl, rfl⟩, false, rfl, by decide⟩
      (by decide) (by decide) (by decide) 2 (by decide)⟩

theorem sevenWords_encodes (n r s : Nat) (h : r + 4 * n + 1 ≤ s) :
    Encodes wordOps { data := sevenWords n, readcount := r, cursize := s }
      (List.replicate n (originToken 7 0 0 0))
      { data := [], readcount := r + 4 * n + 1, cursize := s } := by
  induction n generalizing r with
  | zero => exact ⟨_, rfl, false, rfl, by simpa using h⟩
  | succ n ih =>
    obtain ⟨m, hm, hterm⟩ := ih (r + 4) (by omega)
    have e : r + 4 + 4 * n + 1 = r + 4 * (n + 1) + 1 := by omega
    rw [e] at hterm
    refine ⟨m, ⟨_, _, rfl, ?_, fun _ => rfl, hm⟩, hterm⟩
    show r + 1 ≤ s
    omega

theorem longTokens_length : longTokens.length = 1025 := by
  simp only [longTokens, List.length_cons, List.length_replicate]

theorem getElem?_cons_replicate_last (a b : Token) (n : Nat) :
    (a :: List.replicate (n + 1) b)[n + 1]? = some b := by
  rw [List.getElem?_cons_succ, List.getElem?_replicate, if_pos (Nat.lt_succ_self n)]

theorem longTokens_first : longTokens[0]? = some (originToken 8 1 2 3) := by
  unfold longTokens
  exact List.getElem?_cons_zero

theorem longTokens_last : longTokens[1024]? = some (originToken 7 0 0 0) := by
  unfold longTokens
  exact getElem?_cons_replicate_last _ _ 1023

/-- C6 as stated fails on a stream of 1025 tokens: the parse returns normally
with 1025 entities, but entries 0 and 1024 of the entity list are read from the
same array element, so the list is not the list of the decoded tokens, whose
first number is 8 and whose last number is 7. -/
theorem SNAP_ParsePacketEntities_baseline_counterexample :
    ∃ mem1, SNAP_ParsePacketEntities wordOps smallConsts 1026 longMsg emptyMem none 1
        zeroBaselines = Res.ok ({ data := [], readcount := 4101, cursize := 4101 }, mem1) ∧
      (∀ t ∈ longTokens, t.remove = false ∧ 1 ≤ t.number ∧ t.number < smallConsts.MAX_EDICTS) ∧
      (mem1 1).numEntities = 1025 ∧
      entityList smallConsts (mem1 1)
        ≠ longTokens.map (fun t => t.decode (zeroBaselines t.number)) := by
  have henc : Encodes wordOps longMsg longTokens
      { data := [], readcount := 4101, cursize := 4101 } := by
    obtain ⟨m, hm, hterm⟩ := sevenWords_encodes 1024 4 4101 (by decide)
    exact ⟨m, ⟨_, _, rfl, by decide, fun _ => rfl, hm⟩, hterm⟩
  have htok : ∀ t ∈ longTokens,
      t.remove = false ∧ 1 ≤ t.number ∧ t.number < smallConsts.MAX_EDICTS := by
    intro t ht
    rcases List.mem_cons.mp ht with h | h
    · subst h; decide
    · rw [List.eq_of_mem_replicate h]; decide
  have hbase : entityList smallConsts (baseFrame emptyMem none) = [] := rfl
  obtain ⟨mem1, hrun, hcount, _⟩ :=
    parsePacketEntities_eq_refMerge wordOps smallConsts (j := 10) (by decide) (by decide)
      (by decide) zeroBaselines emptyMem none 1 (by intro o h; cases h) longTokens longMsg _ henc
      (fun t ht => by have := htok t ht; omega)
      (fun e he => by rw [hbase] at he; cases he) 1026
      (by rw [longTokens_length]; decide)
  have hn : (mem1 1).numEntities = 1025 := by
    rw [hcount, hbase, refMerge_nil_base zeroBaselines longTokens (fun t ht => (htok t ht).1),
      List.length_map, longTokens_length]
  refine ⟨mem1, hrun, htok, hn, ?_⟩
  intro heq
  have h0 : (entityList smallConsts (mem1 1))[0]? = (entityList smallConsts (mem1 1))[1024]? := by
    simp only [entityList, hn, List.getElem?_map]
    rw [List.getElem?_range (by decide), List.getElem?_range (by decide)]
    rfl
  rw [heq, List.getElem?_map, List.getElem?_map, longTokens_first, longTokens_last] at h0
  have h1 := congrArg (Option.map (fun e => e.number)) h0
  exact absurd h1 (by decide)

/-! ## The frame header -/

/-- With a power of two capacity the ring index is the remainder modulo the
capacity. -/
theorem ringIndex_eq_emod (c : Consts) {k : Nat} (hU : c.UPDATE_BACKUP = 2 ^ k) (hk : k ≤ 64)
    (x : Int) : c.ringIndex x = (x % (c.UPDATE_BACKUP : Int)).toNat := by
  unfold Consts.ringIndex Consts.UPDATE_MASK
  rw [hU, Nat.and_pow_two_sub_one_eq_mod]
  have h64 : (0 : Int) ≤ x % 2 ^ 64 := Int.emod_nonneg _ (by positivity)
  have hd : ((2 ^ k : Nat) : Int) ∣ (2 ^ 64 : Int) := by
    have : (2 : Nat) ^ k ∣ 2 ^ 64 := Nat.pow_dvd_pow 2 hk
    exact_mod_cast this
  apply Int.ofNat.inj
  simp only [Int.ofNat_eq_coe]
  rw [Int.natCast_mod, Int.toNat_of_nonneg h64, Int.emod_emod_of_dvd _ hd,
    Int.toNat_of_nonneg (Int.emod_nonneg _ (by positivity))]

theorem ringIndex_lt (c : Consts) {k : Nat} (hU : c.UPDATE_BACKUP = 2 ^ k) (hk : k ≤ 64)
    (x : Int) : c.ringIndex x < c.UPDATE_BACKUP := by
  rw [ringIndex_eq_emod c hU hk]
  have hpos : (0 : Int) < (c.UPDATE_BACKUP : Int) := by rw [hU]; positivity
  have h1 := Int.emod_lt_of_pos x hpos
  have h2 := Int.emod_nonneg x (ne_of_gt hpos)
  omega

theorem validateDelta_iff (c : Consts) (mem : Frames) (backup : Option Nat) (f : snapshot_t) :
    validateDelta c mem backup f = true ↔
      (f.delta = false ∨
        (f.delta = true ∧ f.deltaFrameNum > 0 ∧
          ∃ b, backup = some b ∧ (mem (b + c.ringIndex f.deltaFrameNum)).valid = true ∧
            (mem (b + c.ringIndex f.deltaFrameNum)).serverFrame = f.deltaFrameNum)) := by
  unfold validateDelta
  cases hd : f.delta with
  | false => simp
  | true =>
    simp only [Bool.not_true, Bool.false_eq_true, if_false, true_and, false_or]
    by_cases hle : f.deltaFrameNum ≤ 0
    · simp only [hle, if_true, Bool.false_eq_true, false_iff]
      rintro ⟨hgt, _⟩
      omega
    · have hgt : f.deltaFrameNum > 0 := by omega
      simp only [hle, if_false, hgt, true_and]
      cases backup with
      | none => simp
      | some b =>
        simp only [Option.some.injEq, exists_eq_left']
        cases hv : (mem (b + c.ringIndex f.deltaFrameNum)).valid <;> simp

theorem readHeaderFields_valid {M : Type} (ops : MsgOps M) (c : Consts)
    (serverTime snapNum : Int) (msg : M) :
    (readHeaderFields ops c serverTime snapNum msg).1.valid = false ∧
      (readHeaderFields ops c serverTime snapNum msg).1.serverFrame = snapNum ∧
      (readHeaderFields ops c serverTime snapNum msg).1.numEntities = 0 ∧
      (readHeaderFields ops c serverTime snapNum msg).1.numgamecommands = 0 :=
  ⟨rfl, rfl, rfl, rfl⟩

/-- The header parse spelled out: the frame it stores and the `valid` flag. -/
theorem parseFrameHeader_eq {M : Type} (ops : MsgOps M) (c : Consts) (msg : M) (mem : Frames)
    (newframe backup : Option Nat) (nf : Nat)
    (hnf : (match backup with
      | some b =>
        some (b + c.ringIndex (wrapInt32 (ops.MSG_ReadUintBase128 (ops.MSG_ReadIntBase128 msg).2).1))
      | none => newframe) = some nf) :
    ∃ msg1 mem1, SNAP_ParseFrameHeader ops c msg mem newframe backup = Res.ok (msg1, mem1, nf) ∧
      (∀ a, a ≠ nf → mem1 a = mem a) ∧
      (mem1 nf).serverFrame
        = wrapInt32 (ops.MSG_ReadUintBase128 (ops.MSG_ReadIntBase128 msg).2).1 ∧
      (mem1 nf).numEntities = 0 ∧ (mem1 nf).numgamecommands = 0 ∧
      ((mem1 nf).valid = true ↔
        ((mem1 nf).delta = false ∨
          ((mem1 nf).delta = true ∧ (mem1 nf).deltaFrameNum > 0 ∧
            ∃ b, backup = some b ∧
              (Function.update mem nf snapshot_t.zero
                (b + c.ringIndex (mem1 nf).deltaFrameNum)).valid = true ∧
              (Function.update mem nf snapshot_t.zero
                (b + c.ringIndex (mem1 nf).deltaFrameNum)).serverFrame
                  = (mem1 nf).deltaFrameNum))) := by
  have hf := readHeaderFields_valid ops c (ops.MSG_ReadIntBase128 msg).1
    (wrapInt32 (ops.MSG_ReadUintBase128 (ops.MSG_ReadIntBase128 msg).2).1)
    (ops.MSG_ReadUintBase128 (ops.MSG_ReadIntBase128 msg).2).2
  unfold SNAP_ParseFrameHeader
  simp only [hnf]
  generalize readHeaderFields ops c (ops.MSG_ReadIntBase128 msg).1
    (wrapInt32 (ops.MSG_ReadUintBase128 (ops.MSG_ReadIntBase128 msg).2).1)
    (ops.MSG_ReadUintBase128 (ops.MSG_ReadIntBase128 msg).2).2 = h at hf ⊢
  obtain ⟨hv, hsf, hne, hng⟩ := hf
  refine ⟨_, _, rfl, ?_, ?_, ?_, ?_, ?_⟩
  · intro a ha
    rw [Function.update_noteq ha, Function.update_noteq ha]
  · rw [Function.update_same]; exact hsf
  · rw [Function.update_same]; exact hne
  · rw [Function.update_same]; exact hng
  · rw [Function.update_same]
    show validateDelta c (Function.update mem nf h.1) backup h.1 = true ↔
      (h.1.delta = false ∨ (h.1.delta = true ∧ h.1.deltaFrameNum > 0 ∧
        ∃ b, backup = some b ∧
          (Function.update mem nf snapshot_t.zero (b + c.ringIndex h.1.deltaFrameNum)).valid
            = true ∧
          (Function.update mem nf snapshot_t.zero
            (b + c.ringIndex h.1.deltaFrameNum)).serverFrame = h.1.deltaFrameNum))
    rw [validateDelta_iff]
    have hslot : ∀ a,
        ((Function.update mem nf h.1 a).valid = true ∧
          (Function.update mem nf h.1 a).serverFrame = h.1.deltaFrameNum) ↔
        ((Function.update mem nf snapshot_t.zero a).valid = true ∧
          (Function.update mem nf snapshot_t.zero a).serverFrame = h.1.deltaFrameNum) := by
      intro a
      by_cases ha : a = nf
      · subst ha
        rw [Function.update_same, Function.update_same, hv]
        constructor
        · rintro ⟨h1, _⟩; cases h1
        · rintro ⟨h1, _⟩; cases h1
      · rw [Function.update_noteq ha, Function.update_noteq ha]
    constructor
    · rintro (h1 | ⟨h1, h2, b, hb, h3⟩)
      · exact Or.inl h1
      · exact Or.inr ⟨h1, h2, b, hb, (hslot _).mp h3⟩
    · rintro (h1 | ⟨h1, h2, b, hb, h3⟩)
      · exact Or.inl h1
      · exact Or.inr ⟨h1, h2, b, hb, (hslot _).mpr h3⟩

/-- C3. `SNAP_ParseFrameHeader` sets `valid` exactly when the delta flag is
clear, or the delta flag is set, `deltaFrameNum > 0`, a ring is supplied and the
slot `backup[deltaFrameNum & UPDATE_MASK]`, read after the slot of the new frame
has been zeroed, is valid with `serverFrame == deltaFrameNum`. In particular a
delta frame whose `deltaFrameNum` is congruent to its `serverFrame` modulo the
ring capacity is invalid. -/
theorem SNAP_ParseFrameHeader_valid_iff {M : Type} (ops : MsgOps M) (c : Consts) (k : Nat)
    (hU : c.UPDATE_BACKUP = 2 ^ k) (hk : k ≤ 64) (msg : M) (mem : Frames)
    (newframe backup : Option Nat) (hptr : newframe ≠ none ∨ backup ≠ none) :
    ∃ msg1 mem1 nf, SNAP_ParseFrameHeader ops c msg mem newframe backup
        = Res.ok (msg1, mem1, nf) ∧
      ((mem1 nf).valid = true ↔
        ((mem1 nf).delta = false ∨
          ((mem1 nf).delta = true ∧ (mem1 nf).deltaFrameNum > 0 ∧
            ∃ b, backup = some b ∧
              (Function.update mem nf snapshot_t.zero
                (b + c.ringIndex (mem1 nf).deltaFrameNum)).valid = true ∧
              (Function.update mem nf snapshot_t.zero
                (b + c.ringIndex (mem1 nf).deltaFrameNum)).serverFrame
                  = (mem1 nf).deltaFrameNum))) ∧
      ((mem1 nf).delta = true → backup ≠ none →
        (mem1 nf).deltaFrameNum % (c.UPDATE_BACKUP : Int)
          = (mem1 nf).serverFrame % (c.UPDATE_BACKUP : Int) →
        (mem1 nf).valid = false) := by
  have hsome : ∃ nf, (match backup with
      | some b =>
        some (b + c.ringIndex (wrapInt32 (ops.MSG_ReadUintBase128 (ops.MSG_ReadIntBase128 msg).2).1))
      | none => newframe) = some nf := by
    cases backup with
    | some b => exact ⟨_, rfl⟩
    | none =>
      cases newframe with
      | some a => exact ⟨a, rfl⟩
      | none => rcases hptr with h | h <;> exact absurd rfl h
  obtain ⟨nf, hnf⟩ := hsome
  obtain ⟨msg1, mem1, hrun, _, hsf, _, _, hiff⟩ :=
    parseFrameHeader_eq ops c msg mem newframe backup nf hnf
  refine ⟨msg1, mem1, nf, hrun, hiff, ?_⟩
  intro hdelta hb hcong
  cases hbk : backup with
  | none => exact absurd hbk hb
  | some b =>
    rw [hbk] at hnf
    simp only [Option.some.injEq] at hnf
    by_contra hv
    have hv' : (mem1 nf).valid = true := by
      cases h : (mem1 nf).valid
      · exact absurd h hv
      · rfl
    rcases hiff.mp hv' with h | ⟨_, _, b1, hb1, hval, _⟩
    · rw [hdelta] at h; cases h
    · rw [hbk] at hb1
      cases hb1
      have hidx : c.ringIndex (mem1 nf).deltaFrameNum = c.ringIndex (mem1 nf).serverFrame := by
        rw [ringIndex_eq_emod c hU hk, ringIndex_eq_emod c hU hk, hcong]
      rw [hidx, hsf, hnf, Function.update_same] at hval
      simp [snapshot_t.zero] at hval

/-- The header of frame 100, delta from frame 95, against a ring whose slot 31
holds the valid frame 95: the frame is valid. -/
theorem SNAP_ParseFrameHeader_valid_iff_witness :
    Res.frameValid (SNAP_ParseFrameHeader wordOps smallConsts header100Msg ring95Mem none (some 0))
      = some true ∧
    ∃ msg1 mem1 nf, SNAP_ParseFrameHeader wordOps smallConsts header100Msg ring95Mem none (some 0)
        = Res.ok (msg1, mem1, nf) ∧
      ((mem1 nf).valid = true ↔
        ((mem1 nf).delta = false ∨
          ((mem1 nf).delta = true ∧ (mem1 nf).deltaFrameNum > 0 ∧
            ∃ b, some 0 = some b ∧
              (Function.update ring95Mem nf snapshot_t.zero
                (b + smallConsts.ringIndex (mem1 nf).deltaFrameNum)).valid = true ∧
              (Function.update ring95Mem nf snapshot_t.zero
                (b + smallConsts.ringIndex (mem1 nf).deltaFrameNum)).serverFrame
                  = (mem1 nf).deltaFrameNum))) ∧
      ((mem1 nf).delta = true → some 0 ≠ none →
        (mem1 nf).deltaFrameNum % (smallConsts.UPDATE_BACKUP : Int)
          = (mem1 nf).serverFrame % (smallConsts.UPDATE_BACKUP : Int) →
        (mem1 nf).valid = false) :=
  ⟨by decide,
    SNAP_ParseFrameHeader_valid_iff wordOps smallConsts 5 (by decide) (by decide) header100Msg
      ring95Mem none (some 0) (Or.inr (by decide))⟩

/-- C4. For every delta frame parsed by `SNAP_ParseFrameHeader`, `valid` set
implies that a ring was supplied and that the slot
`backup[deltaFrameNum & UPDATE_MASK]`, which is not the slot of the new frame,
is valid and has `serverFrame` equal to `deltaFrameNum`, before and after the
call. -/
theorem SNAP_ParseFrameHeader_trusts_matching_slot {M : Type} (ops : MsgOps M) (c : Consts)
    (msg msg1 : M) (mem mem1 : Frames) (newframe backup : Option Nat) (nf : Nat)
    (hrun : SNAP_ParseFrameHeader ops c msg mem newframe backup = Res.ok (msg1, mem1, nf))
    (hdelta : (mem1 nf).delta = true) (hvalid : (mem1 nf).valid = true) :
    ∃ b, backup = some b ∧
      b + c.ringIndex (mem1 nf).deltaFrameNum ≠ nf ∧
      (mem (b + c.ringIndex (mem1 nf).deltaFrameNum)).valid = true ∧
      (mem (b + c.ringIndex (mem1 nf).deltaFrameNum)).serverFrame = (mem1 nf).deltaFrameNum ∧
      (mem1 (b + c.ringIndex (mem1 nf).deltaFrameNum)).valid = true ∧
      (mem1 (b + c.ringIndex (mem1 nf).deltaFrameNum)).serverFrame
        = (mem1 nf).deltaFrameNum := by
  obtain ⟨hframe, hiff⟩ : (∀ a, a ≠ nf → mem1 a = mem a) ∧
      ((mem1 nf).valid = true ↔
        ((mem1 nf).delta = false ∨
          ((mem1 nf).delta = true ∧ (mem1 nf).deltaFrameNum > 0 ∧
            ∃ b, backup = some b ∧
              (Function.update mem nf snapshot_t.zero
                (b + c.ringIndex (mem1 nf).deltaFrameNum)).valid = true ∧
              (Function.update mem nf snapshot_t.zero
                (b + c.ringIndex (mem1 nf).deltaFrameNum)).serverFrame
                  = (mem1 nf).deltaFrameNum))) := by
    cases hsel : (match backup with
      | some b =>
        some (b + c.ringIndex (wrapInt32 (ops.MSG_ReadUintBase128 (ops.MSG_ReadIntBase128 msg).2).1))
      | none => newframe) with
    | none =>
      unfold SNAP_ParseFrameHeader at hrun
      simp only [hsel] at hrun
      cases hrun
    | some a =>
      obtain ⟨msg2, mem2, hrun2, hframe, _, _, _, hiff⟩ :=
        parseFrameHeader_eq ops c msg mem newframe backup a hsel
      rw [hrun] at hrun2
      injection hrun2 with h
      have hmem : mem1 = mem2 := congrArg (fun p => p.2.1) h
      have hnf : nf = a := congrArg (fun p => p.2.2) h
      subst hmem
      subst hnf
      exact ⟨hframe, hiff⟩
  rcases hiff.mp hvalid with h | ⟨_, _, b, hb, hval, hsf⟩
  · rw [hdelta] at h; cases h
  · have hne : b + c.ringIndex (mem1 nf).deltaFrameNum ≠ nf := by
      intro heq
      rw [heq, Function.update_same] at hval
      simp [snapshot_t.zero] at hval
    rw [Function.update_noteq hne] at hval hsf
    exact ⟨b, hb, hne, hval, hsf, by rw [hframe _ hne]; exact hval,
      by rw [hframe _ hne]; exact hsf⟩

/-- Scenario 3 and a matching slot: frame 100 with `deltaFrameNum = 95` is
invalid when slot 31 holds frame 127, and when it is valid, against a ring
whose slot 31 holds frame 95, that slot matches. -/
theorem SNAP_ParseFrameHeader_trusts_matching_slot_witness :
    Res.frameValid
        (SNAP_ParseFrameHeader wordOps smallConsts header100Msg scenario3Mem none (some 0))
      = some false ∧
    ∃ b, some 0 = some b ∧
      b + smallConsts.ringIndex 95 ≠ 4 ∧
      (ring95Mem (b + smallConsts.ringIndex 95)).valid = true ∧
      (ring95Mem (b + smallConsts.ringIndex 95)).serverFrame = 95 :=
  ⟨by decide,
    (SNAP_ParseFrameHeader_trusts_matching_slot wordOps smallConsts header100Msg _ ring95Mem _
      none (some 0) 4 rfl (by decide) (by decide)).imp
      (fun _ h => ⟨h.1, h.2.1, h.2.2.1, h.2.2.2.1⟩)⟩

/-! ## Parsing a frame only writes to the new frame -/

theorem HeaderEq.refl (f : snapshot_t) : HeaderEq f f :=
  ⟨rfl, rfl, rfl, rfl, rfl, rfl, rfl, rfl⟩

theorem HeaderEq.trans {f g h : snapshot_t} (h1 : HeaderEq f g) (h2 : HeaderEq g h) :
    HeaderEq f h := by
  obtain ⟨a1, a2, a3, a4, a5, a6, a7, a8⟩ := h1
  obtain ⟨b1, b2, b3, b4, b5, b6, b7, b8⟩ := h2
  exact ⟨b1.trans a1, b2.trans a2, b3.trans a3, b4.trans a4, b5.trans a5, b6.trans a6,
    b7.trans a7, b8.trans a8⟩

theorem FrameOnly.frefl (addr : Nat) (mem : Frames) : FrameOnly addr mem mem :=
  ⟨fun _ _ => rfl, HeaderEq.refl _⟩

theorem FrameOnly.ftrans {addr : Nat} {m1 m2 m3 : Frames} (h1 : FrameOnly addr m1 m2)
    (h2 : FrameOnly addr m2 m3) : FrameOnly addr m1 m3 :=
  ⟨fun a ha => (h2.1 a ha).trans (h1.1 a ha), h1.2.trans h2.2⟩

theorem HeaderEq.of_fields {f g : snapshot_t} (h1 : g.valid = f.valid)
    (h2 : g.serverFrame = f.serverFrame) (h3 : g.serverTime = f.serverTime)
    (h4 : g.ucmdExecuted = f.ucmdExecuted) (h5 : g.delta = f.delta)
    (h6 : g.allentities = f.allentities) (h7 : g.multipov = f.multipov)
    (h8 : g.deltaFrameNum = f.deltaFrameNum) : HeaderEq f g :=
  ⟨h1, h2, h3, h4, h5, h6, h7, h8⟩

theorem FrameOnly.fupdate (addr : Nat) (mem : Frames) (g : snapshot_t)
    (h : HeaderEq (mem addr) g) : FrameOnly addr mem (Function.update mem addr g) :=
  ⟨fun _ ha => Function.update_noteq ha _ _, by rw [Function.update_same]; exact h⟩

theorem parseDeltaEntity_frameOnly {M : Type} (ops : MsgOps M) (c : Consts) (msg : M)
    (mem : Frames) (frame : Nat) (newnum : Int) (e : SyncEntityState) :
    FrameOnly frame mem (SNAP_ParseDeltaEntity ops c msg mem frame newnum e).2 :=
  FrameOnly.fupdate _ _ _ (HeaderEq.of_fields rfl rfl rfl rfl rfl rfl rfl rfl)

theorem copyOld_frameOnly (c : Consts) (mem : Frames) (oldframe : Option Nat) (newframe : Nat)
    (cur : Cursor) (mem1 : Frames) (cur1 : Cursor)
    (h : copyOld c mem oldframe newframe cur = some (mem1, cur1)) :
    FrameOnly newframe mem mem1 := by
  unfold copyOld at h
  split at h
  · cases h
  · simp only [] at h
    split at h
    · cases h
    · injection h with h
      injection h with h1 _
      rw [← h1]
      exact FrameOnly.fupdate _ _ _ (HeaderEq.of_fields rfl rfl rfl rfl rfl rfl rfl rfl)

theorem copyUnchanged_frameOnly (c : Consts) (oldframe : Option Nat) (newframe : Nat)
    (newnum : Int) :
    ∀ (fuel : Nat) (mem : Frames) (cur : Cursor) (mem1 : Frames) (cur1 : Cursor),
      copyUnchanged c oldframe newframe newnum fuel mem cur = Res.ok (mem1, cur1) →
      FrameOnly newframe mem mem1 := by
  intro fuel
  induction fuel with
  | zero => intro mem cur mem1 cur1 h; cases h
  | succ k ih =>
    intro mem cur mem1 cur1 h
    unfold copyUnchanged at h
    split at h
    · split at h
      · cases h
      · rename_i m2 c2 hc
        exact (copyOld_frameOnly c mem oldframe newframe cur m2 c2 hc).ftrans (ih _ _ _ _ h)
    · injection h with h
      injection h with h1 _
      rw [← h1]
      exact FrameOnly.frefl _ _

theorem copyRemaining_frameOnly (c : Consts) (oldframe : Option Nat) (newframe : Nat) :
    ∀ (fuel : Nat) (mem : Frames) (cur : Cursor) (mem1 : Frames),
      copyRemaining c oldframe newframe fuel mem cur = Res.ok mem1 →
      FrameOnly newframe mem mem1 := by
  intro fuel
  induction fuel with
  | zero => intro mem cur mem1 h; cases h
  | succ k ih =>
    intro mem cur mem1 h
    unfold copyRemaining at h
    split at h
    · split at h
      · cases h
      · rename_i m2 c2 hc
        exact (copyOld_frameOnly c mem oldframe newframe cur m2 c2 hc).ftrans (ih _ _ _ h)
    · injection h with h
      rw [← h]
      exact FrameOnly.frefl _ _

theorem parseTokens_frameOnly {M : Type} (ops : MsgOps M) (c : Consts) (oldframe : Option Nat)
    (newframe : Nat) (B : Int → SyncEntityState) :
    ∀ (fuel : Nat) (msg : M) (mem : Frames) (cur : Cursor) (msg1 : M) (mem1 : Frames)
      (cur1 : Cursor),
      parseTokens ops c oldframe newframe B fuel msg mem cur = Res.ok (msg1, mem1, cur1) →
      FrameOnly newframe mem mem1 := by
  intro fuel
  induction fuel with
  | zero => intro msg mem cur msg1 mem1 cur1 h; cases h
  | succ k ih =>
    intro msg mem cur msg1 mem1 cur1 h
    unfold parseTokens at h
    simp only [] at h
    split at h
    · cases h
    · split at h
      · cases h
      · split at h
        · injection h with h
          have h1 : mem = mem1 := congrArg (fun p => p.2.1) h
          rw [← h1]
          exact FrameOnly.frefl _ _
        · split at h
          · cases h
          · cases h
          · cases h
          · rename_i m2 c2 hc
            have hcu := copyUnchanged_frameOnly c oldframe newframe _ k mem cur m2 c2 hc
            split at h
            · split at h
              · exact hcu.ftrans (ih _ _ _ _ _ _ h)
              · exact (hcu.ftrans (parseDeltaEntity_frameOnly ops c _ m2 newframe _ _)).ftrans
                  (ih _ _ _ _ _ _ h)
            · split at h
              · split at h
                · split at h
                  · cases h
                  · exact hcu.ftrans (ih _ _ _ _ _ _ h)
                · split at h
                  · cases h
                  · split at h
                    · cases h
                    · exact (hcu.ftrans
                        (parseDeltaEntity_frameOnly ops c _ m2 newframe _ _)).ftrans
                        (ih _ _ _ _ _ _ h)
              · exact hcu.ftrans (ih _ _ _ _ _ _ h)

theorem parsePacketEntities_frameOnly {M : Type} (ops : MsgOps M) (c : Consts) (fuel : Nat)
    (msg : M) (mem : Frames) (oldframe : Option Nat) (newframe : Nat)
    (B : Int → SyncEntityState) (msg1 : M) (mem1 : Frames)
    (h : SNAP_ParsePacketEntities ops c fuel msg mem oldframe newframe B = Res.ok (msg1, mem1)) :
    FrameOnly newframe mem mem1 := by
  unfold SNAP_ParsePacketEntities at h
  simp only [] at h
  split at h
  · cases h
  · cases h
  · cases h
  · rename_i m2 mem2 cur2 hp
    split at h
    · cases h
    · cases h
    · cases h
    · rename_i mem3 hc
      injection h with h
      injection h with _ h2
      rw [← h2]
      exact ((FrameOnly.fupdate newframe mem { mem newframe with numEntities := 0 }
          (HeaderEq.of_fields rfl rfl rfl rfl rfl rfl rfl rfl)).ftrans
        (parseTokens_frameOnly ops c oldframe newframe B fuel msg _ _ _ _ _ hp)).ftrans
        (copyRemaining_frameOnly c oldframe newframe fuel _ _ _ hc)

theorem KeepsEntities.krefl (addr : Nat) (mem : Frames) : KeepsEntities addr mem mem :=
  ⟨FrameOnly.frefl _ _, rfl, rfl⟩

theorem KeepsEntities.ktrans {addr : Nat} {m1 m2 m3 : Frames} (h1 : KeepsEntities addr m1 m2)
    (h2 : KeepsEntities addr m2 m3) : KeepsEntities addr m1 m3 :=
  ⟨h1.1.ftrans h2.1, h2.2.1.trans h1.2.1, h2.2.2.trans h1.2.2⟩

theorem KeepsEntities.kupdate (addr : Nat) (mem : Frames) (g : snapshot_t)
    (h : HeaderEq (mem addr) g) (hn : g.numEntities = (mem addr).numEntities)
    (hp : g.parsedEntities = (mem addr).parsedEntities) :
    KeepsEntities addr mem (Function.update mem addr g) :=
  ⟨FrameOnly.fupdate _ _ _ h, by rw [Function.update_same]; exact hn,
    by rw [Function.update_same]; exact hp⟩

theorem parseGameCommands_keeps {M : Type} (ops : MsgOps M) (c : Consts)
    (lastFrame : Option Nat) (newframe : Nat) :
    ∀ (fuel : Nat) (msg : M) (mem : Frames) (msg1 : M) (mem1 : Frames),
      parseGameCommands ops c lastFrame newframe fuel msg mem = Res.ok (msg1, mem1) →
      KeepsEntities newframe mem mem1 := by
  intro fuel
  induction fuel with
  | zero => intro msg mem msg1 mem1 h; cases h
  | succ k ih =>
    intro msg mem msg1 mem1 h
    unfold parseGameCommands at h
    simp only [] at h
    split at h
    · split at h
      · split at h
        · cases h
        · split at h
          · cases h
          · split at h
            · split at h
              · split at h
                · cases h
                · refine KeepsEntities.ktrans ?_ (ih _ _ _ _ h)
                  exact KeepsEntities.kupdate _ _ _
                    (HeaderEq.of_fields rfl rfl rfl rfl rfl rfl rfl rfl) rfl rfl
              · refine KeepsEntities.ktrans ?_ (ih _ _ _ _ h)
                exact KeepsEntities.kupdate _ _ _
                  (HeaderEq.of_fields rfl rfl rfl rfl rfl rfl rfl rfl) rfl rfl
            · refine KeepsEntities.ktrans ?_ (ih _ _ _ _ h)
              exact KeepsEntities.kupdate _ _ _
                (HeaderEq.of_fields rfl rfl rfl rfl rfl rfl rfl rfl) rfl rfl
      · split at h
        · exact ih _ _ _ _ h
        · exact ih _ _ _ _ h
    · injection h with h
      injection h with _ h2
      rw [← h2]
      exact KeepsEntities.krefl _ _

theorem parsePlayerInfos_keeps {M : Type} (ops : MsgOps M) (c : Consts)
    (deltaframe : Option Nat) (newframe : Nat) :
    ∀ (fuel n : Nat) (msg : M) (mem : Frames) (msg1 : M) (mem1 : Frames) (n1 : Nat),
      parsePlayerInfos ops c deltaframe newframe fuel n msg mem = Res.ok (msg1, mem1, n1) →
      KeepsEntities newframe mem mem1 := by
  intro fuel
  induction fuel with
  | zero => intro n msg mem msg1 mem1 n1 h; cases h
  | succ k ih =>
    intro n msg mem msg1 mem1 n1 h
    unfold parsePlayerInfos at h
    simp only [] at h
    split at h
    · split at h
      · cases h
      · refine KeepsEntities.ktrans ?_ (ih _ _ _ _ _ _ h)
        exact KeepsEntities.kupdate _ _ _
          (HeaderEq.of_fields rfl rfl rfl rfl rfl rfl rfl rfl) rfl rfl
    · injection h with h
      have h2 : mem = mem1 := congrArg (fun p => p.2.1) h
      rw [← h2]
      exact KeepsEntities.krefl _ _

theorem parseGameCommands_frameOnly {M : Type} (ops : MsgOps M) (c : Consts)
    (lastFrame : Option Nat) (newframe : Nat) (fuel : Nat) (msg : M) (mem : Frames) (msg1 : M)
    (mem1 : Frames)
    (h : parseGameCommands ops c lastFrame newframe fuel msg mem = Res.ok (msg1, mem1)) :
    FrameOnly newframe mem mem1 :=
  (parseGameCommands_keeps ops c lastFrame newframe fuel msg mem msg1 mem1 h).1

theorem parsePlayerInfos_frameOnly {M : Type} (ops : MsgOps M) (c : Consts)
    (deltaframe : Option Nat) (newframe : Nat) (fuel n : Nat) (msg : M) (mem : Frames)
    (msg1 : M) (mem1 : Frames) (n1 : Nat)
    (h : parsePlayerInfos ops c deltaframe newframe fuel n msg mem = Res.ok (msg1, mem1, n1)) :
    FrameOnly newframe mem mem1 :=
  (parsePlayerInfos_keeps ops c deltaframe newframe fuel n msg mem msg1 mem1 n1 h).1

/-- The sections of a frame parse that returned. -/
theorem parseFrame_inv {M : Type} (ops : MsgOps M) (c : Consts) (fuel : Nat) (msg : M)
    (mem : Frames) (lastFrame : Option Nat) (backup : Option Nat) (B : Int → SyncEntityState)
    (msg1 : M) (mem1 : Frames) (nf : Nat)
    (h : SNAP_ParseFrame ops c fuel msg mem lastFrame backup B = Res.ok (msg1, mem1, nf)) :
    ∃ b mh memh m2 mem2 m4 mem4 np, backup = some b ∧
      SNAP_ParseFrameHeader ops c msg mem none backup = Res.ok (mh, memh, nf) ∧
      (ops.MSG_ReadUint8 mh).1 = c.svc_gamecommands ∧
      parseGameCommands ops c lastFrame nf fuel (ops.MSG_ReadUint8 mh).2 memh
        = Res.ok (m2, mem2) ∧
      (ops.MSG_ReadUint8 m2).1 = c.svc_match ∧
      parsePlayerInfos ops c (deltaFrameOf c b (memh nf)) nf fuel 0
        (ops.MSG_ReadDeltaGameState (ops.MSG_ReadUint8 m2).2
          ((deltaFrameOf c b (memh nf)).map (fun d => (mem2 d).gameState))).2
        (Function.update mem2 nf
          { mem2 nf with
            gameState := (ops.MSG_ReadDeltaGameState (ops.MSG_ReadUint8 m2).2
              ((deltaFrameOf c b (memh nf)).map (fun d => (mem2 d).gameState))).1 })
        = Res.ok (m4, mem4, np) ∧
      (ops.MSG_ReadUint8 m4).1 = c.svc_packetentities ∧
      SNAP_ParsePacketEntities ops c fuel (ops.MSG_ReadUint8 m4).2
        (Function.update mem4 nf
          { mem4 nf with numplayers := np, playerState := (mem4 nf).playerStates 0 })
        (deltaFrameOf c b (memh nf)) nf B = Res.ok (msg1, mem1) := by
  unfold SNAP_ParseFrame at h
  split at h
  · cases h
  · cases h
  · cases h
  · cases h
  · rename_i mh memh newframe b hhead
    try simp only [] at h
    split at h
    · cases h
    · rename_i hc1
      split at h
      · cases h
      · cases h
      · cases h
      · rename_i m2 mem2 hgc
        try simp only [] at h
        split at h
        · cases h
        · rename_i hc2
          split at h
          · cases h
          · cases h
          · cases h
          · rename_i m4 mem4 np hpl
            try simp only [] at h
            split at h
            · cases h
            · rename_i hc3
              split at h
              · cases h
              · cases h
              · cases h
              · rename_i m6 mem6 hpe
                injection h with h
                have hm0 : m6 = msg1 := congrArg (fun p => p.1) h
                have hm : mem6 = mem1 := congrArg (fun p => p.2.1) h
                have hn : newframe = nf := congrArg (fun p => p.2.2) h
                subst hm0
                subst hm
                subst hn
                exact ⟨b, mh, memh, m2, mem2, m4, mem4, np, rfl, hhead, not_not.mp hc1, hgc,
                  not_not.mp hc2, hpl, not_not.mp hc3, hpe⟩

/-- A frame returned by `SNAP_ParseFrame` is the frame of the header parse,
changed outside of its header fields only; the other frames are untouched. -/
theorem parseFrame_header {M : Type} (ops : MsgOps M) (c : Consts) (fuel : Nat) (msg : M)
    (mem : Frames) (lastFrame : Option Nat) (backup : Option Nat) (B : Int → SyncEntityState)
    (msg1 : M) (mem1 : Frames) (nf : Nat)
    (h : SNAP_ParseFrame ops c fuel msg mem lastFrame backup B = Res.ok (msg1, mem1, nf)) :
    ∃ b mh memh, backup = some b ∧
      SNAP_ParseFrameHeader ops c msg mem none backup = Res.ok (mh, memh, nf) ∧
      FrameOnly nf memh mem1 := by
  obtain ⟨b, mh, memh, m2, mem2, m4, mem4, np, hb, hhead, _, hgc, _, hpl, _, hpe⟩ :=
    parseFrame_inv ops c fuel msg mem lastFrame backup B msg1 mem1 nf h
  refine ⟨b, mh, memh, hb, hhead, ?_⟩
  have f1 := parseGameCommands_frameOnly ops c lastFrame nf fuel _ _ _ _ hgc
  have f3 := parsePlayerInfos_frameOnly ops c _ nf fuel 0 _ _ _ _ _ hpl
  have f5 := parsePacketEntities_frameOnly ops c fuel _ _ _ nf B _ _ hpe
  refine f1.ftrans (FrameOnly.ftrans ?_ (f3.ftrans (FrameOnly.ftrans ?_ f5)))
  · exact FrameOnly.fupdate _ _ _ (HeaderEq.of_fields rfl rfl rfl rfl rfl rfl rfl rfl)
  · exact FrameOnly.fupdate _ _ _ (HeaderEq.of_fields rfl rfl rfl rfl rfl rfl rfl rfl)

/-! ## The frame ring -/

/-- A frame returned by `SNAP_ParseFrame` sits in the slot of its number, the
other frames are untouched, and its `valid` flag is the one of the header. -/
theorem parseFrame_slot {M : Type} (ops : MsgOps M) (c : Consts) (fuel : Nat) (msg : M)
    (mem : Frames) (lastFrame : Option Nat) (b : Nat) (B : Int → SyncEntityState)
    (msg1 : M) (mem1 : Frames) (nf : Nat)
    (h : SNAP_ParseFrame ops c fuel msg mem lastFrame (some b) B = Res.ok (msg1, mem1, nf)) :
    nf = b + c.ringIndex (mem1 nf).serverFrame ∧
      (∀ a, a ≠ nf → mem1 a = mem a) ∧
      ((mem1 nf).valid = true ↔
        ((mem1 nf).delta = false ∨
          ((mem1 nf).delta = true ∧ (mem1 nf).deltaFrameNum > 0 ∧
            (Function.update mem nf snapshot_t.zero
              (b + c.ringIndex (mem1 nf).deltaFrameNum)).valid = true ∧
            (Function.update mem nf snapshot_t.zero
              (b + c.ringIndex (mem1 nf).deltaFrameNum)).serverFrame
                = (mem1 nf).deltaFrameNum))) := by
  obtain ⟨b1, mh, memh, hb, hhead, hfo⟩ :=
    parseFrame_header ops c fuel msg mem lastFrame (some b) B msg1 mem1 nf h
  obtain ⟨msg2, mem2, hrun2, hframe, hsf, _, _, hiff⟩ :=
    parseFrameHeader_eq ops c msg mem none (some b) _ rfl
  rw [hhead] at hrun2
  injection hrun2 with h2
  have hmem : memh = mem2 := congrArg (fun p => p.2.1) h2
  have hnf : nf = b + c.ringIndex
      (wrapInt32 (ops.MSG_ReadUintBase128 (ops.MSG_ReadIntBase128 msg).2).1) :=
    congrArg (fun p => p.2.2) h2
  subst hmem
  rw [← hnf] at hframe hsf hiff
  obtain ⟨hoff, hv, hs, _, _, hd, _, _, hdn⟩ := hfo
  rw [hv, hs, hd, hdn]
  refine ⟨by rw [hsf]; exact hnf, fun a ha => (hoff a ha).trans (hframe a ha), ?_⟩
  rw [hiff]
  constructor
  · rintro (h1 | ⟨h1, h2, b2, hb2, h3⟩)
    · exact Or.inl h1
    · cases hb2; exact Or.inr ⟨h1, h2, h3⟩
  · rintro (h1 | ⟨h1, h2, h3⟩)
    · exact Or.inl h1
    · exact Or.inr ⟨h1, h2, b, rfl, h3⟩

/-- After consecutive frames up to `newest`, a valid slot of the ring holds a
frame of the last `UPDATE_BACKUP` numbers, in the slot of its number. -/
theorem consecutiveRing_slots {M : Type} (ops : MsgOps M) (c : Consts) (k : Nat)
    (hU : c.UPDATE_BACKUP = 2 ^ k) (hk : k ≤ 64) (b : Nat) (B : Int → SyncEntityState)
    (mem : Frames) (newest : Int) (hring : ConsecutiveRing ops c b B mem newest) :
    ∀ i, i < c.UPDATE_BACKUP → (mem (b + i)).valid = true →
      newest - c.UPDATE_BACKUP < (mem (b + i)).serverFrame ∧
        (mem (b + i)).serverFrame ≤ newest ∧ c.ringIndex (mem (b + i)).serverFrame = i := by
  induction hring with
  | empty mem newest h =>
    intro i hi hv
    rw [h i hi] at hv
    cases hv
  | parse mem newest fuel msg lastFrame msg1 mem1 nf _ hrun hnum ih =>
    intro i hi hv
    obtain ⟨hslot, hoff, _⟩ := parseFrame_slot ops c fuel msg mem lastFrame b B msg1 mem1 nf hrun
    have hpos : (0 : Int) < (c.UPDATE_BACKUP : Int) := by rw [hU]; positivity
    by_cases hnf : b + i = nf
    · rw [hnf, hnum]
      refine ⟨by omega, le_refl _, ?_⟩
      rw [hnum] at hslot
      omega
    · rw [hoff _ hnf] at hv ⊢
      obtain ⟨h1, h2, h3⟩ := ih i hi hv
      refine ⟨?_, by omega, h3⟩
      by_contra hlt
      have heq : (mem (b + i)).serverFrame = newest + 1 - c.UPDATE_BACKUP := by omega
      have hidx : c.ringIndex (mem (b + i)).serverFrame = c.ringIndex (newest + 1) := by
        rw [ringIndex_eq_emod c hU hk, ringIndex_eq_emod c hU hk, heq]
        congr 1
        exact Int.emod_sub_cancel _ _
      rw [hnum] at hslot
      rw [h3] at hidx
      exact hnf (by rw [hslot, hidx])

/-- C5, amended. When the ring results from an empty ring by `SNAP_ParseFrame`
calls with consecutive frame numbers, a new delta frame whose `deltaFrameNum`
is at least the ring capacity older than the newest frame number of the ring is
returned with `valid` false. -/
theorem SNAP_ParseFrame_rejects_old_base {M : Type} (ops : MsgOps M) (c : Consts) (k : Nat)
    (hU : c.UPDATE_BACKUP = 2 ^ k) (hk : k ≤ 64) (b : Nat) (B : Int → SyncEntityState)
    (mem : Frames) (newest : Int) (hring : ConsecutiveRing ops c b B mem newest)
    (fuel : Nat) (msg : M) (lastFrame : Option Nat) (msg1 : M) (mem1 : Frames) (nf : Nat)
    (hrun : SNAP_ParseFrame ops c fuel msg mem lastFrame (some b) B = Res.ok (msg1, mem1, nf))
    (hdelta : (mem1 nf).delta = true)
    (hold : (mem1 nf).deltaFrameNum + c.UPDATE_BACKUP ≤ newest) :
    (mem1 nf).valid = false := by
  obtain ⟨_, _, hiff⟩ := parseFrame_slot ops c fuel msg mem lastFrame b B msg1 mem1 nf hrun
  by_contra hv
  have hv' : (mem1 nf).valid = true := by
    cases h : (mem1 nf).valid
    · exact absurd h hv
    · rfl
  rcases hiff.mp hv' with h | ⟨_, _, hval, hsf⟩
  · rw [hdelta] at h; cases h
  · have hne : b + c.ringIndex (mem1 nf).deltaFrameNum ≠ nf := by
      intro heq
      rw [heq, Function.update_same] at hval
      simp [snapshot_t.zero] at hval
    rw [Function.update_noteq hne] at hval hsf
    have h1 := (consecutiveRing_slots ops c k hU hk b B mem newest hring _
      (ringIndex_lt c hU hk _) hval).1
    rw [hsf] at h1
    omega

/-- After the stand-alone frame 100, frame 101 delta-compressed from frame 60
is returned invalid. -/
theorem SNAP_ParseFrame_rejects_old_base_witness :
    Res.frameValid (SNAP_ParseFrame wordOps smallConsts 3 (emptyFrameMsg 101 60 1) ringAfter100
        none (some 0) zeroBaselines) = some false ∧
    ((Res.storeOr ringAfter100 (SNAP_ParseFrame wordOps smallConsts 3 (emptyFrameMsg 101 60 1)
        ringAfter100 none (some 0) zeroBaselines)) 5).valid = false :=
  ⟨by decide,
    SNAP_ParseFrame_rejects_old_base wordOps smallConsts 5 (by decide) (by decide) 0
      zeroBaselines ringAfter100 (99 + 1)
      (ConsecutiveRing.parse emptyMem 99 3 (emptyFrameMsg 100 0 0) none _ ringAfter100 4
        (ConsecutiveRing.empty emptyMem 99 (fun _ _ => rfl)) rfl (by decide))
      3 (emptyFrameMsg 101 60 1) none _ _ 5 rfl (by decide) (by decide)⟩

/-- C5 as stated fails when frames are skipped: after the stand-alone frames 1
and 40 the newest frame of the ring is 40 and the capacity is 32, yet frame 41
delta-compressed from frame 1 is returned valid, since slot 1 still holds
frame 1. -/
theorem SNAP_ParseFrame_rejects_old_base_counterexample :
    Res.frameNumber (SNAP_ParseFrame wordOps smallConsts 3 (emptyFrameMsg 1 0 0) emptyMem none
        (some 0) zeroBaselines) = some 1 ∧
    Res.frameNumber (SNAP_ParseFrame wordOps smallConsts 3 (emptyFrameMsg 40 0 0) ringAfter1 none
        (some 0) zeroBaselines) = some 40 ∧
    Res.frameDelta (SNAP_ParseFrame wordOps smallConsts 3 (emptyFrameMsg 41 1 1) ringAfter40
        none (some 0) zeroBaselines) = some true ∧
    Res.frameDeltaNum (SNAP_ParseFrame wordOps smallConsts 3 (emptyFrameMsg 41 1 1) ringAfter40
        none (some 0) zeroBaselines) = some 1 ∧
    (1 : Int) + smallConsts.UPDATE_BACKUP < 40 ∧
    Res.frameValid (SNAP_ParseFrame wordOps smallConsts 3 (emptyFrameMsg 41 1 1) ringAfter40
        none (some 0) zeroBaselines) = some true := by
  refine ⟨by decide, by decide, by decide, by decide, by decide, by decide⟩

/-! ## A frame parsed without a base is determined by the message -/

theorem copyUnchanged_none (c : Consts) (newframe : Nat) (newnum : Int) (k : Nat) (mem : Frames)
    (cur : Cursor) :
    copyUnchanged c none newframe newnum (k + 1) mem cur
      = if cur.oldnum < newnum then Res.undef else Res.ok (mem, cur) := by
  simp only [copyUnchanged, copyOld, derefOld]

theorem copyRemaining_none (c : Consts) (newframe : Nat) (k : Nat) (mem : Frames)
    (cur : Cursor) :
    copyRemaining c none newframe (k + 1) mem cur
      = if cur.oldnum ≠ 99999 then Res.undef else Res.ok mem := by
  simp only [copyRemaining, copyOld, derefOld]

/-- Without a base frame the token loop only depends on the message, the
baselines, the cursor and the entities already in the new frame. -/
theorem parseTokens_none_determined {M : Type} (ops : MsgOps M) (c : Consts)
    (B : Int → SyncEntityState) :
    ∀ (fuel : Nat) (msg : M) (n : Nat) (pe : Nat → SyncEntityState) (cur : Cursor),
      ∃ r : M × Nat × (Nat → SyncEntityState) × Cursor,
        ∀ (mem : Frames) (nf : Nat), (mem nf).numEntities = n → (mem nf).parsedEntities = pe →
          ∀ (m1 : M) (mem1 : Frames) (cur1 : Cursor),
            parseTokens ops c none nf B fuel msg mem cur = Res.ok (m1, mem1, cur1) →
            (m1, (mem1 nf).numEntities, (mem1 nf).parsedEntities, cur1) = r := by
  intro fuel
  induction fuel with
  | zero =>
    intro msg n pe cur
    exact ⟨(msg, n, pe, cur), fun mem nf _ _ m1 mem1 cur1 h => by cases h⟩
  | succ k ih =>
    intro msg n pe cur
    by_cases c1 : (ops.MSG_ReadEntityNumber msg).1.1 ≥ c.MAX_EDICTS
    · refine ⟨(msg, n, pe, cur), fun mem nf _ _ m1 mem1 cur1 h => ?_⟩
      simp only [parseTokens, c1, if_true] at h
      cases h
    by_cases c2 : ops.readcount (ops.MSG_ReadEntityNumber msg).2
        > ops.cursize (ops.MSG_ReadEntityNumber msg).2
    · refine ⟨(msg, n, pe, cur), fun mem nf _ _ m1 mem1 cur1 h => ?_⟩
      simp only [parseTokens, c1, c2, if_true, if_false] at h
      cases h
    by_cases c3 : (ops.MSG_ReadEntityNumber msg).1.1 = 0
    · refine ⟨((ops.MSG_ReadEntityNumber msg).2, n, pe, cur), fun mem nf hn hp m1 mem1 cur1 h => ?_⟩
      have c0 : ¬ (0 : Int) ≥ (c.MAX_EDICTS : Int) := by rw [c3] at c1; exact c1
      simp only [parseTokens, c2, c3, c0, if_true, if_false] at h
      injection h with h
      cases h
      rw [hn, hp]
    cases k with
    | zero =>
      refine ⟨(msg, n, pe, cur), fun mem nf _ _ m1 mem1 cur1 h => ?_⟩
      simp only [parseTokens, c1, c2, c3, if_false, copyUnchanged] at h
      cases h
    | succ k =>
      by_cases c4 : cur.oldnum < (ops.MSG_ReadEntityNumber msg).1.1
      · refine ⟨(msg, n, pe, cur), fun mem nf _ _ m1 mem1 cur1 h => ?_⟩
        rw [parseTokens] at h
        simp only [c1, c2, c3, if_false, copyUnchanged_none, c4, if_true] at h
        cases h
      by_cases c5 : cur.oldnum > (ops.MSG_ReadEntityNumber msg).1.1
      · cases c6 : (ops.MSG_ReadEntityNumber msg).1.2 with
        | true =>
          obtain ⟨r, hr⟩ := ih (ops.MSG_ReadEntityNumber msg).2 n pe cur
          refine ⟨r, fun mem nf hn hp m1 mem1 cur1 h => ?_⟩
          rw [parseTokens] at h
          simp only [c1, c2, c3, if_false, copyUnchanged_none, c4, c5, c6, if_true] at h
          exact hr mem nf hn hp m1 mem1 cur1 h
        | false =>
          obtain ⟨r, hr⟩ := ih
            (ops.MSG_ReadDeltaEntity (ops.MSG_ReadEntityNumber msg).2
              (B (ops.MSG_ReadEntityNumber msg).1.1)).2 (n + 1)
            (Function.update pe (c.entIndex n)
              { (ops.MSG_ReadDeltaEntity (ops.MSG_ReadEntityNumber msg).2
                  (B (ops.MSG_ReadEntityNumber msg).1.1)).1 with
                number := (ops.MSG_ReadEntityNumber msg).1.1 }) cur
          refine ⟨r, fun mem nf hn hp m1 mem1 cur1 h => ?_⟩
          rw [parseTokens] at h
          simp only [c1, c2, c3, if_false, copyUnchanged_none, c4, c5, c6, if_true,
            Bool.false_eq_true] at h
          refine hr _ nf ?_ ?_ m1 mem1 cur1 h
          · simp only [SNAP_ParseDeltaEntity, Function.update_same, hn]
          · simp only [SNAP_ParseDeltaEntity, Function.update_same, hn, hp]
      have c5' : ¬ (ops.MSG_ReadEntityNumber msg).1.1 < cur.oldnum := c5
      by_cases c7 : cur.oldnum = (ops.MSG_ReadEntityNumber msg).1.1
      · refine ⟨(msg, n, pe, cur), fun mem nf _ _ m1 mem1 cur1 h => ?_⟩
        rw [parseTokens] at h
        simp only [c1, c2, c3, if_false, copyUnchanged_none, c4, advanceOld, derefOld] at h
        rw [if_neg c5, if_pos c7] at h
        cases hrm : (ops.MSG_ReadEntityNumber msg).1.2 <;> simp [hrm] at h
      · obtain ⟨r, hr⟩ := ih (ops.MSG_ReadEntityNumber msg).2 n pe cur
        refine ⟨r, fun mem nf hn hp m1 mem1 cur1 h => ?_⟩
        rw [parseTokens] at h
        simp only [c1, c2, c3, if_false, copyUnchanged_none, c4] at h
        rw [if_neg c5, if_neg c7] at h
        exact hr mem nf hn hp m1 mem1 cur1 h

/-- Without a base frame `SNAP_ParsePacketEntities` only depends on the
message, the baselines and the entity array of the new frame. -/
theorem parsePacketEntities_none_determined {M : Type} (ops : MsgOps M) (c : Consts)
    (B : Int → SyncEntityState) (fuel : Nat) (msg : M) (pe : Nat → SyncEntityState) :
    ∃ r : M × Nat × (Nat → SyncEntityState),
      ∀ (mem : Frames) (nf : Nat), (mem nf).parsedEntities = pe →
        ∀ (m1 : M) (mem1 : Frames),
          SNAP_ParsePacketEntities ops c fuel msg mem none nf B = Res.ok (m1, mem1) →
          (m1, (mem1 nf).numEntities, (mem1 nf).parsedEntities) = r := by
  obtain ⟨r, hr⟩ := parseTokens_none_determined ops c B fuel msg 0 pe
    { oldindex := 0, oldnum := 99999, oldstate := none }
  refine ⟨(r.1, r.2.1, r.2.2.1), fun mem nf hp m1 mem1 h => ?_⟩
  unfold SNAP_ParsePacketEntities at h
  simp only [initCursor] at h
  split at h
  · cases h
  · cases h
  · cases h
  · rename_i m2 mem2 cur2 hpt
    have h2 := hr _ nf (by rw [Function.update_same]) (by rw [Function.update_same]; exact hp)
      m2 mem2 cur2 hpt
    cases fuel with
    | zero => simp only [copyRemaining] at h; cases h
    | succ k =>
      rw [copyRemaining_none] at h
      by_cases hx : cur2.oldnum ≠ 99999
      · rw [if_pos hx] at h
        cases h
      · rw [if_neg hx] at h
        injection h with h
        cases h
        rw [← h2]

/-- When skipping data moves the cursor as reading it does, the message after
the game-command section does not depend on which commands are accepted. -/
theorem parseGameCommands_msg_determined {M : Type} (ops : MsgOps M) (c : Consts)
    (hskip : ∀ m n, ops.MSG_SkipData m n = (ops.MSG_ReadData m n).2)
    (hskip0 : ∀ m, ops.MSG_SkipData m 0 = m) :
    ∀ (fuel : Nat) (msg : M) (mp : Bool),
      ∃ r : M, ∀ (lastFrame : Option Nat) (nf : Nat) (mem : Frames), (mem nf).multipov = mp →
        ∀ (m1 : M) (mem1 : Frames),
          parseGameCommands ops c lastFrame nf fuel msg mem = Res.ok (m1, mem1) → m1 = r := by
  intro fuel
  induction fuel with
  | zero => intro msg mp; exact ⟨msg, fun _ _ _ _ m1 mem1 h => by cases h⟩
  | succ k ih =>
    intro msg mp
    by_cases d1 : (ops.MSG_ReadInt16 msg).1 ≠ -1
    · cases mp with
      | false =>
        obtain ⟨r, hr⟩ := ih (ops.MSG_ReadString (ops.MSG_ReadInt16 msg).2).2 false
        refine ⟨r, fun lastFrame nf mem hm m1 mem1 h => ?_⟩
        unfold parseGameCommands at h
        simp only [] at h
        rw [if_pos d1] at h
        simp only [hm, Bool.false_eq_true, if_false] at h
        split at h
        · split at h
          · cases h
          · split at h
            · cases h
            · exact hr lastFrame nf _ (by rw [Function.update_same]) m1 mem1 h
        · exact hr lastFrame nf _ hm m1 mem1 h
      | true =>
        obtain ⟨r, hr⟩ := ih
          (ops.MSG_SkipData (ops.MSG_ReadUint8 (ops.MSG_ReadString (ops.MSG_ReadInt16 msg).2).2).2
            (ops.MSG_ReadUint8 (ops.MSG_ReadString (ops.MSG_ReadInt16 msg).2).2).1) true
        refine ⟨r, fun lastFrame nf mem hm m1 mem1 h => ?_⟩
        unfold parseGameCommands at h
        simp only [] at h
        rw [if_pos d1] at h
        simp only [hm, if_true] at h
        split at h
        · split at h
          · cases h
          · split at h
            · cases h
            · split at h
              · split at h
                · cases h
                · rw [← hskip] at h
                  exact hr lastFrame nf _ (by rw [Function.update_same]) m1 mem1 h
              · rename_i hz
                have hz' : (ops.MSG_ReadUint8
                    (ops.MSG_ReadString (ops.MSG_ReadInt16 msg).2).2).1 = 0 := by
                  by_contra hne; exact hz hne
                have hs := hskip0
                  (ops.MSG_ReadUint8 (ops.MSG_ReadString (ops.MSG_ReadInt16 msg).2).2).2
                rw [← hz'] at hs
                rw [← hs] at h
                exact hr lastFrame nf _ (by rw [Function.update_same]) m1 mem1 h
        · exact hr lastFrame nf _ hm m1 mem1 h
    · refine ⟨(ops.MSG_ReadInt16 msg).2, fun lastFrame nf mem _ m1 mem1 h => ?_⟩
      unfold parseGameCommands at h
      simp only [] at h
      rw [if_neg d1] at h
      injection h with h
      injection h with h1 _
      exact h1.symm

/-- Without a base frame the player-state section only depends on the
message. -/
theorem parsePlayerInfos_none_determined {M : Type} (ops : MsgOps M) (c : Consts) :
    ∀ (fuel n : Nat) (msg : M),
      ∃ r : M, ∀ (nf : Nat) (mem : Frames) (m1 : M) (mem1 : Frames) (n1 : Nat),
        parsePlayerInfos ops c none nf fuel n msg mem = Res.ok (m1, mem1, n1) → m1 = r := by
  intro fuel
  induction fuel with
  | zero => intro n msg; exact ⟨msg, fun _ _ m1 mem1 n1 h => by cases h⟩
  | succ k ih =>
    intro n msg
    by_cases d1 : (ops.MSG_ReadUint8 msg).1 ≠ 0
    · obtain ⟨r, hr⟩ := ih (n + 1)
        (ops.MSG_ReadDeltaPlayerState (ops.MSG_ReadUint8 msg).2 none).2
      refine ⟨r, fun nf mem m1 mem1 n1 h => ?_⟩
      unfold parsePlayerInfos at h
      simp only [] at h
      rw [if_pos d1] at h
      split at h
      · cases h
      · exact hr nf _ m1 mem1 n1 h
    · refine ⟨(ops.MSG_ReadUint8 msg).2, fun nf mem m1 mem1 n1 h => ?_⟩
      unfold parsePlayerInfos at h
      simp only [] at h
      rw [if_neg d1] at h
      injection h with h
      exact (congrArg (fun p => p.1) h).symm

/-- The frame stored by the header parse: the fields read from the message and
the `valid` flag. -/
theorem parseFrameHeader_frame {M : Type} (ops : MsgOps M) (c : Consts) (msg : M) (mem : Frames)
    (b : Nat) (mh : M) (memh : Frames) (nf : Nat)
    (h : SNAP_ParseFrameHeader ops c msg mem none (some b) = Res.ok (mh, memh, nf)) :
    mh = (readHeaderFields ops c (ops.MSG_ReadIntBase128 msg).1
        (wrapInt32 (ops.MSG_ReadUintBase128 (ops.MSG_ReadIntBase128 msg).2).1)
        (ops.MSG_ReadUintBase128 (ops.MSG_ReadIntBase128 msg).2).2).2 ∧
      HeaderEq
        { (readHeaderFields ops c (ops.MSG_ReadIntBase128 msg).1
            (wrapInt32 (ops.MSG_ReadUintBase128 (ops.MSG_ReadIntBase128 msg).2).1)
            (ops.MSG_ReadUintBase128 (ops.MSG_ReadIntBase128 msg).2).2).1 with
          valid := (memh nf).valid } (memh nf) ∧
      (memh nf).parsedEntities = fun _ => SyncEntityState.zero := by
  unfold SNAP_ParseFrameHeader at h
  simp only [] at h
  injection h with h
  have h1 := congrArg (fun p => p.1) h
  have h2 := congrArg (fun p => p.2.1) h
  have h3 := congrArg (fun p => p.2.2) h
  simp only [] at h1 h2 h3
  subst h3
  rw [← h2, Function.update_same]
  exact ⟨h1.symm, HeaderEq.of_fields rfl rfl rfl rfl rfl rfl rfl rfl, rfl⟩

theorem parseFrame_nondelta_valid {M : Type} (ops : MsgOps M) (c : Consts) (msg : M)
    (mem : Frames) (newframe backup : Option Nat) (mh : M) (memh : Frames) (nf : Nat)
    (h : SNAP_ParseFrameHeader ops c msg mem newframe backup = Res.ok (mh, memh, nf))
    (hd : (memh nf).delta = false) : (memh nf).valid = true := by
  cases hsel : (match backup with
      | some b =>
        some (b + c.ringIndex (wrapInt32 (ops.MSG_ReadUintBase128 (ops.MSG_ReadIntBase128 msg).2).1))
      | none => newframe) with
  | none =>
    unfold SNAP_ParseFrameHeader at h
    simp only [hsel] at h
    cases h
  | some a =>
    obtain ⟨msg2, mem2, hrun2, _, _, _, _, hiff⟩ :=
      parseFrameHeader_eq ops c msg mem newframe backup a hsel
    rw [h] at hrun2
    injection hrun2 with h2
    have hmem : memh = mem2 := congrArg (fun p => p.2.1) h2
    have hnf : nf = a := congrArg (fun p => p.2.2) h2
    subst hmem
    subst hnf
    exact hiff.mpr (Or.inl hd)

theorem deltaFrameOf_nondelta (c : Consts) (b : Nat) (f : snapshot_t) (hd : f.delta = false) :
    deltaFrameOf c b f = none := by
  simp [deltaFrameOf, hd]

/-- C7, amended. For a message whose header has the delta flag clear, and a
codec in which skipping data moves the cursor as reading it does, two runs of
`SNAP_ParseFrame` on the same message and baselines that both return a frame,
with arbitrary frame stores, ring addresses and `lastFrame`, return frames with
`valid` set, the same `numEntities` and the same `parsedEntities`, and leave
the message at the same place. -/
theorem SNAP_ParseFrame_nondelta_independent {M : Type} (ops : MsgOps M) (c : Consts)
    (hskip : ∀ m n, ops.MSG_SkipData m n = (ops.MSG_ReadData m n).2)
    (hskip0 : ∀ m, ops.MSG_SkipData m 0 = m)
    (B : Int → SyncEntityState) (fuel : Nat) (msg : M)
    (memA memB : Frames) (lastA lastB : Option Nat) (ringA ringB : Nat)
    (msgA msgB : M) (memA1 memB1 : Frames) (nfA nfB : Nat)
    (hA : SNAP_ParseFrame ops c fuel msg memA lastA (some ringA) B = Res.ok (msgA, memA1, nfA))
    (hB : SNAP_ParseFrame ops c fuel msg memB lastB (some ringB) B = Res.ok (msgB, memB1, nfB))
    (hdelta : (memA1 nfA).delta = false) :
    (memA1 nfA).valid = true ∧ (memB1 nfB).valid = true ∧ (memB1 nfB).delta = false ∧
      (memA1 nfA).numEntities = (memB1 nfB).numEntities ∧
      (memA1 nfA).parsedEntities = (memB1 nfB).parsedEntities ∧ msgA = msgB := by
  obtain ⟨bA, mhA, memhA, m2A, mem2A, m4A, mem4A, npA, hbA, hheadA, _, hgcA, _, hplA, _, hpeA⟩ :=
    parseFrame_inv ops c fuel msg memA lastA (some ringA) B msgA memA1 nfA hA
  obtain ⟨bB, mhB, memhB, m2B, mem2B, m4B, mem4B, npB, hbB, hheadB, _, hgcB, _, hplB, _, hpeB⟩ :=
    parseFrame_inv ops c fuel msg memB lastB (some ringB) B msgB memB1 nfB hB
  cases hbA
  cases hbB
  obtain ⟨hmhA, hhA, hpeA0⟩ := parseFrameHeader_frame ops c msg memA ringA mhA memhA nfA hheadA
  obtain ⟨hmhB, hhB, hpeB0⟩ := parseFrameHeader_frame ops c msg memB ringB mhB memhB nfB hheadB
  have kA := parseGameCommands_keeps ops c lastA nfA fuel _ _ _ _ hgcA
  have kB := parseGameCommands_keeps ops c lastB nfB fuel _ _ _ _ hgcB
  have pA := parsePlayerInfos_keeps ops c _ nfA fuel 0 _ _ _ _ _ hplA
  have pB := parsePlayerInfos_keeps ops c _ nfB fuel 0 _ _ _ _ _ hplB
  have eA := parsePacketEntities_frameOnly ops c fuel _ _ _ nfA B _ _ hpeA
  have eB := parsePacketEntities_frameOnly ops c fuel _ _ _ nfB B _ _ hpeB
  -- the header fields of the returned frames are those of the header parse
  have hdA : (memhA nfA).delta = false := by
    have h5 := eA.2.2.2.2.2.1
    have h3 := pA.1.2.2.2.2.2.1
    have h1 := kA.1.2.2.2.2.2.1
    simp only [Function.update_same] at h5 h3
    rw [← h1, ← h3, ← h5]
    exact hdelta
  have hdB : (memhB nfB).delta = false := by
    rw [hhB.2.2.2.2.1]
    rw [hhA.2.2.2.2.1] at hdA
    exact hdA
  have hvA := parseFrame_nondelta_valid ops c msg memA none (some ringA) mhA memhA nfA hheadA hdA
  have hvB := parseFrame_nondelta_valid ops c msg memB none (some ringB) mhB memhB nfB hheadB hdB
  have hmp : (memhA nfA).multipov = (memhB nfB).multipov := by
    rw [hhA.2.2.2.2.2.2.1, hhB.2.2.2.2.2.2.1]
  rw [deltaFrameOf_nondelta c ringA _ hdA] at hplA hpeA
  rw [deltaFrameOf_nondelta c ringB _ hdB] at hplB hpeB
  -- the sections are read from the same places
  obtain ⟨r1, hr1⟩ := parseGameCommands_msg_determined ops c hskip hskip0 fuel
    (ops.MSG_ReadUint8 mhA).2 (memhA nfA).multipov
  have e2A := hr1 lastA nfA memhA rfl m2A mem2A hgcA
  have e2B := hr1 lastB nfB memhB hmp.symm m2B mem2B (by rw [hmhA, ← hmhB]; exact hgcB)
  have e2 : m2A = m2B := e2A.trans e2B.symm
  subst e2
  simp only [Option.map_none'] at hplA hplB hpeA hpeB
  obtain ⟨r3, hr3⟩ := parsePlayerInfos_none_determined ops c fuel 0
    (ops.MSG_ReadDeltaGameState (ops.MSG_ReadUint8 m2A).2 none).2
  have e4 : m4A = m4B := (hr3 nfA _ m4A mem4A npA hplA).trans (hr3 nfB _ m4B mem4B npB hplB).symm
  subst e4
  obtain ⟨r5, hr5⟩ := parsePacketEntities_none_determined ops c B fuel (ops.MSG_ReadUint8 m4A).2
    (fun _ => SyncEntityState.zero)
  have e6A := hr5 _ nfA (by
    rw [Function.update_same]
    show (mem4A nfA).parsedEntities = _
    rw [pA.2.2]
    simp only [Function.update_same]
    rw [kA.2.2, hpeA0]) msgA memA1 hpeA
  have e6B := hr5 _ nfB (by
    rw [Function.update_same]
    show (mem4B nfB).parsedEntities = _
    rw [pB.2.2]
    simp only [Function.update_same]
    rw [kB.2.2, hpeB0]) msgB memB1 hpeB
  have e6 := e6A.trans e6B.symm
  have hvalA : (memA1 nfA).valid = true := by
    have h5 := eA.2.1
    have h3 := pA.1.2.1
    have h1 := kA.1.2.1
    simp only [Function.update_same] at h5 h3
    rw [h5, h3, h1]
    exact hvA
  have hvalB : (memB1 nfB).valid = true := by
    have h5 := eB.2.1
    have h3 := pB.1.2.1
    have h1 := kB.1.2.1
    simp only [Function.update_same] at h5 h3
    rw [h5, h3, h1]
    exact hvB
  have hdelB : (memB1 nfB).delta = false := by
    have h5 := eB.2.2.2.2.2.1
    have h3 := pB.1.2.2.2.2.2.1
    have h1 := kB.1.2.2.2.2.2.1
    simp only [Function.update_same] at h5 h3
    rw [h5, h3, h1]
    exact hdB
  exact ⟨hvalA, hvalB, hdelB, congrArg (fun p => p.2.1) e6, congrArg (fun p => p.2.2) e6,
    congrArg (fun p => p.1) e6⟩

/-- The stand-alone frame 50 parsed into an empty store without `lastFrame`,
and into another store with a `lastFrame`: both frames are valid with the same
entities. -/
theorem SNAP_ParseFrame_nondelta_independent_witness :
    ((Res.storeOr emptyMem (SNAP_ParseFrame wordOps smallConsts 3 (emptyFrameMsg 50 0 0) emptyMem
        none (some 0) zeroBaselines)) 18).valid = true ∧
    ((Res.storeOr lastFrameMem (SNAP_ParseFrame wordOps smallConsts 3 (emptyFrameMsg 50 0 0)
        lastFrameMem (some 40) (some 0) zeroBaselines)) 18).valid = true ∧
    ((Res.storeOr emptyMem (SNAP_ParseFrame wordOps smallConsts 3 (emptyFrameMsg 50 0 0) emptyMem
        none (some 0) zeroBaselines)) 18).parsedEntities =
      ((Res.storeOr lastFrameMem (SNAP_ParseFrame wordOps smallConsts 3 (emptyFrameMsg 50 0 0)
        lastFrameMem (some 40) (some 0) zeroBaselines)) 18).parsedEntities :=
  have h := SNAP_ParseFrame_nondelta_independent wordOps smallConsts (fun _ _ => rfl)
    (fun _ => rfl) zeroBaselines 3 (emptyFrameMsg 50 0 0) emptyMem lastFrameMem none (some 40)
    0 0 _ _ _ _ 18 18 rfl rfl (by decide)
  ⟨h.1, h.2.1, h.2.2.2.2.1⟩

/-- C7 as stated fails when one of the two runs is dropped: the stand-alone
multi-POV frame 50 carries a game command with 33 target bytes; without
`lastFrame` the command is accepted and the connection is dropped, while with a
valid `lastFrame` of number 1000 the command is skipped and the frame is
returned valid. -/
theorem SNAP_ParseFrame_nondelta_independent_counterexample :
    Res.dropReason (SNAP_ParseFrame wordOps smallConsts 3 targetsFrameMsg emptyMem none (some 0)
        zeroBaselines) = some DropReason.tooManyTargets ∧
    Res.frameDelta (SNAP_ParseFrame wordOps smallConsts 3 targetsFrameMsg lastFrameMem (some 40)
        (some 0) zeroBaselines) = some false ∧
    Res.frameValid (SNAP_ParseFrame wordOps smallConsts 3 targetsFrameMsg lastFrameMem (some 40)
        (some 0) zeroBaselines) = some true := by
  refine ⟨by decide, by decide, by decide⟩

/-! ## An invalid frame is consumed -/

/-- An invalid frame accepts no game command: the section is skipped and the
frame store is left as it is. -/
theorem parseGameCommands_invalid {M : Type} (ops : MsgOps M) (c : Consts)
    (lastFrame : Option Nat) (nf : Nat) (mem : Frames) (hv : (mem nf).valid = false) :
    ∀ (n fuel : Nat) (msg msg1 : M), SkipsCommands ops (mem nf).multipov msg n msg1 →
      n < fuel → parseGameCommands ops c lastFrame nf fuel msg mem = Res.ok (msg1, mem) := by
  intro n
  induction n with
  | zero =>
    intro fuel msg msg1 hs hf
    obtain ⟨h1, h2⟩ := hs
    obtain ⟨k, rfl⟩ : ∃ k, fuel = k + 1 := ⟨fuel - 1, by omega⟩
    unfold parseGameCommands
    simp only []
    rw [if_neg (not_not.mpr h1), h2]
  | succ n ih =>
    intro fuel msg msg1 hs hf
    obtain ⟨h1, h2⟩ := hs
    obtain ⟨k, rfl⟩ : ∃ k, fuel = k + 1 := ⟨fuel - 1, by omega⟩
    have hrec := ih k _ msg1 h2 (by omega)
    unfold parseGameCommands
    simp only []
    rw [if_pos h1]
    simp only [hv, Bool.false_and, Bool.false_eq_true, if_false]
    cases hmp : (mem nf).multipov with
    | false =>
      rw [hmp] at hrec
      simpa using hrec
    | true =>
      rw [hmp] at hrec
      simpa using hrec

theorem parsePlayerInfos_holds {M : Type} (ops : MsgOps M) (c : Consts)
    (deltaframe : Option Nat) (nf : Nat) :
    ∀ (n fuel k : Nat) (msg msg1 : M) (mem : Frames), HoldsPlayers ops c msg n msg1 →
      n < fuel →
      ∃ mem1, parsePlayerInfos ops c deltaframe nf fuel k msg mem = Res.ok (msg1, mem1, k + n) := by
  intro n
  induction n with
  | zero =>
    intro fuel k msg msg1 mem hs hf
    obtain ⟨h1, h2⟩ := hs
    obtain ⟨j, rfl⟩ : ∃ j, fuel = j + 1 := ⟨fuel - 1, by omega⟩
    refine ⟨mem, ?_⟩
    unfold parsePlayerInfos
    simp only []
    rw [if_neg (not_not.mpr h1), h2]
    rfl
  | succ n ih =>
    intro fuel k msg msg1 mem hs hf
    obtain ⟨h1, h0, m2, hm2, hrest⟩ := hs
    obtain ⟨j, rfl⟩ : ∃ j, fuel = j + 1 := ⟨fuel - 1, by omega⟩
    have hne : (ops.MSG_ReadUint8 msg).1 ≠ 0 := by rw [h1]; exact h0
    unfold parsePlayerInfos
    simp only []
    rw [if_pos hne, if_neg (not_not.mpr h1), hm2]
    obtain ⟨mem1, hrec⟩ := ih j (k + 1) m2 msg1 _ hrest (by omega)
    refine ⟨mem1, ?_⟩
    rw [hrec]
    have e : k + 1 + n = k + (n + 1) := by omega
    rw [e]

/-- With the base cursor exhausted the token loop does not look at the base
frame. -/
theorem parseTokens_exhausted {M : Type} (ops : MsgOps M) (c : Consts)
    (hE : c.MAX_EDICTS ≤ 99999) (oldframe : Option Nat) (nf : Nat) (B : Int → SyncEntityState)
    (cur : Cursor) (hcur : cur.oldnum = 99999) :
    ∀ (fuel : Nat) (msg : M) (mem : Frames),
      parseTokens ops c oldframe nf B fuel msg mem cur
        = parseTokens ops c none nf B fuel msg mem cur ∧
      ∀ m1 mem1 cur1, parseTokens ops c none nf B fuel msg mem cur = Res.ok (m1, mem1, cur1) →
        cur1 = cur := by
  intro fuel
  induction fuel with
  | zero =>
    intro msg mem
    exact ⟨rfl, fun m1 mem1 cur1 h => by cases h⟩
  | succ k ih =>
    intro msg mem
    have hcu : ∀ o : Option Nat, (ops.MSG_ReadEntityNumber msg).1.1 < c.MAX_EDICTS →
        copyUnchanged c o nf (ops.MSG_ReadEntityNumber msg).1.1 k mem cur
          = match k with
            | 0 => Res.fuel
            | _ + 1 => Res.ok (mem, cur) := by
      intro o hlt
      cases k with
      | zero => rfl
      | succ j =>
        have hn : ¬ cur.oldnum < (ops.MSG_ReadEntityNumber msg).1.1 := by rw [hcur]; omega
        simp only [copyUnchanged, if_neg hn]
    by_cases c1 : (ops.MSG_ReadEntityNumber msg).1.1 ≥ c.MAX_EDICTS
    · constructor
      · simp only [parseTokens, c1, if_true]
      · intro m1 mem1 cur1 h
        simp only [parseTokens, c1, if_true] at h
        cases h
    have hlt : (ops.MSG_ReadEntityNumber msg).1.1 < c.MAX_EDICTS := by omega
    by_cases c2 : ops.readcount (ops.MSG_ReadEntityNumber msg).2
        > ops.cursize (ops.MSG_ReadEntityNumber msg).2
    · constructor
      · simp only [parseTokens, c1, c2, if_true, if_false]
      · intro m1 mem1 cur1 h
        simp only [parseTokens, c1, c2, if_true, if_false] at h
        cases h
    by_cases c3 : (ops.MSG_ReadEntityNumber msg).1.1 = 0
    · have c0 : ¬ (0 : Int) ≥ (c.MAX_EDICTS : Int) := by rw [c3] at c1; exact c1
      constructor
      · simp only [parseTokens, c2, c3, c0, if_true, if_false]
      · intro m1 mem1 cur1 h
        simp only [parseTokens, c2, c3, c0, if_true, if_false] at h
        injection h with h
        exact (congrArg (fun p => p.2.2) h).symm
    have c5 : cur.oldnum > (ops.MSG_ReadEntityNumber msg).1.1 := by rw [hcur]; omega
    cases k with
    | zero =>
      constructor
      · simp only [parseTokens, c1, c2, c3, if_false, copyUnchanged]
      · intro m1 mem1 cur1 h
        simp only [parseTokens, c1, c2, c3, if_false, copyUnchanged] at h
        cases h
    | succ j =>
      have h1 := hcu oldframe hlt
      have h2 := hcu none hlt
      simp only [] at h1 h2
      cases hrm : (ops.MSG_ReadEntityNumber msg).1.2 with
      | true =>
        obtain ⟨e1, e2⟩ := ih (ops.MSG_ReadEntityNumber msg).2 mem
        constructor
        · rw [parseTokens, parseTokens]
          simp only [c1, c2, c3, if_false, h1, h2, c5, if_true, hrm]
          exact e1
        · intro m1 mem1 cur1 h
          rw [parseTokens] at h
          simp only [c1, c2, c3, if_false, h2, c5, if_true, hrm] at h
          exact e2 m1 mem1 cur1 h
      | false =>
        obtain ⟨e1, e2⟩ := ih
          (SNAP_ParseDeltaEntity ops c (ops.MSG_ReadEntityNumber msg).2 mem nf
            (ops.MSG_ReadEntityNumber msg).1.1 (B (ops.MSG_ReadEntityNumber msg).1.1)).1
          (SNAP_ParseDeltaEntity ops c (ops.MSG_ReadEntityNumber msg).2 mem nf
            (ops.MSG_ReadEntityNumber msg).1.1 (B (ops.MSG_ReadEntityNumber msg).1.1)).2
        constructor
        · rw [parseTokens, parseTokens]
          simp only [c1, c2, c3, if_false, h1, h2, c5, if_true, hrm, Bool.false_eq_true]
          exact e1
        · intro m1 mem1 cur1 h
          rw [parseTokens] at h
          simp only [c1, c2, c3, if_false, h2, c5, if_true, hrm, Bool.false_eq_true] at h
          exact e2 m1 mem1 cur1 h

/-- When the base frame is the new frame itself, or has no entity, the merge
runs as without a base frame. -/
theorem parsePacketEntities_empty_base {M : Type} (ops : MsgOps M) (c : Consts)
    (hE : c.MAX_EDICTS ≤ 99999) (fuel : Nat) (msg : M) (mem : Frames) (o nf : Nat)
    (B : Int → SyncEntityState) (ho : o = nf ∨ (mem o).numEntities = 0) :
    SNAP_ParsePacketEntities ops c fuel msg mem (some o) nf B
      = SNAP_ParsePacketEntities ops c fuel msg mem none nf B := by
  have hz : ((Function.update mem nf { mem nf with numEntities := 0 }) o).numEntities = 0 := by
    by_cases h : o = nf
    · subst h; rw [Function.update_same]
    · rw [Function.update_noteq h]
      rcases ho with h1 | h1
      · exact absurd h1 h
      · exact h1
  have hinit : initCursor c (Function.update mem nf { mem nf with numEntities := 0 }) (some o)
      = { oldindex := 0, oldnum := 99999, oldstate := none } := by
    simp only [initCursor, hz, ge_iff_le, le_refl, if_true]
  obtain ⟨e1, e2⟩ := parseTokens_exhausted ops c hE (some o) nf B
    { oldindex := 0, oldnum := 99999, oldstate := none } rfl fuel msg
    (Function.update mem nf { mem nf with numEntities := 0 })
  unfold SNAP_ParsePacketEntities
  simp only [hinit, e1]
  simp only [initCursor]
  cases hp : parseTokens ops c none nf B fuel msg
      (Function.update mem nf { mem nf with numEntities := 0 })
      { oldindex := 0, oldnum := 99999, oldstate := none } with
  | drop e => rfl
  | undef => rfl
  | fuel => rfl
  | ok s =>
    obtain ⟨m1, mem1, cur1⟩ := s
    have hc := e2 m1 mem1 cur1 hp
    subst hc
    cases fuel with
    | zero => rfl
    | succ k => simp only [copyRemaining, ne_eq, not_true_eq_false, if_false]

/-- C8. When the header yields `valid` false, the section markers are the
expected ones and each section holds its items and its terminator, the parse
of the frame returns, having read the message up to the end of the entity
section, and the frame is still invalid. Moreover, in a codec in which skipping
data moves the cursor as reading it does, a game-command section read for any
frame with the same multi-POV flag, valid or not, ends at the same place of the
message. -/
theorem SNAP_ParseFrame_invalid_consumed {M : Type} (ops : MsgOps M) (c : Consts) (j : Nat)
    (hP : c.MAX_PARSE_ENTITIES = 2 ^ j) (hE0 : 0 < c.MAX_EDICTS) (hE : c.MAX_EDICTS ≤ 99999)
    (hskip : ∀ m n, ops.MSG_SkipData m n = (ops.MSG_ReadData m n).2)
    (hskip0 : ∀ m, ops.MSG_SkipData m 0 = m)
    (B : Int → SyncEntityState) (fuel : Nat) (msg : M) (mem : Frames) (lastFrame : Option Nat)
    (b : Nat) (mh : M) (memh : Frames) (nf : Nat)
    (hhead : SNAP_ParseFrameHeader ops c msg mem none (some b) = Res.ok (mh, memh, nf))
    (hinv : (memh nf).valid = false)
    (ncmd npl : Nat) (T : List Token) (mb md me mg : M)
    (hm1 : (ops.MSG_ReadUint8 mh).1 = c.svc_gamecommands)
    (hgc : SkipsCommands ops (memh nf).multipov (ops.MSG_ReadUint8 mh).2 ncmd mb)
    (hm2 : (ops.MSG_ReadUint8 mb).1 = c.svc_match)
    (hgs : ∀ old, (ops.MSG_ReadDeltaGameState (ops.MSG_ReadUint8 mb).2 old).2 = md)
    (hpl : HoldsPlayers ops c md npl me)
    (hm3 : (ops.MSG_ReadUint8 me).1 = c.svc_packetentities)
    (hent : Encodes ops (ops.MSG_ReadUint8 me).2 T mg)
    (htok : ∀ t ∈ T, t.number ≠ 0 ∧ t.number < c.MAX_EDICTS)
    (hbase : ∀ e ∈ entityList c (mem (b + c.ringIndex (memh nf).deltaFrameNum)),
      e.number ≠ 99999)
    (hf1 : ncmd < fuel) (hf2 : npl < fuel)
    (hf3 : (mem (b + c.ringIndex (memh nf).deltaFrameNum)).numEntities + T.length < fuel) :
    (∃ mem1, SNAP_ParseFrame ops c fuel msg mem lastFrame (some b) B = Res.ok (mg, mem1, nf) ∧
      (mem1 nf).valid = false) ∧
    (∀ lf1 nf1 mem1 m2 mem2, (mem1 nf1).multipov = (memh nf).multipov →
      parseGameCommands ops c lf1 nf1 fuel (ops.MSG_ReadUint8 mh).2 mem1 = Res.ok (m2, mem2) →
      m2 = mb) := by
  have hgcrun := parseGameCommands_invalid ops c lastFrame nf memh hinv ncmd fuel _ mb hgc hf1
  constructor
  · -- the frame store outside of the new frame is the one before the call
    have hoff : ∀ a, a ≠ nf → memh a = mem a := by
      intro a ha
      cases hsel : (match (some b : Option Nat) with
        | some b =>
          some (b + c.ringIndex
            (wrapInt32 (ops.MSG_ReadUintBase128 (ops.MSG_ReadIntBase128 msg).2).1))
        | none => none) with
      | none => simp at hsel
      | some a1 =>
        obtain ⟨msg2, mem2, hrun2, hframe, _⟩ :=
          parseFrameHeader_eq ops c msg mem none (some b) a1 hsel
        rw [hhead] at hrun2
        injection hrun2 with h2
        have hmem : memh = mem2 := congrArg (fun p => p.2.1) h2
        have hnf : nf = a1 := congrArg (fun p => p.2.2) h2
        subst hmem
        subst hnf
        exact hframe a ha
    obtain ⟨mem4, hplrun⟩ := parsePlayerInfos_holds ops c (deltaFrameOf c b (memh nf)) nf npl
      fuel 0 md me
      (Function.update memh nf
        { memh nf with
          gameState := (ops.MSG_ReadDeltaGameState (ops.MSG_ReadUint8 mb).2
            ((deltaFrameOf c b (memh nf)).map (fun d => (memh d).gameState))).1 }) hpl hf2
    have f3 := parsePlayerInfos_frameOnly ops c _ nf fuel 0 _ _ _ _ _ hplrun
    obtain ⟨mem5, h5⟩ : ∃ mem5, mem5 = Function.update mem4 nf
        { mem4 nf with numplayers := 0 + npl, playerState := (mem4 nf).playerStates 0 } :=
      ⟨_, rfl⟩
    have hmem5 : ∀ a, a ≠ nf → mem5 a = mem a := by
      intro a ha
      rw [h5, Function.update_noteq ha, f3.1 a ha, Function.update_noteq ha, hoff a ha]
    have hv5 : (mem5 nf).valid = false := by
      rw [h5, Function.update_same]
      show (mem4 nf).valid = false
      rw [f3.2.1, Function.update_same]
      exact hinv
    -- the entity section
    have hentrun : ∃ mem1, SNAP_ParsePacketEntities ops c fuel (ops.MSG_ReadUint8 me).2 mem5
        (deltaFrameOf c b (memh nf)) nf B = Res.ok (mg, mem1) := by
      have hnone : ∃ mem1, SNAP_ParsePacketEntities ops c fuel (ops.MSG_ReadUint8 me).2 mem5
          none nf B = Res.ok (mg, mem1) := by
        obtain ⟨mem1, hrun, _⟩ := parsePacketEntities_eq_refMerge ops c hP hE0 hE B mem5 none nf
          (by intro o ho; cases ho) T _ mg hent htok
          (by intro e he; simp [baseFrame, entityList, snapshot_t.zero] at he) fuel
          (by simp only [baseFrame, snapshot_t.zero]; omega)
        exact ⟨mem1, hrun⟩
      unfold deltaFrameOf
      split
      · split
        · by_cases hd : b + c.ringIndex (memh nf).deltaFrameNum = nf
          · rw [parsePacketEntities_empty_base ops c hE fuel _ mem5 _ nf B (Or.inl hd)]
            exact hnone
          · have hb5 := hmem5 _ hd
            obtain ⟨mem1, hrun, _⟩ := parsePacketEntities_eq_refMerge ops c hP hE0 hE B mem5
              (some (b + c.ringIndex (memh nf).deltaFrameNum)) nf
              (by intro o ho; cases ho; exact hd) T _ mg hent htok
              (by simp only [baseFrame]; rw [hb5]; exact hbase) fuel
              (by simp only [baseFrame]; rw [hb5]; exact hf3)
            exact ⟨mem1, hrun⟩
        · exact hnone
      · exact hnone
    obtain ⟨mem1, hentrun⟩ := hentrun
    have f5 := parsePacketEntities_frameOnly ops c fuel _ _ _ nf B _ _ hentrun
    refine ⟨mem1, ?_, by rw [f5.2.1]; exact hv5⟩
    unfold SNAP_ParseFrame
    rw [hhead]
    simp only []
    rw [if_neg (not_not.mpr hm1), hgcrun]
    simp only []
    rw [if_neg (not_not.mpr hm2), hgs, hplrun]
    simp only []
    rw [if_neg (not_not.mpr hm3), ← h5, hentrun]
  · intro lf1 nf1 mem1 m2 mem2 hmp hrun
    obtain ⟨r, hr⟩ := parseGameCommands_msg_determined ops c hskip hskip0 fuel
      (ops.MSG_ReadUint8 mh).2 (memh nf).multipov
    rw [hr lf1 nf1 mem1 hmp m2 mem2 hrun, hr lastFrame nf memh rfl mb memh hgcrun]

/-- Scenario 3 with a full frame: frame 100, delta from 95, against a ring
whose slot 31 holds frame 127; the header yields an invalid frame and the
parse returns after the whole message has been read. -/
theorem SNAP_ParseFrame_invalid_consumed_witness :
    Res.frameValid (SNAP_ParseFrame wordOps smallConsts 3 frame100Msg scenario3Mem none (some 0)
        zeroBaselines) = some false ∧
    Res.msgAfter (SNAP_ParseFrame wordOps smallConsts 3 frame100Msg scenario3Mem none (some 0)
        zeroBaselines) = some { data := [], readcount := 20, cursize := 20 } ∧
    ∃ mem1, SNAP_ParseFrame wordOps smallConsts 3 frame100Msg scenario3Mem none (some 0)
        zeroBaselines = Res.ok ({ data := [], readcount := 20, cursize := 20 }, mem1, 4) ∧
      (mem1 4).valid = false :=
  ⟨by decide, by decide,
    (SNAP_ParseFrame_invalid_consumed wordOps smallConsts 10 (by decide) (by decide) (by decide)
      (fun _ _ => rfl) (fun _ => rfl) zeroBaselines 3 frame100Msg scenario3Mem none 0
      _ _ 4 rfl (by decide) 1 1 [originToken 7 1 2 3]
      { data := [6, 0, 3, 9, 0, 4, 7, 1, 2, 3, 0], readcount := 9, cursize := 20 }
      { data := [3, 9, 0, 4, 7, 1, 2, 3, 0], readcount := 11, cursize := 20 }
      { data := [4, 7, 1, 2, 3, 0], readcount := 14, cursize := 20 }
      { data := [], readcount := 20, cursize := 20 }
      (by decide) ⟨by decide, by decide, rfl⟩ (by decide) (fun _ => rfl)
      ⟨by decide, by decide, _, fun _ => rfl, by decide, rfl⟩ (by decide)
      ⟨_, ⟨_, _, rfl, by decide, fun _ => rfl, rfl⟩, false, rfl, by decide⟩
      (by decide) (by decide) (by decide) (by decide) (by decide)).1⟩


/-! ## Storing into a `float` -/

/-- An integer is rounded to itself. -/
theorem roundEven_intCast (n : Int) : roundEven (n : ℚ) = n := by
  unfold roundEven
  simp

/-- A number with at most 24 significant bits is stored into a `float` as it is. -/
theorem f32_exact (m k : Int) (h : |m| < 2 ^ 24) : f32 ((m : ℚ) * 2 ^ k) = (m : ℚ) * 2 ^ k := by
  by_cases hm : m = 0
  · subst hm
    simp [f32]
  have hx : (m : ℚ) * 2 ^ k ≠ 0 := by
    refine mul_ne_zero (by exact_mod_cast hm) (zpow_ne_zero _ (by norm_num))
  have hpos : 0 < |(m : ℚ) * 2 ^ k| := abs_pos.mpr hx
  unfold f32
  rw [if_neg hx]
  set L := Int.log 2 |(m : ℚ) * 2 ^ k| with hL
  have h1 : ((2 : ℕ) : ℚ) ^ L ≤ |(m : ℚ) * 2 ^ k| := Int.zpow_log_le_self (by norm_num) hpos
  have h2 : |(m : ℚ) * 2 ^ k| < (2 : ℚ) ^ (k + 24) := by
    rw [abs_mul, abs_of_pos (zpow_pos (by norm_num : (0 : ℚ) < 2) k), zpow_add₀ (by norm_num), mul_comm]
    have : |(m : ℚ)| < 2 ^ (24 : ℤ) := by
      have h' : ((|m| : Int) : ℚ) < ((2 ^ 24 : Int) : ℚ) := by exact_mod_cast h
      rw [Int.cast_abs] at h'
      norm_num at h' ⊢
      exact h'
    exact mul_lt_mul_of_pos_left this (zpow_pos (by norm_num) k)
  have h3 : L < k + 24 := by
    have : (2 : ℚ) ^ L < (2 : ℚ) ^ (k + 24) := lt_of_le_of_lt (by simpa using h1) h2
    exact (zpow_lt_zpow_iff_right₀ (by norm_num : (1 : ℚ) < 2)).mp this
  obtain ⟨d, hd⟩ : ∃ d : ℕ, k = L - 23 + d := ⟨(k - (L - 23)).toNat, by omega⟩
  have hdiv : (m : ℚ) * 2 ^ k / 2 ^ (L - 23) = ((m * 2 ^ d : Int) : ℚ) := by
    rw [hd, zpow_add₀ (by norm_num : (2 : ℚ) ≠ 0)]
    field_simp
    ring
  rw [hdiv, roundEven_intCast, hd, zpow_add₀ (by norm_num : (2 : ℚ) ≠ 0), zpow_natCast]
  push_cast
  ring

/-- The rounding of a number above an integer is not below that integer. -/
theorem roundEven_ge (x : ℚ) (n : Int) (h : (n : ℚ) ≤ x) : n ≤ roundEven x := by
  have hf : n ≤ ⌊x⌋ := Int.le_floor.mpr h
  unfold roundEven
  split_ifs <;> omega

/-- The rounding of a number below an integer is not above that integer. -/
theorem roundEven_le (x : ℚ) (n : Int) (h : x ≤ (n : ℚ)) : roundEven x ≤ n := by
  have hc : ⌈x⌉ ≤ n := Int.ceil_le.mpr h
  have hfl : (⌊x⌋ : ℚ) ≤ x := Int.floor_le x
  unfold roundEven
  by_cases hx : x - ⌊x⌋ < 1 / 2
  · rw [if_pos hx]
    have : ⌊x⌋ ≤ ⌈x⌉ := Int.floor_le_ceil x
    omega
  · have hne : (⌊x⌋ : ℚ) ≠ x := by
      intro h'
      rw [h'] at hx
      norm_num at hx
    have hlt : (⌊x⌋ : ℚ) < n := lt_of_lt_of_le (lt_of_le_of_ne hfl hne) h
    have : ⌊x⌋ < n := by exact_mod_cast hlt
    rw [if_neg hx]
    split_ifs <;> omega

/-- Only zero is stored into a `float` as zero. -/
theorem f32_eq_zero_iff (x : ℚ) : f32 x = 0 ↔ x = 0 := by
  constructor
  · intro h
    by_contra hx
    unfold f32 at h
    rw [if_neg hx] at h
    have hpos : 0 < |x| := abs_pos.mpr hx
    have h1 : ((2 : ℕ) : ℚ) ^ Int.log 2 |x| ≤ |x| := Int.zpow_log_le_self (by norm_num) hpos
    have h1' : (8388608 : ℚ) * 2 ^ (Int.log 2 |x| - 23) ≤ |x| := by
      have : (8388608 : ℚ) * 2 ^ (Int.log 2 |x| - 23) = 2 ^ Int.log 2 |x| := by
        rw [zpow_sub₀ (by norm_num : (2 : ℚ) ≠ 0)]
        norm_num
        field_simp
      rw [this]
      simpa using h1
    generalize Int.log 2 |x| - 23 = e at h h1'
    have h2 : (2 : ℚ) ^ e ≠ 0 := zpow_ne_zero _ (by norm_num)
    have h2p : (0 : ℚ) < 2 ^ e := zpow_pos (by norm_num) _
    have hr : roundEven (x / 2 ^ e) = 0 := by
      rcases mul_eq_zero.mp h with h' | h'
      · exact_mod_cast h'
      · exact absurd h' h2
    have hy : (8388608 : ℚ) ≤ |x| / 2 ^ e := (le_div_iff₀ h2p).mpr h1'
    rcases le_or_lt 0 x with hx0 | hx0
    · rw [abs_of_nonneg hx0] at hy
      have := roundEven_ge _ 8388608 (by simpa using hy)
      omega
    · rw [abs_of_neg hx0, neg_div] at hy
      have := roundEven_le (x / 2 ^ e) (-8388608) (by push_cast; linarith)
      omega
  · intro h
    rw [h]
    simp [f32]


/-- An integer below `2 ^ 24` in absolute value is stored into a `float` as it
is. -/
theorem f32_int (n : Int) (h : |n| < 2 ^ 24) : f32 (n : ℚ) = (n : ℚ) := by
  have := f32_exact n 0 h
  simpa using this

/-- A number within a half of an integer is rounded to that integer. -/
theorem roundEven_near (y : ℚ) (n : Int) (h : |y - n| < 1 / 2) : roundEven y = n := by
  obtain ⟨h1, h2⟩ := abs_lt.mp h
  rcases le_or_lt (n : ℚ) y with hy | hy
  · have hf : ⌊y⌋ = n := Int.floor_eq_iff.mpr ⟨hy, by linarith⟩
    unfold roundEven
    rw [hf, if_pos (by linarith)]
  · have hf : ⌊y⌋ = n - 1 := Int.floor_eq_iff.mpr ⟨by push_cast; linarith, by push_cast; linarith⟩
    unfold roundEven
    rw [hf, if_neg (by push_cast; linarith), if_pos (by push_cast; linarith)]
    omega

/-- The value stored into a `float` for a number between two powers of two
whose scaled value is within a half of an integer. -/
theorem f32_of_bounds (x : ℚ) (L n : Int) (h1 : (2 : ℚ) ^ L ≤ |x|)
    (h2 : |x| < (2 : ℚ) ^ (L + 1)) (h3 : |x / 2 ^ (L - 23) - n| < 1 / 2) :
    f32 x = (n : ℚ) * 2 ^ (L - 23) := by
  have hpos : 0 < |x| := lt_of_lt_of_le (zpow_pos (by norm_num) L) h1
  have hx : x ≠ 0 := abs_pos.mp hpos
  have hlog : Int.log 2 |x| = L := by
    apply le_antisymm
    · have : Int.log 2 |x| < L + 1 :=
        (Int.lt_zpow_iff_log_lt (by norm_num) hpos).mp (by simpa using h2)
      omega
    · exact (Int.zpow_le_iff_le_log (by norm_num) hpos).mp (by simpa using h1)
  unfold f32
  rw [if_neg hx, hlog, roundEven_near _ n h3]

/-- The `float` difference of `7 / 131072` and `8388609 / 16384`, two numbers
of the format, is `-512`: the exact difference `-67108865 / 131072` lies
between `-512` and the next number of the format below it, nearer to `-512`. -/
theorem f32_edge : f32 ((7 : ℚ) / 131072 - 8388609 / 16384) = -512 := by
  have h := f32_of_bounds ((7 : ℚ) / 131072 - 8388609 / 16384) 9 (-8388608)
    (by norm_num [abs_of_neg]) (by norm_num [abs_of_neg]) (by norm_num [abs_lt])
  rw [h]
  norm_num

/-- The `float` differences of the scenarios: the steps from 0 to 3 and to 600,
and no step. -/
theorem f32_small_step : f32 ((0 : ℚ) - 3) = -3 := by
  have h := f32_int (-3) (by decide)
  norm_num at h ⊢
  exact h

theorem f32_large_step : f32 ((0 : ℚ) - 600) = -600 := by
  have h := f32_int (-600) (by decide)
  norm_num at h ⊢
  exact h

theorem f32_no_step : f32 ((0 : ℚ) - 0) = 0 := by
  have h := f32_int 0 (by decide)
  norm_num at h ⊢
  exact h

/-- Zero is stored into a `float` as zero. -/
theorem f32_zero : f32 0 = 0 := by
  simp [f32]

/-- A number half way between two numbers of the format is stored as the one
whose last bit is zero: with `x / 2 ^ (L - 23)` equal to `n + 1 / 2` and `n`
even, the value stored is `n * 2 ^ (L - 23)`. -/
theorem f32_of_tie (x : ℚ) (L n : Int) (h1 : (2 : ℚ) ^ L ≤ |x|)
    (h2 : |x| < (2 : ℚ) ^ (L + 1)) (h3 : x / 2 ^ (L - 23) = (n : ℚ) + 1 / 2) (h4 : n % 2 = 0) :
    f32 x = (n : ℚ) * 2 ^ (L - 23) := by
  have hpos : 0 < |x| := lt_of_lt_of_le (zpow_pos (by norm_num) L) h1
  have hx : x ≠ 0 := abs_pos.mp hpos
  have hlog : Int.log 2 |x| = L := by
    apply le_antisymm
    · have : Int.log 2 |x| < L + 1 :=
        (Int.lt_zpow_iff_log_lt (by norm_num) hpos).mp (by simpa using h2)
      omega
    · exact (Int.zpow_le_iff_le_log (by norm_num) hpos).mp (by simpa using h1)
  have hf : ⌊(n : ℚ) + 1 / 2⌋ = n := Int.floor_eq_iff.mpr ⟨by linarith, by linarith⟩
  have hr : roundEven ((n : ℚ) + 1 / 2) = n := by
    unfold roundEven
    rw [hf, if_neg (by norm_num), if_neg (by norm_num), if_pos h4]
  unfold f32
  rw [if_neg hx, hlog, h3, hr]

/-- The times of the scenarios as `float`: 950 and 850 are stored as they are,
and `2 ^ 24 + 1`, half way between `2 ^ 24` and `2 ^ 24 + 2`, is stored as
`2 ^ 24`. -/
theorem f32_flight_time : f32 950 = 950 := by
  have h := f32_int 950 (by decide)
  norm_num at h ⊢
  exact h

theorem f32_early_time : f32 850 = 850 := by
  have h := f32_int 850 (by decide)
  norm_num at h ⊢
  exact h

theorem f32_late_time : f32 16777217 = 16777216 := by
  have h := f32_of_tie 16777217 24 8388608 (by norm_num [abs_of_nonneg])
    (by norm_num [abs_of_nonneg]) (by norm_num) (by decide)
  rw [h]
  norm_num

theorem f32_late_rounded : f32 16777216 = 16777216 := by
  have h := f32_exact 1 24 (by decide)
  norm_num at h ⊢
  exact h

/-! ## The three update kinds of `CG_NewPacketEntityState` -/

/-- `CG_UpdateLinearProjectilePosition` writes at most `current.origin`. -/
theorem updateLinearProjectilePosition_fields (env : CgEnv) (cl : Client) (cent : centity_t) :
    (CG_UpdateLinearProjectilePosition env cl cent).2.canExtrapolate = cent.canExtrapolate ∧
    (CG_UpdateLinearProjectilePosition env cl cent).2.prev = cent.prev ∧
    (CG_UpdateLinearProjectilePosition env cl cent).2.velocity = cent.velocity ∧
    (CG_UpdateLinearProjectilePosition env cl cent).2.serverFrame = cent.serverFrame := by
  unfold CG_UpdateLinearProjectilePosition
  simp only []
  split_ifs <;> exact ⟨rfl, rfl, rfl, rfl⟩

/-- C11. Extrapolation gating: for every incoming state and every prior record,
if the model of the incoming state is a brush model then `canExtrapolate` is
false after `CG_NewPacketEntityState`, in each of the three update kinds and
whatever the entity type. -/
theorem CG_NewPacketEntityState_brush_model (env : CgEnv) (cl : Client)
    (state : SyncEntityState) (hbrush : env.CM_IsBrushModel state.model = true) :
    ((CG_NewPacketEntityState env cl state).cg_entities state.number).canExtrapolate
      = false := by
  unfold CG_NewPacketEntityState
  cases hev : env.ISEVENTENTITY state
  · cases hlin : state.linearMovement
    · simp only [Bool.false_eq_true, if_false, Function.update_same,
        apply_ite centity_t.current, apply_ite centity_t.canExtrapolate, ite_self, hbrush,
        if_true]
    · simp only [Bool.false_eq_true, if_false, if_true, Function.update_same]
      exact (updateLinearProjectilePosition_fields env cl _).1
  · simp only [if_true, Function.update_same]

/-- Witness for C11: with extrapolation enabled, a player entity whose model is
a brush model is left without extrapolation. -/
theorem CG_NewPacketEntityState_brush_model_witness :
    (brushEnv.CM_IsBrushModel moverState.model = true
      ∧ moverState.type = EntityType.ET_PLAYER ∧ xerpClient.cgs.extrapolationTime ≠ 0)
    ∧ ((CG_NewPacketEntityState brushEnv xerpClient moverState).cg_entities
        moverState.number).canExtrapolate = false :=
  ⟨⟨rfl, rfl, by decide⟩, CG_NewPacketEntityState_brush_model brushEnv xerpClient moverState rfl⟩

/-- C19, amended. Event-only update: for every incoming event entity state and
every prior record, after `CG_NewPacketEntityState` the `prev` of the record is
its former `current`, its `current` is the incoming state, its velocity is zero
and `canExtrapolate` is false. -/
theorem CG_NewPacketEntityState_event (env : CgEnv) (cl : Client) (state : SyncEntityState)
    (hev : env.ISEVENTENTITY state = true) :
    ((CG_NewPacketEntityState env cl state).cg_entities state.number).prev
      = (cl.cg_entities state.number).current ∧
    ((CG_NewPacketEntityState env cl state).cg_entities state.number).current = state ∧
    ((CG_NewPacketEntityState env cl state).cg_entities state.number).velocity = Vec3.zero ∧
    ((CG_NewPacketEntityState env cl state).cg_entities state.number).canExtrapolate
      = false := by
  unfold CG_NewPacketEntityState
  simp only [hev, if_true, Function.update_same, and_self]

/-- Witness for C19: an event entity with number 5 arrives while record 5 holds
an entity at the origin. -/
theorem CG_NewPacketEntityState_event_witness :
    eventEnv.ISEVENTENTITY eventState = true ∧
    ((CG_NewPacketEntityState eventEnv jumpClient eventState).cg_entities 5).prev
      = entAt 5 0 0 0 ∧
    ((CG_NewPacketEntityState eventEnv jumpClient eventState).cg_entities 5).current
      = eventState ∧
    ((CG_NewPacketEntityState eventEnv jumpClient eventState).cg_entities 5).velocity
      = Vec3.zero ∧
    ((CG_NewPacketEntityState eventEnv jumpClient eventState).cg_entities 5).canExtrapolate
      = false :=
  ⟨rfl, CG_NewPacketEntityState_event eventEnv jumpClient eventState rfl⟩

/-- C19 as stated fails: after an event entity with number 5 has arrived, the
`prev` of record 5 is the state the record held before, at the origin, and not
the incoming state at `(600, 0, 0)`. -/
theorem CG_NewPacketEntityState_event_counterexample :
    eventEnv.ISEVENTENTITY eventState = true ∧
    (jumpClient.cg_entities eventState.number).current = entAt 5 0 0 0 ∧
    ((CG_NewPacketEntityState eventEnv jumpClient eventState).cg_entities
      eventState.number).prev = entAt 5 0 0 0 ∧
    ((CG_NewPacketEntityState eventEnv jumpClient eventState).cg_entities
      eventState.number).prev ≠ eventState := by
  refine ⟨rfl, rfl, rfl, ?_⟩
  decide

/-- C20, amended. Linear-movement history rule: for an incoming state in linear
movement that is not an event entity, `CG_NewPacketEntityState` sets `prev` to
the incoming state when the record was not refreshed in `cg.oldFrame`, or the
teleported flag of the state is set, or the linear movement flag or the start
timestamp differs from that of the record's `current`; otherwise `prev` is the
former `current` of the record. -/
theorem CG_NewPacketEntityState_linear_prev (env : CgEnv) (cl : Client)
    (state : SyncEntityState) (hev : env.ISEVENTENTITY state = false)
    (hlin : state.linearMovement = true) :
    (((cl.cg_entities state.number).serverFrame ≠ cl.cg.oldFrame.serverFrame
        ∨ state.teleported = true
        ∨ state.linearMovement ≠ (cl.cg_entities state.number).current.linearMovement
        ∨ state.linearMovementTimeStamp
            ≠ (cl.cg_entities state.number).current.linearMovementTimeStamp) →
      ((CG_NewPacketEntityState env cl state).cg_entities state.number).prev = state) ∧
    (¬ ((cl.cg_entities state.number).serverFrame ≠ cl.cg.oldFrame.serverFrame
        ∨ state.teleported = true
        ∨ state.linearMovement ≠ (cl.cg_entities state.number).current.linearMovement
        ∨ state.linearMovementTimeStamp
            ≠ (cl.cg_entities state.number).current.linearMovementTimeStamp) →
      ((CG_NewPacketEntityState env cl state).cg_entities state.number).prev
        = (cl.cg_entities state.number).current) := by
  have hprev : ((CG_NewPacketEntityState env cl state).cg_entities state.number).prev
      = if (cl.cg_entities state.number).serverFrame ≠ cl.cg.oldFrame.serverFrame
          ∨ state.teleported = true
          ∨ state.linearMovement ≠ (cl.cg_entities state.number).current.linearMovement
          ∨ state.linearMovementTimeStamp
              ≠ (cl.cg_entities state.number).current.linearMovementTimeStamp
        then state else (cl.cg_entities state.number).current := by
    unfold CG_NewPacketEntityState
    simp only [hev, Bool.false_eq_true, if_false, Function.update_same]
    rw [if_pos hlin]
    simp only [Function.update_same]
    exact (updateLinearProjectilePosition_fields env cl _).2.1
  constructor
  · intro h
    rw [hprev, if_pos h]
  · intro h
    rw [hprev, if_neg h]

/-- Witness for C20 in scenario 5: the projectile re-launched at time 950 has
its history reset, and the projectile with the launch time of the record keeps
the former `current` as `prev`. -/
theorem CG_NewPacketEntityState_linear_prev_witness :
    (plainEnv.ISEVENTENTITY (projectileState 1 950) = false
      ∧ (projectileState 1 950).linearMovement = true
      ∧ (projectileState 1 950).linearMovementTimeStamp
          ≠ (projectileClient.cg_entities 6).current.linearMovementTimeStamp)
    ∧ ((CG_NewPacketEntityState plainEnv projectileClient (projectileState 1 950)).cg_entities
        6).prev = projectileState 1 950
    ∧ ((CG_NewPacketEntityState plainEnv projectileClient (projectileState 1 900)).cg_entities
        6).prev = (projectileClient.cg_entities 6).current :=
  ⟨⟨rfl, rfl, by decide⟩,
    (CG_NewPacketEntityState_linear_prev plainEnv projectileClient (projectileState 1 950) rfl
      rfl).1 (Or.inr (Or.inr (Or.inr (by decide)))),
    (CG_NewPacketEntityState_linear_prev plainEnv projectileClient (projectileState 1 900) rfl
      rfl).2 (by decide)⟩

/-- C20 as stated fails for a change of model: the projectile of scenario 5
arrives with model 2 while the record holds model 1, in the same movement and
refreshed in `cg.oldFrame`; `prev` is the former `current` of the record, not
the incoming state. -/
theorem CG_NewPacketEntityState_linear_prev_counterexample :
    plainEnv.ISEVENTENTITY (projectileState 2 900) = false ∧
    (projectileState 2 900).linearMovement = true ∧
    (projectileState 2 900).model ≠ (projectileClient.cg_entities 6).current.model ∧
    ((CG_NewPacketEntityState plainEnv projectileClient (projectileState 2 900)).cg_entities
      6).prev = (projectileClient.cg_entities 6).current ∧
    ((CG_NewPacketEntityState plainEnv projectileClient (projectileState 2 900)).cg_entities
      6).prev ≠ projectileState 2 900 := by
  refine ⟨rfl, rfl, by decide, rfl, ?_⟩
  decide

/-! ## A stray remove -/

/-- Taking while `p`, then taking while the weaker `q` from the rest, is taking
while `q`. -/
theorem takeWhile_append_takeWhile_dropWhile {α : Type} (p q : α → Bool)
    (h : ∀ x, p x = true → q x = true) :
    ∀ L : List α, L.takeWhile p ++ (L.dropWhile p).takeWhile q = L.takeWhile q := by
  intro L
  induction L with
  | nil => rfl
  | cons x xs ih =>
    cases hp : p x
    · simp [List.takeWhile_cons, List.dropWhile_cons, hp]
    · simp [List.takeWhile_cons, List.dropWhile_cons, hp, h x hp, ih]

/-- Dropping while `p`, then while the weaker `q`, is dropping while `q`. -/
theorem dropWhile_dropWhile_of_imp {α : Type} (p q : α → Bool)
    (h : ∀ x, p x = true → q x = true) :
    ∀ L : List α, (L.dropWhile p).dropWhile q = L.dropWhile q := by
  intro L
  induction L with
  | nil => rfl
  | cons x xs ih =>
    cases hp : p x
    · simp [List.dropWhile_cons, hp]
    · simp [List.dropWhile_cons, hp, h x hp, ih]

/-- The base entries below `n` can be set aside before the merge when the
first token, if any, is not below `n`. -/
theorem refMerge_skip_below (B : Int → SyncEntityState) (T : List Token)
    (L : List SyncEntityState) (n : Int) (hT : ∀ u ∈ T.head?, n ≤ u.number) :
    refMerge B T L
      = L.takeWhile (fun e => decide (e.number < n))
        ++ refMerge B T (L.dropWhile (fun e => decide (e.number < n))) := by
  cases T with
  | nil => simp [refMerge]
  | cons u us =>
    have hu : n ≤ u.number := hT u rfl
    have himp : ∀ x : SyncEntityState, decide (x.number < n) = true
        → decide (x.number < u.number) = true := by
      intro x hx
      simp only [decide_eq_true_eq] at hx ⊢
      omega
    rw [refMerge, refMerge, dropWhile_dropWhile_of_imp _ _ himp L, ← List.append_assoc,
      takeWhile_append_takeWhile_dropWhile _ _ himp L]

/-- The merge ignores a remove token whose number is not in the base list, when
the tokens after it have larger numbers. -/
theorem refMerge_stray_remove (B : Int → SyncEntityState) (t : Token) (hrm : t.remove = true)
    (T2 : List Token) (hnext : ∀ u ∈ T2, t.number < u.number) :
    ∀ (T1 : List Token) (L : List SyncEntityState), (∀ e ∈ L, e.number ≠ t.number) →
      refMerge B (T1 ++ t :: T2) L = refMerge B (T1 ++ T2) L := by
  intro T1
  induction T1 with
  | nil =>
    intro L hL
    have hskip := refMerge_skip_below B T2 L t.number (by
      intro u hu
      exact le_of_lt (hnext u (List.mem_of_mem_head? hu)))
    simp only [List.nil_append]
    rw [hskip, refMerge]
    congr 1
    cases hd : L.dropWhile (fun e => decide (e.number < t.number)) with
    | nil => simp [hrm]
    | cons e es =>
      have hmem : e ∈ L := by
        have : e ∈ L.dropWhile (fun e => decide (e.number < t.number)) := by
          rw [hd]; exact List.mem_cons_self _ _
        exact (List.dropWhile_sublist _).subset this
      have hne := hL e hmem
      have hnot : ¬ e.number < t.number := by
        have h1 := List.head_dropWhile_not (fun e => decide (e.number < t.number)) L
          (by rw [hd]; exact List.cons_ne_nil _ _)
        simp only [hd, List.head_cons] at h1
        simpa using h1
      have hgt : e.number > t.number := by omega
      simp [hgt, hrm]
  | cons u us ih =>
    intro L hL
    simp only [List.cons_append]
    rw [refMerge, refMerge]
    congr 1
    cases hd : L.dropWhile (fun e => decide (e.number < u.number)) with
    | nil =>
      simp only []
      rw [ih [] (by intro e he; cases he)]
    | cons e es =>
      have hsub : ∀ x ∈ e :: es, x.number ≠ t.number := by
        intro x hx
        apply hL
        have : x ∈ L.dropWhile (fun e => decide (e.number < u.number)) := by rw [hd]; exact hx
        exact (List.dropWhile_sublist _).subset this
      simp only []
      rw [ih (e :: es) hsub, ih es (fun x hx => hsub x (List.mem_cons_of_mem _ hx))]

/-- C12. A stray remove is ignored. When a remove token is read and, after the
base entries below its number have been copied, the number of the base cursor
is greater than the token number, the token loop goes on with the new frame
and the base cursor as that copy left them, at the message right after the
entity number: the token emits nothing, does not advance the base cursor and
has no payload. Hence, for a remove token whose number is not in the base, on
a stream whose later tokens have larger numbers, `SNAP_ParsePacketEntities`
returns the same entity list as on the stream without that token. -/
theorem SNAP_ParsePacketEntities_stray_remove {M : Type} (ops : MsgOps M) (c : Consts)
    (j : Nat) (hP : c.MAX_PARSE_ENTITIES = 2 ^ j) (hE0 : 0 < c.MAX_EDICTS)
    (hE : c.MAX_EDICTS ≤ 99999) (B : Int → SyncEntityState) (mem : Frames)
    (oldframe : Option Nat) (newframe : Nat) (hne : ∀ o, oldframe = some o → o ≠ newframe)
    (T1 T2 : List Token) (t : Token) (hrm : t.remove = true) (msg msg1 msgd msgd1 : M)
    (henc : Encodes ops msg (T1 ++ t :: T2) msg1)
    (hencd : Encodes ops msgd (T1 ++ T2) msgd1)
    (htok : ∀ u ∈ T1 ++ t :: T2, u.number ≠ 0 ∧ u.number < c.MAX_EDICTS)
    (hbase : ∀ e ∈ entityList c (baseFrame mem oldframe), e.number ≠ 99999)
    (hstray : ∀ e ∈ entityList c (baseFrame mem oldframe), e.number ≠ t.number)
    (hnext : ∀ u ∈ T2, t.number < u.number)
    (fuel : Nat) (hf : (baseFrame mem oldframe).numEntities + (T1 ++ t :: T2).length < fuel) :
    (∀ (k : Nat) (m m1 : M) (mem0 mem1 : Frames) (cur cur1 : Cursor),
      ops.MSG_ReadEntityNumber m = ((t.number, true), m1) →
      ops.readcount m1 ≤ ops.cursize m1 →
      copyUnchanged c oldframe newframe t.number k mem0 cur = Res.ok (mem1, cur1) →
      cur1.oldnum > t.number →
      parseTokens ops c oldframe newframe B (k + 1) m mem0 cur
        = parseTokens ops c oldframe newframe B k m1 mem1 cur1) ∧
    ∃ mem1 memd1,
      SNAP_ParsePacketEntities ops c fuel msg mem oldframe newframe B = Res.ok (msg1, mem1) ∧
      SNAP_ParsePacketEntities ops c fuel msgd mem oldframe newframe B
        = Res.ok (msgd1, memd1) ∧
      (mem1 newframe).numEntities = (memd1 newframe).numEntities ∧
      ((mem1 newframe).numEntities ≤ c.MAX_PARSE_ENTITIES →
        entityList c (mem1 newframe) = entityList c (memd1 newframe)) := by
  have ht := htok t (by simp)
  constructor
  · intro k m m1 mem0 mem1 cur cur1 hread hrc hcopy hcur
    have c1 : ¬ t.number ≥ (c.MAX_EDICTS : Int) := by omega
    have c2 : ¬ ops.readcount m1 > ops.cursize m1 := by omega
    rw [parseTokens]
    simp only [hread, c1, c2, ht.1, if_false, hcopy, hcur, if_true]
  · have htokd : ∀ u ∈ T1 ++ T2, u.number ≠ 0 ∧ u.number < c.MAX_EDICTS := by
      intro u hu
      apply htok
      rcases List.mem_append.mp hu with h | h
      · exact List.mem_append_left _ h
      · exact List.mem_append_right _ (List.mem_cons_of_mem _ h)
    have hlen : (T1 ++ T2).length ≤ (T1 ++ t :: T2).length := by simp
    obtain ⟨mem1, hrun, hcount, hout⟩ :=
      parsePacketEntities_eq_refMerge ops c hP hE0 hE B mem oldframe newframe hne
        (T1 ++ t :: T2) msg msg1 henc htok hbase fuel hf
    obtain ⟨memd1, hrund, hcountd, houtd⟩ :=
      parsePacketEntities_eq_refMerge ops c hP hE0 hE B mem oldframe newframe hne
        (T1 ++ T2) msgd msgd1 hencd htokd hbase fuel (by omega)
    have heq := refMerge_stray_remove B t hrm T2 hnext T1 _ hstray
    refine ⟨mem1, memd1, hrun, hrund, ?_, ?_⟩
    · rw [hcount, hcountd, heq]
    · intro hfit
      rw [hcount] at hfit
      rw [hout hfit, houtd (by rw [← heq]; exact hfit), heq]

/-- The words of scenario 6 hold `delta(3)`, `remove(4)`, `remove(5)` and the
terminator. -/
theorem strayMsg_encodes :
    Encodes wordOps strayMsg ([originToken 3 10 0 0] ++ removeToken 4 :: [removeToken 5])
      { data := [], readcount := 7, cursize := 7 } :=
  ⟨_, ⟨_, _, rfl, by decide, fun _ => rfl, _, _, rfl, by decide, rfl, _, _, rfl, by decide,
    rfl, rfl⟩, false, rfl, by decide⟩

/-- Scenario 6 run through C12: the message with the stray `remove(4)` and the
message of scenario 1 give the same entity list `[1, 3]`. -/
theorem SNAP_ParsePacketEntities_stray_remove_witness :
    Res.entitiesAt smallConsts 1
        (SNAP_ParsePacketEntities wordOps smallConsts 7 strayMsg scenario1Mem (some 0) 1
          zeroBaselines)
      = some [entAt 1 0 0 0, entAt 3 10 0 0] ∧
    ∃ mem1 memd1,
      SNAP_ParsePacketEntities wordOps smallConsts 7 strayMsg scenario1Mem (some 0) 1
        zeroBaselines = Res.ok ({ data := [], readcount := 7, cursize := 7 }, mem1) ∧
      SNAP_ParsePacketEntities wordOps smallConsts 7 scenario1Msg scenario1Mem (some 0) 1
        zeroBaselines = Res.ok ({ data := [], readcount := 6, cursize := 6 }, memd1) ∧
      (mem1 1).numEntities = (memd1 1).numEntities ∧
      ((mem1 1).numEntities ≤ smallConsts.MAX_PARSE_ENTITIES →
        entityList smallConsts (mem1 1) = entityList smallConsts (memd1 1)) :=
  ⟨by decide,
    (SNAP_ParsePacketEntities_stray_remove wordOps smallConsts 10 (by decide) (by decide)
      (by decide) zeroBaselines scenario1Mem (some 0) 1 (by intro o h; cases h; decide)
      [originToken 3 10 0 0] [removeToken 5] (removeToken 4) rfl strayMsg _ scenario1Msg _
      strayMsg_encodes scenario1_encodes (by decide) (by decide) (by decide) (by decide)
      7 (by decide)).2⟩

/-! ## The player state of a frame -/

/-- `(int)x` is `x` for a value below `2 ^ 31`. -/
theorem toInt32_of_lt (x : Int) (h0 : 0 ≤ x) (h1 : x < 2 ^ 31) : toInt32 x = x := by
  unfold toInt32
  omega

/-- The loop of `CG_LostMultiviewPOV`: as long as only spectators have been
seen, `index` is `-1` and `fallback` is the last index seen; afterwards `index`
is the first of the closest non-spectators seen. -/
theorem lostMultiviewPOVLoop_spec (env : FrameEnv) (cg : cg_state_t) (n : Nat)
    (hint : env.maxclients < 2 ^ 31)
    (hpl : ∀ i < n, ((cg.frame.playerStates i).playerNum : Int) < env.maxclients)
    (hmv : (cg.multiviewPlayerNum : Int) < env.maxclients) :
    ∀ (k i : Nat) (s : PovSearch), i + k = n →
      ((∀ j < i, (cg.frame.playerStates j).pmove.pm_type = env.PM_SPECTATOR) →
        s.index = -1 ∧ s.best = env.maxclients ∧ s.fallback = (i : Int) - 1) →
      ((∃ j < i, (cg.frame.playerStates j).pmove.pm_type ≠ env.PM_SPECTATOR) →
        ∃ r < i, s.index = (r : Int) ∧
          (cg.frame.playerStates r).pmove.pm_type ≠ env.PM_SPECTATOR ∧
          s.best = |((cg.frame.playerStates r).playerNum : Int) - cg.multiviewPlayerNum| ∧
          (∀ j < i, (cg.frame.playerStates j).pmove.pm_type ≠ env.PM_SPECTATOR →
            |((cg.frame.playerStates r).playerNum : Int) - cg.multiviewPlayerNum|
              ≤ |((cg.frame.playerStates j).playerNum : Int) - cg.multiviewPlayerNum|) ∧
          (∀ j < r, (cg.frame.playerStates j).pmove.pm_type ≠ env.PM_SPECTATOR →
            |((cg.frame.playerStates r).playerNum : Int) - cg.multiviewPlayerNum|
              < |((cg.frame.playerStates j).playerNum : Int) - cg.multiviewPlayerNum|)) →
      ((∀ j < n, (cg.frame.playerStates j).pmove.pm_type = env.PM_SPECTATOR) →
        (lostMultiviewPOVLoop env cg k i s).index = -1 ∧
        (lostMultiviewPOVLoop env cg k i s).fallback = (n : Int) - 1) ∧
      ((∃ j < n, (cg.frame.playerStates j).pmove.pm_type ≠ env.PM_SPECTATOR) →
        ∃ r < n, (lostMultiviewPOVLoop env cg k i s).index = (r : Int) ∧
          (cg.frame.playerStates r).pmove.pm_type ≠ env.PM_SPECTATOR ∧
          (∀ j < n, (cg.frame.playerStates j).pmove.pm_type ≠ env.PM_SPECTATOR →
            |((cg.frame.playerStates r).playerNum : Int) - cg.multiviewPlayerNum|
              ≤ |((cg.frame.playerStates j).playerNum : Int) - cg.multiviewPlayerNum|) ∧
          (∀ j < r, (cg.frame.playerStates j).pmove.pm_type ≠ env.PM_SPECTATOR →
            |((cg.frame.playerStates r).playerNum : Int) - cg.multiviewPlayerNum|
              < |((cg.frame.playerStates j).playerNum : Int) - cg.multiviewPlayerNum|)) := by
  intro k
  induction k with
  | zero =>
    intro i s hik hA hB
    have hi : i = n := by omega
    subst hi
    simp only [lostMultiviewPOVLoop]
    constructor
    · intro hall
      obtain ⟨h1, _, h3⟩ := hA hall
      exact ⟨h1, h3⟩
    · intro hex
      obtain ⟨r, hr, h1, h2, _, h4, h5⟩ := hB hex
      exact ⟨r, hr, h1, h2, h4, h5⟩
  | succ k ih =>
    intro i s hik hA hB
    have hin : i < n := by omega
    have hmv0 : (0 : Int) ≤ cg.multiviewPlayerNum := Int.ofNat_nonneg _
    have hpn0 : (0 : Int) ≤ (cg.frame.playerStates i).playerNum := Int.ofNat_nonneg _
    have hpn := hpl i hin
    have hval : |toInt32 (cg.frame.playerStates i).playerNum - toInt32 cg.multiviewPlayerNum|
        = |((cg.frame.playerStates i).playerNum : Int) - cg.multiviewPlayerNum| := by
      rw [toInt32_of_lt _ hpn0 (by omega), toInt32_of_lt _ hmv0 (by omega)]
    have hdlt : |((cg.frame.playerStates i).playerNum : Int) - cg.multiviewPlayerNum|
        < env.maxclients := by
      rw [abs_lt]
      constructor <;> omega
    rw [lostMultiviewPOVLoop]
    simp only [hval]
    by_cases hall : ∀ j < i, (cg.frame.playerStates j).pmove.pm_type = env.PM_SPECTATOR
    · obtain ⟨h1, h2, h3⟩ := hA hall
      have c1 : ¬ (|((cg.frame.playerStates i).playerNum : Int) - cg.multiviewPlayerNum| = s.best
          ∧ (i : Int) > s.index) := by
        rintro ⟨h, _⟩
        rw [h2] at h
        omega
      have c2 : |((cg.frame.playerStates i).playerNum : Int) - cg.multiviewPlayerNum| < s.best := by
        rw [h2]; exact hdlt
      rw [if_neg c1, if_pos c2]
      by_cases hs : (cg.frame.playerStates i).pmove.pm_type = env.PM_SPECTATOR
      · rw [if_pos hs]
        apply ih (i + 1) _ (by omega)
        · intro _
          refine ⟨h1, h2, ?_⟩
          show ((i : Nat) : Int) = ((i + 1 : Nat) : Int) - 1
          push_cast
          ring
        · rintro ⟨j, hj, hjs⟩
          exfalso
          rcases Nat.lt_succ_iff_lt_or_eq.mp hj with h | h
          · exact hjs (hall j h)
          · subst h; exact hjs hs
      · rw [if_neg hs]
        apply ih (i + 1) _ (by omega)
        · intro hall1
          exact absurd (hall1 i (Nat.lt_succ_self i)) hs
        · intro _
          refine ⟨i, Nat.lt_succ_self i, rfl, hs, rfl, ?_, ?_⟩
          · intro j hj hjs
            rcases Nat.lt_succ_iff_lt_or_eq.mp hj with h | h
            · exact absurd (hall j h) hjs
            · subst h; exact le_refl _
          · intro j hj hjs
            exact absurd (hall j hj) hjs
    · have hex : ∃ j < i, (cg.frame.playerStates j).pmove.pm_type ≠ env.PM_SPECTATOR := by
        by_contra hne
        apply hall
        intro j hj
        by_contra hjs
        exact hne ⟨j, hj, hjs⟩
      obtain ⟨r, hr, h1, h2, h3, h4, h5⟩ := hB hex
      have hA1 : ∀ (s1 : PovSearch),
          (∀ j < i + 1, (cg.frame.playerStates j).pmove.pm_type = env.PM_SPECTATOR) →
          s1.index = -1 ∧ s1.best = env.maxclients ∧ s1.fallback = ((i + 1 : Nat) : Int) - 1 := by
        intro s1 hall1
        exfalso
        obtain ⟨j, hj, hjs⟩ := hex
        exact hjs (hall1 j (by omega))
      by_cases c1 : |((cg.frame.playerStates i).playerNum : Int) - cg.multiviewPlayerNum| = s.best
          ∧ (i : Int) > s.index
      · rw [if_pos c1]
        apply ih (i + 1) s (by omega) (hA1 s)
        intro _
        refine ⟨r, by omega, h1, h2, h3, ?_, h5⟩
        intro j hj hjs
        rcases Nat.lt_succ_iff_lt_or_eq.mp hj with h | h
        · exact h4 j h hjs
        · subst h; rw [← h3, c1.1]
      · rw [if_neg c1]
        by_cases c2 : |((cg.frame.playerStates i).playerNum : Int) - cg.multiviewPlayerNum| < s.best
        · rw [if_pos c2]
          by_cases hs : (cg.frame.playerStates i).pmove.pm_type = env.PM_SPECTATOR
          · rw [if_pos hs]
            apply ih (i + 1) _ (by omega) (hA1 _)
            intro _
            refine ⟨r, by omega, h1, h2, h3, ?_, h5⟩
            intro j hj hjs
            rcases Nat.lt_succ_iff_lt_or_eq.mp hj with h | h
            · exact h4 j h hjs
            · subst h; exact absurd hs hjs
          · rw [if_neg hs]
            apply ih (i + 1) _ (by omega) (hA1 _)
            intro _
            rw [h3] at c2
            refine ⟨i, Nat.lt_succ_self i, rfl, hs, rfl, ?_, ?_⟩
            · intro j hj hjs
              rcases Nat.lt_succ_iff_lt_or_eq.mp hj with h | h
              · exact le_of_lt (lt_of_lt_of_le c2 (h4 j h hjs))
              · subst h; exact le_refl _
            · intro j hj hjs
              exact lt_of_lt_of_le c2 (h4 j hj hjs)
        · rw [if_neg c2]
          apply ih (i + 1) s (by omega) (hA1 s)
          intro _
          refine ⟨r, by omega, h1, h2, h3, ?_, h5⟩
          intro j hj hjs
          rcases Nat.lt_succ_iff_lt_or_eq.mp hj with h | h
          · exact h4 j h hjs
          · subst h; rw [← h3]; exact not_lt.mp c2

/-- C16. Lost-POV fallback: when the player states of `cg.frame` all have
`playerNum < maxclients` and the followed number is below `maxclients`,
`CG_LostMultiviewPOV` returns the index of a non-spectator player state that
minimises `|playerNum - cg.multiviewPlayerNum|` among the non-spectators, the
lowest such index, whenever the frame has a non-spectator; otherwise the index
of a spectator if the frame has a player state; otherwise `-1`. -/
theorem CG_LostMultiviewPOV_closest (env : FrameEnv) (cl : Client)
    (hint : env.maxclients < 2 ^ 31)
    (hpl : ∀ i < cl.cg.frame.numplayers,
      ((cl.cg.frame.playerStates i).playerNum : Int) < env.maxclients)
    (hmv : (cl.cg.multiviewPlayerNum : Int) < env.maxclients) :
    ((∃ j < cl.cg.frame.numplayers,
        (cl.cg.frame.playerStates j).pmove.pm_type ≠ env.PM_SPECTATOR) →
      ∃ r < cl.cg.frame.numplayers, CG_LostMultiviewPOV env cl = (r : Int) ∧
        (cl.cg.frame.playerStates r).pmove.pm_type ≠ env.PM_SPECTATOR ∧
        (∀ j < cl.cg.frame.numplayers,
          (cl.cg.frame.playerStates j).pmove.pm_type ≠ env.PM_SPECTATOR →
          |((cl.cg.frame.playerStates r).playerNum : Int) - cl.cg.multiviewPlayerNum|
            ≤ |((cl.cg.frame.playerStates j).playerNum : Int) - cl.cg.multiviewPlayerNum|) ∧
        (∀ j < r, (cl.cg.frame.playerStates j).pmove.pm_type ≠ env.PM_SPECTATOR →
          |((cl.cg.frame.playerStates r).playerNum : Int) - cl.cg.multiviewPlayerNum|
            < |((cl.cg.frame.playerStates j).playerNum : Int) - cl.cg.multiviewPlayerNum|)) ∧
    ((∀ j < cl.cg.frame.numplayers,
        (cl.cg.frame.playerStates j).pmove.pm_type = env.PM_SPECTATOR) →
      0 < cl.cg.frame.numplayers →
      ∃ r < cl.cg.frame.numplayers, CG_LostMultiviewPOV env cl = (r : Int) ∧
        (cl.cg.frame.playerStates r).pmove.pm_type = env.PM_SPECTATOR) ∧
    (cl.cg.frame.numplayers = 0 → CG_LostMultiviewPOV env cl = -1) := by
  obtain ⟨hA, hB⟩ := lostMultiviewPOVLoop_spec env cl.cg cl.cg.frame.numplayers hint hpl hmv
    cl.cg.frame.numplayers 0 { best := env.maxclients, index := -1, fallback := -1 }
    (by omega) (fun _ => ⟨rfl, rfl, rfl⟩) (by rintro ⟨j, hj, _⟩; omega)
  refine ⟨?_, ?_, ?_⟩
  · intro hex
    obtain ⟨r, hr, h1, h2, h3, h4⟩ := hB hex
    refine ⟨r, hr, ?_, h2, h3, h4⟩
    unfold CG_LostMultiviewPOV
    simp only []
    rw [if_pos (by rw [h1]; omega), h1]
  · intro hall hpos
    obtain ⟨h1, h2⟩ := hA hall
    refine ⟨cl.cg.frame.numplayers - 1, by omega, ?_, hall _ (by omega)⟩
    unfold CG_LostMultiviewPOV
    simp only []
    rw [if_neg (by rw [h1]; omega), h2]
    omega
  · intro h0
    obtain ⟨h1, h2⟩ := hA (by intro j hj; omega)
    unfold CG_LostMultiviewPOV
    simp only []
    rw [if_neg (by rw [h1]; omega), h2, h0]
    rfl

/-- Scenario 7 run through C16: the followed number is 4; players 6 and 2, at
indices 1 and 2, are the non-spectators, both at distance 2, and index 1 is
returned although the spectators are closer. -/
theorem CG_LostMultiviewPOV_closest_witness :
    (plainFrameEnv.maxclients < 2 ^ 31 ∧
      (∀ i < (povClient scenario7Players 4).cg.frame.numplayers,
        (((povClient scenario7Players 4).cg.frame.playerStates i).playerNum : Int)
          < plainFrameEnv.maxclients) ∧
      ((povClient scenario7Players 4).cg.multiviewPlayerNum : Int) < plainFrameEnv.maxclients) ∧
    CG_LostMultiviewPOV plainFrameEnv (povClient scenario7Players 4) = 1 ∧
    ∃ r < (povClient scenario7Players 4).cg.frame.numplayers,
      CG_LostMultiviewPOV plainFrameEnv (povClient scenario7Players 4) = (r : Int) ∧
      ((povClient scenario7Players 4).cg.frame.playerStates r).pmove.pm_type
        ≠ plainFrameEnv.PM_SPECTATOR ∧
      (∀ j < (povClient scenario7Players 4).cg.frame.numplayers,
        ((povClient scenario7Players 4).cg.frame.playerStates j).pmove.pm_type
          ≠ plainFrameEnv.PM_SPECTATOR →
        |(((povClient scenario7Players 4).cg.frame.playerStates r).playerNum : Int)
            - (povClient scenario7Players 4).cg.multiviewPlayerNum|
          ≤ |(((povClient scenario7Players 4).cg.frame.playerStates j).playerNum : Int)
            - (povClient scenario7Players 4).cg.multiviewPlayerNum|) ∧
      (∀ j < r, ((povClient scenario7Players 4).cg.frame.playerStates j).pmove.pm_type
          ≠ plainFrameEnv.PM_SPECTATOR →
        |(((povClient scenario7Players 4).cg.frame.playerStates r).playerNum : Int)
            - (povClient scenario7Players 4).cg.multiviewPlayerNum|
          < |(((povClient scenario7Players 4).cg.frame.playerStates j).playerNum : Int)
            - (povClient scenario7Players 4).cg.multiviewPlayerNum|) :=
  have h1 : plainFrameEnv.maxclients < 2 ^ 31 := by decide
  have h2 : ∀ i < (povClient scenario7Players 4).cg.frame.numplayers,
      (((povClient scenario7Players 4).cg.frame.playerStates i).playerNum : Int)
        < plainFrameEnv.maxclients := by decide
  have h3 : ((povClient scenario7Players 4).cg.multiviewPlayerNum : Int)
      < plainFrameEnv.maxclients := by decide
  ⟨⟨h1, h2, h3⟩, by decide,
    (CG_LostMultiviewPOV_closest plainFrameEnv (povClient scenario7Players 4) h1 h2 h3).1
      ⟨1, by decide, by decide⟩⟩

/-- The search loop returns the first index that satisfies the test. -/
theorem findPlayerState_first (p : SyncPlayerState → Bool) (f : snapshot_t) (i0 : Nat)
    (hp : p (f.playerStates i0) = true) :
    ∀ (k i : Nat), i ≤ i0 → i0 < i + k →
      (∀ j, i ≤ j → j < i0 → p (f.playerStates j) = false) →
      findPlayerState p f k i = (i0 : Int) := by
  intro k
  induction k with
  | zero => intro i h1 h2 _; omega
  | succ k ih =>
    intro i h1 h2 hfirst
    rw [findPlayerState]
    by_cases hi : i = i0
    · subst hi
      rw [if_pos hp]
    · have hlt : i < i0 := by omega
      rw [hfirst i (le_refl _) hlt]
      simp only [Bool.false_eq_true, if_false]
      exact ih (i + 1) (by omega) (by omega) (fun j hj1 hj2 => hfirst j (by omega) hj2)

/-- After `CG_UpdatePlayerState` the frame is `cg.frame` with the player state
of the selected index set by `CG_SetFramePlayerState`, the followed number is
the number of that player state, the predicted player state is the one of the
frame, and the other fields of `cg` touched by no statement are as before. -/
theorem updatePlayerState_frame (env : FrameEnv) (cl : Client) :
    (CG_UpdatePlayerState env cl).cg.frame
      = CG_SetFramePlayerState env cl cl.cg.frame (selectPlayerState env cl) ∧
    (CG_UpdatePlayerState env cl).cg.multiviewPlayerNum
      = (cl.cg.frame.playerStates (selectPlayerState env cl).toNat).playerNum ∧
    (CG_UpdatePlayerState env cl).cg.predictedPlayerState
      = (CG_UpdatePlayerState env cl).cg.frame.playerState ∧
    (CG_UpdatePlayerState env cl).cg.predictFrom = cl.cg.predictFrom ∧
    (CG_UpdatePlayerState env cl).cg.fireEvents = cl.cg.fireEvents ∧
    (CG_UpdatePlayerState env cl).cg.firstFrame = cl.cg.firstFrame ∧
    (CG_UpdatePlayerState env cl).cgs = cl.cgs ∧
    (CG_UpdatePlayerState env cl).cg_entities = cl.cg_entities := by
  unfold CG_UpdatePlayerState
  simp only []
  split <;> refine ⟨?_, ?_, ?_, ?_, ?_, ?_, ?_, ?_⟩ <;> first | rfl | trivial

/-- The player state of a frame after `CG_SetFramePlayerState` has the player
number of the selected entry. -/
theorem setFramePlayerState_playerNum (env : FrameEnv) (cl : Client) (frame : snapshot_t)
    (index : Int) :
    (CG_SetFramePlayerState env cl frame index).playerState.playerNum
      = (frame.playerStates index.toNat).playerNum := by
  unfold CG_SetFramePlayerState
  simp only []
  split <;> rfl

/-- C17. POV selection. In a multi-POV frame, when the first player state whose
`playerNum` is the followed number `cg.multiviewPlayerNum`, below `maxclients`,
is not a spectator, `CG_UpdatePlayerState` makes it `cg.frame.playerState`,
with `pm_type` set to `PM_CHASECAM` and `PMF_NO_PREDICTION` added to `pm_flags`,
and leaves `cg.multiviewPlayerNum` unchanged. In a single-POV frame it makes
`playerStates[0]` the player state, rewritten in the same way during demo
playback only. In every case, afterwards `cg.multiviewPlayerNum` is
`cg.frame.playerState.playerNum` and `cg.predictedPlayerState` is
`cg.frame.playerState`. -/
theorem CG_UpdatePlayerState_selects (env : FrameEnv) (cl : Client) :
    (cl.cg.frame.multipov = true → env.maxclients < 2 ^ 31 →
      (cl.cg.multiviewPlayerNum : Int) < env.maxclients →
      ∀ i0 < cl.cg.frame.numplayers,
        (cl.cg.frame.playerStates i0).playerNum = cl.cg.multiviewPlayerNum →
        (∀ j < i0, (cl.cg.frame.playerStates j).playerNum ≠ cl.cg.multiviewPlayerNum) →
        (cl.cg.frame.playerStates i0).pmove.pm_type ≠ env.PM_SPECTATOR →
        (CG_UpdatePlayerState env cl).cg.frame.playerState
          = { cl.cg.frame.playerStates i0 with
              pmove := { pm_type := env.PM_CHASECAM,
                         pm_flags := (cl.cg.frame.playerStates i0).pmove.pm_flags
                           ||| env.PMF_NO_PREDICTION } } ∧
        (CG_UpdatePlayerState env cl).cg.multiviewPlayerNum = cl.cg.multiviewPlayerNum) ∧
    (cl.cg.frame.multipov = false →
      (CG_UpdatePlayerState env cl).cg.frame.playerState
        = if cl.cgs.demoPlaying = true then
            { cl.cg.frame.playerStates 0 with
              pmove := { pm_type :=
                           if (cl.cg.frame.playerStates 0).pmove.pm_type ≠ env.PM_SPECTATOR
                           then env.PM_CHASECAM else (cl.cg.frame.playerStates 0).pmove.pm_type,
                         pm_flags := (cl.cg.frame.playerStates 0).pmove.pm_flags
                           ||| env.PMF_NO_PREDICTION } }
          else cl.cg.frame.playerStates 0) ∧
    (CG_UpdatePlayerState env cl).cg.multiviewPlayerNum
      = (CG_UpdatePlayerState env cl).cg.frame.playerState.playerNum ∧
    (CG_UpdatePlayerState env cl).cg.predictedPlayerState
      = (CG_UpdatePlayerState env cl).cg.frame.playerState := by
  obtain ⟨hframe, hnum, hpred, _⟩ := updatePlayerState_frame env cl
  refine ⟨?_, ?_, ?_, hpred⟩
  · intro hmulti hint hmv i0 hi0 heq hfirst hns
    have hmv0 : (0 : Int) ≤ cl.cg.multiviewPlayerNum := Int.ofNat_nonneg _
    have hcast : cl.cg.multiviewPlayerNum < (env.maxclients % 2 ^ 32).toNat := by
      have h1 : env.maxclients % 2 ^ 32 = env.maxclients := Int.emod_eq_of_lt (by omega) (by omega)
      rw [h1]
      omega
    have hfound : findPlayerState
        (fun ps => decide (ps.playerNum < (env.maxclients % 2 ^ 32).toNat)
          && decide (ps.playerNum = cl.cg.multiviewPlayerNum))
        cl.cg.frame cl.cg.frame.numplayers 0 = (i0 : Int) := by
      apply findPlayerState_first _ _ i0 _ _ 0 (Nat.zero_le _) (by omega)
      · intro j _ hj
        simp [hfirst j hj]
      · show (decide ((cl.cg.frame.playerStates i0).playerNum < (env.maxclients % 2 ^ 32).toNat)
            && decide ((cl.cg.frame.playerStates i0).playerNum = cl.cg.multiviewPlayerNum)) = true
        rw [Bool.and_eq_true]
        exact ⟨decide_eq_true (by rw [heq]; exact hcast), decide_eq_true heq⟩
    have hsel : selectPlayerState env cl = (i0 : Int) := by
      unfold selectPlayerState
      simp only [hmulti, if_true, hfound, Int.toNat_ofNat]
      have c1 : ¬ ((i0 : Int) < 0
          ∨ (cl.cg.frame.playerStates i0).pmove.pm_type = env.PM_SPECTATOR) := by
        rintro (h | h)
        · omega
        · exact hns h
      rw [if_neg c1, if_neg (by omega)]
    constructor
    · rw [hframe, hsel]
      unfold CG_SetFramePlayerState
      simp only [hmulti, Bool.or_true, if_true, Int.toNat_ofNat, ne_eq, hns, not_false_eq_true]
    · rw [hnum, hsel, Int.toNat_ofNat, heq]
  · intro hsingle
    have hsel : selectPlayerState env cl = 0 := by
      unfold selectPlayerState
      simp [hsingle]
    rw [hframe, hsel]
    unfold CG_SetFramePlayerState
    simp only [hsingle, Bool.or_false, Int.toNat_zero]
    split <;> rfl
  · rw [hframe, hnum, setFramePlayerState_playerNum]

/-- Witness for C17 in scenario 8, following player 2: the first player state
numbered 2, at index 2, is a spectator, so the selection falls back on the lost
POV rule; following player 3, index 0 is selected and rewritten as a chase
camera. The single-POV frame of scenario 4 selects `playerStates[0]`. -/
theorem CG_UpdatePlayerState_selects_witness :
    ((povClient scenario8Players 3).cg.frame.multipov = true ∧
      ((povClient scenario8Players 3).cg.frame.playerStates 0).playerNum = 3 ∧
      ((povClient scenario8Players 3).cg.frame.playerStates 0).pmove.pm_type
        ≠ plainFrameEnv.PM_SPECTATOR) ∧
    ((CG_UpdatePlayerState plainFrameEnv (povClient scenario8Players 3)).cg.frame.playerState
        = { playerAt 3 0 4 with pmove := { pm_type := 3, pm_flags := 4 } } ∧
      (CG_UpdatePlayerState plainFrameEnv (povClient scenario8Players 3)).cg.multiviewPlayerNum
        = 3) ∧
    (jumpClient.cg.frame.multipov = false ∧
      (CG_UpdatePlayerState plainFrameEnv jumpClient).cg.frame.playerState
        = jumpClient.cg.frame.playerStates 0) ∧
    (CG_UpdatePlayerState plainFrameEnv (povClient scenario8Players 2)).cg.multiviewPlayerNum
      = (CG_UpdatePlayerState plainFrameEnv
          (povClient scenario8Players 2)).cg.frame.playerState.playerNum :=
  ⟨⟨rfl, rfl, by decide⟩,
    (CG_UpdatePlayerState_selects plainFrameEnv (povClient scenario8Players 3)).1 rfl (by decide)
      (by decide) 0 (by decide) rfl (by intro j hj; omega) (by decide),
    ⟨rfl, (CG_UpdatePlayerState_selects plainFrameEnv jumpClient).2.1 rfl⟩,
    (CG_UpdatePlayerState_selects plainFrameEnv (povClient scenario8Players 2)).2.2.1⟩

/-! ## A new frame -/

/-- `CG_NewPacketEntityState` writes to the entity records only. -/
theorem newPacketEntityState_cg (env : CgEnv) (cl : Client) (state : SyncEntityState) :
    (CG_NewPacketEntityState env cl state).cg = cl.cg ∧
    (CG_NewPacketEntityState env cl state).cgs = cl.cgs := by
  unfold CG_NewPacketEntityState
  simp only [apply_ite Client.cg, apply_ite Client.cgs, ite_self, and_self]

/-- The entity loop of `CG_NewFrameSnap` writes to the entity records only. -/
theorem newPacketEntities_cg (env : CgEnv) (c : Consts) (frame : snapshot_t) :
    ∀ (k i : Nat) (cl : Client),
      (newPacketEntities env c frame k i cl).cg = cl.cg ∧
      (newPacketEntities env c frame k i cl).cgs = cl.cgs := by
  intro k
  induction k with
  | zero => intro i cl; exact ⟨rfl, rfl⟩
  | succ k ih =>
    intro i cl
    rw [newPacketEntities]
    obtain ⟨h1, h2⟩ := ih (i + 1) (CG_NewPacketEntityState env cl (frame.parsedEntities (c.entIndex i)))
    obtain ⟨h3, h4⟩ := newPacketEntityState_cg env cl (frame.parsedEntities (c.entIndex i))
    exact ⟨h1.trans h3, h2.trans h4⟩

/-- `CG_SetFramePlayerState` writes `playerState` only. -/
theorem setFramePlayerState_eq (env : FrameEnv) (cl : Client) (frame : snapshot_t)
    (index : Int) :
    CG_SetFramePlayerState env cl frame index
      = { frame with playerState := (CG_SetFramePlayerState env cl frame index).playerState } := by
  unfold CG_SetFramePlayerState
  simp only []
  split <;> rfl

/-- `CG_UpdatePlayerState` writes only `playerState` in `cg.oldFrame`. -/
theorem updatePlayerState_oldFrame (env : FrameEnv) (cl : Client) :
    (CG_UpdatePlayerState env cl).cg.oldFrame
      = { cl.cg.oldFrame with
          playerState := (CG_UpdatePlayerState env cl).cg.oldFrame.playerState } := by
  unfold CG_UpdatePlayerState
  simp only []
  split
  · rfl
  · exact setFramePlayerState_eq env _ cl.cg.oldFrame _

/-- The fields of the client state after the frame shift with old frame `old`,
the player state update and the entity loop. -/
theorem receiveFrame_aux (env : FrameEnv) (env1 : CgEnv) (c : Consts) (cl : Client)
    (frame old : snapshot_t) (cl3 : Client)
    (h3 : cl3 = newPacketEntities env1 c frame frame.numEntities 0
      (CG_UpdatePlayerState env
        { cl with cg := { cl.cg with oldFrame := old, frame := frame } })) :
    cl3.cg.frame = { frame with playerState := cl3.cg.frame.playerState }
    ∧ cl3.cg.oldFrame = { old with playerState := cl3.cg.oldFrame.playerState }
    ∧ cl3.cgs = cl.cgs
    ∧ cl3.cg.predictFrom = cl.cg.predictFrom
    ∧ cl3.cg.fireEvents = cl.cg.fireEvents
    ∧ cl3.cg.firstFrame = cl.cg.firstFrame := by
  obtain ⟨hcg, hcgs⟩ := newPacketEntities_cg env1 c frame frame.numEntities 0
    (CG_UpdatePlayerState env
      { cl with cg := { cl.cg with oldFrame := old, frame := frame } })
  rw [← h3] at hcg hcgs
  rw [hcg, hcgs]
  obtain ⟨h1, _, _, h4, h5, h6, h7, _⟩ := updatePlayerState_frame env
    { cl with cg := { cl.cg with oldFrame := old, frame := frame } }
  have h2 := updatePlayerState_oldFrame env
    { cl with cg := { cl.cg with oldFrame := old, frame := frame } }
  refine ⟨?_, h2, h7, h4, h5, h6⟩
  rw [h1]
  exact setFramePlayerState_eq env _ frame _

/-- The client state at the readiness test of `CG_NewFrameSnap`: `cg.frame` is
the new frame and `cg.oldFrame` is `*lerpframe`, or the new frame when no
`lerpframe` is given, both up to `playerState`; `cgs` and the three flags of
`cg` are as before the call. -/
theorem receiveFrame_fields (env : FrameEnv) (c : Consts) (cl : Client) (frame : snapshot_t)
    (lerpframe : Option snapshot_t) :
    (receiveFrame env c cl frame lerpframe).cg.frame
      = { frame with playerState := (receiveFrame env c cl frame lerpframe).cg.frame.playerState }
    ∧ (receiveFrame env c cl frame lerpframe).cg.oldFrame
      = { lerpframe.getD frame with
          playerState := (receiveFrame env c cl frame lerpframe).cg.oldFrame.playerState }
    ∧ (receiveFrame env c cl frame lerpframe).cgs = cl.cgs
    ∧ (receiveFrame env c cl frame lerpframe).cg.predictFrom = cl.cg.predictFrom
    ∧ (receiveFrame env c cl frame lerpframe).cg.fireEvents = cl.cg.fireEvents
    ∧ (receiveFrame env c cl frame lerpframe).cg.firstFrame = cl.cg.firstFrame := by
  cases lerpframe with
  | none => exact receiveFrame_aux env _ c cl frame frame _ rfl
  | some l => exact receiveFrame_aux env _ c cl frame l _ rfl

/-- A frame that is not valid, or received before the precache is done, ends
`CG_NewFrameSnap` at the readiness test. -/
theorem newFrameSnap_notReady (env : FrameEnv) (c : Consts) (fuel : Nat) (cl : Client)
    (frame : snapshot_t) (lerpframe : Option snapshot_t)
    (h : cl.cgs.precacheDone = false ∨ frame.valid = false) :
    CG_NewFrameSnap env c fuel cl frame lerpframe
      = Res.ok { ret := false, client := receiveFrame env c cl frame lerpframe,
                 gameState := frame.gameState,
                 projectileAntilagOffset := antilagOffsetAfter env,
                 calls := if antilagOffsetForced env then [CgCall.Cvar_ForceSet] else [] } := by
  obtain ⟨h1, _, h3, _⟩ := receiveFrame_fields env c cl frame lerpframe
  have hv : (receiveFrame env c cl frame lerpframe).cg.frame.valid = frame.valid := by
    rw [h1]
  have hcond : (!(receiveFrame env c cl frame lerpframe).cgs.precacheDone
      || !(receiveFrame env c cl frame lerpframe).cg.frame.valid) = true := by
    rw [h3, hv]
    rcases h with h | h <;> simp [h]
  unfold CG_NewFrameSnap
  simp only [hcond, if_true]

/-- C13. `CG_NewFrameSnap` on a frame with `valid` false returns false, calls
`CG_GameCommand` for no game command, and leaves `cg.predictFrom`,
`cg.fireEvents` and `cg.firstFrame` unchanged. -/
theorem CG_NewFrameSnap_invalid (env : FrameEnv) (c : Consts) (fuel : Nat) (cl : Client)
    (frame : snapshot_t) (lerpframe : Option snapshot_t) (hinv : frame.valid = false) :
    ∃ r, CG_NewFrameSnap env c fuel cl frame lerpframe = Res.ok r ∧ r.ret = false ∧
      (∀ off, CgCall.CG_GameCommand off ∉ r.calls) ∧
      r.client.cg.predictFrom = cl.cg.predictFrom ∧
      r.client.cg.fireEvents = cl.cg.fireEvents ∧
      r.client.cg.firstFrame = cl.cg.firstFrame := by
  obtain ⟨_, _, _, h4, h5, h6⟩ := receiveFrame_fields env c cl frame lerpframe
  refine ⟨_, newFrameSnap_notReady env c fuel cl frame lerpframe (Or.inr hinv), rfl, ?_,
    h4, h5, h6⟩
  intro off hmem
  simp only [] at hmem
  split at hmem <;> simp at hmem

/-- Witness for C13: the frame of scenario 9 marked invalid, received after the
precache with a prediction under way. -/
theorem CG_NewFrameSnap_invalid_witness :
    ({ commandFrame 9 with valid := false } : snapshot_t).valid = false ∧
    ({ commandFrame 9 with valid := false } : snapshot_t).numgamecommands = 4 ∧
    firstClient.cg.predictFrom = 5 ∧
    ∃ r, CG_NewFrameSnap plainFrameEnv smallConsts 5 firstClient
        { commandFrame 9 with valid := false } none = Res.ok r ∧ r.ret = false ∧
      (∀ off, CgCall.CG_GameCommand off ∉ r.calls) ∧
      r.client.cg.predictFrom = firstClient.cg.predictFrom ∧
      r.client.cg.fireEvents = firstClient.cg.fireEvents ∧
      r.client.cg.firstFrame = firstClient.cg.firstFrame :=
  ⟨rfl, rfl, rfl,
    CG_NewFrameSnap_invalid plainFrameEnv smallConsts 5 firstClient
      { commandFrame 9 with valid := false } none rfl⟩

/-- C15, amended. Not-ready rule: whenever `cgs.precacheDone` is false at the
call, `CG_NewFrameSnap` returns false without rebuilding the solid list,
passing a game command to `CG_GameCommand` or restarting the prediction: of the
functions outside at most `Cvar_ForceSet` is called, and `cg.predictFrom` and
`cg.fireEvents` are left as they are. -/
theorem CG_NewFrameSnap_not_ready (env : FrameEnv) (c : Consts) (fuel : Nat) (cl : Client)
    (frame : snapshot_t) (lerpframe : Option snapshot_t)
    (hpre : cl.cgs.precacheDone = false) :
    ∃ r, CG_NewFrameSnap env c fuel cl frame lerpframe = Res.ok r ∧ r.ret = false ∧
      (∀ call ∈ r.calls, call = CgCall.Cvar_ForceSet) ∧
      CgCall.CG_BuildSolidList ∉ r.calls ∧
      (∀ off, CgCall.CG_GameCommand off ∉ r.calls) ∧
      r.client.cg.predictFrom = cl.cg.predictFrom ∧
      r.client.cg.fireEvents = cl.cg.fireEvents := by
  obtain ⟨_, _, _, h4, h5, _⟩ := receiveFrame_fields env c cl frame lerpframe
  have hcalls : ∀ call ∈ (if antilagOffsetForced env then [CgCall.Cvar_ForceSet] else []),
      call = CgCall.Cvar_ForceSet := by
    intro call hmem
    split at hmem <;> simp at hmem
    exact hmem
  refine ⟨_, newFrameSnap_notReady env c fuel cl frame lerpframe (Or.inl hpre), rfl, hcalls,
    ?_, ?_, h4, h5⟩
  · intro hmem
    cases hcalls _ hmem
  · intro off hmem
    cases hcalls _ hmem

/-- Witness for C15: the valid frame of scenario 9 received before the precache
is done. -/
theorem CG_NewFrameSnap_not_ready_witness :
    loadingClient.cgs.precacheDone = false ∧ (commandFrame 9).valid = true ∧
    ∃ r, CG_NewFrameSnap plainFrameEnv smallConsts 5 loadingClient (commandFrame 9) none
        = Res.ok r ∧ r.ret = false ∧
      (∀ call ∈ r.calls, call = CgCall.Cvar_ForceSet) ∧
      CgCall.CG_BuildSolidList ∉ r.calls ∧
      (∀ off, CgCall.CG_GameCommand off ∉ r.calls) ∧
      r.client.cg.predictFrom = loadingClient.cg.predictFrom ∧
      r.client.cg.fireEvents = loadingClient.cg.fireEvents :=
  ⟨rfl, rfl,
    CG_NewFrameSnap_not_ready plainFrameEnv smallConsts 5 loadingClient (commandFrame 9) none
      rfl⟩

/-- C15 as stated fails on the first frame: with `cg.firstFrame` true, the
precache done and a valid frame, `CG_NewFrameSnap` returns true, having rebuilt
the solid list, passed two game commands to `CG_GameCommand` and reset
`cg.predictFrom` from 5 to 0. -/
theorem CG_NewFrameSnap_not_ready_counterexample :
    firstClient.cg.firstFrame = true ∧ firstClient.cg.predictFrom = 5 ∧
    Res.snapRet (CG_NewFrameSnap plainFrameEnv smallConsts 5 firstClient (commandFrame 9) none)
      = some true ∧
    Res.snapCalls (CG_NewFrameSnap plainFrameEnv smallConsts 5 firstClient (commandFrame 9) none)
      = some [CgCall.CG_BuildSolidList, CgCall.ResetAnnouncerSpeakers, CgCall.CG_UpdateEntities,
          CgCall.CG_CheckPredictionError, CgCall.CG_GameCommand 0, CgCall.CG_GameCommand 10,
          CgCall.CG_FireEvents] ∧
    Res.snapClient (fun cl => cl.cg.predictFrom)
        (CG_NewFrameSnap plainFrameEnv smallConsts 5 firstClient (commandFrame 9) none)
      = some 0 := by
  refine ⟨rfl, rfl, by decide, by decide, by decide⟩

/-- The record of the incoming entity after the general branch of
`CG_NewPacketEntityState`, field by field, in terms of the record before the
call: `current` is the incoming state; `prev`, `localEffects` and `microSmooth`
depend on whether the frame number left by the reset triggers differs from the
number of `cg.oldFrame`; the velocities follow lines 151 to 165. -/
theorem newPacketEntityState_general (env : CgEnv) (cl : Client) (state : SyncEntityState)
    (hev : env.ISEVENTENTITY state = false) (hlin : state.linearMovement = false)
    (sf : Int)
    (hsf : sf = (if state.model ≠ (cl.cg_entities state.number).current.model
          ∨ state.teleported = true
          ∨ state.linearMovement ≠ (cl.cg_entities state.number).current.linearMovement
        then (-99 : Int)
        else if |f32 ((cl.cg_entities state.number).current.origin.x - state.origin.x)| > 512
            ∨ |f32 ((cl.cg_entities state.number).current.origin.y - state.origin.y)| > 512
            ∨ |f32 ((cl.cg_entities state.number).current.origin.z - state.origin.z)| > 512
          then -99 else (cl.cg_entities state.number).serverFrame))
    (p : SyncEntityState)
    (hp : p = if sf ≠ cl.cg.oldFrame.serverFrame then state
      else (cl.cg_entities state.number).current) :
    ((CG_NewPacketEntityState env cl state).cg_entities state.number).current = state ∧
    ((CG_NewPacketEntityState env cl state).cg_entities state.number).prev = p ∧
    ((CG_NewPacketEntityState env cl state).cg_entities state.number).localEffects
      = (if sf ≠ cl.cg.oldFrame.serverFrame then fun _ => 0
          else (cl.cg_entities state.number).localEffects) ∧
    ((CG_NewPacketEntityState env cl state).cg_entities state.number).microSmooth
      = (if sf ≠ cl.cg.oldFrame.serverFrame then 0
          else (cl.cg_entities state.number).microSmooth) ∧
    ((CG_NewPacketEntityState env cl state).cg_entities state.number).serverFrame
      = toInt32 cl.cg.frame.serverFrame ∧
    ((CG_NewPacketEntityState env cl state).cg_entities state.number).velocity
      = (if cl.cgs.extrapolationTime ≠ 0 ∧
            (state.type = EntityType.ET_PLAYER ∨ state.type = EntityType.ET_CORPSE)
          then state.origin2
          else if p.origin ≠ state.origin then
            env.Vec3div (env.Vec3scale (env.Vec3sub state.origin p.origin) 1000)
              (if f32 ((cl.cg.frame.serverTime - cl.cg.oldFrame.serverTime : Int) : ℚ) = 0
                then f32 (cl.cgs.snapFrameTime : ℚ)
                else f32 ((cl.cg.frame.serverTime - cl.cg.oldFrame.serverTime : Int) : ℚ))
          else Vec3.zero) ∧
    ((CG_NewPacketEntityState env cl state).cg_entities state.number).prevVelocity
      = (if cl.cgs.extrapolationTime ≠ 0 ∧
            (state.type = EntityType.ET_PLAYER ∨ state.type = EntityType.ET_CORPSE)
          then p.origin2
          else (cl.cg_entities state.number).velocity) ∧
    ((CG_NewPacketEntityState env cl state).cg_entities state.number).trailOrigin
      = state.origin := by
  subst hp
  subst hsf
  unfold CG_NewPacketEntityState
  simp only [hev, hlin, Bool.false_eq_true, if_false, Function.update_same,
    apply_ite centity_t.current, apply_ite centity_t.prev, apply_ite centity_t.localEffects,
    apply_ite centity_t.microSmooth, apply_ite centity_t.serverFrame,
    apply_ite centity_t.velocity, apply_ite centity_t.prevVelocity,
    apply_ite centity_t.trailOrigin, ite_self, decide_eq_true_eq]
  exact ⟨trivial, trivial, trivial, trivial, trivial, trivial, trivial, trivial⟩

/-- Scenario 4, entity 5 arriving at `(3, 0, 0)`: no reset trigger holds and
the record was refreshed in frame 7, so the former `current` becomes `prev`. -/
theorem historyClient_step :
    ((CG_NewPacketEntityState plainEnv historyClient (entAt 5 3 0 0)).cg_entities 5).prev
      = entAt 5 0 0 0 ∧
    ((CG_NewPacketEntityState plainEnv historyClient (entAt 5 3 0 0)).cg_entities 5).current
      = entAt 5 3 0 0 := by
  obtain ⟨hcur, hprev, _⟩ :=
    newPacketEntityState_general plainEnv historyClient (entAt 5 3 0 0) rfl rfl _ rfl _ rfl
  refine ⟨?_, hcur⟩
  have hjump : ¬ (|f32 ((historyClient.cg_entities 5).current.origin.x - (entAt 5 3 0 0).origin.x)| > 512
      ∨ |f32 ((historyClient.cg_entities 5).current.origin.y - (entAt 5 3 0 0).origin.y)| > 512
      ∨ |f32 ((historyClient.cg_entities 5).current.origin.z - (entAt 5 3 0 0).origin.z)| > 512) := by
    show ¬ (|f32 ((0 : ℚ) - 3)| > 512 ∨ |f32 ((0 : ℚ) - 0)| > 512 ∨ |f32 ((0 : ℚ) - 0)| > 512)
    rw [f32_small_step, f32_no_step]
    norm_num [abs_of_nonneg]
  have hsf : (if (entAt 5 3 0 0).model ≠ (historyClient.cg_entities 5).current.model
        ∨ (entAt 5 3 0 0).teleported = true
        ∨ (entAt 5 3 0 0).linearMovement ≠ (historyClient.cg_entities 5).current.linearMovement
      then (-99 : Int)
      else if |f32 ((historyClient.cg_entities 5).current.origin.x - (entAt 5 3 0 0).origin.x)| > 512
          ∨ |f32 ((historyClient.cg_entities 5).current.origin.y - (entAt 5 3 0 0).origin.y)| > 512
          ∨ |f32 ((historyClient.cg_entities 5).current.origin.z - (entAt 5 3 0 0).origin.z)| > 512
        then -99 else (historyClient.cg_entities 5).serverFrame) = 7 := by
    rw [if_neg (by decide), if_neg hjump]
    rfl
  have hprev5 : ((CG_NewPacketEntityState plainEnv historyClient
      (entAt 5 3 0 0)).cg_entities 5).prev
      = if (if (entAt 5 3 0 0).model ≠ (historyClient.cg_entities 5).current.model
            ∨ (entAt 5 3 0 0).teleported = true
            ∨ (entAt 5 3 0 0).linearMovement
                ≠ (historyClient.cg_entities 5).current.linearMovement
          then (-99 : Int)
          else if |f32 ((historyClient.cg_entities 5).current.origin.x
                  - (entAt 5 3 0 0).origin.x)| > 512
              ∨ |f32 ((historyClient.cg_entities 5).current.origin.y
                  - (entAt 5 3 0 0).origin.y)| > 512
              ∨ |f32 ((historyClient.cg_entities 5).current.origin.z
                  - (entAt 5 3 0 0).origin.z)| > 512
            then -99 else (historyClient.cg_entities 5).serverFrame)
          ≠ historyClient.cg.oldFrame.serverFrame
        then entAt 5 3 0 0 else (historyClient.cg_entities 5).current := hprev
  rw [hprev5, hsf, if_neg (by decide)]
  rfl


/-- Scenario 4 at the edge of the threshold: entity 5, refreshed in frame 7 at
`x = 7 / 131072`, arrives at `x = 8388609 / 16384`. The origins differ by more
than 512, the `float` subtraction gives `-512`, no reset trigger holds, and the
former `current` becomes `prev` while the smoothing counter stays at 2. -/
theorem edgeClient_step :
    |(edgeClient.cg_entities 5).current.origin.x - edgeState.origin.x| > 512 ∧
    ((CG_NewPacketEntityState plainEnv edgeClient edgeState).cg_entities 5).prev
      = entAt 5 (7 / 131072) 0 0 ∧
    ((CG_NewPacketEntityState plainEnv edgeClient edgeState).cg_entities 5).microSmooth
      = 2 := by
  have hdiff : |(edgeClient.cg_entities 5).current.origin.x - edgeState.origin.x| > 512 := by
    show |(7 : ℚ) / 131072 - 8388609 / 16384| > 512
    norm_num [abs_of_neg]
  have hx : f32 ((edgeClient.cg_entities 5).current.origin.x - edgeState.origin.x) = -512 :=
    f32_edge
  have hjump : ¬ (|f32 ((edgeClient.cg_entities 5).current.origin.x - edgeState.origin.x)| > 512
      ∨ |f32 ((edgeClient.cg_entities 5).current.origin.y - edgeState.origin.y)| > 512
      ∨ |f32 ((edgeClient.cg_entities 5).current.origin.z - edgeState.origin.z)| > 512) := by
    rw [hx]
    show ¬ (|(-512 : ℚ)| > 512 ∨ |f32 ((0 : ℚ) - 0)| > 512 ∨ |f32 ((0 : ℚ) - 0)| > 512)
    rw [f32_no_step]
    norm_num [abs_of_nonneg]
  have hsf : (if edgeState.model ≠ (edgeClient.cg_entities 5).current.model
        ∨ edgeState.teleported = true
        ∨ edgeState.linearMovement ≠ (edgeClient.cg_entities 5).current.linearMovement
      then (-99 : Int)
      else if |f32 ((edgeClient.cg_entities 5).current.origin.x - edgeState.origin.x)| > 512
          ∨ |f32 ((edgeClient.cg_entities 5).current.origin.y - edgeState.origin.y)| > 512
          ∨ |f32 ((edgeClient.cg_entities 5).current.origin.z - edgeState.origin.z)| > 512
        then -99 else (edgeClient.cg_entities 5).serverFrame) = 7 := by
    rw [if_neg (by decide), if_neg hjump]
    rfl
  obtain ⟨_, hprev, _, hms, _⟩ :=
    newPacketEntityState_general plainEnv edgeClient edgeState rfl rfl 7 hsf.symm _ rfl
  refine ⟨hdiff, ?_, ?_⟩
  · have h := hprev
    rw [if_neg (by decide)] at h
    exact h
  · have h := hms
    rw [if_neg (by decide)] at h
    exact h

/-! ## The teleport threshold of `CG_NewPacketEntityState` -/

/-- C10, amended. Teleport threshold: when the incoming state is neither an
event entity nor in linear movement, the difference of the record's current
origin and the incoming origin, as the `float` subtraction gives it, exceeds
512 in absolute value on at least one axis, and the previous frame has a
non-negative server frame number, then after `CG_NewPacketEntityState` the
record of that entity has `prev` and `current` both equal to the incoming
state, hence the same origin in both, and `microSmooth` is zero. -/
theorem CG_NewPacketEntityState_teleport (env : CgEnv) (cl : Client) (state : SyncEntityState)
    (hev : env.ISEVENTENTITY state = false) (hlin : state.linearMovement = false)
    (hjump : |f32 ((cl.cg_entities state.number).current.origin.x - state.origin.x)| > 512
      ∨ |f32 ((cl.cg_entities state.number).current.origin.y - state.origin.y)| > 512
      ∨ |f32 ((cl.cg_entities state.number).current.origin.z - state.origin.z)| > 512)
    (hframe : 0 ≤ cl.cg.oldFrame.serverFrame) :
    ((CG_NewPacketEntityState env cl state).cg_entities state.number).prev = state
    ∧ ((CG_NewPacketEntityState env cl state).cg_entities state.number).current = state
    ∧ ((CG_NewPacketEntityState env cl state).cg_entities state.number).prev.origin
        = ((CG_NewPacketEntityState env cl state).cg_entities state.number).current.origin
    ∧ ((CG_NewPacketEntityState env cl state).cg_entities state.number).microSmooth = 0 := by
  have hne : (-99 : Int) ≠ cl.cg.oldFrame.serverFrame := by omega
  have hsf : (if state.model ≠ (cl.cg_entities state.number).current.model
        ∨ state.teleported = true
        ∨ state.linearMovement ≠ (cl.cg_entities state.number).current.linearMovement
      then (-99 : Int)
      else if |f32 ((cl.cg_entities state.number).current.origin.x - state.origin.x)| > 512
          ∨ |f32 ((cl.cg_entities state.number).current.origin.y - state.origin.y)| > 512
          ∨ |f32 ((cl.cg_entities state.number).current.origin.z - state.origin.z)| > 512
        then -99 else (cl.cg_entities state.number).serverFrame) = -99 := by
    rw [if_pos hjump]; split <;> rfl
  rw [hlin] at hsf
  unfold CG_NewPacketEntityState
  simp only [hev, hlin, Bool.false_eq_true, if_false, Function.update_same, hsf, ne_eq, hne,
    not_false_eq_true, decide_True, if_true]
  split_ifs <;> exact ⟨rfl, rfl, rfl, rfl⟩

/-- Witness for C10 in scenario 4: entity 5, seen in frame 7 at the origin with
two smoothing steps recorded, jumps to `(600, 0, 0)` in frame 8. -/
theorem CG_NewPacketEntityState_teleport_witness :
    (plainEnv.ISEVENTENTITY (entAt 5 600 0 0) = false
      ∧ (entAt 5 600 0 0).linearMovement = false
      ∧ |f32 ((jumpClient.cg_entities 5).current.origin.x - (entAt 5 600 0 0).origin.x)| > 512
      ∧ 0 ≤ jumpClient.cg.oldFrame.serverFrame
      ∧ (jumpClient.cg_entities 5).serverFrame = jumpClient.cg.oldFrame.serverFrame
      ∧ (jumpClient.cg_entities 5).microSmooth = 2)
    ∧ ((CG_NewPacketEntityState plainEnv jumpClient (entAt 5 600 0 0)).cg_entities 5).prev
        = entAt 5 600 0 0
    ∧ ((CG_NewPacketEntityState plainEnv jumpClient (entAt 5 600 0 0)).cg_entities 5).current
        = entAt 5 600 0 0
    ∧ ((CG_NewPacketEntityState plainEnv jumpClient (entAt 5 600 0 0)).cg_entities 5).prev.origin
        = ((CG_NewPacketEntityState plainEnv jumpClient (entAt 5 600 0 0)).cg_entities 5).current.origin
    ∧ ((CG_NewPacketEntityState plainEnv jumpClient (entAt 5 600 0 0)).cg_entities 5).microSmooth
        = 0 :=
  have hjump : |f32 ((jumpClient.cg_entities 5).current.origin.x - (entAt 5 600 0 0).origin.x)| > 512 := by
    show |f32 ((0 : ℚ) - 600)| > 512
    rw [f32_large_step]
    norm_num [abs_of_nonneg]
  ⟨⟨rfl, rfl, hjump, by decide, rfl, rfl⟩,
    CG_NewPacketEntityState_teleport plainEnv jumpClient (entAt 5 600 0 0) rfl rfl
      (Or.inl hjump) (by decide)⟩

/-- C10 as stated fails at the edge of the threshold. Entity 5 was in frame 7
at `x = 7 / 131072` and arrives in frame 8 at `x = 8388609 / 16384`, both
numbers of the `float` format: the origins differ by `67108865 / 131072`, more
than 512, but the `float` subtraction gives `-512`, which does not exceed the
threshold, so the former `current` becomes `prev` and the smoothing counter
stays at 2. -/
theorem CG_NewPacketEntityState_teleport_counterexample :
    plainEnv.ISEVENTENTITY edgeState = false ∧ edgeState.linearMovement = false ∧
    |(edgeClient.cg_entities 5).current.origin.x - edgeState.origin.x| > 512 ∧
    0 ≤ edgeClient.cg.oldFrame.serverFrame ∧
    f32 ((edgeClient.cg_entities 5).current.origin.x - edgeState.origin.x) = -512 ∧
    ((CG_NewPacketEntityState plainEnv edgeClient edgeState).cg_entities 5).prev
      = entAt 5 (7 / 131072) 0 0 ∧
    ((CG_NewPacketEntityState plainEnv edgeClient edgeState).cg_entities 5).prev ≠ edgeState ∧
    ((CG_NewPacketEntityState plainEnv edgeClient edgeState).cg_entities 5).microSmooth = 2 := by
  refine ⟨rfl, rfl, edgeClient_step.1, by decide, f32_edge, edgeClient_step.2.1, ?_,
    edgeClient_step.2.2⟩
  rw [edgeClient_step.2.1]
  intro h
  have hxx := congrArg (fun s => s.origin.x) h
  simp only [entAt, edgeState] at hxx
  norm_num at hxx
/-- C23. Velocity estimation in the general branch of `CG_NewPacketEntityState`.
When extrapolation is enabled and the type is `ET_PLAYER` or `ET_CORPSE`,
`velocity` is `current.origin2` and `prevVelocity` is `prev.origin2`.
Otherwise, when `prev.origin` differs from `current.origin`, `velocity` is
`( current.origin - prev.origin ) * 1000.0f / snapTime`, computed with the
operators of `Vec3`, where `snapTime` is the `float` that holds
`cg.frame.serverTime - cg.oldFrame.serverTime`, or `cgs.snapFrameTime` when
that difference is 0, so that `snapTime` is not 0 when `cgs.snapFrameTime` is
not; otherwise `velocity` is zero. -/
theorem CG_NewPacketEntityState_velocity (env : CgEnv) (cl : Client) (state : SyncEntityState)
    (hev : env.ISEVENTENTITY state = false) (hlin : state.linearMovement = false)
    (snapTime : ℚ)
    (hsnap : snapTime
      = if f32 ((cl.cg.frame.serverTime - cl.cg.oldFrame.serverTime : Int) : ℚ) = 0
        then f32 (cl.cgs.snapFrameTime : ℚ)
        else f32 ((cl.cg.frame.serverTime - cl.cg.oldFrame.serverTime : Int) : ℚ)) :
    ((cl.cgs.extrapolationTime ≠ 0 ∧
        (state.type = EntityType.ET_PLAYER ∨ state.type = EntityType.ET_CORPSE)) →
      ((CG_NewPacketEntityState env cl state).cg_entities state.number).velocity
        = ((CG_NewPacketEntityState env cl state).cg_entities state.number).current.origin2 ∧
      ((CG_NewPacketEntityState env cl state).cg_entities state.number).prevVelocity
        = ((CG_NewPacketEntityState env cl state).cg_entities state.number).prev.origin2) ∧
    (¬ (cl.cgs.extrapolationTime ≠ 0 ∧
        (state.type = EntityType.ET_PLAYER ∨ state.type = EntityType.ET_CORPSE)) →
      ((CG_NewPacketEntityState env cl state).cg_entities state.number).prev.origin
        ≠ ((CG_NewPacketEntityState env cl state).cg_entities state.number).current.origin →
      ((CG_NewPacketEntityState env cl state).cg_entities state.number).velocity
        = env.Vec3div
            (env.Vec3scale
              (env.Vec3sub
                ((CG_NewPacketEntityState env cl state).cg_entities state.number).current.origin
                ((CG_NewPacketEntityState env cl state).cg_entities state.number).prev.origin)
              1000)
            snapTime) ∧
    (¬ (cl.cgs.extrapolationTime ≠ 0 ∧
        (state.type = EntityType.ET_PLAYER ∨ state.type = EntityType.ET_CORPSE)) →
      ((CG_NewPacketEntityState env cl state).cg_entities state.number).prev.origin
        = ((CG_NewPacketEntityState env cl state).cg_entities state.number).current.origin →
      ((CG_NewPacketEntityState env cl state).cg_entities state.number).velocity = Vec3.zero) ∧
    (cl.cg.frame.serverTime - cl.cg.oldFrame.serverTime = 0 →
      snapTime = f32 (cl.cgs.snapFrameTime : ℚ)) ∧
    (cl.cg.frame.serverTime - cl.cg.oldFrame.serverTime ≠ 0 →
      snapTime = f32 ((cl.cg.frame.serverTime - cl.cg.oldFrame.serverTime : Int) : ℚ)) ∧
    (cl.cgs.snapFrameTime ≠ 0 → snapTime ≠ 0) := by
  obtain ⟨hcur, hprev, _, _, _, hvel, hpv, _⟩ :=
    newPacketEntityState_general env cl state hev hlin _ rfl _ rfl
  rw [hcur, hprev, hvel, hpv]
  have hzero : f32 ((cl.cg.frame.serverTime - cl.cg.oldFrame.serverTime : Int) : ℚ) = 0 ↔
      cl.cg.frame.serverTime - cl.cg.oldFrame.serverTime = 0 := by
    rw [f32_eq_zero_iff]
    exact Int.cast_eq_zero
  refine ⟨?_, ?_, ?_, ?_, ?_, ?_⟩
  · intro h
    rw [if_pos h, if_pos h]
    exact ⟨rfl, rfl⟩
  · intro h hne
    rw [if_neg h, if_pos hne, ← hsnap]
  · intro h heq
    rw [if_neg h, if_neg (not_not.mpr heq)]
  · intro h0
    rw [hsnap, if_pos (hzero.mpr h0)]
  · intro h0
    rw [hsnap, if_neg (fun h => h0 (hzero.mp h))]
  · intro h0
    rw [hsnap]
    split
    · intro h
      exact h0 (by exact_mod_cast (f32_eq_zero_iff _).mp h)
    · assumption

/-- Witness for C23 in scenario 4: entity 5 moves from the origin to `(3, 0, 0)`
between the frames of server times 1000 and 1016; its velocity is
`3 * 1000 / 16`, that is `375 / 2`, along the first axis, every step of the
computation being exact in `float`. -/
theorem CG_NewPacketEntityState_velocity_witness :
    (plainEnv.ISEVENTENTITY (entAt 5 3 0 0) = false ∧ (entAt 5 3 0 0).linearMovement = false
      ∧ f32 ((historyClient.cg.frame.serverTime - historyClient.cg.oldFrame.serverTime : Int) : ℚ)
          = 16
      ∧ ((CG_NewPacketEntityState plainEnv historyClient (entAt 5 3 0 0)).cg_entities 5).prev
          = entAt 5 0 0 0
      ∧ ((CG_NewPacketEntityState plainEnv historyClient (entAt 5 3 0 0)).cg_entities 5).current
          = entAt 5 3 0 0) ∧
    ((CG_NewPacketEntityState plainEnv historyClient (entAt 5 3 0 0)).cg_entities 5).velocity
      = ⟨375 / 2, 0, 0⟩ := by
  have h16 : f32 ((historyClient.cg.frame.serverTime
      - historyClient.cg.oldFrame.serverTime : Int) : ℚ) = 16 := by
    have h := f32_int 16 (by decide)
    have e : (historyClient.cg.frame.serverTime - historyClient.cg.oldFrame.serverTime : Int)
        = 16 := by decide
    rw [e]
    exact_mod_cast h
  have hv := (CG_NewPacketEntityState_velocity plainEnv historyClient (entAt 5 3 0 0) rfl rfl 16
      (by rw [h16, if_neg (by norm_num)])).2.1 (by decide)
      (by
        show ((CG_NewPacketEntityState plainEnv historyClient (entAt 5 3 0 0)).cg_entities
            5).prev.origin
          ≠ ((CG_NewPacketEntityState plainEnv historyClient (entAt 5 3 0 0)).cg_entities
            5).current.origin
        rw [historyClient_step.1, historyClient_step.2]
        decide)
  refine ⟨⟨rfl, rfl, h16, historyClient_step.1, historyClient_step.2⟩, ?_⟩
  have hv5 : ((CG_NewPacketEntityState plainEnv historyClient (entAt 5 3 0 0)).cg_entities
      5).velocity
      = plainEnv.Vec3div (plainEnv.Vec3scale (plainEnv.Vec3sub
          ((CG_NewPacketEntityState plainEnv historyClient (entAt 5 3 0 0)).cg_entities
            5).current.origin
          ((CG_NewPacketEntityState plainEnv historyClient (entAt 5 3 0 0)).cg_entities
            5).prev.origin) 1000) 16 := hv
  rw [hv5, historyClient_step.1, historyClient_step.2]
  have e1 : f32 ((3 : ℚ) - 0) = 3 := by
    have h := f32_int 3 (by decide)
    norm_num at h ⊢
    exact h
  have e2 : f32 ((3 : ℚ) * 1000) = 3000 := by
    have h := f32_int 3000 (by decide)
    norm_num at h ⊢
    exact h
  have e3 : f32 ((1 : ℚ) / 16) = 1 / 16 := by
    have h := f32_exact 1 (-4) (by decide)
    norm_num at h ⊢
    exact h
  have e4 : f32 ((3000 : ℚ) * (1 / 16)) = 375 / 2 := by
    have h := f32_exact 375 (-1) (by decide)
    norm_num at h ⊢
    exact h
  have e5 : f32 ((0 : ℚ) * 1000) = 0 := by
    have h := f32_int 0 (by decide)
    norm_num at h ⊢
    exact h
  have e6 : f32 ((0 : ℚ) * (1 / 16)) = 0 := by
    have h := f32_int 0 (by decide)
    norm_num at h ⊢
    exact h
  show (⟨f32 (f32 (f32 ((3 : ℚ) - 0) * 1000) * f32 (1 / 16)),
      f32 (f32 (f32 ((0 : ℚ) - 0) * 1000) * f32 (1 / 16)),
      f32 (f32 (f32 ((0 : ℚ) - 0) * 1000) * f32 (1 / 16))⟩ : Vec3) = ⟨375 / 2, 0, 0⟩
  rw [e1, f32_no_step, e2, e5, e3, e4, e6]

/-- C30, amended. General-kinematic history rule. In the branch of
`CG_NewPacketEntityState` for a state that is neither an event entity nor in
linear movement, with a non-negative frame number in `cg.oldFrame`: when the
record was refreshed in `cg.oldFrame` and no reset trigger holds (a difference
of the origins that the `float` subtraction gives as more than 512 on an axis,
a changed model, the teleported flag, a changed linear movement flag), `prev`
is the former `current` of the record; in every other case `prev` is the
incoming state and the `localEffects` of the record are cleared. -/
theorem CG_NewPacketEntityState_general_prev (env : CgEnv) (cl : Client)
    (state : SyncEntityState) (hev : env.ISEVENTENTITY state = false)
    (hlin : state.linearMovement = false) (hframe : 0 ≤ cl.cg.oldFrame.serverFrame) :
    (((cl.cg_entities state.number).serverFrame = cl.cg.oldFrame.serverFrame
        ∧ ¬ (|f32 ((cl.cg_entities state.number).current.origin.x - state.origin.x)| > 512
          ∨ |f32 ((cl.cg_entities state.number).current.origin.y - state.origin.y)| > 512
          ∨ |f32 ((cl.cg_entities state.number).current.origin.z - state.origin.z)| > 512)
        ∧ state.model = (cl.cg_entities state.number).current.model
        ∧ state.teleported = false
        ∧ state.linearMovement = (cl.cg_entities state.number).current.linearMovement) →
      ((CG_NewPacketEntityState env cl state).cg_entities state.number).prev
        = (cl.cg_entities state.number).current) ∧
    (¬ ((cl.cg_entities state.number).serverFrame = cl.cg.oldFrame.serverFrame
        ∧ ¬ (|f32 ((cl.cg_entities state.number).current.origin.x - state.origin.x)| > 512
          ∨ |f32 ((cl.cg_entities state.number).current.origin.y - state.origin.y)| > 512
          ∨ |f32 ((cl.cg_entities state.number).current.origin.z - state.origin.z)| > 512)
        ∧ state.model = (cl.cg_entities state.number).current.model
        ∧ state.teleported = false
        ∧ state.linearMovement = (cl.cg_entities state.number).current.linearMovement) →
      ((CG_NewPacketEntityState env cl state).cg_entities state.number).prev = state ∧
      ((CG_NewPacketEntityState env cl state).cg_entities state.number).localEffects
        = fun _ => 0) := by
  obtain ⟨_, hprev, hloc, _⟩ := newPacketEntityState_general env cl state hev hlin _ rfl _ rfl
  rw [hprev, hloc]
  have hne : (-99 : Int) ≠ cl.cg.oldFrame.serverFrame := by omega
  constructor
  · rintro ⟨h1, h2, h3, h4, h5⟩
    have c1 : ¬ (state.model ≠ (cl.cg_entities state.number).current.model
        ∨ state.teleported = true
        ∨ state.linearMovement ≠ (cl.cg_entities state.number).current.linearMovement) := by
      rintro (h | h | h)
      · exact h h3
      · rw [h4] at h; cases h
      · exact h h5
    rw [if_neg c1, if_neg h2, if_neg (not_not.mpr h1)]
  · intro hcond
    have hfresh : (if state.model ≠ (cl.cg_entities state.number).current.model
          ∨ state.teleported = true
          ∨ state.linearMovement ≠ (cl.cg_entities state.number).current.linearMovement
        then (-99 : Int)
        else if |f32 ((cl.cg_entities state.number).current.origin.x - state.origin.x)| > 512
            ∨ |f32 ((cl.cg_entities state.number).current.origin.y - state.origin.y)| > 512
            ∨ |f32 ((cl.cg_entities state.number).current.origin.z - state.origin.z)| > 512
          then -99 else (cl.cg_entities state.number).serverFrame)
        ≠ cl.cg.oldFrame.serverFrame := by
      split
      · exact hne
      · rename_i c1
        split
        · exact hne
        · rename_i c2
          intro heq
          apply hcond
          refine ⟨heq, c2, ?_, ?_, ?_⟩
          · by_contra h; exact c1 (Or.inl h)
          · cases ht : state.teleported
            · rfl
            · exact absurd (Or.inr (Or.inl ht)) c1
          · by_contra h; exact c1 (Or.inr (Or.inr h))
    rw [if_pos hfresh, if_pos hfresh]
    exact ⟨rfl, rfl⟩

/-- Witness for C30 in scenario 4: entity 5, refreshed in frame 7 at the origin,
keeps its former `current` as `prev` when it arrives at `(3, 0, 0)`, and has its
history reset and its local effects cleared when it arrives at `(600, 0, 0)`. -/
theorem CG_NewPacketEntityState_general_prev_witness :
    (plainEnv.ISEVENTENTITY (entAt 5 3 0 0) = false ∧ (entAt 5 3 0 0).linearMovement = false
      ∧ 0 ≤ historyClient.cg.oldFrame.serverFrame
      ∧ (historyClient.cg_entities 5).localEffects 0 = 3) ∧
    ((CG_NewPacketEntityState plainEnv historyClient (entAt 5 3 0 0)).cg_entities 5).prev
      = (historyClient.cg_entities 5).current ∧
    ((CG_NewPacketEntityState plainEnv historyClient (entAt 5 600 0 0)).cg_entities 5).prev
      = entAt 5 600 0 0 ∧
    ((CG_NewPacketEntityState plainEnv historyClient (entAt 5 600 0 0)).cg_entities
      5).localEffects = fun _ => 0 :=
  ⟨⟨rfl, rfl, by decide, rfl⟩,
    (CG_NewPacketEntityState_general_prev plainEnv historyClient (entAt 5 3 0 0) rfl rfl
      (by decide)).1
      ⟨rfl, by
        show ¬ (|f32 ((0 : ℚ) - 3)| > 512 ∨ |f32 ((0 : ℚ) - 0)| > 512
          ∨ |f32 ((0 : ℚ) - 0)| > 512)
        rw [f32_small_step, f32_no_step]
        norm_num [abs_of_nonneg], rfl, rfl, rfl⟩,
    (CG_NewPacketEntityState_general_prev plainEnv historyClient (entAt 5 600 0 0) rfl rfl
      (by decide)).2
      (by
        rintro ⟨_, h, _⟩
        apply h
        left
        show |f32 ((0 : ℚ) - 600)| > 512
        rw [f32_large_step]
        norm_num [abs_of_nonneg])⟩


/-- C30 as stated fails at the edge of the threshold. Entity 5 was refreshed in
frame 7 at `x = 7 / 131072` and arrives at `x = 8388609 / 16384`, both numbers
of the `float` format, with the same model and flags: the origins differ by
more than 512 on the first axis, yet `prev` is carried over from the former
`current`, because the `float` subtraction gives `-512`. -/
theorem CG_NewPacketEntityState_general_prev_counterexample :
    plainEnv.ISEVENTENTITY edgeState = false ∧ edgeState.linearMovement = false ∧
    0 ≤ edgeClient.cg.oldFrame.serverFrame ∧
    (edgeClient.cg_entities 5).serverFrame = edgeClient.cg.oldFrame.serverFrame ∧
    |(edgeClient.cg_entities 5).current.origin.x - edgeState.origin.x| > 512 ∧
    ((CG_NewPacketEntityState plainEnv edgeClient edgeState).cg_entities 5).prev
      = (edgeClient.cg_entities 5).current ∧
    (edgeClient.cg_entities 5).current ≠ edgeState := by
  refine ⟨rfl, rfl, by decide, rfl, edgeClient_step.1, edgeClient_step.2.1, ?_⟩
  intro h
  have hxx := congrArg (fun s => s.origin.x) h
  simp only [entAt, edgeState, edgeClient] at hxx
  norm_num at hxx

/-- C29. Empty delta is the identity: for every base frame, other than the new
frame, whose entity numbers all differ from the sentinel 99999 and whose count
is at most `MAX_PARSE_ENTITIES`, `SNAP_ParsePacketEntities` on a token stream
that holds only the terminator returns a new frame with the entity list of the
base, element for element, and the same `numEntities`. -/
theorem SNAP_ParsePacketEntities_empty_delta {M : Type} (ops : MsgOps M) (c : Consts)
    (j : Nat) (hP : c.MAX_PARSE_ENTITIES = 2 ^ j) (hE0 : 0 < c.MAX_EDICTS)
    (hE : c.MAX_EDICTS ≤ 99999) (B : Int → SyncEntityState) (mem : Frames)
    (oldframe : Option Nat) (newframe : Nat) (hne : ∀ o, oldframe = some o → o ≠ newframe)
    (msg msg1 : M) (henc : Encodes ops msg [] msg1)
    (hbase : ∀ e ∈ entityList c (baseFrame mem oldframe), e.number ≠ 99999)
    (hfit : (baseFrame mem oldframe).numEntities ≤ c.MAX_PARSE_ENTITIES)
    (fuel : Nat) (hf : (baseFrame mem oldframe).numEntities < fuel) :
    ∃ mem1, SNAP_ParsePacketEntities ops c fuel msg mem oldframe newframe B
        = Res.ok (msg1, mem1) ∧
      (mem1 newframe).numEntities = (baseFrame mem oldframe).numEntities ∧
      entityList c (mem1 newframe) = entityList c (baseFrame mem oldframe) ∧
      ∀ i < (baseFrame mem oldframe).numEntities,
        (mem1 newframe).parsedEntities (c.entIndex i)
          = (baseFrame mem oldframe).parsedEntities (c.entIndex i) := by
  obtain ⟨mem1, hrun, hcount, hout⟩ :=
    parsePacketEntities_eq_refMerge ops c hP hE0 hE B mem oldframe newframe hne [] msg msg1
      henc (by intro t ht; cases ht) hbase fuel (by simpa using hf)
  have hlen := entityList_length c (baseFrame mem oldframe)
  simp only [refMerge] at hcount hout
  rw [hlen] at hcount hout
  have hlist := hout hfit
  refine ⟨mem1, hrun, hcount, hlist, ?_⟩
  intro i hi
  have h1 : (entityList c (mem1 newframe))[i]? = (entityList c (baseFrame mem oldframe))[i]? := by
    rw [hlist]
  unfold entityList at h1
  rw [List.getElem?_map, List.getElem?_map, List.getElem?_range (by rw [hcount]; exact hi),
    List.getElem?_range hi] at h1
  simpa using h1

/-- Witness for C29: the terminator alone, merged with the base `[1, 3, 5]` of
scenario 1. -/
theorem SNAP_ParsePacketEntities_empty_delta_witness :
    Res.entitiesAt smallConsts 1
        (SNAP_ParsePacketEntities wordOps smallConsts 4 (WordMsg.ofWords [0]) scenario1Mem
          (some 0) 1 zeroBaselines)
      = some [entAt 1 0 0 0, entAt 3 0 0 0, entAt 5 0 0 0] ∧
    ∃ mem1, SNAP_ParsePacketEntities wordOps smallConsts 4 (WordMsg.ofWords [0]) scenario1Mem
        (some 0) 1 zeroBaselines = Res.ok ({ data := [], readcount := 1, cursize := 1 }, mem1) ∧
      (mem1 1).numEntities = (baseFrame scenario1Mem (some 0)).numEntities ∧
      entityList smallConsts (mem1 1)
        = entityList smallConsts (baseFrame scenario1Mem (some 0)) ∧
      ∀ i < (baseFrame scenario1Mem (some 0)).numEntities,
        (mem1 1).parsedEntities (smallConsts.entIndex i)
          = (baseFrame scenario1Mem (some 0)).parsedEntities (smallConsts.entIndex i) :=
  ⟨by decide,
    SNAP_ParsePacketEntities_empty_delta wordOps smallConsts 10 (by decide) (by decide)
      (by decide) zeroBaselines scenario1Mem (some 0) 1 (by intro o h; cases h; decide)
      (WordMsg.ofWords [0]) _ ⟨_, rfl, false, rfl, by decide⟩ (by decide) (by decide) 4
      (by decide)⟩

/-! ## The slot of a new frame -/

/-- `CG_UpdateLinearProjectilePosition` on a record in linear movement: the
origin of `current` becomes the position that `GS_LinearMovement` gives at the
chosen server time, nothing else of the record changes, and the result is false
exactly when the move time is negative, no collision model is found and the new
origin is farther from `origin2` than the back offset allows. -/
theorem updateLinearProjectilePosition_linear (env : CgEnv) (cl : Client) (cent : centity_t)
    (hlin : cent.current.linearMovement = true) :
    (CG_UpdateLinearProjectilePosition env cl cent).2
      = { cent with
          current := { cent.current with
            origin := (env.GS_LinearMovement cent.current
              (linearServerTime env cl cent.current)).2 } } ∧
    ((CG_UpdateLinearProjectilePosition env cl cent).1 = false ↔
      ((env.GS_LinearMovement cent.current (linearServerTime env cl cent.current)).1 < 0 ∧
        env.CM_TryFindCModel cent.current.model = false ∧
        env.Length (env.Vec3sub
            (env.GS_LinearMovement cent.current (linearServerTime env cl cent.current)).2
            cent.current.origin2)
          > (if ISVIEWERENTITY env cl cent.current.ownerNum = true
              then f32 (env.PROJECTILE_PRESTEP - 86) else f32 (env.PROJECTILE_PRESTEP - 52)))) := by
  have htime : (if (!env.CM_TryFindCModel cent.current.model) = true then
        if (!cl.cgs.demoPlaying && decide (env.projectileAntilagOffset > 0) &&
            !ISVIEWERENTITY env cl cent.current.ownerNum &&
            decide (cl.cgs.playerNum + 1 ≠ cl.cg.predictedPlayerState.POVnum)) = true then
          truncToInt (f32 (f32 ((if env.GS_MatchPaused = true then cl.cg.frame.serverTime
              else env.clServerTime + cl.cgs.extrapolationTime : Int) : ℚ)
            + f32 (f32 (cent.current.linearMovementTimeDelta : ℚ) * env.projectileAntilagOffset)))
        else (if env.GS_MatchPaused = true then cl.cg.frame.serverTime
              else env.clServerTime + cl.cgs.extrapolationTime)
      else (if env.GS_MatchPaused = true then cl.cg.frame.serverTime
              else env.clServerTime + cl.cgs.extrapolationTime))
      = linearServerTime env cl cent.current := rfl
  unfold CG_UpdateLinearProjectilePosition
  simp only [hlin, Bool.not_true, Bool.false_eq_true, if_false, htime]
  generalize env.GS_LinearMovement cent.current (linearServerTime env cl cent.current) = r
  by_cases h1 : r.1 < 0 ∧ env.CM_TryFindCModel cent.current.model = false
  · rw [if_pos h1]
    generalize (if ISVIEWERENTITY env cl cent.current.ownerNum = true
      then f32 (env.PROJECTILE_PRESTEP - 86) else f32 (env.PROJECTILE_PRESTEP - 52)) = back
    by_cases h2 : env.Length (env.Vec3sub r.2 cent.current.origin2) > back
    · rw [if_pos h2]
      exact ⟨rfl, Iff.intro (fun _ => ⟨h1.1, h1.2, h2⟩) (fun _ => rfl)⟩
    · rw [if_neg h2]
      exact ⟨rfl, Iff.intro (fun h => Bool.noConfusion h) (fun h => absurd h.2.2 h2)⟩
  · rw [if_neg h1]
    exact ⟨rfl, Iff.intro (fun h => Bool.noConfusion h) (fun h => absurd ⟨h.1, h.2.1⟩ h1)⟩

/-- The linear branch of `CG_NewPacketEntityState`: the record's `current` is the
incoming state with the origin recomputed by `GS_LinearMovement`, its velocity
is the velocity of the movement, and the trail starts at the recomputed
origin. -/
theorem newPacketEntityState_linear (env : CgEnv) (cl : Client) (state : SyncEntityState)
    (hev : env.ISEVENTENTITY state = false) (hlin : state.linearMovement = true) :
    ((CG_NewPacketEntityState env cl state).cg_entities state.number).current
        = { state with
            origin := (env.GS_LinearMovement state (linearServerTime env cl state)).2 } ∧
    ((CG_NewPacketEntityState env cl state).cg_entities state.number).velocity
        = state.linearMovementVelocity ∧
    ((CG_NewPacketEntityState env cl state).cg_entities state.number).trailOrigin
        = (env.GS_LinearMovement state (linearServerTime env cl state)).2 ∧
    ((CG_NewPacketEntityState env cl state).cg_entities state.number).serverFrame
        = toInt32 cl.cg.frame.serverFrame := by
  unfold CG_NewPacketEntityState
  simp only [hev, Bool.false_eq_true, if_false, Function.update_same]
  rw [if_pos hlin]
  simp only [Function.update_same]
  generalize hc : ({ cl.cg_entities state.number with
      prevVelocity := Vec3.zero
      canExtrapolatePrev := false
      prev := (if (cl.cg_entities state.number).serverFrame ≠ cl.cg.oldFrame.serverFrame
          ∨ state.teleported = true
          ∨ state.linearMovement ≠ (cl.cg_entities state.number).current.linearMovement
          ∨ state.linearMovementTimeStamp
              ≠ (cl.cg_entities state.number).current.linearMovementTimeStamp
        then state else (cl.cg_entities state.number).current)
      current := state
      serverFrame := toInt32 cl.cg.frame.serverFrame
      velocity := Vec3.zero
      canExtrapolate := false } : centity_t) = c
  have hcur : c.current = state := by rw [← hc]
  have hsf : c.serverFrame = toInt32 cl.cg.frame.serverFrame := by rw [← hc]
  have h := (updateLinearProjectilePosition_linear env cl c (by rw [hcur]; exact hlin)).1
  rw [hcur] at h
  rw [h]
  exact ⟨rfl, rfl, rfl, hsf⟩

/-- The time at which the projectile of `lateRecord` is evaluated by the client
of scenario 4 at client time `2 ^ 24 + 1`, with the anti-lag offset: the sum is
made on `float` and gives `2 ^ 24`. -/
theorem linearServerTime_late :
    linearServerTime lateEnv jumpClient lateRecord.current = 16777216 := by
  unfold linearServerTime
  norm_num [lateEnv, flightEnv, plainEnv, jumpClient, lateRecord, entAt,
    SyncEntityState.zero, SyncPlayerState.zero, ISVIEWERENTITY, truncToInt, f32_zero,
    f32_late_time, f32_late_rounded]

/-- C21. Analytic projectile position: when `GS_LinearMovement` does not read
the origin of the state it is given, then for a state in linear movement that
is not an event entity, after `CG_NewPacketEntityState` the record's
`current.origin` is the position that `GS_LinearMovement` returns for the
chosen server time, its velocity is `linearMovementVelocity` and `trailOrigin`
is that position, so the update with any other transmitted origin produces the
same `current.origin`, velocity and `trailOrigin`; and for every record in
linear movement `CG_ExtrapolateLinearProjectile` sets `current.origin` and the
interpolated origins to the position that `GS_LinearMovement` returns, whatever
origin the record held. -/
theorem CG_NewPacketEntityState_linear_origin (env : CgEnv) (cl : Client)
    (state : SyncEntityState) (o : Vec3)
    (hGS : ∀ (s : SyncEntityState) (p : Vec3) (t : Int),
      env.GS_LinearMovement { s with origin := p } t = env.GS_LinearMovement s t)
    (hev : env.ISEVENTENTITY state = false)
    (hevo : env.ISEVENTENTITY { state with origin := o } = false)
    (hlin : state.linearMovement = true) :
    (((CG_NewPacketEntityState env cl state).cg_entities state.number).current.origin
        = (env.GS_LinearMovement state (linearServerTime env cl state)).2 ∧
      ((CG_NewPacketEntityState env cl state).cg_entities state.number).velocity
        = state.linearMovementVelocity ∧
      ((CG_NewPacketEntityState env cl state).cg_entities state.number).trailOrigin
        = ((CG_NewPacketEntityState env cl state).cg_entities state.number).current.origin) ∧
    (((CG_NewPacketEntityState env cl { state with origin := o }).cg_entities
          state.number).current.origin
        = ((CG_NewPacketEntityState env cl state).cg_entities state.number).current.origin ∧
      ((CG_NewPacketEntityState env cl { state with origin := o }).cg_entities
          state.number).velocity
        = ((CG_NewPacketEntityState env cl state).cg_entities state.number).velocity ∧
      ((CG_NewPacketEntityState env cl { state with origin := o }).cg_entities
          state.number).trailOrigin
        = ((CG_NewPacketEntityState env cl state).cg_entities state.number).trailOrigin) ∧
    (∀ (cl2 : Client) (cent : centity_t) (p : Vec3), cent.current.linearMovement = true →
      (CG_ExtrapolateLinearProjectile env cl2 cent).current.origin
        = (env.GS_LinearMovement cent.current (linearServerTime env cl2 cent.current)).2 ∧
      (CG_ExtrapolateLinearProjectile env cl2 cent).interpolated.origin
        = (CG_ExtrapolateLinearProjectile env cl2 cent).current.origin ∧
      (CG_ExtrapolateLinearProjectile env cl2 cent).interpolated.origin2
        = (CG_ExtrapolateLinearProjectile env cl2 cent).current.origin ∧
      (CG_ExtrapolateLinearProjectile env cl2
          { cent with current := { cent.current with origin := p } }).current.origin
        = (CG_ExtrapolateLinearProjectile env cl2 cent).current.origin) := by
  have h1 := newPacketEntityState_linear env cl state hev hlin
  have h2 := newPacketEntityState_linear env cl { state with origin := o } hevo hlin
  have ht : linearServerTime env cl { state with origin := o } = linearServerTime env cl state :=
    rfl
  have hn : ({ state with origin := o } : SyncEntityState).number = state.number := rfl
  rw [hn, ht, hGS] at h2
  refine ⟨⟨?_, h1.2.1, ?_⟩, ⟨?_, ?_, ?_⟩, ?_⟩
  · rw [h1.1]
  · rw [h1.2.2.1, h1.1]
  · rw [h2.1, h1.1]
  · rw [h2.2.1, h1.2.1]
  · rw [h2.2.2.1, h1.2.2.1]
  · intro cl2 cent p hl
    have e1 := (updateLinearProjectilePosition_linear env cl2 cent hl).1
    have e2 := (updateLinearProjectilePosition_linear env cl2
      { cent with current := { cent.current with origin := p } } hl).1
    have ht2 : linearServerTime env cl2 { cent.current with origin := p }
        = linearServerTime env cl2 cent.current := rfl
    unfold CG_ExtrapolateLinearProjectile
    simp only [e1, e2, ht2, hGS]
    exact ⟨trivial, trivial, trivial, trivial⟩

/-- Witness for C21: the rocket launched at time 900 at 200 units per second,
seen at client time 950 by the client of scenario 4, is placed at `(10, 0, 0)`
whether it was transmitted at `(2, 0, 0)` or at `(777, 0, 0)`. The projectile
launched at time `2 ^ 24 + 1` at 100000 units per second and seen at that
client time is evaluated at time `2 ^ 24` and placed at `(-100, 0, 0)`. -/
theorem CG_NewPacketEntityState_linear_origin_witness :
    ((CG_NewPacketEntityState flightEnv jumpClient (rocketState 2)).cg_entities
        6).current.origin = ⟨10, 0, 0⟩ ∧
    ((CG_NewPacketEntityState flightEnv jumpClient (rocketState 777)).cg_entities
        6).current.origin = ⟨10, 0, 0⟩ ∧
    ((CG_NewPacketEntityState flightEnv jumpClient (rocketState 777)).cg_entities
        6).velocity = ⟨200, 0, 0⟩ ∧
    ((CG_NewPacketEntityState flightEnv jumpClient (rocketState 777)).cg_entities
        6).trailOrigin = ⟨10, 0, 0⟩ ∧
    ((CG_NewPacketEntityState lateEnv jumpClient lateRecord.current).cg_entities
        6).current.origin = ⟨-100, 0, 0⟩ := by
  have h := CG_NewPacketEntityState_linear_origin flightEnv jumpClient (rocketState 2)
    ⟨777, 0, 0⟩ (fun _ _ _ => rfl) rfl rfl rfl
  have ho : (flightEnv.GS_LinearMovement (rocketState 2)
      (linearServerTime flightEnv jumpClient (rocketState 2))).2 = ⟨10, 0, 0⟩ := by
    have ht : linearServerTime flightEnv jumpClient (rocketState 2) = 950 := by
      unfold linearServerTime
      norm_num [flightEnv, plainEnv, jumpClient, rocketState, entAt, SyncEntityState.zero,
        SyncPlayerState.zero, ISVIEWERENTITY, truncToInt, f32_zero, f32_flight_time]
    rw [ht]
    norm_num [flightEnv, plainEnv, rocketState, entAt, SyncEntityState.zero, Vec3.zero]
  have hs : ({ rocketState 2 with origin := ⟨777, 0, 0⟩ } : SyncEntityState)
      = rocketState 777 := rfl
  have hn : (rocketState 2).number = 6 := rfl
  rw [hs, hn, ho] at h
  have hl := (CG_NewPacketEntityState_linear_origin lateEnv jumpClient lateRecord.current
    ⟨0, 0, 0⟩ (fun _ _ _ => rfl) rfl rfl rfl).1.1
  rw [linearServerTime_late] at hl
  refine ⟨h.1.1, h.2.1.1.trans h.1.1, h.2.1.2.1.trans h.1.2.1,
    h.2.1.2.2.trans (h.1.2.2.trans h.1.1), hl.trans ?_⟩
  show (⟨0 + 100000 * (((16777216 : Int) : ℚ) - ((16777217 : Int) : ℚ)) / 1000,
    0 + 0 * (((16777216 : Int) : ℚ) - ((16777217 : Int) : ℚ)) / 1000,
    0 + 0 * (((16777216 : Int) : ℚ) - ((16777217 : Int) : ℚ)) / 1000⟩ : Vec3) = ⟨-100, 0, 0⟩
  norm_num

/-- C22. Projectile draw decision: `CG_UpdateLinearProjectilePosition` returns
false if and only if the state is not in linear movement, or the computed move
time is negative and no collision model is found for its model and the distance
from the recomputed origin to `origin2` exceeds `PROJECTILE_PRESTEP` minus 86
when the owner is the viewer entity, minus 52 otherwise. The movement is
evaluated at the server time `linearServerTime`, which is the base time (the
frame time when the match is paused, else the client time plus the
extrapolation time) plus `linearMovementTimeDelta` times the anti-lag offset,
truncated to an integer, when no collision model is found, no demo is playing,
the offset is positive, the owner is not the viewer entity and the local player
is not the POV; in every other case it is the base time. -/
theorem CG_UpdateLinearProjectilePosition_draw (env : CgEnv) (cl : Client) (cent : centity_t) :
    ((CG_UpdateLinearProjectilePosition env cl cent).1 = false ↔
      (cent.current.linearMovement = false ∨
        ((env.GS_LinearMovement cent.current (linearServerTime env cl cent.current)).1 < 0 ∧
          env.CM_TryFindCModel cent.current.model = false ∧
          env.Length (env.Vec3sub
              (env.GS_LinearMovement cent.current (linearServerTime env cl cent.current)).2
              cent.current.origin2)
            > (if ISVIEWERENTITY env cl cent.current.ownerNum = true
                then f32 (env.PROJECTILE_PRESTEP - 86) else f32 (env.PROJECTILE_PRESTEP - 52))))) ∧
    (cent.current.linearMovement = true →
      (CG_UpdateLinearProjectilePosition env cl cent).2.current.origin
        = (env.GS_LinearMovement cent.current (linearServerTime env cl cent.current)).2) ∧
    (cent.current.linearMovement = false →
      (CG_UpdateLinearProjectilePosition env cl cent).2 = cent) ∧
    ((env.CM_TryFindCModel cent.current.model = false ∧ cl.cgs.demoPlaying = false ∧
        env.projectileAntilagOffset > 0 ∧
        ISVIEWERENTITY env cl cent.current.ownerNum = false ∧
        cl.cgs.playerNum + 1 ≠ cl.cg.predictedPlayerState.POVnum) →
      linearServerTime env cl cent.current
        = truncToInt (f32 (f32 ((if env.GS_MatchPaused = true then cl.cg.frame.serverTime
              else env.clServerTime + cl.cgs.extrapolationTime : Int) : ℚ)
            + f32 (f32 (cent.current.linearMovementTimeDelta : ℚ) * env.projectileAntilagOffset)))) ∧
    (¬ (env.CM_TryFindCModel cent.current.model = false ∧ cl.cgs.demoPlaying = false ∧
        env.projectileAntilagOffset > 0 ∧
        ISVIEWERENTITY env cl cent.current.ownerNum = false ∧
        cl.cgs.playerNum + 1 ≠ cl.cg.predictedPlayerState.POVnum) →
      linearServerTime env cl cent.current
        = (if env.GS_MatchPaused = true then cl.cg.frame.serverTime
            else env.clServerTime + cl.cgs.extrapolationTime)) := by
  refine ⟨?_, ?_, ?_, ?_, ?_⟩
  · cases hlin : cent.current.linearMovement
    · have h : (CG_UpdateLinearProjectilePosition env cl cent).1 = false := by
        unfold CG_UpdateLinearProjectilePosition
        simp only [hlin, Bool.not_false, if_true]
      exact Iff.intro (fun _ => Or.inl rfl) (fun _ => h)
    · have h := (updateLinearProjectilePosition_linear env cl cent hlin).2
      exact Iff.intro (fun hf => Or.inr (h.1 hf))
        (fun hr => hr.elim (fun hc => Bool.noConfusion hc) (fun hc => h.2 hc))
  · intro hlin
    rw [(updateLinearProjectilePosition_linear env cl cent hlin).1]
  · intro hlin
    unfold CG_UpdateLinearProjectilePosition
    simp only [hlin, Bool.not_false, if_true]
  · intro h
    unfold linearServerTime
    simp only [h.1, h.2.1, h.2.2.1, h.2.2.2.1, h.2.2.2.2, Bool.not_false, if_true,
      decide_True, Bool.and_self, ne_eq, not_false_eq_true]
  · intro h
    unfold linearServerTime
    cases hc : env.CM_TryFindCModel cent.current.model
    · simp only [Bool.not_false, if_true]
      rw [if_neg]
      intro hall
      apply h
      simp only [Bool.and_eq_true, Bool.not_eq_true', decide_eq_true_eq] at hall
      exact ⟨hc, hall.1.1.1, hall.1.1.2, hall.1.2, hall.2⟩
    · simp only [Bool.not_true, Bool.false_eq_true, if_false]

/-- Witness for C22: the rocket launched at time 900, with no collision model
and an anti-lag offset of 1.0, observed by a remote client at time 950, is
drawable; observed at time 850 with a prestep of 60, it has flown back 10
units, more than 60 minus 52, and is not drawable. A projectile launched at
time `2 ^ 24 + 1` and observed at that client time with the anti-lag offset is
evaluated at time `2 ^ 24`, the `float` nearest to the client time: it has flown
back 100 units and is not drawable. -/
theorem CG_UpdateLinearProjectilePosition_draw_witness :
    (CG_UpdateLinearProjectilePosition flightEnv jumpClient rocketRecord).1 = true ∧
    (CG_UpdateLinearProjectilePosition earlyEnv jumpClient rocketRecord).1 = false ∧
    linearServerTime lateEnv jumpClient lateRecord.current = 16777216 ∧
    (CG_UpdateLinearProjectilePosition lateEnv jumpClient lateRecord).1 = false ∧
    (CG_UpdateLinearProjectilePosition lateEnv jumpClient lateRecord).2.current.origin
      = ⟨-100, 0, 0⟩ := by
  have ht : linearServerTime flightEnv jumpClient rocketRecord.current = 950 := by
    unfold linearServerTime
    norm_num [flightEnv, plainEnv, jumpClient, rocketRecord, rocketState, entAt,
      SyncEntityState.zero, SyncPlayerState.zero, ISVIEWERENTITY, truncToInt, f32_zero,
      f32_flight_time]
  have ht2 : linearServerTime earlyEnv jumpClient rocketRecord.current = 850 := by
    unfold linearServerTime
    norm_num [earlyEnv, flightEnv, plainEnv, jumpClient, rocketRecord, rocketState, entAt,
      SyncEntityState.zero, SyncPlayerState.zero, ISVIEWERENTITY, truncToInt]
  have ht3 := linearServerTime_late
  have e8 : f32 8 = 8 := by
    have h := f32_int 8 (by decide)
    norm_num at h ⊢
    exact h
  have e10 : f32 (-10) = -10 := by
    have h := f32_int (-10) (by decide)
    norm_num at h ⊢
    exact h
  have e100 : f32 (-100) = -100 := by
    have h := f32_int (-100) (by decide)
    norm_num at h ⊢
    exact h
  have hd := CG_UpdateLinearProjectilePosition_draw lateEnv jumpClient lateRecord
  rw [ht3] at hd
  refine ⟨?_, ?_, ht3, ?_, ?_⟩
  · cases hr : (CG_UpdateLinearProjectilePosition flightEnv jumpClient rocketRecord).1
    · exfalso
      have h := (CG_UpdateLinearProjectilePosition_draw flightEnv jumpClient rocketRecord).1.1 hr
      rw [ht] at h
      rcases h with h | h
      · exact Bool.noConfusion h
      · exact absurd h.1 (by decide)
    · rfl
  · apply (CG_UpdateLinearProjectilePosition_draw earlyEnv jumpClient rocketRecord).1.2
    right
    rw [ht2]
    refine ⟨by decide, rfl, ?_⟩
    have hv : ISVIEWERENTITY earlyEnv jumpClient rocketRecord.current.ownerNum = false := rfl
    rw [hv, if_neg Bool.false_ne_true]
    norm_num [earlyEnv, flightEnv, plainEnv, rocketRecord, rocketState, entAt,
      SyncEntityState.zero, Vec3.zero, f32_zero, e8, e10, e100]
  · apply hd.1.2
    right
    refine ⟨by decide, rfl, ?_⟩
    have hv : ISVIEWERENTITY lateEnv jumpClient lateRecord.current.ownerNum = false := rfl
    rw [hv, if_neg Bool.false_ne_true]
    norm_num [lateEnv, flightEnv, plainEnv, lateRecord, entAt,
      SyncEntityState.zero, Vec3.zero, f32_zero, e8, e10, e100]
  · rw [hd.2.1 rfl]
    show (⟨0 + 100000 * (((16777216 : Int) : ℚ) - ((16777217 : Int) : ℚ)) / 1000,
      0 + 0 * (((16777216 : Int) : ℚ) - ((16777217 : Int) : ℚ)) / 1000,
      0 + 0 * (((16777216 : Int) : ℚ) - ((16777217 : Int) : ℚ)) / 1000⟩ : Vec3) = ⟨-100, 0, 0⟩
    norm_num

/-! ## Presence of entities in a frame -/

/-- `CG_NewPacketEntityState` writes the record of the incoming entity only, and
leaves it with the frame number of `cg.frame`, stored into an `int`, and with
the number of the incoming state in `current`. -/
theorem newPacketEntityState_presence (env : CgEnv) (cl : Client) (state : SyncEntityState) :
    ((CG_NewPacketEntityState env cl state).cg_entities state.number).serverFrame
      = toInt32 cl.cg.frame.serverFrame ∧
    ((CG_NewPacketEntityState env cl state).cg_entities state.number).current.number
      = state.number ∧
    (∀ n, n ≠ state.number →
      (CG_NewPacketEntityState env cl state).cg_entities n = cl.cg_entities n) := by
  refine ⟨?_, ?_, ?_⟩
  · cases hev : env.ISEVENTENTITY state
    · cases hlin : state.linearMovement
      · exact (newPacketEntityState_general env cl state hev hlin _ rfl _ rfl).2.2.2.2.1
      · exact (newPacketEntityState_linear env cl state hev hlin).2.2.2
    · unfold CG_NewPacketEntityState
      simp only [hev, if_true, Function.update_same]
  · cases hev : env.ISEVENTENTITY state
    · cases hlin : state.linearMovement
      · rw [(newPacketEntityState_general env cl state hev hlin _ rfl _ rfl).1]
      · rw [(newPacketEntityState_linear env cl state hev hlin).1]
    · unfold CG_NewPacketEntityState
      simp only [hev, if_true, Function.update_same]
  · intro n hn
    unfold CG_NewPacketEntityState
    cases hev : env.ISEVENTENTITY state
    · cases hlin : state.linearMovement
      · simp only [Bool.false_eq_true, if_false]
        exact Function.update_noteq hn _ _
      · simp only [Bool.false_eq_true, if_false, if_true]
        exact Function.update_noteq hn _ _
    · simp only [if_true]
      exact Function.update_noteq hn _ _

/-- The entity loop of `CG_NewFrameSnap` from index `i` for `k` iterations: the
record of every entity number read has the frame number of `cg.frame` and its
own number in `current`, and the records of the other numbers are as before. -/
theorem newPacketEntities_presence (env : CgEnv) (c : Consts) (frame : snapshot_t) :
    ∀ (k i : Nat) (cl : Client),
      (∀ j, i ≤ j → j < i + k →
        ((newPacketEntities env c frame k i cl).cg_entities
            (frame.parsedEntities (c.entIndex j)).number).serverFrame
          = toInt32 cl.cg.frame.serverFrame ∧
        ((newPacketEntities env c frame k i cl).cg_entities
            (frame.parsedEntities (c.entIndex j)).number).current.number
          = (frame.parsedEntities (c.entIndex j)).number) ∧
      (∀ n, (∀ j, i ≤ j → j < i + k → (frame.parsedEntities (c.entIndex j)).number ≠ n) →
        (newPacketEntities env c frame k i cl).cg_entities n = cl.cg_entities n) := by
  intro k
  induction k with
  | zero =>
    intro i cl
    exact ⟨fun j h1 h2 => by omega, fun n _ => rfl⟩
  | succ k ih =>
    intro i cl
    rw [newPacketEntities]
    obtain ⟨ih1, ih2⟩ := ih (i + 1)
      (CG_NewPacketEntityState env cl (frame.parsedEntities (c.entIndex i)))
    obtain ⟨p1, p2, p3⟩ := newPacketEntityState_presence env cl
      (frame.parsedEntities (c.entIndex i))
    have hcg := (newPacketEntityState_cg env cl (frame.parsedEntities (c.entIndex i))).1
    rw [hcg] at ih1
    constructor
    · intro j h1 h2
      by_cases hlater : ∃ j', i + 1 ≤ j' ∧ j' < i + 1 + k ∧
          (frame.parsedEntities (c.entIndex j')).number
            = (frame.parsedEntities (c.entIndex j)).number
      · obtain ⟨j', hj1, hj2, hj3⟩ := hlater
        have h := ih1 j' hj1 hj2
        rw [hj3] at h
        exact h
      · have hnone : ∀ j', i + 1 ≤ j' → j' < i + 1 + k →
            (frame.parsedEntities (c.entIndex j')).number
              ≠ (frame.parsedEntities (c.entIndex j)).number :=
          fun j' hj1 hj2 hj3 => hlater ⟨j', hj1, hj2, hj3⟩
        have hji : j = i := by
          by_contra hne
          exact hnone j (by omega) (by omega) rfl
        rw [ih2 _ hnone, hji]
        exact ⟨p1, p2⟩
    · intro n hn
      rw [ih2 n (fun j h1 h2 => hn j (by omega) (by omega))]
      exact p3 n (fun h => hn i (Nat.le_refl i) (by omega) h.symm)

/-- The entity records after the frame shift with old frame `old`, the player
state update and the entity loop. -/
theorem receiveFrame_presence_aux (env : FrameEnv) (env1 : CgEnv) (c : Consts) (cl : Client)
    (frame old : snapshot_t) :
    (∀ n, Listed c frame n →
      ((newPacketEntities env1 c frame frame.numEntities 0
          (CG_UpdatePlayerState env
            { cl with cg := { cl.cg with oldFrame := old, frame := frame } })).cg_entities
          n).serverFrame = toInt32 frame.serverFrame ∧
      ((newPacketEntities env1 c frame frame.numEntities 0
          (CG_UpdatePlayerState env
            { cl with cg := { cl.cg with oldFrame := old, frame := frame } })).cg_entities
          n).current.number = n) ∧
    (∀ n, ¬ Listed c frame n →
      (newPacketEntities env1 c frame frame.numEntities 0
          (CG_UpdatePlayerState env
            { cl with cg := { cl.cg with oldFrame := old, frame := frame } })).cg_entities n
        = cl.cg_entities n) := by
  obtain ⟨p1, p2⟩ := newPacketEntities_presence env1 c frame frame.numEntities 0
    (CG_UpdatePlayerState env { cl with cg := { cl.cg with oldFrame := old, frame := frame } })
  obtain ⟨h1, _, _, _, _, _, _, h8⟩ := updatePlayerState_frame env
    { cl with cg := { cl.cg with oldFrame := old, frame := frame } }
  have hsf : (CG_UpdatePlayerState env
      { cl with cg := { cl.cg with oldFrame := old, frame := frame } }).cg.frame.serverFrame
      = frame.serverFrame := by
    rw [h1, setFramePlayerState_eq env _ frame _]
  rw [hsf] at p1
  constructor
  · intro n hn
    obtain ⟨j, hj, hjn⟩ := hn
    have h := p1 j (Nat.zero_le j) (by omega)
    rw [hjn] at h
    exact h
  · intro n hn
    rw [p2 n (fun j _ hj hjn => hn ⟨j, by omega, hjn⟩), h8]

/-- The entity records at the readiness test of `CG_NewFrameSnap`: the record
of every entity listed in the frame has the frame number, stored into an
`int`, and its own number in `current`; the other records are as before the
call. -/
theorem receiveFrame_presence (env : FrameEnv) (c : Consts) (cl : Client) (frame : snapshot_t)
    (lerpframe : Option snapshot_t) :
    (∀ n, Listed c frame n →
      ((receiveFrame env c cl frame lerpframe).cg_entities n).serverFrame
        = toInt32 frame.serverFrame ∧
      ((receiveFrame env c cl frame lerpframe).cg_entities n).current.number = n) ∧
    (∀ n, ¬ Listed c frame n →
      (receiveFrame env c cl frame lerpframe).cg_entities n = cl.cg_entities n) := by
  unfold receiveFrame
  cases lerpframe with
  | none => exact receiveFrame_presence_aux env _ c cl frame frame
  | some l => exact receiveFrame_presence_aux env _ c cl frame l

/-- The invalid frame 9 listing entity 5 at `(600, 0, 0)`, received by the client
of scenario 4: at the readiness test of `CG_NewFrameSnap` the record of entity
5 holds the state of the frame in `current` and in `prev`. -/
theorem invalidFrame_record :
    ((receiveFrame plainFrameEnv smallConsts jumpClient (entityFrame false) none).cg_entities
        5).current = entAt 5 600 0 0 ∧
    ((receiveFrame plainFrameEnv smallConsts jumpClient (entityFrame false) none).cg_entities
        5).prev = entAt 5 600 0 0 := by
  have hrecv : ∃ (E : CgEnv) (C2 : Client), C2.cg_entities = jumpClient.cg_entities ∧
      C2.cg.oldFrame.serverFrame = 9 ∧ E.ISEVENTENTITY = plainEnv.ISEVENTENTITY ∧
      receiveFrame plainFrameEnv smallConsts jumpClient (entityFrame false) none
        = CG_NewPacketEntityState E (CG_NewPacketEntityState E C2 (entAt 5 600 0 0))
            (rocketState 2) := by
    refine ⟨{ plainFrameEnv.toCgEnv with
        GS_MatchPaused := plainFrameEnv.GS_MatchPausedAt (entityFrame false).gameState
        projectileAntilagOffset := antilagOffsetAfter plainFrameEnv },
      _, (updatePlayerState_frame plainFrameEnv
      { jumpClient with
        cg := { jumpClient.cg with oldFrame := entityFrame false, frame := entityFrame false } }).2.2.2.2.2.2.2,
      ?_, ?_, rfl⟩
    · rw [updatePlayerState_oldFrame]
      rfl
    · rfl
  obtain ⟨E, C2, hents, hold, hE, hrun⟩ := hrecv
  rw [hrun, (newPacketEntityState_presence E (CG_NewPacketEntityState E C2 (entAt 5 600 0 0))
    (rocketState 2)).2.2 5 (by decide)]
  have hrec : C2.cg_entities (entAt 5 600 0 0).number = jumpClient.cg_entities 5 := by
    rw [hents]
    rfl
  have hsf : (-99 : Int) = (if (entAt 5 600 0 0).model
          ≠ (C2.cg_entities (entAt 5 600 0 0).number).current.model
          ∨ (entAt 5 600 0 0).teleported = true
          ∨ (entAt 5 600 0 0).linearMovement
            ≠ (C2.cg_entities (entAt 5 600 0 0).number).current.linearMovement
        then (-99 : Int)
        else if |f32 ((C2.cg_entities (entAt 5 600 0 0).number).current.origin.x
              - (entAt 5 600 0 0).origin.x)| > 512
            ∨ |f32 ((C2.cg_entities (entAt 5 600 0 0).number).current.origin.y
              - (entAt 5 600 0 0).origin.y)| > 512
            ∨ |f32 ((C2.cg_entities (entAt 5 600 0 0).number).current.origin.z
              - (entAt 5 600 0 0).origin.z)| > 512
          then -99 else (C2.cg_entities (entAt 5 600 0 0).number).serverFrame) := by
    rw [hrec]
    have hjump : |f32 ((jumpClient.cg_entities 5).current.origin.x - (entAt 5 600 0 0).origin.x)|
        > 512 := by
      show |f32 ((0 : ℚ) - 600)| > 512
      rw [f32_large_step]
      norm_num [abs_of_nonneg]
    rw [if_pos (Or.inl hjump), ite_self]
  have hp : entAt 5 600 0 0 = (if (-99 : Int) ≠ C2.cg.oldFrame.serverFrame then entAt 5 600 0 0
      else (C2.cg_entities (entAt 5 600 0 0).number).current) := by
    rw [hold, if_pos (by decide)]
  have hg := newPacketEntityState_general E C2 (entAt 5 600 0 0) (by rw [hE]; rfl) rfl (-99) hsf
    (entAt 5 600 0 0) hp
  exact ⟨hg.1, hg.2.1⟩

/-- When `CG_NewFrameSnap` is given a frame with `valid` false, it returns
false; no `cg_entities` record of an entity number that is not listed in that
frame is modified; `cg.frame` is replaced by the frame, up to `playerState`,
and the record of every entity number the frame lists carries the frame number,
stored into an `int`, and its own number in `current`. -/
theorem newFrameSnap_invalid (env : FrameEnv) (c : Consts) (fuel : Nat)
    (cl : Client) (frame : snapshot_t) (lerpframe : Option snapshot_t)
    (hinv : frame.valid = false) :
    ∃ r, CG_NewFrameSnap env c fuel cl frame lerpframe = Res.ok r ∧ r.ret = false ∧
      (∀ n, ¬ Listed c frame n → r.client.cg_entities n = cl.cg_entities n) ∧
      r.client.cg.frame = { frame with playerState := r.client.cg.frame.playerState } ∧
      (∀ n, Listed c frame n →
        (r.client.cg_entities n).serverFrame = toInt32 frame.serverFrame ∧
        (r.client.cg_entities n).current.number = n) := by
  obtain ⟨p1, p2⟩ := receiveFrame_presence env c cl frame lerpframe
  obtain ⟨h1, _⟩ := receiveFrame_fields env c cl frame lerpframe
  exact ⟨_, newFrameSnap_notReady env c fuel cl frame lerpframe (Or.inr hinv), rfl, p2, h1, p1⟩

/-- C28. The code uses an invalid frame: the frame 9 with `valid` false lists
entity 5 at `(600, 0, 0)` and the rocket, entity 6; the client of scenario 4
holds the valid frame 8 in `cg.frame` and entity 5 at the origin, with the
previous sample at `(-10, 0, 0)`. `CG_NewFrameSnap` returns false, yet
afterwards `cg.frame` is the invalid frame 9 with its two entities, the record
of entity 5 carries the frame number 9 and has the state of the invalid frame
both in `current` and in `prev`, and the record of entity 7, which the frame
does not list, is as it was. -/
theorem CG_NewFrameSnap_invalid_records :
    (entityFrame false).valid = false ∧
    jumpClient.cg.frame.serverFrame = 8 ∧
    jumpClient.cg.frame.valid = true ∧
    (jumpClient.cg_entities 5).current = entAt 5 0 0 0 ∧
    (jumpClient.cg_entities 5).prev = entAt 5 (-10) 0 0 ∧
    ∃ r, CG_NewFrameSnap plainFrameEnv smallConsts 5 jumpClient (entityFrame false) none
        = Res.ok r ∧ r.ret = false ∧
      r.client.cg.frame.serverFrame = 9 ∧
      r.client.cg.frame.valid = false ∧
      r.client.cg.frame.numEntities = 2 ∧
      (r.client.cg_entities 5).serverFrame = 9 ∧
      (r.client.cg_entities 5).current = entAt 5 600 0 0 ∧
      (r.client.cg_entities 5).prev = entAt 5 600 0 0 ∧
      (r.client.cg_entities 5).current ≠ (jumpClient.cg_entities 5).current ∧
      (r.client.cg_entities 5).prev ≠ (jumpClient.cg_entities 5).prev ∧
      r.client.cg_entities 7 = jumpClient.cg_entities 7 := by
  obtain ⟨h1, _⟩ := receiveFrame_fields plainFrameEnv smallConsts jumpClient (entityFrame false)
    none
  obtain ⟨p1, p2⟩ := receiveFrame_presence plainFrameEnv smallConsts jumpClient
    (entityFrame false) none
  obtain ⟨hcur, hprev⟩ := invalidFrame_record
  have l7 : ¬ Listed smallConsts (entityFrame false) 7 := by
    unfold Listed
    decide
  refine ⟨rfl, rfl, rfl, rfl, rfl, _,
    newFrameSnap_notReady plainFrameEnv smallConsts 5 jumpClient (entityFrame false) none
      (Or.inr rfl), rfl, ?_, ?_, ?_, ?_, hcur, hprev, ?_, ?_, p2 7 l7⟩
  · show (receiveFrame plainFrameEnv smallConsts jumpClient (entityFrame false)
      none).cg.frame.serverFrame = 9
    rw [h1]
    rfl
  · show (receiveFrame plainFrameEnv smallConsts jumpClient (entityFrame false)
      none).cg.frame.valid = false
    rw [h1]
    rfl
  · show (receiveFrame plainFrameEnv smallConsts jumpClient (entityFrame false)
      none).cg.frame.numEntities = 2
    rw [h1]
    rfl
  · show ((receiveFrame plainFrameEnv smallConsts jumpClient (entityFrame false)
      none).cg_entities 5).serverFrame = 9
    rw [(p1 5 ⟨0, by decide, by decide⟩).1]
    decide
  · show ((receiveFrame plainFrameEnv smallConsts jumpClient (entityFrame false)
      none).cg_entities 5).current ≠ (jumpClient.cg_entities 5).current
    rw [hcur]
    decide
  · show ((receiveFrame plainFrameEnv smallConsts jumpClient (entityFrame false)
      none).cg_entities 5).prev ≠ (jumpClient.cg_entities 5).prev
    rw [hprev]
    decide

/-! ## The section markers of a frame -/

/-- One iteration of the game command loop of `SNAP_ParseFrame` on a command
that is accepted: the connection is dropped when the command is one more than
`MAX_PARSE_GAMECOMMANDS`, when its text does not fit the command buffer of the
frame, and when the frame is multi-POV and the target count of the command
exceeds the size of the targets bitmask. -/
theorem parseGameCommands_accepted_drop {M : Type} (ops : MsgOps M) (c : Consts)
    (lastFrame : Option Nat) (newframe : Nat) (k : Nat) (msg : M) (mem : Frames)
    (hmore : (ops.MSG_ReadInt16 msg).1 ≠ -1)
    (hvalid : (mem newframe).valid = true)
    (hfresh : ∀ l, lastFrame = some l → (mem l).valid = false ∨
      (mem newframe).serverFrame > (mem l).serverFrame + (ops.MSG_ReadInt16 msg).1) :
    ((mem newframe).numgamecommands + 1 > c.MAX_PARSE_GAMECOMMANDS →
      parseGameCommands ops c lastFrame newframe (k + 1) msg mem
        = Res.drop DropReason.tooManyGamecommands) ∧
    (¬ (mem newframe).numgamecommands + 1 > c.MAX_PARSE_GAMECOMMANDS →
      (mem newframe).gamecommandsDataHead
          + (ops.MSG_ReadString (ops.MSG_ReadInt16 msg).2).1.length ≥ c.gamecommandsDataSize →
      parseGameCommands ops c lastFrame newframe (k + 1) msg mem
        = Res.drop DropReason.tooMuchGamecommands) ∧
    (¬ (mem newframe).numgamecommands + 1 > c.MAX_PARSE_GAMECOMMANDS →
      ¬ (mem newframe).gamecommandsDataHead
          + (ops.MSG_ReadString (ops.MSG_ReadInt16 msg).2).1.length ≥ c.gamecommandsDataSize →
      (mem newframe).multipov = true →
      (ops.MSG_ReadUint8 (ops.MSG_ReadString (ops.MSG_ReadInt16 msg).2).2).1 > c.targetsSize →
      parseGameCommands ops c lastFrame newframe (k + 1) msg mem
        = Res.drop DropReason.tooManyTargets) := by
  cases lastFrame with
  | none =>
    refine ⟨?_, ?_, ?_⟩
    · intro h1
      rw [parseGameCommands]
      simp only [ne_eq, hmore, not_false_eq_true, if_true, hvalid, Bool.and_self, if_pos h1]
    · intro h1 h2
      rw [parseGameCommands]
      simp only [ne_eq, hmore, not_false_eq_true, if_true, hvalid, Bool.and_self, if_neg h1,
        if_pos h2]
    · intro h1 h2 h3 h4
      have h0 : (ops.MSG_ReadUint8 (ops.MSG_ReadString (ops.MSG_ReadInt16 msg).2).2).1 ≠ 0 := by
        omega
      rw [parseGameCommands]
      simp only [ne_eq, hmore, not_false_eq_true, if_true, hvalid, Bool.and_self, if_neg h1,
        if_neg h2, h3, h0, if_pos h4]
  | some l =>
    have hacc : ((mem newframe).valid && (!(mem l).valid || decide ((mem newframe).serverFrame
        > (mem l).serverFrame + (ops.MSG_ReadInt16 msg).1))) = true := by
      rw [hvalid, Bool.true_and]
      rcases hfresh l rfl with h | h
      · simp only [h, Bool.not_false, Bool.true_or]
      · simp only [decide_eq_true h, Bool.or_true]
    refine ⟨?_, ?_, ?_⟩
    · intro h1
      rw [parseGameCommands]
      simp only [ne_eq, hmore, not_false_eq_true, if_true, hacc, if_pos h1]
    · intro h1 h2
      rw [parseGameCommands]
      simp only [ne_eq, hmore, not_false_eq_true, if_true, hacc, if_neg h1, if_pos h2]
    · intro h1 h2 h3 h4
      have h0 : (ops.MSG_ReadUint8 (ops.MSG_ReadString (ops.MSG_ReadInt16 msg).2).2).1 ≠ 0 := by
        omega
      rw [parseGameCommands]
      simp only [ne_eq, hmore, not_false_eq_true, if_true, hacc, if_neg h1, if_neg h2, h3, h0,
        if_pos h4]

/-- One iteration of the game command loop of `SNAP_ParseFrame` on a command
that is not accepted, in a multi-POV frame: the target count is read and that
many bytes are skipped, whatever the count. -/
theorem parseGameCommands_skipped {M : Type} (ops : MsgOps M) (c : Consts)
    (lastFrame : Option Nat) (newframe : Nat) (k : Nat) (msg : M) (mem : Frames)
    (hmore : (ops.MSG_ReadInt16 msg).1 ≠ -1)
    (hskip : (mem newframe).valid = false ∨ ∃ l, lastFrame = some l ∧ (mem l).valid = true ∧
      ¬ (mem newframe).serverFrame > (mem l).serverFrame + (ops.MSG_ReadInt16 msg).1)
    (hmulti : (mem newframe).multipov = true) :
    parseGameCommands ops c lastFrame newframe (k + 1) msg mem
      = parseGameCommands ops c lastFrame newframe k
          (ops.MSG_SkipData (ops.MSG_ReadUint8 (ops.MSG_ReadString (ops.MSG_ReadInt16 msg).2).2).2
            (ops.MSG_ReadUint8 (ops.MSG_ReadString (ops.MSG_ReadInt16 msg).2).2).1) mem := by
  rcases hskip with h | ⟨l, hl, hv, hlt⟩
  · rw [parseGameCommands]
    simp only [ne_eq, hmore, not_false_eq_true, if_true, h, Bool.false_and, Bool.false_eq_true,
      if_false, hmulti]
  · subst hl
    have hacc : ((mem newframe).valid && (!(mem l).valid || decide ((mem newframe).serverFrame
        > (mem l).serverFrame + (ops.MSG_ReadInt16 msg).1))) = false := by
      rw [hv, decide_eq_false hlt]
      simp only [Bool.not_true, Bool.or_self, Bool.and_false]
    rw [parseGameCommands]
    simp only [ne_eq, hmore, not_false_eq_true, if_true, hacc, Bool.false_eq_true, if_false,
      hmulti]

/-- One iteration of the player state loop of `SNAP_ParseFrame`: a non-zero byte
that is not `svc_playerinfo` drops the connection. -/
theorem parsePlayerInfos_marker {M : Type} (ops : MsgOps M) (c : Consts)
    (deltaframe : Option Nat) (newframe : Nat) (k n : Nat) (msg : M) (mem : Frames)
    (h0 : (ops.MSG_ReadUint8 msg).1 ≠ 0) (h1 : (ops.MSG_ReadUint8 msg).1 ≠ c.svc_playerinfo) :
    parsePlayerInfos ops c deltaframe newframe (k + 1) n msg mem
      = Res.drop DropReason.notPlayerinfo := by
  unfold parsePlayerInfos
  simp only [ne_eq, h0, not_false_eq_true, if_true, h1]

/-- The markers between the sections of a frame, given the result of the header
parse: a wrong marker drops the connection, and a drop inside the game command
loop or the player state loop is the outcome of `SNAP_ParseFrame`. -/
theorem parseFrame_markers {M : Type} (ops : MsgOps M) (c : Consts) (fuel : Nat) (msg : M)
    (mem : Frames) (lastFrame : Option Nat) (b : Nat) (B : Int → SyncEntityState)
    (msg1 : M) (mem1 : Frames) (nf : Nat)
    (hhead : SNAP_ParseFrameHeader ops c msg mem none (some b) = Res.ok (msg1, mem1, nf)) :
    ((ops.MSG_ReadUint8 msg1).1 ≠ c.svc_gamecommands →
      SNAP_ParseFrame ops c fuel msg mem lastFrame (some b) B
        = Res.drop DropReason.notGamecommands) ∧
    ((ops.MSG_ReadUint8 msg1).1 = c.svc_gamecommands →
      (∀ e, parseGameCommands ops c lastFrame nf fuel (ops.MSG_ReadUint8 msg1).2 mem1
          = Res.drop e →
        SNAP_ParseFrame ops c fuel msg mem lastFrame (some b) B = Res.drop e) ∧
      (∀ msg2 mem2, parseGameCommands ops c lastFrame nf fuel (ops.MSG_ReadUint8 msg1).2 mem1
          = Res.ok (msg2, mem2) →
        ((ops.MSG_ReadUint8 msg2).1 ≠ c.svc_match →
          SNAP_ParseFrame ops c fuel msg mem lastFrame (some b) B
            = Res.drop DropReason.notMatchInfo) ∧
        ((ops.MSG_ReadUint8 msg2).1 = c.svc_match →
          (∀ e, parsePlayerInfos ops c (deltaFrameOf c b (mem1 nf)) nf fuel 0
              (ops.MSG_ReadDeltaGameState (ops.MSG_ReadUint8 msg2).2
                ((deltaFrameOf c b (mem1 nf)).map (fun d => (mem2 d).gameState))).2
              (Function.update mem2 nf
                { mem2 nf with
                  gameState := (ops.MSG_ReadDeltaGameState (ops.MSG_ReadUint8 msg2).2
                    ((deltaFrameOf c b (mem1 nf)).map (fun d => (mem2 d).gameState))).1 })
              = Res.drop e →
            SNAP_ParseFrame ops c fuel msg mem lastFrame (some b) B = Res.drop e) ∧
          (∀ msg4 mem4 np, parsePlayerInfos ops c (deltaFrameOf c b (mem1 nf)) nf fuel 0
              (ops.MSG_ReadDeltaGameState (ops.MSG_ReadUint8 msg2).2
                ((deltaFrameOf c b (mem1 nf)).map (fun d => (mem2 d).gameState))).2
              (Function.update mem2 nf
                { mem2 nf with
                  gameState := (ops.MSG_ReadDeltaGameState (ops.MSG_ReadUint8 msg2).2
                    ((deltaFrameOf c b (mem1 nf)).map (fun d => (mem2 d).gameState))).1 })
              = Res.ok (msg4, mem4, np) →
            (ops.MSG_ReadUint8 msg4).1 ≠ c.svc_packetentities →
            SNAP_ParseFrame ops c fuel msg mem lastFrame (some b) B
              = Res.drop DropReason.notPacketentities)))) := by
  constructor
  · intro h
    unfold SNAP_ParseFrame
    simp only [hhead, ne_eq, h, not_false_eq_true, if_true]
  · intro hg
    constructor
    · intro e he
      unfold SNAP_ParseFrame
      simp only [hhead, ne_eq, hg, not_true_eq_false, if_false, he]
    · intro msg2 mem2 h2
      constructor
      · intro hm
        unfold SNAP_ParseFrame
        simp only [hhead, ne_eq, hg, not_true_eq_false, if_false, h2, hm, not_false_eq_true,
          if_true]
      · intro hm
        constructor
        · intro e he
          unfold SNAP_ParseFrame
          simp only [hhead, ne_eq, hg, not_true_eq_false, if_false, h2, hm, he]
        · intro msg4 mem4 np h4 hp
          unfold SNAP_ParseFrame
          simp only [hhead, ne_eq, hg, not_true_eq_false, if_false, h2, hm, h4, hp,
            not_false_eq_true, if_true]

/-- C26, amended. Mandatory section markers: given the header, `SNAP_ParseFrame`
drops the connection if the byte after the header is not `svc_gamecommands`,
if the byte after the game command list is not `svc_match`, if a non-zero byte
in the player state list is not `svc_playerinfo`, or if the byte after the
terminator of the player state list is not `svc_packetentities`, and a drop
inside the game command loop or the player state loop is its outcome. An
iteration of the game command loop drops the connection if the command is
accepted and is one more than `MAX_PARSE_GAMECOMMANDS`, if the text of the
accepted command does not fit the command buffer of the frame, or if the frame
is multi-POV and the target count of the accepted command exceeds the size of
the targets bitmask; the target count of a command that is not accepted is
skipped without a check. -/
theorem SNAP_ParseFrame_section_markers {M : Type} (ops : MsgOps M) (c : Consts) (fuel : Nat)
    (msg : M) (mem : Frames) (lastFrame : Option Nat) (b : Nat) (B : Int → SyncEntityState)
    (msg1 : M) (mem1 : Frames) (nf : Nat)
    (hhead : SNAP_ParseFrameHeader ops c msg mem none (some b) = Res.ok (msg1, mem1, nf)) :
    (((ops.MSG_ReadUint8 msg1).1 ≠ c.svc_gamecommands →
        SNAP_ParseFrame ops c fuel msg mem lastFrame (some b) B
          = Res.drop DropReason.notGamecommands) ∧
      ((ops.MSG_ReadUint8 msg1).1 = c.svc_gamecommands →
        (∀ e, parseGameCommands ops c lastFrame nf fuel (ops.MSG_ReadUint8 msg1).2 mem1
            = Res.drop e →
          SNAP_ParseFrame ops c fuel msg mem lastFrame (some b) B = Res.drop e) ∧
        (∀ msg2 mem2, parseGameCommands ops c lastFrame nf fuel (ops.MSG_ReadUint8 msg1).2 mem1
            = Res.ok (msg2, mem2) →
          ((ops.MSG_ReadUint8 msg2).1 ≠ c.svc_match →
            SNAP_ParseFrame ops c fuel msg mem lastFrame (some b) B
              = Res.drop DropReason.notMatchInfo) ∧
          ((ops.MSG_ReadUint8 msg2).1 = c.svc_match →
            (∀ e, parsePlayerInfos ops c (deltaFrameOf c b (mem1 nf)) nf fuel 0
                (ops.MSG_ReadDeltaGameState (ops.MSG_ReadUint8 msg2).2
                  ((deltaFrameOf c b (mem1 nf)).map (fun d => (mem2 d).gameState))).2
                (Function.update mem2 nf
                  { mem2 nf with
                    gameState := (ops.MSG_ReadDeltaGameState (ops.MSG_ReadUint8 msg2).2
                      ((deltaFrameOf c b (mem1 nf)).map (fun d => (mem2 d).gameState))).1 })
                = Res.drop e →
              SNAP_ParseFrame ops c fuel msg mem lastFrame (some b) B = Res.drop e) ∧
            (∀ msg4 mem4 np, parsePlayerInfos ops c (deltaFrameOf c b (mem1 nf)) nf fuel 0
                (ops.MSG_ReadDeltaGameState (ops.MSG_ReadUint8 msg2).2
                  ((deltaFrameOf c b (mem1 nf)).map (fun d => (mem2 d).gameState))).2
                (Function.update mem2 nf
                  { mem2 nf with
                    gameState := (ops.MSG_ReadDeltaGameState (ops.MSG_ReadUint8 msg2).2
                      ((deltaFrameOf c b (mem1 nf)).map (fun d => (mem2 d).gameState))).1 })
                = Res.ok (msg4, mem4, np) →
              (ops.MSG_ReadUint8 msg4).1 ≠ c.svc_packetentities →
              SNAP_ParseFrame ops c fuel msg mem lastFrame (some b) B
                = Res.drop DropReason.notPacketentities))))) ∧
    (∀ (k : Nat) (m : M) (s : Frames), (ops.MSG_ReadInt16 m).1 ≠ -1 →
      (s nf).valid = true →
      (∀ l, lastFrame = some l → (s l).valid = false ∨
        (s nf).serverFrame > (s l).serverFrame + (ops.MSG_ReadInt16 m).1) →
      ((s nf).numgamecommands + 1 > c.MAX_PARSE_GAMECOMMANDS →
        parseGameCommands ops c lastFrame nf (k + 1) m s
          = Res.drop DropReason.tooManyGamecommands) ∧
      (¬ (s nf).numgamecommands + 1 > c.MAX_PARSE_GAMECOMMANDS →
        (s nf).gamecommandsDataHead
            + (ops.MSG_ReadString (ops.MSG_ReadInt16 m).2).1.length ≥ c.gamecommandsDataSize →
        parseGameCommands ops c lastFrame nf (k + 1) m s
          = Res.drop DropReason.tooMuchGamecommands) ∧
      (¬ (s nf).numgamecommands + 1 > c.MAX_PARSE_GAMECOMMANDS →
        ¬ (s nf).gamecommandsDataHead
            + (ops.MSG_ReadString (ops.MSG_ReadInt16 m).2).1.length ≥ c.gamecommandsDataSize →
        (s nf).multipov = true →
        (ops.MSG_ReadUint8 (ops.MSG_ReadString (ops.MSG_ReadInt16 m).2).2).1 > c.targetsSize →
        parseGameCommands ops c lastFrame nf (k + 1) m s
          = Res.drop DropReason.tooManyTargets)) ∧
    (∀ (k : Nat) (m : M) (s : Frames), (ops.MSG_ReadInt16 m).1 ≠ -1 →
      ((s nf).valid = false ∨ ∃ l, lastFrame = some l ∧ (s l).valid = true ∧
        ¬ (s nf).serverFrame > (s l).serverFrame + (ops.MSG_ReadInt16 m).1) →
      (s nf).multipov = true →
      parseGameCommands ops c lastFrame nf (k + 1) m s
        = parseGameCommands ops c lastFrame nf k
            (ops.MSG_SkipData (ops.MSG_ReadUint8 (ops.MSG_ReadString (ops.MSG_ReadInt16 m).2).2).2
              (ops.MSG_ReadUint8 (ops.MSG_ReadString (ops.MSG_ReadInt16 m).2).2).1) s) ∧
    (∀ (k n : Nat) (d : Option Nat) (m : M) (s : Frames), (ops.MSG_ReadUint8 m).1 ≠ 0 →
      (ops.MSG_ReadUint8 m).1 ≠ c.svc_playerinfo →
      parsePlayerInfos ops c d nf (k + 1) n m s = Res.drop DropReason.notPlayerinfo) :=
  ⟨parseFrame_markers ops c fuel msg mem lastFrame b B msg1 mem1 nf hhead,
    fun k m s h1 h2 h3 => parseGameCommands_accepted_drop ops c lastFrame nf k m s h1 h2 h3,
    fun k m s h1 h2 h3 => parseGameCommands_skipped ops c lastFrame nf k m s h1 h2 h3,
    fun k n d m s h0 h1 => parsePlayerInfos_marker ops c d nf k n m s h0 h1⟩

/-- Witness for C26: the stand-alone multi-POV frame 50 whose only game command
has 33 target bytes, parsed without `lastFrame`; the command is accepted and
the connection is dropped for too many targets. -/
theorem SNAP_ParseFrame_section_markers_witness :
    SNAP_ParseFrame wordOps smallConsts 3 targetsFrameMsg emptyMem none (some 0) zeroBaselines
      = Res.drop DropReason.tooManyTargets := by
  have h := SNAP_ParseFrame_section_markers wordOps smallConsts 3 targetsFrameMsg emptyMem none 0
    zeroBaselines _ _ _ rfl
  exact (h.1.2 (by decide)).1 _
    ((h.2.1 2 _ _ (by decide) (by decide) (fun l hl => by cases hl)).2.2 (by decide) (by decide)
      (by decide) (by decide))

/-- C26 as stated fails for a command that is not accepted: the stand-alone
multi-POV frame 50 carries one game command with 33 target bytes, more than the
32 bytes of the targets bitmask; `lastFrame` is a valid frame of number 1000,
so the command is not accepted, its 33 bytes are skipped, and the frame is
returned valid. -/
theorem SNAP_ParseFrame_section_markers_counterexample :
    smallConsts.targetsSize = 32 ∧
    targetsFrameMsg.data.getD 8 0 = 33 ∧
    Res.dropReason (SNAP_ParseFrame wordOps smallConsts 3 targetsFrameMsg lastFrameMem (some 40)
        (some 0) zeroBaselines) = none ∧
    Res.frameNumber (SNAP_ParseFrame wordOps smallConsts 3 targetsFrameMsg lastFrameMem (some 40)
        (some 0) zeroBaselines) = some 50 ∧
    Res.frameValid (SNAP_ParseFrame wordOps smallConsts 3 targetsFrameMsg lastFrameMem (some 40)
        (some 0) zeroBaselines) = some true ∧
    ((Res.storeOr lastFrameMem (SNAP_ParseFrame wordOps smallConsts 3 targetsFrameMsg
        lastFrameMem (some 40) (some 0) zeroBaselines)) 18).multipov = true ∧
    ((Res.storeOr lastFrameMem (SNAP_ParseFrame wordOps smallConsts 3 targetsFrameMsg
        lastFrameMem (some 40) (some 0) zeroBaselines)) 18).numgamecommands = 0 := by
  refine ⟨rfl, by decide, by decide, by decide, by decide, by decide, by decide⟩

/-! ## The user commands of a move command -/

/-- The loop of `SV_ParseMoveCommand` from an index `i` at or after `ucmdFirst`:
it makes `n` calls of `MSG_ReadDeltaUsercmd`, for the indices from `i` on, the
first against the zero command when `i` is `ucmdFirst` and else against the
command in the slot before, each later one against the command decoded just
before; the commands are stored into the slots `index & CMD_MASK`. -/
theorem readUsercmds_chain {M : Type} (ops : SvOps M) (ucmdFirst : Nat) :
    ∀ (n i : Nat) (msg : M) (ucmds : Nat → usercmd_t) (reads : List UcmdRead),
      ucmdFirst ≤ i →
      readUsercmds ops ucmdFirst n i msg ucmds reads
        = ((refUcmdChain ops n msg
              (if i = ucmdFirst then usercmd_t.zero else ucmds ((i - 1) &&& ops.CMD_MASK))).2,
            writeReads ops (chainReads i
              (if i = ucmdFirst then usercmd_t.zero else ucmds ((i - 1) &&& ops.CMD_MASK))
              (refUcmdChain ops n msg
                (if i = ucmdFirst then usercmd_t.zero
                  else ucmds ((i - 1) &&& ops.CMD_MASK))).1) ucmds,
            reads ++ chainReads i
              (if i = ucmdFirst then usercmd_t.zero else ucmds ((i - 1) &&& ops.CMD_MASK))
              (refUcmdChain ops n msg
                (if i = ucmdFirst then usercmd_t.zero
                  else ucmds ((i - 1) &&& ops.CMD_MASK))).1) := by
  intro n
  induction n with
  | zero =>
    intro i msg ucmds reads _
    simp only [readUsercmds, refUcmdChain, chainReads, writeReads, List.foldl_nil,
      List.append_nil]
  | succ n ih =>
    intro i msg ucmds reads hi
    rw [readUsercmds]
    generalize (if i = ucmdFirst then usercmd_t.zero else ucmds ((i - 1) &&& ops.CMD_MASK)) = b
    rw [ih (i + 1) _ _ _ (by omega)]
    have hne : ¬ (i + 1 = ucmdFirst) := by omega
    have hupd : Function.update ucmds (i &&& ops.CMD_MASK) (ops.MSG_ReadDeltaUsercmd msg b).1
        ((i + 1 - 1) &&& ops.CMD_MASK) = (ops.MSG_ReadDeltaUsercmd msg b).1 := by
      rw [Nat.add_sub_cancel]
      exact Function.update_same _ _ _
    simp only [hne, if_false, hupd, refUcmdChain, chainReads, writeReads, List.foldl_cons,
      List.append_assoc, List.singleton_append]

/-- The chain of the spec decodes `n` commands. -/
theorem refUcmdChain_length {M : Type} (ops : SvOps M) :
    ∀ (n : Nat) (msg : M) (base : usercmd_t), (refUcmdChain ops n msg base).1.length = n := by
  intro n
  induction n with
  | zero => intro msg base; rfl
  | succ n ih =>
    intro msg base
    simp only [refUcmdChain, List.length_cons, ih]

/-- The calls of the spec are as many as the commands. -/
theorem chainReads_length : ∀ (cs : List usercmd_t) (i : Nat) (base : usercmd_t),
    (chainReads i base cs).length = cs.length := by
  intro cs
  induction cs with
  | nil => intro i base; rfl
  | cons c cs ih =>
    intro i base
    simp only [chainReads, List.length_cons, ih]

/-- The call number `j` of the spec has index `i + j`, decodes command `j`, and
is decoded against `base` when `j` is zero and else against command `j - 1`. -/
theorem chainReads_get : ∀ (cs : List usercmd_t) (i : Nat) (base : usercmd_t) (j : Nat),
    j < cs.length →
    (chainReads i base cs).get? j
      = some { index := i + j,
               base := if j = 0 then base else cs.getD (j - 1) usercmd_t.zero,
               cmd := cs.getD j usercmd_t.zero } := by
  intro cs
  induction cs with
  | nil => intro i base j hj; cases hj
  | cons c cs ih =>
    intro i base j hj
    cases j with
    | zero => rfl
    | succ j =>
      have hj' : j < cs.length := by simpa using hj
      simp only [chainReads, List.get?_cons_succ]
      rw [ih (i + 1) c j hj']
      cases j with
      | zero => simp [Nat.add_comm]
      | succ j =>
        simp only [Nat.add_one_ne_zero, if_false, Nat.add_sub_cancel, List.getD_cons_succ]
        congr 2
        omega

/-- The outcome of `SV_ParseMoveCommand` for a declared count above `CMD_MASK`. -/
theorem parseMoveCommand_overflow {M : Type} (ops : SvOps M) (client : client_t) (msg : M)
    (h : moveCount ops msg > ops.CMD_MASK) :
    SV_ParseMoveCommand ops client msg
      = { msg := moveBody ops msg, client := ops.SV_DropClient client, dropped := true,
          reads := [] } := by
  unfold moveCount at h
  unfold SV_ParseMoveCommand moveBody
  simp only [if_pos h]

/-- Lines 716 to 746 of `SV_ParseMoveCommand`: the calls of
`MSG_ReadDeltaUsercmd` are those of the spec for `min ucmdHead ucmdCount`
commands from index `ucmdHead` minus that number, the ring holds their
commands, and `SV_DropClient` is not called. -/
theorem receiveUsercmds_reads {M : Type} (ops : SvOps M) (client : client_t) (lastframe : Int)
    (H C : Nat) (B : M) :
    (receiveUsercmds ops client lastframe H C B).dropped = false ∧
    (receiveUsercmds ops client lastframe H C B).reads
      = chainReads (H - min H C) usercmd_t.zero (refUcmdChain ops (min H C) B usercmd_t.zero).1 ∧
    (receiveUsercmds ops client lastframe H C B).msg
      = (refUcmdChain ops (min H C) B usercmd_t.zero).2 ∧
    (receiveUsercmds ops client lastframe H C B).client.ucmds
      = writeReads ops (receiveUsercmds ops client lastframe H C B).reads client.ucmds ∧
    (receiveUsercmds ops client lastframe H C B).client.UcmdReceived = H - 1 ∧
    (receiveUsercmds ops client lastframe H C B).client.state = client.state := by
  have hfirst : (if H > C then H - C else 0) = H - min H C := by
    split_ifs with hc
    · rw [Nat.min_eq_right (Nat.le_of_lt hc)]
    · rw [Nat.min_eq_left (Nat.le_of_not_lt hc), Nat.sub_self]
  have hn : H - (H - min H C) = min H C := by
    have := Nat.min_le_left H C
    omega
  have hrecv : (if H < 1 then 0 else H - 1) = H - 1 := by
    split_ifs with hc
    · omega
    · rfl
  have hloop := readUsercmds_chain ops (H - min H C) (min H C) (H - min H C) B client.ucmds []
    (Nat.le_refl _)
  simp only [if_true, List.nil_append] at hloop
  unfold receiveUsercmds
  simp only [hfirst, hn, hrecv, hloop]
  split_ifs <;> exact ⟨rfl, rfl, rfl, rfl, rfl, rfl⟩

/-- The outcome of `SV_ParseMoveCommand` for a declared count within `CMD_MASK`. -/
theorem parseMoveCommand_within {M : Type} (ops : SvOps M) (client : client_t) (msg : M)
    (h : ¬ moveCount ops msg > ops.CMD_MASK) :
    SV_ParseMoveCommand ops client msg
      = receiveUsercmds ops client (ops.MSG_ReadInt32 msg).1 (moveHead ops msg)
          (moveCount ops msg) (moveBody ops msg) := by
  unfold moveCount at h
  unfold SV_ParseMoveCommand moveHead moveCount moveBody
  simp only [if_neg h]

/-- Two indices less than a ring apart fall into different slots when the ring
size `CMD_MASK + 1` is a power of two. -/
theorem mask_slot_ne (mask k : Nat) (hM : mask + 1 = 2 ^ k) (i d : Nat) (h0 : 0 < d)
    (h1 : d ≤ mask) : (i + d) &&& mask ≠ i &&& mask := by
  have hmask : mask = 2 ^ k - 1 := by omega
  rw [hmask, Nat.and_pow_two_sub_one_eq_mod, Nat.and_pow_two_sub_one_eq_mod]
  intro heq
  have hmod : i ≡ i + d [MOD 2 ^ k] := heq.symm
  have hdvd : 2 ^ k ∣ i + d - i := (Nat.modEq_iff_dvd' (Nat.le_add_right i d)).1 hmod
  rw [Nat.add_sub_cancel_left] at hdvd
  have := Nat.le_of_dvd h0 hdvd
  omega

/-- The stores of the spec leave a slot that none of their indices falls into as
it was. -/
theorem writeReads_untouched {M : Type} (ops : SvOps M) :
    ∀ (cs : List usercmd_t) (i : Nat) (b : usercmd_t) (u : Nat → usercmd_t) (s : Nat),
      (∀ j, j < cs.length → (i + j) &&& ops.CMD_MASK ≠ s) →
      writeReads ops (chainReads i b cs) u s = u s := by
  intro cs
  induction cs with
  | nil => intro i b u s _; rfl
  | cons c cs ih =>
    intro i b u s h
    have hstep : writeReads ops (chainReads i b (c :: cs)) u
        = writeReads ops (chainReads (i + 1) c cs)
            (Function.update u (i &&& ops.CMD_MASK) c) := rfl
    rw [hstep, ih (i + 1) c _ s (fun j hj => by
      have := h (j + 1) (by simpa using hj)
      rwa [show i + (j + 1) = i + 1 + j by omega] at this)]
    exact Function.update_noteq (fun e => h 0 (by simp) e.symm) _ _

/-- When the ring size `CMD_MASK + 1` is a power of two and the commands are at
most `CMD_MASK`, the stores of the spec leave command `j` in the slot of index
`i + j`. -/
theorem writeReads_slot {M : Type} (ops : SvOps M) (k : Nat) (hM : ops.CMD_MASK + 1 = 2 ^ k) :
    ∀ (cs : List usercmd_t) (i : Nat) (b : usercmd_t) (u : Nat → usercmd_t) (j : Nat),
      cs.length ≤ ops.CMD_MASK → j < cs.length →
      writeReads ops (chainReads i b cs) u ((i + j) &&& ops.CMD_MASK)
        = cs.getD j usercmd_t.zero := by
  intro cs
  induction cs with
  | nil => intro i b u j _ hj; cases hj
  | cons c cs ih =>
    intro i b u j hlen hj
    have hstep : writeReads ops (chainReads i b (c :: cs)) u
        = writeReads ops (chainReads (i + 1) c cs)
            (Function.update u (i &&& ops.CMD_MASK) c) := rfl
    have hlen' : cs.length + 1 ≤ ops.CMD_MASK := by simpa using hlen
    rw [hstep]
    cases j with
    | zero =>
      show writeReads ops (chainReads (i + 1) c cs) (Function.update u (i &&& ops.CMD_MASK) c)
        (i &&& ops.CMD_MASK) = c
      rw [writeReads_untouched ops cs (i + 1) c _ (i &&& ops.CMD_MASK)
        (fun j hj => by
          rw [show i + 1 + j = i + (j + 1) by omega]
          exact mask_slot_ne ops.CMD_MASK k hM i (j + 1) (by omega) (by omega))]
      exact Function.update_same _ _ _
    | succ j =>
      have hj' : j < cs.length := by simpa using hj
      rw [show i + (j + 1) = i + 1 + j by omega, ih (i + 1) c _ j (by omega) hj']
      rfl

/-- C27. User command overflow: `SV_ParseMoveCommand` calls `SV_DropClient` if
and only if the declared user command count exceeds `CMD_MASK`; in that case it
reads no user command from the message and hands the client to `SV_DropClient`
as it was, with the ring `ucmds`, `UcmdReceived` and `lastframe` not written by
the move parse. For a count within `CMD_MASK` it reads exactly
`min( ucmdHead, ucmdCount )` commands, for the indices `i` from `ucmdHead`
minus that number up to `ucmdHead - 1`, the first decoded against a zero
command and each later one against the command before it, and stores each
into slot `i & CMD_MASK`; when `CMD_MASK + 1` is a power of two these slots
are distinct, so each holds its command afterwards and the other slots are as
before. -/
theorem SV_ParseMoveCommand_overflow {M : Type} (ops : SvOps M) (client : client_t) (msg : M) :
    ((SV_ParseMoveCommand ops client msg).dropped = true ↔
      moveCount ops msg > ops.CMD_MASK) ∧
    (moveCount ops msg > ops.CMD_MASK →
      (SV_ParseMoveCommand ops client msg).reads = [] ∧
      (SV_ParseMoveCommand ops client msg).msg = moveBody ops msg ∧
      (SV_ParseMoveCommand ops client msg).client = ops.SV_DropClient client) ∧
    (moveCount ops msg ≤ ops.CMD_MASK →
      (SV_ParseMoveCommand ops client msg).reads.length
        = min (moveHead ops msg) (moveCount ops msg) ∧
      (SV_ParseMoveCommand ops client msg).reads
        = chainReads (moveHead ops msg - min (moveHead ops msg) (moveCount ops msg))
            usercmd_t.zero
            (refUcmdChain ops (min (moveHead ops msg) (moveCount ops msg)) (moveBody ops msg)
              usercmd_t.zero).1 ∧
      (SV_ParseMoveCommand ops client msg).msg
        = (refUcmdChain ops (min (moveHead ops msg) (moveCount ops msg)) (moveBody ops msg)
            usercmd_t.zero).2 ∧
      (∀ j, j < min (moveHead ops msg) (moveCount ops msg) →
        (SV_ParseMoveCommand ops client msg).reads.get? j
          = some
            { index := moveHead ops msg - min (moveHead ops msg) (moveCount ops msg) + j,
              base := if j = 0 then usercmd_t.zero
                else (refUcmdChain ops (min (moveHead ops msg) (moveCount ops msg))
                  (moveBody ops msg) usercmd_t.zero).1.getD (j - 1) usercmd_t.zero,
              cmd := (refUcmdChain ops (min (moveHead ops msg) (moveCount ops msg))
                  (moveBody ops msg) usercmd_t.zero).1.getD j usercmd_t.zero }) ∧
      (SV_ParseMoveCommand ops client msg).client.ucmds
        = writeReads ops (SV_ParseMoveCommand ops client msg).reads client.ucmds ∧
      (∀ k, ops.CMD_MASK + 1 = 2 ^ k →
        (∀ j, j < min (moveHead ops msg) (moveCount ops msg) →
          (SV_ParseMoveCommand ops client msg).client.ucmds
              ((moveHead ops msg - min (moveHead ops msg) (moveCount ops msg) + j)
                &&& ops.CMD_MASK)
            = (refUcmdChain ops (min (moveHead ops msg) (moveCount ops msg))
                (moveBody ops msg) usercmd_t.zero).1.getD j usercmd_t.zero) ∧
        (∀ s, (∀ j, j < min (moveHead ops msg) (moveCount ops msg) →
            (moveHead ops msg - min (moveHead ops msg) (moveCount ops msg) + j)
              &&& ops.CMD_MASK ≠ s) →
          (SV_ParseMoveCommand ops client msg).client.ucmds s = client.ucmds s)) ∧
      (SV_ParseMoveCommand ops client msg).client.UcmdReceived = moveHead ops msg - 1) := by
  refine ⟨?_, ?_, ?_⟩
  · by_cases h : moveCount ops msg > ops.CMD_MASK
    · rw [parseMoveCommand_overflow ops client msg h]
      exact ⟨fun _ => h, fun _ => rfl⟩
    · rw [parseMoveCommand_within ops client msg h,
        (receiveUsercmds_reads ops client _ _ _ _).1]
      exact ⟨fun hf => Bool.noConfusion hf, fun hc => absurd hc h⟩
  · intro h
    rw [parseMoveCommand_overflow ops client msg h]
    exact ⟨rfl, rfl, rfl⟩
  · intro h
    have h' : ¬ moveCount ops msg > ops.CMD_MASK := by omega
    rw [parseMoveCommand_within ops client msg h']
    obtain ⟨_, q2, q3, q4, q5, _⟩ := receiveUsercmds_reads ops client (ops.MSG_ReadInt32 msg).1
      (moveHead ops msg) (moveCount ops msg) (moveBody ops msg)
    have hlen := refUcmdChain_length ops (min (moveHead ops msg) (moveCount ops msg))
      (moveBody ops msg) usercmd_t.zero
    have hle : min (moveHead ops msg) (moveCount ops msg) ≤ ops.CMD_MASK :=
      Nat.le_trans (Nat.min_le_right _ _) h
    refine ⟨?_, q2, q3, ?_, q4, ?_, q5⟩
    · rw [q2, chainReads_length, hlen]
    · intro j hj
      rw [q2]
      exact chainReads_get _ _ _ j (by rw [hlen]; exact hj)
    · intro k hk
      rw [q4, q2]
      constructor
      · intro j hj
        exact writeReads_slot ops k hk _ _ _ _ j (by rw [hlen]; exact hle)
          (by rw [hlen]; exact hj)
      · intro s hs
        exact writeReads_untouched ops _ _ _ _ s (fun j hj => hs j (by rw [hlen] at hj; exact hj))

/-- Witness for C27: the spawned client receives a move command that declares 8
commands, more than `CMD_MASK = 7`, and is dropped with its ring as it was;
and a move command with head 12 and 3 commands, which are read for the indices
9, 10 and 11 into the slots 1, 2 and 3. -/
theorem SV_ParseMoveCommand_overflow_witness :
    ((SV_ParseMoveCommand svWordOps spawnedClient overflowMsg).dropped = true ∧
      (SV_ParseMoveCommand svWordOps spawnedClient overflowMsg).reads = [] ∧
      (SV_ParseMoveCommand svWordOps spawnedClient overflowMsg).client.summary
        = (1, 20, 9, [0, 100, 200, 300, 400, 500, 600, 700])) ∧
    ((SV_ParseMoveCommand svWordOps spawnedClient moveMsg).dropped = false ∧
      (SV_ParseMoveCommand svWordOps spawnedClient moveMsg).reads.length = 3 ∧
      (SV_ParseMoveCommand svWordOps spawnedClient moveMsg).reads.map (fun r => r.index)
        = [9, 10, 11] ∧
      (SV_ParseMoveCommand svWordOps spawnedClient moveMsg).client.summary
        = (4, 21, 11, [0, 1000, 1016, 1033, 400, 500, 600, 700])) := by
  have h1 := SV_ParseMoveCommand_overflow svWordOps spawnedClient overflowMsg
  have h2 := SV_ParseMoveCommand_overflow svWordOps spawnedClient moveMsg
  have c1 : moveCount svWordOps overflowMsg > svWordOps.CMD_MASK := by decide
  have c2 : moveCount svWordOps moveMsg ≤ svWordOps.CMD_MASK := by decide
  refine ⟨⟨h1.1.2 c1, (h1.2.1 c1).1, by decide⟩, ⟨?_, ?_, by decide, by decide⟩⟩
  · cases hd : (SV_ParseMoveCommand svWordOps spawnedClient moveMsg).dropped
    · rfl
    · exact absurd (h2.1.1 hd) (by decide)
  · rw [(h2.2.2 c2).1]
    decide

/-! ## Extrapolation eligibility and the smoothing counter -/

/-- The extrapolation flags of the record after the general branch of
`CG_NewPacketEntityState`. -/
theorem newPacketEntityState_flags (env : CgEnv) (cl : Client) (state : SyncEntityState)
    (hev : env.ISEVENTENTITY state = false) (hlin : state.linearMovement = false) :
    (((CG_NewPacketEntityState env cl state).cg_entities state.number).canExtrapolate = true ↔
      ((state.type = EntityType.ET_GENERIC ∨ state.type = EntityType.ET_PLAYER
          ∨ state.type = EntityType.ET_GRENADE ∨ state.type = EntityType.ET_CORPSE) ∧
        env.CM_IsBrushModel state.model = false)) ∧
    (((CG_NewPacketEntityState env cl state).cg_entities state.number).canExtrapolatePrev = true ↔
      ((cl.cgs.extrapolationTime ≠ 0 ∧
          (state.type = EntityType.ET_PLAYER ∨ state.type = EntityType.ET_CORPSE)) ∨
        (cl.cg_entities state.number).canExtrapolate = true)) := by
  unfold CG_NewPacketEntityState
  simp only [hev, hlin, Bool.false_eq_true, if_false, Function.update_same,
    apply_ite centity_t.current, apply_ite centity_t.canExtrapolate,
    apply_ite centity_t.canExtrapolatePrev, ite_self]
  constructor
  · cases hb : env.CM_IsBrushModel state.model
    · by_cases ht : state.type = EntityType.ET_GENERIC ∨ state.type = EntityType.ET_PLAYER
          ∨ state.type = EntityType.ET_GRENADE ∨ state.type = EntityType.ET_CORPSE
      · simp only [Bool.false_eq_true, if_false, if_pos ht, ht, and_self, if_true]
      · have hp : ¬ (cl.cgs.extrapolationTime ≠ 0 ∧
            (state.type = EntityType.ET_PLAYER ∨ state.type = EntityType.ET_CORPSE)) :=
          fun h => ht (h.2.elim (fun h => Or.inr (Or.inl h)) (fun h => Or.inr (Or.inr (Or.inr h))))
        simp only [Bool.false_eq_true, if_false, if_neg ht, if_neg hp, ht, false_and]
    · simp only [if_true, Bool.false_eq_true, Bool.true_eq_false, and_false]
  · by_cases hp : cl.cgs.extrapolationTime ≠ 0 ∧
        (state.type = EntityType.ET_PLAYER ∨ state.type = EntityType.ET_CORPSE)
    · simp only [if_pos hp, hp, true_or, and_self, ne_eq, not_false_eq_true]
      simp [hp]
    · simp only [if_neg hp, hp, false_or, if_false]

/-- The extrapolation flags of the record are false after the event branch and
after the linear branch of `CG_NewPacketEntityState`. -/
theorem newPacketEntityState_flags_off (env : CgEnv) (cl : Client) (state : SyncEntityState)
    (h : env.ISEVENTENTITY state = true ∨ state.linearMovement = true) :
    ((CG_NewPacketEntityState env cl state).cg_entities state.number).canExtrapolate = false ∧
    ((CG_NewPacketEntityState env cl state).cg_entities state.number).canExtrapolatePrev
      = false := by
  cases hev : env.ISEVENTENTITY state
  · have hlin : state.linearMovement = true := by
      rcases h with h | h
      · rw [hev] at h; cases h
      · exact h
    unfold CG_NewPacketEntityState
    simp only [hev, Bool.false_eq_true, if_false, Function.update_same]
    rw [if_pos hlin]
    simp only [Function.update_same]
    rw [(updateLinearProjectilePosition_linear env cl _ hlin).1]
    exact ⟨rfl, rfl⟩
  · unfold CG_NewPacketEntityState
    simp only [hev, if_true, Function.update_same, and_self]

/-- C31. Extrapolation eligibility is type-gated: after
`CG_NewPacketEntityState`, `canExtrapolate` is true if and only if the incoming
state is neither an event entity nor in linear movement, its type is one of
`ET_GENERIC`, `ET_PLAYER`, `ET_GRENADE`, `ET_CORPSE`, and its model is not a
brush model; `canExtrapolatePrev` is true if and only if the state is neither
an event entity nor in linear movement and either its type is `ET_PLAYER` or
`ET_CORPSE` with extrapolation enabled or `canExtrapolate` was true before the
update, hence only in these two cases. -/
theorem CG_NewPacketEntityState_extrapolation (env : CgEnv) (cl : Client)
    (state : SyncEntityState) :
    (((CG_NewPacketEntityState env cl state).cg_entities state.number).canExtrapolate = true ↔
      (env.ISEVENTENTITY state = false ∧ state.linearMovement = false ∧
        (state.type = EntityType.ET_GENERIC ∨ state.type = EntityType.ET_PLAYER
          ∨ state.type = EntityType.ET_GRENADE ∨ state.type = EntityType.ET_CORPSE) ∧
        env.CM_IsBrushModel state.model = false)) ∧
    (((CG_NewPacketEntityState env cl state).cg_entities state.number).canExtrapolatePrev = true ↔
      (env.ISEVENTENTITY state = false ∧ state.linearMovement = false ∧
        (((state.type = EntityType.ET_PLAYER ∨ state.type = EntityType.ET_CORPSE) ∧
            cl.cgs.extrapolationTime ≠ 0) ∨
          (cl.cg_entities state.number).canExtrapolate = true))) ∧
    (((CG_NewPacketEntityState env cl state).cg_entities state.number).canExtrapolatePrev = true →
      (((state.type = EntityType.ET_PLAYER ∨ state.type = EntityType.ET_CORPSE) ∧
          cl.cgs.extrapolationTime ≠ 0) ∨
        (cl.cg_entities state.number).canExtrapolate = true)) := by
  have key : (((CG_NewPacketEntityState env cl state).cg_entities state.number).canExtrapolate
        = true ↔
      (env.ISEVENTENTITY state = false ∧ state.linearMovement = false ∧
        (state.type = EntityType.ET_GENERIC ∨ state.type = EntityType.ET_PLAYER
          ∨ state.type = EntityType.ET_GRENADE ∨ state.type = EntityType.ET_CORPSE) ∧
        env.CM_IsBrushModel state.model = false)) ∧
    (((CG_NewPacketEntityState env cl state).cg_entities state.number).canExtrapolatePrev = true ↔
      (env.ISEVENTENTITY state = false ∧ state.linearMovement = false ∧
        (((state.type = EntityType.ET_PLAYER ∨ state.type = EntityType.ET_CORPSE) ∧
            cl.cgs.extrapolationTime ≠ 0) ∨
          (cl.cg_entities state.number).canExtrapolate = true))) := by
    cases hev : env.ISEVENTENTITY state
    · cases hlin : state.linearMovement
      · obtain ⟨h1, h2⟩ := newPacketEntityState_flags env cl state hev hlin
        constructor
        · exact h1.trans ⟨fun h => ⟨rfl, rfl, h⟩, fun h => h.2.2⟩
        · refine h2.trans ⟨fun h => ⟨rfl, rfl, ?_⟩, fun h => ?_⟩
          · exact h.elim (fun h => Or.inl ⟨h.2, h.1⟩) Or.inr
          · exact h.2.2.elim (fun h => Or.inl ⟨h.2, h.1⟩) Or.inr
      · obtain ⟨h1, h2⟩ := newPacketEntityState_flags_off env cl state (Or.inr hlin)
        rw [h1, h2]
        exact ⟨⟨fun h => Bool.noConfusion h, fun h => Bool.noConfusion h.2.1⟩,
          ⟨fun h => Bool.noConfusion h, fun h => Bool.noConfusion h.2.1⟩⟩
    · obtain ⟨h1, h2⟩ := newPacketEntityState_flags_off env cl state (Or.inl hev)
      rw [h1, h2]
      exact ⟨⟨fun h => Bool.noConfusion h, fun h => Bool.noConfusion h.1⟩,
        ⟨fun h => Bool.noConfusion h, fun h => Bool.noConfusion h.1⟩⟩
  exact ⟨key.1, key.2, fun h => (key.2.1 h).2.2⟩

/-- The frame number the record carries at the history test of the general
branch of `CG_NewPacketEntityState` differs from the number of a non-negative
`cg.oldFrame` exactly when the record was not refreshed in `cg.oldFrame` or a
reset trigger holds. -/
theorem resetFrame_ne_iff (cl : Client) (state : SyncEntityState)
    (hframe : 0 ≤ cl.cg.oldFrame.serverFrame) :
    ((if state.model ≠ (cl.cg_entities state.number).current.model
          ∨ state.teleported = true
          ∨ state.linearMovement ≠ (cl.cg_entities state.number).current.linearMovement
        then (-99 : Int)
        else if |f32 ((cl.cg_entities state.number).current.origin.x - state.origin.x)| > 512
            ∨ |f32 ((cl.cg_entities state.number).current.origin.y - state.origin.y)| > 512
            ∨ |f32 ((cl.cg_entities state.number).current.origin.z - state.origin.z)| > 512
          then -99 else (cl.cg_entities state.number).serverFrame)
        ≠ cl.cg.oldFrame.serverFrame) ↔
      ((cl.cg_entities state.number).serverFrame ≠ cl.cg.oldFrame.serverFrame
        ∨ (|f32 ((cl.cg_entities state.number).current.origin.x - state.origin.x)| > 512
          ∨ |f32 ((cl.cg_entities state.number).current.origin.y - state.origin.y)| > 512
          ∨ |f32 ((cl.cg_entities state.number).current.origin.z - state.origin.z)| > 512)
        ∨ state.model ≠ (cl.cg_entities state.number).current.model
        ∨ state.teleported = true
        ∨ state.linearMovement ≠ (cl.cg_entities state.number).current.linearMovement) := by
  have hne : (-99 : Int) ≠ cl.cg.oldFrame.serverFrame := by omega
  by_cases c1 : state.model ≠ (cl.cg_entities state.number).current.model
      ∨ state.teleported = true
      ∨ state.linearMovement ≠ (cl.cg_entities state.number).current.linearMovement
  · rw [if_pos c1]
    exact ⟨fun _ => Or.inr (Or.inr c1), fun _ => hne⟩
  · rw [if_neg c1]
    by_cases c2 : |f32 ((cl.cg_entities state.number).current.origin.x - state.origin.x)| > 512
        ∨ |f32 ((cl.cg_entities state.number).current.origin.y - state.origin.y)| > 512
        ∨ |f32 ((cl.cg_entities state.number).current.origin.z - state.origin.z)| > 512
    · rw [if_pos c2]
      exact ⟨fun _ => Or.inr (Or.inl c2), fun _ => hne⟩
    · rw [if_neg c2]
      constructor
      · exact fun h => Or.inl h
      · rintro (h | h | h)
        · exact h
        · exact absurd h c2
        · exact absurd h c1

/-- C32. Smoothing reset: in the branch of `CG_NewPacketEntityState` for a state
that is neither an event entity nor in linear movement, the history test
`cent->serverFrame != cg.oldFrame.serverFrame` decides both assignments: when
it holds, `prev` is set to the incoming state and `microSmooth` to 0, and
otherwise `prev` is the former `current` and `microSmooth` is left unchanged.
For a non-negative frame number in `cg.oldFrame` the test holds exactly when
the record was not refreshed in `cg.oldFrame` or a teleport trigger fired (a
jump of more than 512 on an axis, a changed model, the teleported flag, a
changed linear movement flag). -/
theorem CG_NewPacketEntityState_smoothing_reset (env : CgEnv) (cl : Client)
    (state : SyncEntityState) (hev : env.ISEVENTENTITY state = false)
    (hlin : state.linearMovement = false) :
    ((((CG_NewPacketEntityState env cl state).cg_entities state.number).prev = state ∧
        ((CG_NewPacketEntityState env cl state).cg_entities state.number).microSmooth = 0) ∨
      (((CG_NewPacketEntityState env cl state).cg_entities state.number).prev
          = (cl.cg_entities state.number).current ∧
        ((CG_NewPacketEntityState env cl state).cg_entities state.number).microSmooth
          = (cl.cg_entities state.number).microSmooth)) ∧
    (0 ≤ cl.cg.oldFrame.serverFrame →
      (((cl.cg_entities state.number).serverFrame ≠ cl.cg.oldFrame.serverFrame
          ∨ (|f32 ((cl.cg_entities state.number).current.origin.x - state.origin.x)| > 512
            ∨ |f32 ((cl.cg_entities state.number).current.origin.y - state.origin.y)| > 512
            ∨ |f32 ((cl.cg_entities state.number).current.origin.z - state.origin.z)| > 512)
          ∨ state.model ≠ (cl.cg_entities state.number).current.model
          ∨ state.teleported = true
          ∨ state.linearMovement ≠ (cl.cg_entities state.number).current.linearMovement) →
        ((CG_NewPacketEntityState env cl state).cg_entities state.number).prev = state ∧
        ((CG_NewPacketEntityState env cl state).cg_entities state.number).microSmooth = 0) ∧
      (¬ ((cl.cg_entities state.number).serverFrame ≠ cl.cg.oldFrame.serverFrame
          ∨ (|f32 ((cl.cg_entities state.number).current.origin.x - state.origin.x)| > 512
            ∨ |f32 ((cl.cg_entities state.number).current.origin.y - state.origin.y)| > 512
            ∨ |f32 ((cl.cg_entities state.number).current.origin.z - state.origin.z)| > 512)
          ∨ state.model ≠ (cl.cg_entities state.number).current.model
          ∨ state.teleported = true
          ∨ state.linearMovement ≠ (cl.cg_entities state.number).current.linearMovement) →
        ((CG_NewPacketEntityState env cl state).cg_entities state.number).prev
          = (cl.cg_entities state.number).current ∧
        ((CG_NewPacketEntityState env cl state).cg_entities state.number).microSmooth
          = (cl.cg_entities state.number).microSmooth)) := by
  obtain ⟨_, hprev, _, hms, _⟩ := newPacketEntityState_general env cl state hev hlin _ rfl _ rfl
  rw [hprev, hms]
  constructor
  · by_cases h : (if state.model ≠ (cl.cg_entities state.number).current.model
          ∨ state.teleported = true
          ∨ state.linearMovement ≠ (cl.cg_entities state.number).current.linearMovement
        then (-99 : Int)
        else if |f32 ((cl.cg_entities state.number).current.origin.x - state.origin.x)| > 512
            ∨ |f32 ((cl.cg_entities state.number).current.origin.y - state.origin.y)| > 512
            ∨ |f32 ((cl.cg_entities state.number).current.origin.z - state.origin.z)| > 512
          then -99 else (cl.cg_entities state.number).serverFrame)
        ≠ cl.cg.oldFrame.serverFrame
    · rw [if_pos h, if_pos h]
      exact Or.inl ⟨rfl, rfl⟩
    · rw [if_neg h, if_neg h]
      exact Or.inr ⟨rfl, rfl⟩
  · intro hframe
    have hiff := resetFrame_ne_iff cl state hframe
    constructor
    · intro h
      rw [if_pos (hiff.2 h), if_pos (hiff.2 h)]
      exact ⟨rfl, rfl⟩
    · intro h
      rw [if_neg (fun hc => h (hiff.1 hc)), if_neg (fun hc => h (hiff.1 hc))]
      exact ⟨rfl, rfl⟩

/-- Witness for C32 in scenario 4: entity 5, refreshed in frame 7 at the origin
with two smoothing steps recorded, keeps the counter when it arrives at
`(3, 0, 0)` and has it reset when it arrives at `(600, 0, 0)`. -/
theorem CG_NewPacketEntityState_smoothing_reset_witness :
    (plainEnv.ISEVENTENTITY (entAt 5 3 0 0) = false ∧ (entAt 5 3 0 0).linearMovement = false
      ∧ (jumpClient.cg_entities 5).microSmooth = 2) ∧
    (((CG_NewPacketEntityState plainEnv jumpClient (entAt 5 3 0 0)).cg_entities 5).prev
        = (jumpClient.cg_entities 5).current ∧
      ((CG_NewPacketEntityState plainEnv jumpClient (entAt 5 3 0 0)).cg_entities 5).microSmooth
        = 2) ∧
    (((CG_NewPacketEntityState plainEnv jumpClient (entAt 5 600 0 0)).cg_entities 5).prev
        = entAt 5 600 0 0 ∧
      ((CG_NewPacketEntityState plainEnv jumpClient (entAt 5 600 0 0)).cg_entities
        5).microSmooth = 0) :=
  ⟨⟨rfl, rfl, rfl⟩,
    ((CG_NewPacketEntityState_smoothing_reset plainEnv jumpClient (entAt 5 3 0 0) rfl rfl).2
      (by decide)).2
      (by
        rintro (h | h | h)
        · exact h rfl
        · revert h
          show ¬ (|f32 ((0 : ℚ) - 3)| > 512 ∨ |f32 ((0 : ℚ) - 0)| > 512
            ∨ |f32 ((0 : ℚ) - 0)| > 512)
          rw [f32_small_step, f32_no_step]
          norm_num [abs_of_nonneg]
        · revert h
          decide),
    ((CG_NewPacketEntityState_smoothing_reset plainEnv jumpClient (entAt 5 600 0 0) rfl rfl).2
      (by decide)).1
      (Or.inr (Or.inl (Or.inl (by
        show |f32 ((0 : ℚ) - 600)| > 512
        rw [f32_large_step]
        norm_num [abs_of_nonneg]))))⟩

/-! ## The smoothing counter -/

/-- The initial base cursor can be used. -/
theorem initCursor_safe (c : Consts) (mem : Frames) (oldframe : Option Nat) :
    CursorSafe c mem oldframe (initCursor c mem oldframe) := by
  cases oldframe with
  | none => exact fun hne => absurd rfl hne
  | some o =>
    have e : initCursor c mem (some o)
        = (if 0 ≥ (mem o).numEntities then { oldindex := 0, oldnum := 99999, oldstate := none }
          else { oldindex := 0, oldnum := ((mem o).parsedEntities (c.entIndex 0)).number,
                 oldstate := some (c.entIndex 0) }) := rfl
    rw [e]
    by_cases h0 : 0 ≥ (mem o).numEntities
    · rw [if_pos h0]
      exact fun hne => absurd rfl hne
    · rw [if_neg h0]
      exact fun _ => ⟨o, rfl, Nat.lt_of_not_le h0, rfl⟩

/-- A cursor that can be used stays so when no frame loses entities. -/
theorem CursorSafe.mono {c : Consts} {mem mem1 : Frames} {oldframe : Option Nat} {cur : Cursor}
    (h : CursorSafe c mem oldframe cur)
    (hmono : ∀ o, (mem o).numEntities ≤ (mem1 o).numEntities) :
    CursorSafe c mem1 oldframe cur := by
  intro hne
  obtain ⟨o, ho, hlt, hs⟩ := h hne
  exact ⟨o, ho, Nat.lt_of_lt_of_le hlt (hmono o), hs⟩

/-- With a base frame, advancing the cursor gives a cursor that can be used. -/
theorem advanceOld_safe (c : Consts) (mem : Frames) (o : Nat) (cur : Cursor) :
    ∃ cur1, advanceOld c mem (some o) cur = some cur1 ∧ CursorSafe c mem (some o) cur1 := by
  have e : advanceOld c mem (some o) cur
      = (if cur.oldindex + 1 ≥ (mem o).numEntities then
          some { cur with oldindex := cur.oldindex + 1, oldnum := 99999 }
        else
          some { oldindex := cur.oldindex + 1,
                 oldnum := ((mem o).parsedEntities (c.entIndex (cur.oldindex + 1))).number,
                 oldstate := some (c.entIndex (cur.oldindex + 1)) }) := rfl
  rw [e]
  by_cases hx : cur.oldindex + 1 ≥ (mem o).numEntities
  · rw [if_pos hx]
    exact ⟨_, rfl, fun hne => absurd rfl hne⟩
  · rw [if_neg hx]
    exact ⟨_, rfl, fun _ => ⟨o, rfl, Nat.lt_of_not_le hx, rfl⟩⟩

/-- A write of one more entity to the new frame loses no entity of any frame. -/
theorem push_numEntities_le (mem : Frames) (newframe : Nat) (f : snapshot_t)
    (hf : f.numEntities = (mem newframe).numEntities + 1) (o : Nat) :
    (mem o).numEntities ≤ (Function.update mem newframe f o).numEntities := by
  by_cases ho : o = newframe
  · subst ho
    rw [Function.update_same, hf]
    omega
  · rw [Function.update_noteq ho]

/-- A copy from a base cursor that can be used and is not exhausted reads the
entry of index `oldindex`, below `numEntities`, of the base frame, which is not
null, and leaves a cursor that can be used. -/
theorem copyOld_safe (c : Consts) (mem : Frames) (oldframe : Option Nat) (newframe : Nat)
    (cur : Cursor) (h : CursorSafe c mem oldframe cur) (hne : cur.oldnum ≠ 99999) :
    ∃ o mem1 cur1, oldframe = some o ∧ cur.oldindex < (mem o).numEntities ∧
      derefOld mem oldframe cur = some ((mem o).parsedEntities (c.entIndex cur.oldindex)) ∧
      copyOld c mem oldframe newframe cur = some (mem1, cur1) ∧
      CursorSafe c mem1 oldframe cur1 ∧
      (∀ a, (mem a).numEntities ≤ (mem1 a).numEntities) := by
  obtain ⟨o, ho, hlt, hs⟩ := h hne
  subst ho
  have hd : derefOld mem (some o) cur
      = some ((mem o).parsedEntities (c.entIndex cur.oldindex)) := by
    simp only [derefOld, hs]
  obtain ⟨cur1, hadv, hsafe⟩ := advanceOld_safe c
    (Function.update mem newframe
      { mem newframe with
        parsedEntities := Function.update (mem newframe).parsedEntities
          (c.entIndex (mem newframe).numEntities)
          ((mem o).parsedEntities (c.entIndex cur.oldindex))
        numEntities := (mem newframe).numEntities + 1 }) o cur
  refine ⟨o, _, cur1, rfl, hlt, hd, ?_, hsafe, fun a => push_numEntities_le mem newframe _ rfl a⟩
  simp only [copyOld, hd, hadv]

/-- A weaker property of the result holds as well. -/
theorem Res.Defined.imp {α : Type} {P Q : α → Prop} (hPQ : ∀ a, P a → Q a) :
    ∀ {r : Res α}, Res.Defined P r → Res.Defined Q r
  | Res.ok a, h => hPQ a h
  | Res.undef, h => h
  | Res.drop _, _ => trivial
  | Res.fuel, _ => trivial

/-- The loop `while( oldnum < newnum )` for an entity number up to the sentinel,
from a cursor that can be used: no null pointer is dereferenced, and the cursor
can be used afterwards. -/
theorem copyUnchanged_safe (c : Consts) (oldframe : Option Nat) (newframe : Nat) (newnum : Int)
    (hnew : newnum ≤ 99999) :
    ∀ (fuel : Nat) (mem : Frames) (cur : Cursor), CursorSafe c mem oldframe cur →
      Res.Defined (fun r => CursorSafe c r.1 oldframe r.2 ∧
          ∀ a, (mem a).numEntities ≤ (r.1 a).numEntities)
        (copyUnchanged c oldframe newframe newnum fuel mem cur) := by
  intro fuel
  induction fuel with
  | zero => intro mem cur _; trivial
  | succ k ih =>
    intro mem cur h
    rw [copyUnchanged]
    by_cases hlt : cur.oldnum < newnum
    · rw [if_pos hlt]
      obtain ⟨o, mem1, cur1, _, _, _, hcopy, hsafe, hmono⟩ :=
        copyOld_safe c mem oldframe newframe cur h (by omega)
      rw [hcopy]
      exact Res.Defined.imp (fun r hr => ⟨hr.1, fun a => Nat.le_trans (hmono a) (hr.2 a)⟩)
        (ih mem1 cur1 hsafe)
    · rw [if_neg hlt]
      exact ⟨h, fun a => Nat.le_refl _⟩

/-- The loop `while( oldnum != 99999 )` from a cursor that can be used
dereferences no null pointer. -/
theorem copyRemaining_safe (c : Consts) (oldframe : Option Nat) (newframe : Nat) :
    ∀ (fuel : Nat) (mem : Frames) (cur : Cursor), CursorSafe c mem oldframe cur →
      Res.Defined (fun _ => True) (copyRemaining c oldframe newframe fuel mem cur) := by
  intro fuel
  induction fuel with
  | zero => intro mem cur _; trivial
  | succ k ih =>
    intro mem cur h
    rw [copyRemaining]
    by_cases hne : cur.oldnum ≠ 99999
    · rw [if_pos hne]
      obtain ⟨o, mem1, cur1, _, _, _, hcopy, hsafe, _⟩ :=
        copyOld_safe c mem oldframe newframe cur h hne
      rw [hcopy]
      exact ih mem1 cur1 hsafe
    · rw [if_neg hne]
      trivial

/-- `SNAP_ParseDeltaEntity` loses no entity of any frame. -/
theorem parseDeltaEntity_mono {M : Type} (ops : MsgOps M) (c : Consts) (msg : M) (mem : Frames)
    (frame : Nat) (newnum : Int) (old : SyncEntityState) (a : Nat) :
    (mem a).numEntities
      ≤ ((SNAP_ParseDeltaEntity ops c msg mem frame newnum old).2 a).numEntities :=
  push_numEntities_le mem frame _ rfl a

/-- The token loop of `SNAP_ParsePacketEntities`, with `MAX_EDICTS` at most the
sentinel, from a cursor that can be used: no null pointer is dereferenced, and
the cursor can be used afterwards. -/
theorem parseTokens_safe {M : Type} (ops : MsgOps M) (c : Consts) (oldframe : Option Nat)
    (newframe : Nat) (B : Int → SyncEntityState) (hE : c.MAX_EDICTS ≤ 99999) :
    ∀ (fuel : Nat) (msg : M) (mem : Frames) (cur : Cursor), CursorSafe c mem oldframe cur →
      Res.Defined (fun r => CursorSafe c r.2.1 oldframe r.2.2)
        (parseTokens ops c oldframe newframe B fuel msg mem cur) := by
  intro fuel
  induction fuel with
  | zero => intro msg mem cur _; trivial
  | succ k ih =>
    intro msg mem cur h
    rw [parseTokens]
    simp only []
    by_cases h1 : (ops.MSG_ReadEntityNumber msg).1.1 ≥ c.MAX_EDICTS
    · rw [if_pos h1]
      trivial
    rw [if_neg h1]
    by_cases h2 : ops.readcount (ops.MSG_ReadEntityNumber msg).2
        > ops.cursize (ops.MSG_ReadEntityNumber msg).2
    · rw [if_pos h2]
      trivial
    rw [if_neg h2]
    by_cases h3 : (ops.MSG_ReadEntityNumber msg).1.1 = 0
    · rw [if_pos h3]
      exact h
    rw [if_neg h3]
    have hnew : (ops.MSG_ReadEntityNumber msg).1.1 ≤ 99999 := by omega
    have hcu := copyUnchanged_safe c oldframe newframe (ops.MSG_ReadEntityNumber msg).1.1 hnew
      k mem cur h
    cases hr : copyUnchanged c oldframe newframe (ops.MSG_ReadEntityNumber msg).1.1 k mem cur with
    | drop e => trivial
    | undef => rw [hr] at hcu; exact hcu
    | fuel => trivial
    | ok r =>
      obtain ⟨mem1, cur1⟩ := r
      rw [hr] at hcu
      have hs1 : CursorSafe c mem1 oldframe cur1 := hcu.1
      show Res.Defined _ (if cur1.oldnum > (ops.MSG_ReadEntityNumber msg).1.1 then _ else _)
      by_cases hgt : cur1.oldnum > (ops.MSG_ReadEntityNumber msg).1.1
      · rw [if_pos hgt]
        cases hrm : (ops.MSG_ReadEntityNumber msg).1.2
        · simp only [Bool.false_eq_true, if_false]
          exact ih _ _ _ (hs1.mono (fun a => parseDeltaEntity_mono ops c _ mem1 newframe _ _ a))
        · simp only [if_true]
          exact ih _ _ _ hs1
      · rw [if_neg hgt]
        by_cases heq : cur1.oldnum = (ops.MSG_ReadEntityNumber msg).1.1
        · rw [if_pos heq]
          obtain ⟨o, ho, hlt, hst⟩ := hs1 (by omega)
          subst ho
          cases hrm : (ops.MSG_ReadEntityNumber msg).1.2
          · have hd : derefOld mem1 (some o) cur1
                = some ((mem1 o).parsedEntities (c.entIndex cur1.oldindex)) := by
              simp only [derefOld, hst]
            obtain ⟨cur2, hadv, hs2⟩ := advanceOld_safe c
              (SNAP_ParseDeltaEntity ops c (ops.MSG_ReadEntityNumber msg).2 mem1 newframe
                (ops.MSG_ReadEntityNumber msg).1.1
                ((mem1 o).parsedEntities (c.entIndex cur1.oldindex))).2 o cur1
            simp only [Bool.false_eq_true, if_false, hd, hadv]
            exact ih _ _ _ hs2
          · obtain ⟨cur2, hadv, hs2⟩ := advanceOld_safe c mem1 o cur1
            simp only [if_true, hadv]
            exact ih _ _ _ hs2
        · rw [if_neg heq]
          exact ih _ _ _ hs1

/-- C34. Base cursor safety: with `MAX_EDICTS` at most the sentinel 99999, the
base cursor of `SNAP_ParsePacketEntities` can be used at the start and after
every loop of the merge: whenever `oldnum` differs from the sentinel, the base
frame is not null, `oldindex` is below its `numEntities` and `oldstate` points
at the entry of that index, which is the entry a copy or a delta reads. A
cursor over a null or exhausted base has `oldnum` equal to the sentinel, and
then neither copy loop reads the base. Hence no run of the merge dereferences a
null pointer. -/
theorem SNAP_ParsePacketEntities_cursor_safe {M : Type} (ops : MsgOps M) (c : Consts)
    (fuel : Nat) (msg : M) (mem : Frames) (oldframe : Option Nat) (newframe : Nat)
    (B : Int → SyncEntityState) (hE : c.MAX_EDICTS ≤ 99999) :
    CursorSafe c (Function.update mem newframe { mem newframe with numEntities := 0 }) oldframe
      (initCursor c (Function.update mem newframe { mem newframe with numEntities := 0 })
        oldframe) ∧
    (∀ (k : Nat) (m : M) (s : Frames) (cur : Cursor), CursorSafe c s oldframe cur →
      Res.Defined (fun r => CursorSafe c r.2.1 oldframe r.2.2)
        (parseTokens ops c oldframe newframe B k m s cur)) ∧
    (∀ (k : Nat) (s : Frames) (cur : Cursor) (newnum : Int), newnum < c.MAX_EDICTS →
      CursorSafe c s oldframe cur →
      Res.Defined (fun r => CursorSafe c r.1 oldframe r.2)
        (copyUnchanged c oldframe newframe newnum k s cur)) ∧
    (∀ (k : Nat) (s : Frames) (cur : Cursor), CursorSafe c s oldframe cur →
      Res.Defined (fun _ => True) (copyRemaining c oldframe newframe k s cur)) ∧
    (∀ (s : Frames) (cur : Cursor), CursorSafe c s oldframe cur → cur.oldnum ≠ 99999 →
      ∃ o, oldframe = some o ∧ cur.oldindex < (s o).numEntities ∧
        cur.oldstate = some (c.entIndex cur.oldindex) ∧
        derefOld s oldframe cur = some ((s o).parsedEntities (c.entIndex cur.oldindex))) ∧
    (∀ (s : Frames) (cur : Cursor), CursorSafe c s oldframe cur →
      (oldframe = none ∨ ∀ o, oldframe = some o → (s o).numEntities ≤ cur.oldindex) →
      cur.oldnum = 99999) ∧
    (∀ (k : Nat) (s : Frames) (cur : Cursor) (newnum : Int), newnum < c.MAX_EDICTS →
      cur.oldnum = 99999 →
      copyUnchanged c oldframe newframe newnum (k + 1) s cur = Res.ok (s, cur)) ∧
    (∀ (k : Nat) (s : Frames) (cur : Cursor), cur.oldnum = 99999 →
      copyRemaining c oldframe newframe (k + 1) s cur = Res.ok s) ∧
    SNAP_ParsePacketEntities ops c fuel msg mem oldframe newframe B ≠ Res.undef := by
  refine ⟨initCursor_safe c _ oldframe, parseTokens_safe ops c oldframe newframe B hE, ?_,
    copyRemaining_safe c oldframe newframe, ?_, ?_, ?_, ?_, ?_⟩
  · intro k s cur newnum hn h
    exact Res.Defined.imp (fun r hr => hr.1)
      (copyUnchanged_safe c oldframe newframe newnum (by omega) k s cur h)
  · intro s cur h hne
    obtain ⟨o, _, _, ho, hlt, hd, _⟩ := copyOld_safe c s oldframe newframe cur h hne
    obtain ⟨o', ho', _, hst⟩ := h hne
    exact ⟨o, ho, hlt, hst, hd⟩
  · intro s cur h hbase
    by_contra hne
    obtain ⟨o, ho, hlt, _⟩ := h hne
    rcases hbase with hb | hb
    · rw [hb] at ho; cases ho
    · have := hb o ho
      omega
  · intro k s cur newnum hn h
    rw [copyUnchanged]
    have hlt : ¬ cur.oldnum < newnum := by omega
    rw [if_neg hlt]
  · intro k s cur h
    rw [copyRemaining]
    rw [if_neg (not_not.mpr h)]
  · intro hu
    unfold SNAP_ParsePacketEntities at hu
    have hp := parseTokens_safe ops c oldframe newframe B hE fuel msg
      (Function.update mem newframe { mem newframe with numEntities := 0 })
      (initCursor c (Function.update mem newframe { mem newframe with numEntities := 0 })
        oldframe) (initCursor_safe c _ oldframe)
    simp only [] at hu
    cases hr : parseTokens ops c oldframe newframe B fuel msg
        (Function.update mem newframe { mem newframe with numEntities := 0 })
        (initCursor c (Function.update mem newframe { mem newframe with numEntities := 0 })
          oldframe) with
    | drop e => rw [hr] at hu; cases hu
    | undef => rw [hr] at hp; exact hp
    | fuel => rw [hr] at hu; cases hu
    | ok r =>
      obtain ⟨msg1, mem1, cur1⟩ := r
      rw [hr] at hu hp
      have hc := copyRemaining_safe c oldframe newframe fuel mem1 cur1 hp
      simp only [] at hu
      cases hr2 : copyRemaining c oldframe newframe fuel mem1 cur1 with
      | drop e => rw [hr2] at hu; cases hu
      | undef => rw [hr2] at hc; exact hc
      | fuel => rw [hr2] at hu; cases hu
      | ok r2 => rw [hr2] at hu; cases hu

/-- Witness for C34 with `MAX_EDICTS = 1024`: the stream of scenario 6, which
removes an entity that the base does not hold, is merged against the base
`[1, 3, 5]` and without a base; neither run dereferences a null pointer, and
the initial cursor stands on entry 0 of the base. -/
theorem SNAP_ParsePacketEntities_cursor_safe_witness :
    smallConsts.MAX_EDICTS ≤ 99999 ∧
    SNAP_ParsePacketEntities wordOps smallConsts 10 strayMsg scenario1Mem (some 0) 1
      zeroBaselines ≠ Res.undef ∧
    SNAP_ParsePacketEntities wordOps smallConsts 10 strayMsg scenario1Mem none 1
      zeroBaselines ≠ Res.undef ∧
    (initCursor smallConsts scenario1Mem (some 0)).oldnum = 1 ∧
    (initCursor smallConsts scenario1Mem none).oldnum = 99999 :=
  ⟨by decide,
    (SNAP_ParsePacketEntities_cursor_safe wordOps smallConsts 10 strayMsg scenario1Mem (some 0) 1
      zeroBaselines (by decide)).2.2.2.2.2.2.2.2,
    (SNAP_ParsePacketEntities_cursor_safe wordOps smallConsts 10 strayMsg scenario1Mem none 1
      zeroBaselines (by decide)).2.2.2.2.2.2.2.2,
    by decide, by decide⟩

/-! ## The game commands of a frame -/

/-- One iteration of the game command loop of `SNAP_ParseFrame` on a command
that is accepted and fits: it is recorded at the next index, at the head of the
text buffer, which moves past the text and its terminator; the command is for
all unless the frame is multi-POV and the target count is not zero. -/
theorem parseGameCommands_accepted_store {M : Type} (ops : MsgOps M) (c : Consts)
    (lastFrame : Option Nat) (newframe : Nat) (k : Nat) (msg : M) (mem : Frames)
    (hmore : (ops.MSG_ReadInt16 msg).1 ≠ -1)
    (hacc : CommandAccepted mem lastFrame newframe (ops.MSG_ReadInt16 msg).1)
    (h1 : ¬ (mem newframe).numgamecommands + 1 > c.MAX_PARSE_GAMECOMMANDS)
    (h2 : ¬ (mem newframe).gamecommandsDataHead
        + (ops.MSG_ReadString (ops.MSG_ReadInt16 msg).2).1.length ≥ c.gamecommandsDataSize)
    (h3 : (mem newframe).multipov = true →
      ¬ (ops.MSG_ReadUint8 (ops.MSG_ReadString (ops.MSG_ReadInt16 msg).2).2).1 > c.targetsSize) :
    ∃ (msg' : M) (g : gcommand_t),
      parseGameCommands ops c lastFrame newframe (k + 1) msg mem
        = parseGameCommands ops c lastFrame newframe k msg'
            (Function.update mem newframe
              { mem newframe with
                numgamecommands := (mem newframe).numgamecommands + 1
                gamecommandsData := c.Q_strncpyz (mem newframe).gamecommandsData
                  (mem newframe).gamecommandsDataHead
                  (ops.MSG_ReadString (ops.MSG_ReadInt16 msg).2).1
                  (c.gamecommandsDataSize - (mem newframe).gamecommandsDataHead)
                gamecommandsDataHead := (mem newframe).gamecommandsDataHead
                  + (ops.MSG_ReadString (ops.MSG_ReadInt16 msg).2).1.length + 1
                gamecommands := Function.update (mem newframe).gamecommands
                  (mem newframe).numgamecommands g }) ∧
      g.commandOffset = (mem newframe).gamecommandsDataHead ∧
      (g.all = true ↔ ¬ ((mem newframe).multipov = true ∧
        (ops.MSG_ReadUint8 (ops.MSG_ReadString (ops.MSG_ReadInt16 msg).2).2).1 ≠ 0)) := by
  obtain ⟨hvalid, hfresh⟩ := hacc
  have hidx : (mem newframe).numgamecommands + 1 - 1 = (mem newframe).numgamecommands := by omega
  have hfr : ∀ l, lastFrame = some l →
      ((mem newframe).valid && (!(mem l).valid || decide ((mem newframe).serverFrame
        > (mem l).serverFrame + (ops.MSG_ReadInt16 msg).1))) = true := by
    intro l hl
    rw [hvalid, Bool.true_and]
    rcases hfresh l hl with h | h
    · simp only [h, Bool.not_false, Bool.true_or]
    · simp only [decide_eq_true h, Bool.or_true]
  cases hmp : (mem newframe).multipov
  · refine ⟨(ops.MSG_ReadString (ops.MSG_ReadInt16 msg).2).2,
      { (mem newframe).gamecommands (mem newframe).numgamecommands with
        all := true, commandOffset := (mem newframe).gamecommandsDataHead }, ?_, rfl, ?_⟩
    · cases lastFrame with
      | none =>
        rw [parseGameCommands]
        simp only [ne_eq, hmore, not_false_eq_true, if_true, hvalid, Bool.and_self, if_neg h1,
          if_neg h2, hmp, Bool.false_eq_true, if_false, hidx]
      | some l =>
        rw [parseGameCommands]
        simp only [ne_eq, hmore, not_false_eq_true, if_true, hfr l rfl, if_neg h1,
          if_neg h2, hmp, Bool.false_eq_true, if_false, hidx]
    · simp
  · by_cases h0 : (ops.MSG_ReadUint8 (ops.MSG_ReadString (ops.MSG_ReadInt16 msg).2).2).1 = 0
    · refine ⟨(ops.MSG_ReadUint8 (ops.MSG_ReadString (ops.MSG_ReadInt16 msg).2).2).2,
        { (mem newframe).gamecommands (mem newframe).numgamecommands with
          all := true, commandOffset := (mem newframe).gamecommandsDataHead }, ?_, rfl, ?_⟩
      · cases lastFrame with
        | none =>
          rw [parseGameCommands]
          simp only [ne_eq, hmore, not_false_eq_true, if_true, hvalid, Bool.and_self,
            if_neg h1, if_neg h2, hmp, h0, not_true_eq_false, if_false, hidx]
        | some l =>
          rw [parseGameCommands]
          simp only [ne_eq, hmore, not_false_eq_true, if_true, hfr l rfl, if_neg h1,
            if_neg h2, hmp, h0, not_true_eq_false, if_false, hidx]
      · simp [h0]
    · have h4 := h3 hmp
      refine ⟨(ops.MSG_ReadData
          (ops.MSG_ReadUint8 (ops.MSG_ReadString (ops.MSG_ReadInt16 msg).2).2).2
          (ops.MSG_ReadUint8 (ops.MSG_ReadString (ops.MSG_ReadInt16 msg).2).2).1).2,
        { all := false
          commandOffset := (mem newframe).gamecommandsDataHead
          targets := fun i =>
            if i < (ops.MSG_ReadUint8 (ops.MSG_ReadString (ops.MSG_ReadInt16 msg).2).2).1 then
              (ops.MSG_ReadData
                (ops.MSG_ReadUint8 (ops.MSG_ReadString (ops.MSG_ReadInt16 msg).2).2).2
                (ops.MSG_ReadUint8
                  (ops.MSG_ReadString (ops.MSG_ReadInt16 msg).2).2).1).1.getD i 0
            else ((mem newframe).gamecommands (mem newframe).numgamecommands).targets i },
        ?_, rfl, ?_⟩
      · cases lastFrame with
        | none =>
          rw [parseGameCommands]
          simp only [ne_eq, hmore, not_false_eq_true, if_true, hvalid, Bool.and_self,
            if_neg h1, if_neg h2, hmp, h0, if_neg h4, hidx]
        | some l =>
          rw [parseGameCommands]
          simp only [ne_eq, hmore, not_false_eq_true, if_true, hfr l rfl, if_neg h1,
            if_neg h2, hmp, h0, if_neg h4, hidx]
      · simp [h0]

/-- One iteration of the game command loop of `SNAP_ParseFrame` on a command
that is not accepted: nothing is recorded. -/
theorem parseGameCommands_rejected {M : Type} (ops : MsgOps M) (c : Consts)
    (lastFrame : Option Nat) (newframe : Nat) (k : Nat) (msg : M) (mem : Frames)
    (hmore : (ops.MSG_ReadInt16 msg).1 ≠ -1)
    (hrej : ¬ CommandAccepted mem lastFrame newframe (ops.MSG_ReadInt16 msg).1) :
    ∃ msg' : M, parseGameCommands ops c lastFrame newframe (k + 1) msg mem
      = parseGameCommands ops c lastFrame newframe k msg' mem := by
  cases lastFrame with
  | none =>
    have hv : (mem newframe).valid = false := by
      cases hv : (mem newframe).valid
      · rfl
      · exfalso
        exact hrej ⟨hv, fun l h => by cases h⟩
    rw [parseGameCommands]
    simp only [ne_eq, hmore, not_false_eq_true, if_true, hv, Bool.false_and,
      Bool.false_eq_true, if_false]
    cases (mem newframe).multipov
    · exact ⟨_, rfl⟩
    · exact ⟨_, rfl⟩
  | some l =>
    have hb : ((mem newframe).valid && (!(mem l).valid || decide ((mem newframe).serverFrame
        > (mem l).serverFrame + (ops.MSG_ReadInt16 msg).1))) = false := by
      cases hv : (mem newframe).valid
      · rfl
      · simp only [Bool.true_and, Bool.or_eq_false_iff, Bool.not_eq_false',
          decide_eq_false_iff_not]
        constructor
        · cases hlv : (mem l).valid
          · exfalso
            exact hrej ⟨hv, fun l' h => by
              injection h with h
              subst h
              exact Or.inl hlv⟩
          · rfl
        · intro hgt
          exact hrej ⟨hv, fun l' h => by
            injection h with h
            subst h
            exact Or.inr hgt⟩
    rw [parseGameCommands]
    simp only [ne_eq, hmore, not_false_eq_true, if_true, hb, Bool.false_eq_true, if_false]
    cases (mem newframe).multipov
    · exact ⟨_, rfl⟩
    · exact ⟨_, rfl⟩

/-- The game commands of a frame grow from the frame to itself. -/
theorem CommandsGrow.grefl (f : snapshot_t) : CommandsGrow f f :=
  ⟨rfl, Nat.le_refl _, Nat.le_refl _, fun _ _ => rfl, fun _ => rfl,
    fun _ h1 h2 => absurd h2 (Nat.not_lt.mpr h1),
    fun _ _ h1 h2 h3 => absurd h3 (Nat.not_lt.mpr (Nat.le_of_lt (Nat.lt_of_le_of_lt h1 h2)))⟩

/-- Growth of the game commands composes. -/
theorem CommandsGrow.gtrans {f g h : snapshot_t} (h1 : CommandsGrow f g)
    (h2 : CommandsGrow g h) : CommandsGrow f h := by
  obtain ⟨a1, a2, a3, a4, a5, a6, a7⟩ := h1
  obtain ⟨b1, b2, b3, b4, b5, b6, b7⟩ := h2
  refine ⟨b1.trans a1, Nat.le_trans a2 b2, Nat.le_trans a3 b3, fun i hi => ?_, fun hv => ?_,
    fun i hi hi2 => ?_, fun i j hi hij hj => ?_⟩
  · rw [b4 i (Nat.lt_of_lt_of_le hi a2), a4 i hi]
  · rw [b5 (a1.trans hv), a5 hv]
  · by_cases hig : i < g.numgamecommands
    · rw [b4 i hig]
      have := a6 i hi hig
      exact ⟨this.1, Nat.lt_of_lt_of_le this.2 b3⟩
    · have := b6 i (Nat.le_of_not_lt hig) hi2
      exact ⟨Nat.le_trans a3 this.1, this.2⟩
  · by_cases hjg : j < g.numgamecommands
    · rw [b4 i (Nat.lt_trans hij hjg), b4 j hjg]
      exact a7 i j hi hij hjg
    · by_cases hig : i < g.numgamecommands
      · rw [b4 i hig]
        have hx := (a6 i hi hig).2
        have hy := (b6 j (Nat.le_of_not_lt hjg) hj).1
        omega
      · exact b7 i j (Nat.le_of_not_lt hig) hij hj

/-- Recording one more command of a valid frame at the head of its text buffer
is a growth of its game commands. -/
theorem CommandsGrow.gpush (f : snapshot_t) (hv : f.valid = true) (g : gcommand_t)
    (data : Nat → Nat) (len : Nat) (hg : g.commandOffset = f.gamecommandsDataHead) :
    CommandsGrow f
      { f with
        numgamecommands := f.numgamecommands + 1
        gamecommandsData := data
        gamecommandsDataHead := f.gamecommandsDataHead + len + 1
        gamecommands := Function.update f.gamecommands f.numgamecommands g } := by
  refine ⟨rfl, Nat.le_succ _, ?_, fun i hi => ?_, fun h => ?_, fun i hi hi2 => ?_,
    fun i j hi hij hj => ?_⟩
  · show f.gamecommandsDataHead ≤ f.gamecommandsDataHead + len + 1
    omega
  · exact Function.update_noteq (Nat.ne_of_lt hi) _ _
  · rw [hv] at h; cases h
  · have hi3 : i < f.numgamecommands + 1 := hi2
    have hin : i = f.numgamecommands := by omega
    show f.gamecommandsDataHead
        ≤ (Function.update f.gamecommands f.numgamecommands g i).commandOffset ∧
      (Function.update f.gamecommands f.numgamecommands g i).commandOffset
        < f.gamecommandsDataHead + len + 1
    rw [hin, Function.update_same, hg]
    omega
  · have hj' : j < f.numgamecommands + 1 := hj
    omega

/-- Growth of the game commands keeps their placement. -/
theorem CommandsGrow.placed {f g : snapshot_t} (h : CommandsGrow f g)
    (hp : CommandsPlaced f) : CommandsPlaced g := by
  obtain ⟨a1, a2, a3, a4, a5, a6, a7⟩ := h
  refine ⟨fun i hi => ?_, fun i j hij hj => ?_⟩
  · by_cases hif : i < f.numgamecommands
    · rw [a4 i hif]
      exact Nat.lt_of_lt_of_le (hp.1 i hif) a3
    · exact (a6 i (Nat.le_of_not_lt hif) hi).2
  · by_cases hjf : j < f.numgamecommands
    · rw [a4 i (Nat.lt_trans hij hjf), a4 j hjf]
      exact hp.2 i j hij hjf
    · by_cases hif : i < f.numgamecommands
      · rw [a4 i hif]
        have hx := hp.1 i hif
        have hy := (a6 j (Nat.le_of_not_lt hjf) hj).1
        omega
      · exact a7 i j (Nat.le_of_not_lt hif) hij hj

/-- One iteration of the game command loop of `SNAP_ParseFrame` on an accepted
command, when the loop returns: the command is recorded and the rest of the
loop runs on the store that holds it. -/
theorem parseGameCommands_accepted_ok {M : Type} (ops : MsgOps M) (c : Consts)
    (lastFrame : Option Nat) (newframe : Nat) (k : Nat) (msg : M) (mem : Frames)
    (msg1 : M) (mem1 : Frames)
    (hmore : (ops.MSG_ReadInt16 msg).1 ≠ -1)
    (hacc : CommandAccepted mem lastFrame newframe (ops.MSG_ReadInt16 msg).1)
    (h : parseGameCommands ops c lastFrame newframe (k + 1) msg mem = Res.ok (msg1, mem1)) :
    ∃ (msg' : M) (g : gcommand_t),
      parseGameCommands ops c lastFrame newframe k msg'
          (Function.update mem newframe
            { mem newframe with
              numgamecommands := (mem newframe).numgamecommands + 1
              gamecommandsData := c.Q_strncpyz (mem newframe).gamecommandsData
                (mem newframe).gamecommandsDataHead (ops.MSG_ReadString (ops.MSG_ReadInt16 msg).2).1
                (c.gamecommandsDataSize - (mem newframe).gamecommandsDataHead)
              gamecommandsDataHead := (mem newframe).gamecommandsDataHead
                + (ops.MSG_ReadString (ops.MSG_ReadInt16 msg).2).1.length + 1
              gamecommands := Function.update (mem newframe).gamecommands
                (mem newframe).numgamecommands g }) = Res.ok (msg1, mem1) ∧
      g.commandOffset = (mem newframe).gamecommandsDataHead ∧
      (g.all = true ↔ ¬ ((mem newframe).multipov = true ∧
        (ops.MSG_ReadUint8 (ops.MSG_ReadString (ops.MSG_ReadInt16 msg).2).2).1 ≠ 0)) := by
  have hd := parseGameCommands_accepted_drop ops c lastFrame newframe k msg mem hmore
    hacc.1 hacc.2
  by_cases h1 : (mem newframe).numgamecommands + 1 > c.MAX_PARSE_GAMECOMMANDS
  · rw [hd.1 h1] at h
    cases h
  by_cases h2 : (mem newframe).gamecommandsDataHead
      + (ops.MSG_ReadString (ops.MSG_ReadInt16 msg).2).1.length ≥ c.gamecommandsDataSize
  · rw [hd.2.1 h1 h2] at h
    cases h
  by_cases h3 : (mem newframe).multipov = true →
      ¬ (ops.MSG_ReadUint8 (ops.MSG_ReadString (ops.MSG_ReadInt16 msg).2).2).1
        > c.targetsSize
  · obtain ⟨msg', g, e, hg⟩ := parseGameCommands_accepted_store ops c lastFrame
      newframe k msg mem hmore hacc h1 h2 h3
    rw [e] at h
    exact ⟨msg', g, h, hg⟩
  · have h3' : (mem newframe).multipov = true ∧
        (ops.MSG_ReadUint8 (ops.MSG_ReadString (ops.MSG_ReadInt16 msg).2).2).1
          > c.targetsSize := by
      by_cases hm : (mem newframe).multipov = true
      · refine ⟨hm, ?_⟩
        by_cases ht : (ops.MSG_ReadUint8 (ops.MSG_ReadString
            (ops.MSG_ReadInt16 msg).2).2).1 > c.targetsSize
        · exact ht
        · exact absurd (fun _ => ht) h3
      · exact absurd (fun hm' => absurd hm' hm) h3
    rw [hd.2.2 h1 h2 h3'.1 h3'.2] at h
    cases h

/-- The game command loop of `SNAP_ParseFrame` only grows the game commands of
the new frame. -/
theorem parseGameCommands_grow {M : Type} (ops : MsgOps M) (c : Consts)
    (lastFrame : Option Nat) (newframe : Nat) :
    ∀ (fuel : Nat) (msg : M) (mem : Frames) (msg1 : M) (mem1 : Frames),
      parseGameCommands ops c lastFrame newframe fuel msg mem = Res.ok (msg1, mem1) →
      CommandsGrow (mem newframe) (mem1 newframe) := by
  intro fuel
  induction fuel with
  | zero => intro msg mem msg1 mem1 h; cases h
  | succ k ih =>
    intro msg mem msg1 mem1 h
    by_cases hmore : (ops.MSG_ReadInt16 msg).1 = -1
    · rw [parseGameCommands] at h
      simp only [ne_eq, hmore, not_true_eq_false, if_false] at h
      injection h with h
      injection h with _ h2
      rw [← h2]
      exact CommandsGrow.grefl _
    · by_cases hacc : CommandAccepted mem lastFrame newframe (ops.MSG_ReadInt16 msg).1
      · obtain ⟨msg', g, e, hg, _⟩ := parseGameCommands_accepted_ok ops c lastFrame newframe k
          msg mem msg1 mem1 hmore hacc h
        have hrest := ih _ _ _ _ e
        rw [Function.update_same] at hrest
        exact CommandsGrow.gtrans (CommandsGrow.gpush _ hacc.1 g _ _ hg) hrest
      · obtain ⟨msg', e⟩ := parseGameCommands_rejected ops c lastFrame newframe k msg mem hmore hacc
        rw [e] at h
        exact ih _ _ _ _ h

/-- The game commands of a frame are those of the frame itself. -/
theorem CommandsEq.crefl (f : snapshot_t) : CommandsEq f f :=
  ⟨rfl, rfl, rfl, rfl⟩

/-- Equality of the game commands composes. -/
theorem CommandsEq.ctrans {f g h : snapshot_t} (h1 : CommandsEq f g) (h2 : CommandsEq g h) :
    CommandsEq f h := by
  obtain ⟨a1, a2, a3, a4⟩ := h1
  obtain ⟨b1, b2, b3, b4⟩ := h2
  exact ⟨b1.trans a1, b2.trans a2, b3.trans a3, b4.trans a4⟩

/-- Replacing the frame at `addr` by one with the same game commands. -/
theorem CommandsEq.cupdate (addr : Nat) (mem : Frames) (g : snapshot_t)
    (h : CommandsEq (mem addr) g) :
    CommandsEq (mem addr) (Function.update mem addr g addr) := by
  rw [Function.update_same]
  exact h

theorem parseDeltaEntity_commands {M : Type} (ops : MsgOps M) (c : Consts) (msg : M)
    (mem : Frames) (frame : Nat) (newnum : Int) (e : SyncEntityState) :
    CommandsEq (mem frame) ((SNAP_ParseDeltaEntity ops c msg mem frame newnum e).2 frame) :=
  CommandsEq.cupdate _ _ _ ⟨rfl, rfl, rfl, rfl⟩

theorem copyOld_commands (c : Consts) (mem : Frames) (oldframe : Option Nat) (newframe : Nat)
    (cur : Cursor) (mem1 : Frames) (cur1 : Cursor)
    (h : copyOld c mem oldframe newframe cur = some (mem1, cur1)) :
    CommandsEq (mem newframe) (mem1 newframe) := by
  unfold copyOld at h
  split at h
  · cases h
  · simp only [] at h
    split at h
    · cases h
    · injection h with h
      injection h with h1 _
      rw [← h1]
      exact CommandsEq.cupdate _ _ _ ⟨rfl, rfl, rfl, rfl⟩

theorem copyUnchanged_commands (c : Consts) (oldframe : Option Nat) (newframe : Nat)
    (newnum : Int) :
    ∀ (fuel : Nat) (mem : Frames) (cur : Cursor) (mem1 : Frames) (cur1 : Cursor),
      copyUnchanged c oldframe newframe newnum fuel mem cur = Res.ok (mem1, cur1) →
      CommandsEq (mem newframe) (mem1 newframe) := by
  intro fuel
  induction fuel with
  | zero => intro mem cur mem1 cur1 h; cases h
  | succ k ih =>
    intro mem cur mem1 cur1 h
    unfold copyUnchanged at h
    split at h
    · split at h
      · cases h
      · rename_i m2 c2 hc
        exact (copyOld_commands c mem oldframe newframe cur m2 c2 hc).ctrans (ih _ _ _ _ h)
    · injection h with h
      injection h with h1 _
      rw [← h1]
      exact CommandsEq.crefl _

theorem copyRemaining_commands (c : Consts) (oldframe : Option Nat) (newframe : Nat) :
    ∀ (fuel : Nat) (mem : Frames) (cur : Cursor) (mem1 : Frames),
      copyRemaining c oldframe newframe fuel mem cur = Res.ok mem1 →
      CommandsEq (mem newframe) (mem1 newframe) := by
  intro fuel
  induction fuel with
  | zero => intro mem cur mem1 h; cases h
  | succ k ih =>
    intro mem cur mem1 h
    unfold copyRemaining at h
    split at h
    · split at h
      · cases h
      · rename_i m2 c2 hc
        exact (copyOld_commands c mem oldframe newframe cur m2 c2 hc).ctrans (ih _ _ _ h)
    · injection h with h
      rw [← h]
      exact CommandsEq.crefl _

theorem parseTokens_commands {M : Type} (ops : MsgOps M) (c : Consts) (oldframe : Option Nat)
    (newframe : Nat) (B : Int → SyncEntityState) :
    ∀ (fuel : Nat) (msg : M) (mem : Frames) (cur : Cursor) (msg1 : M) (mem1 : Frames)
      (cur1 : Cursor),
      parseTokens ops c oldframe newframe B fuel msg mem cur = Res.ok (msg1, mem1, cur1) →
      CommandsEq (mem newframe) (mem1 newframe) := by
  intro fuel
  induction fuel with
  | zero => intro msg mem cur msg1 mem1 cur1 h; cases h
  | succ k ih =>
    intro msg mem cur msg1 mem1 cur1 h
    unfold parseTokens at h
    simp only [] at h
    split at h
    · cases h
    · split at h
      · cases h
      · split at h
        · injection h with h
          have h1 : mem = mem1 := congrArg (fun p => p.2.1) h
          rw [← h1]
          exact CommandsEq.crefl _
        · split at h
          · cases h
          · cases h
          · cases h
          · rename_i m2 c2 hc
            have hcu := copyUnchanged_commands c oldframe newframe _ k mem cur m2 c2 hc
            split at h
            · split at h
              · exact hcu.ctrans (ih _ _ _ _ _ _ h)
              · exact (hcu.ctrans (parseDeltaEntity_commands ops c _ m2 newframe _ _)).ctrans
                  (ih _ _ _ _ _ _ h)
            · split at h
              · split at h
                · split at h
                  · cases h
                  · exact hcu.ctrans (ih _ _ _ _ _ _ h)
                · split at h
                  · cases h
                  · split at h
                    · cases h
                    · exact (hcu.ctrans
                        (parseDeltaEntity_commands ops c _ m2 newframe _ _)).ctrans
                        (ih _ _ _ _ _ _ h)
              · exact hcu.ctrans (ih _ _ _ _ _ _ h)

theorem parsePacketEntities_commands {M : Type} (ops : MsgOps M) (c : Consts) (fuel : Nat)
    (msg : M) (mem : Frames) (oldframe : Option Nat) (newframe : Nat)
    (B : Int → SyncEntityState) (msg1 : M) (mem1 : Frames)
    (h : SNAP_ParsePacketEntities ops c fuel msg mem oldframe newframe B = Res.ok (msg1, mem1)) :
    CommandsEq (mem newframe) (mem1 newframe) := by
  unfold SNAP_ParsePacketEntities at h
  simp only [] at h
  split at h
  · cases h
  · cases h
  · cases h
  · rename_i m2 mem2 cur2 hp
    split at h
    · cases h
    · cases h
    · cases h
    · rename_i mem3 hc
      injection h with h
      injection h with _ h2
      rw [← h2]
      exact ((CommandsEq.cupdate newframe mem { mem newframe with numEntities := 0 }
          ⟨rfl, rfl, rfl, rfl⟩).ctrans
        (parseTokens_commands ops c oldframe newframe B fuel msg _ _ _ _ _ hp)).ctrans
        (copyRemaining_commands c oldframe newframe fuel _ _ _ hc)

theorem parsePlayerInfos_commands {M : Type} (ops : MsgOps M) (c : Consts)
    (deltaframe : Option Nat) (newframe : Nat) :
    ∀ (fuel n : Nat) (msg : M) (mem : Frames) (msg1 : M) (mem1 : Frames) (n1 : Nat),
      parsePlayerInfos ops c deltaframe newframe fuel n msg mem = Res.ok (msg1, mem1, n1) →
      CommandsEq (mem newframe) (mem1 newframe) := by
  intro fuel
  induction fuel with
  | zero => intro n msg mem msg1 mem1 n1 h; cases h
  | succ k ih =>
    intro n msg mem msg1 mem1 n1 h
    unfold parsePlayerInfos at h
    simp only [] at h
    split at h
    · split at h
      · cases h
      · refine CommandsEq.ctrans ?_ (ih _ _ _ _ _ _ h)
        exact CommandsEq.cupdate _ _ _ ⟨rfl, rfl, rfl, rfl⟩
    · injection h with h
      have h2 : mem = mem1 := congrArg (fun p => p.2.1) h
      rw [← h2]
      exact CommandsEq.crefl _

/-- The frame stored by the header parse has no game command and an empty text
buffer. -/
theorem parseFrameHeader_commands {M : Type} (ops : MsgOps M) (c : Consts) (msg : M)
    (mem : Frames) (b : Nat) (mh : M) (memh : Frames) (nf : Nat)
    (h : SNAP_ParseFrameHeader ops c msg mem none (some b) = Res.ok (mh, memh, nf)) :
    (memh nf).numgamecommands = 0 ∧ (memh nf).gamecommandsDataHead = 0 := by
  unfold SNAP_ParseFrameHeader at h
  simp only [] at h
  injection h with h
  have h2 := congrArg (fun p => p.2.1) h
  have h3 := congrArg (fun p => p.2.2) h
  simp only [] at h2 h3
  subst h3
  rw [← h2, Function.update_same]
  exact ⟨rfl, rfl⟩

/-- The game commands of a frame returned by `SNAP_ParseFrame` are those left
by its game command loop, which started from a frame without commands. -/
theorem parseFrame_commands {M : Type} (ops : MsgOps M) (c : Consts) (fuel : Nat) (msg : M)
    (mem : Frames) (lastFrame : Option Nat) (backup : Option Nat) (B : Int → SyncEntityState)
    (msg1 : M) (mem1 : Frames) (nf : Nat)
    (h : SNAP_ParseFrame ops c fuel msg mem lastFrame backup B = Res.ok (msg1, mem1, nf)) :
    ∃ mh memh m2 mem2,
      SNAP_ParseFrameHeader ops c msg mem none backup = Res.ok (mh, memh, nf) ∧
      (memh nf).numgamecommands = 0 ∧ (memh nf).gamecommandsDataHead = 0 ∧
      parseGameCommands ops c lastFrame nf fuel (ops.MSG_ReadUint8 mh).2 memh
        = Res.ok (m2, mem2) ∧
      CommandsEq (mem2 nf) (mem1 nf) ∧ (mem1 nf).valid = (mem2 nf).valid := by
  obtain ⟨b, mh, memh, m2, mem2, m4, mem4, np, hb, hh, _, hg, _, hp, _, he⟩ :=
    parseFrame_inv ops c fuel msg mem lastFrame backup B msg1 mem1 nf h
  subst hb
  have hc := parseFrameHeader_commands ops c msg mem b mh memh nf hh
  refine ⟨mh, memh, m2, mem2, hh, hc.1, hc.2, hg, ?_, ?_⟩
  · have e1 := parsePlayerInfos_commands ops c _ nf fuel 0 _ _ _ _ _ hp
    have e2 := parsePacketEntities_commands ops c fuel _ _ _ nf B _ _ he
    rw [Function.update_same] at e1
    rw [Function.update_same] at e2
    exact (CommandsEq.ctrans (CommandsEq.ctrans ⟨rfl, rfl, rfl, rfl⟩ e1)
      (CommandsEq.ctrans ⟨rfl, rfl, rfl, rfl⟩ e2))
  · have e1 := (parsePlayerInfos_frameOnly ops c _ nf fuel 0 _ _ _ _ _ hp).2.1
    have e2 := (parsePacketEntities_frameOnly ops c fuel _ _ _ nf B _ _ he).2.1
    rw [Function.update_same] at e1
    rw [Function.update_same] at e2
    exact e2.trans e1

/-- C35. Game-command acceptance. For a frame returned by `SNAP_ParseFrame`:
the game commands of the frame are those left by the game command loop, which
starts from the frame of the header with no command; they lie at strictly
increasing offsets below the head of the text buffer; and a frame that is not
valid has `numgamecommands == 0`. For every iteration of the loop that reads a
frame offset `framediff` other than `-1`, in a loop that returns: the rest of
the loop runs on a store that is the same store when the command is not
accepted (the new frame is not valid, or `lastFrame` is a valid frame with
`newframe.serverFrame <= lastFrame.serverFrame + framediff`), and that, when
the command is accepted, holds one more command at the next index, at the
offset of the former head of the text buffer, the head moved past the text and
its terminator, marked `all` unless the frame is multi-POV with a non-zero
target count; that command is still in the frame when the loop ends, and every
command recorded after it lies at or above the moved head. -/
theorem SNAP_ParseFrame_game_commands {M : Type} (ops : MsgOps M) (c : Consts) (fuel : Nat)
    (msg : M) (mem : Frames) (lastFrame : Option Nat) (backup : Option Nat)
    (B : Int → SyncEntityState) (msg1 : M) (mem1 : Frames) (nf : Nat)
    (h : SNAP_ParseFrame ops c fuel msg mem lastFrame backup B = Res.ok (msg1, mem1, nf)) :
    (∃ mh memh m2 mem2,
      SNAP_ParseFrameHeader ops c msg mem none backup = Res.ok (mh, memh, nf) ∧
      (memh nf).numgamecommands = 0 ∧
      parseGameCommands ops c lastFrame nf fuel (ops.MSG_ReadUint8 mh).2 memh
        = Res.ok (m2, mem2) ∧
      CommandsEq (mem2 nf) (mem1 nf)) ∧
    CommandsPlaced (mem1 nf) ∧
    ((mem1 nf).valid = false → (mem1 nf).numgamecommands = 0) ∧
    (∀ (k : Nat) (m : M) (s : Frames) (m1 : M) (s1 : Frames),
      (ops.MSG_ReadInt16 m).1 ≠ -1 →
      parseGameCommands ops c lastFrame nf (k + 1) m s = Res.ok (m1, s1) →
      ∃ (m' : M) (s' : Frames),
        parseGameCommands ops c lastFrame nf k m' s' = Res.ok (m1, s1) ∧
        (¬ CommandAccepted s lastFrame nf (ops.MSG_ReadInt16 m).1 → s' = s) ∧
        (CommandAccepted s lastFrame nf (ops.MSG_ReadInt16 m).1 →
          (s' nf).numgamecommands = (s nf).numgamecommands + 1 ∧
          (∀ i, i < (s nf).numgamecommands → (s' nf).gamecommands i = (s nf).gamecommands i) ∧
          ((s' nf).gamecommands (s nf).numgamecommands).commandOffset
            = (s nf).gamecommandsDataHead ∧
          (s' nf).gamecommandsDataHead = (s nf).gamecommandsDataHead
            + (ops.MSG_ReadString (ops.MSG_ReadInt16 m).2).1.length + 1 ∧
          (((s' nf).gamecommands (s nf).numgamecommands).all = true ↔
            ¬ ((s nf).multipov = true ∧
              (ops.MSG_ReadUint8 (ops.MSG_ReadString (ops.MSG_ReadInt16 m).2).2).1 ≠ 0)) ∧
          (s nf).numgamecommands < (s1 nf).numgamecommands ∧
          (s1 nf).gamecommands (s nf).numgamecommands
            = (s' nf).gamecommands (s nf).numgamecommands ∧
          (∀ i, (s nf).numgamecommands < i → i < (s1 nf).numgamecommands →
            (s nf).gamecommandsDataHead
                + (ops.MSG_ReadString (ops.MSG_ReadInt16 m).2).1.length + 1
              ≤ ((s1 nf).gamecommands i).commandOffset))) := by
  obtain ⟨mh, memh, m2, mem2, hh, hn, _, hg, he, hv⟩ :=
    parseFrame_commands ops c fuel msg mem lastFrame backup B msg1 mem1 nf h
  have hgrow := parseGameCommands_grow ops c lastFrame nf fuel _ _ _ _ hg
  have hplaced : CommandsPlaced (mem2 nf) :=
    hgrow.placed ⟨fun i hi => absurd hi (by rw [hn]; exact Nat.not_lt_zero i),
      fun i j _ hj => absurd hj (by rw [hn]; exact Nat.not_lt_zero j)⟩
  refine ⟨⟨mh, memh, m2, mem2, hh, hn, hg, he⟩, ?_, ?_, ?_⟩
  · obtain ⟨e1, e2, e3, _⟩ := he
    refine ⟨fun i hi => ?_, fun i j hij hj => ?_⟩
    · rw [e2, e3]
      rw [e1] at hi
      exact hplaced.1 i hi
    · rw [e2]
      rw [e1] at hj
      exact hplaced.2 i j hij hj
  · intro hinv
    rw [he.1, hgrow.2.2.2.2.1 (hgrow.1.symm.trans (hv.symm.trans hinv)), hn]
  · intro k m s m1 s1 hmore hrun
    by_cases hacc : CommandAccepted s lastFrame nf (ops.MSG_ReadInt16 m).1
    · obtain ⟨m', g, e, hg1, hg2⟩ := parseGameCommands_accepted_ok ops c lastFrame nf k
        m s m1 s1 hmore hacc hrun
      have hrest := parseGameCommands_grow ops c lastFrame nf k _ _ _ _ e
      refine ⟨m', _, e, fun hn' => absurd hacc hn', fun _ => ?_⟩
      rw [Function.update_same] at hrest ⊢
      obtain ⟨_, r2, _, r4, _, r6, _⟩ := hrest
      refine ⟨rfl, fun i hi => Function.update_noteq (Nat.ne_of_lt hi) _ _, ?_, rfl, ?_,
        r2, r4 _ (Nat.lt_succ_self _), fun i hi hi2 => (r6 i hi hi2).1⟩
      · show (Function.update (s nf).gamecommands (s nf).numgamecommands g
          (s nf).numgamecommands).commandOffset = _
        rw [Function.update_same]
        exact hg1
      · show (Function.update (s nf).gamecommands (s nf).numgamecommands g
          (s nf).numgamecommands).all = true ↔ _
        rw [Function.update_same]
        exact hg2
    · obtain ⟨m', e⟩ := parseGameCommands_rejected ops c lastFrame nf k m s hmore hacc
      rw [e] at hrun
      exact ⟨m', s, hrun, fun _ => rfl, fun ha => absurd ha hacc⟩

theorem SNAP_ParseFrame_game_commands_witness :
    Res.frameNumber (SNAP_ParseFrame wordOps smallConsts 5 threeCommandsMsg emptyMem none
      (some 0) zeroBaselines) = some 60 ∧
    ((Res.storeOr emptyMem (SNAP_ParseFrame wordOps smallConsts 5 threeCommandsMsg emptyMem
      none (some 0) zeroBaselines)) 28).numgamecommands = 3 ∧
    (List.range 3).map (fun i => (((Res.storeOr emptyMem (SNAP_ParseFrame wordOps smallConsts 5
      threeCommandsMsg emptyMem none (some 0) zeroBaselines)) 28).gamecommands i).commandOffset)
      = [0, 3, 5] ∧
    (List.range 3).map (fun i => (((Res.storeOr emptyMem (SNAP_ParseFrame wordOps smallConsts 5
      threeCommandsMsg emptyMem none (some 0) zeroBaselines)) 28).gamecommands i).all)
      = [true, false, true] ∧
    CommandsPlaced ((Res.storeOr emptyMem (SNAP_ParseFrame wordOps smallConsts 5
      threeCommandsMsg emptyMem none (some 0) zeroBaselines)) 28) :=
  ⟨by decide, by decide, by decide, by decide,
    (SNAP_ParseFrame_game_commands wordOps smallConsts 5 threeCommandsMsg emptyMem none (some 0)
      zeroBaselines _ _ 28 rfl).2.1⟩
/-! ## The base of a player state -/

/-- One iteration of the player state loop of `SNAP_ParseFrame` with a base
frame, at an index not above the base frame's `numplayers`: the player state
is decoded against the entry of the base frame at that index. -/
theorem parsePlayerInfos_base {M : Type} (ops : MsgOps M) (c : Consts) (d nf k n : Nat)
    (msg : M) (mem : Frames)
    (hcmd : (ops.MSG_ReadUint8 msg).1 = c.svc_playerinfo) (hne : c.svc_playerinfo ≠ 0)
    (hle : n ≤ (mem d).numplayers) :
    parsePlayerInfos ops c (some d) nf (k + 1) n msg mem
      = parsePlayerInfos ops c (some d) nf k (n + 1)
          (ops.MSG_ReadDeltaPlayerState (ops.MSG_ReadUint8 msg).2
            (some ((mem d).playerStates n))).2
          (Function.update mem nf
            { mem nf with
              playerStates := Function.update (mem nf).playerStates n
                (ops.MSG_ReadDeltaPlayerState (ops.MSG_ReadUint8 msg).2
                  (some ((mem d).playerStates n))).1 }) := by
  conv_lhs => unfold parsePlayerInfos
  simp only [hcmd, ne_eq, hne, not_false_eq_true, if_true, not_true_eq_false, if_false,
    ge_iff_le, hle]

/-- One iteration of the player state loop of `SNAP_ParseFrame` without a base
frame, or at an index above the base frame's `numplayers`: the player state is
decoded with no base. -/
theorem parsePlayerInfos_no_base {M : Type} (ops : MsgOps M) (c : Consts)
    (deltaframe : Option Nat) (nf k n : Nat) (msg : M) (mem : Frames)
    (hcmd : (ops.MSG_ReadUint8 msg).1 = c.svc_playerinfo) (hne : c.svc_playerinfo ≠ 0)
    (hno : ∀ d, deltaframe = some d → (mem d).numplayers < n) :
    parsePlayerInfos ops c deltaframe nf (k + 1) n msg mem
      = parsePlayerInfos ops c deltaframe nf k (n + 1)
          (ops.MSG_ReadDeltaPlayerState (ops.MSG_ReadUint8 msg).2 none).2
          (Function.update mem nf
            { mem nf with
              playerStates := Function.update (mem nf).playerStates n
                (ops.MSG_ReadDeltaPlayerState (ops.MSG_ReadUint8 msg).2 none).1 }) := by
  cases deltaframe with
  | none =>
    conv_lhs => unfold parsePlayerInfos
    simp only [hcmd, ne_eq, hne, not_false_eq_true, if_true, not_true_eq_false, if_false]
  | some d =>
    have hlt : ¬ n ≤ (mem d).numplayers := Nat.not_le.mpr (hno d rfl)
    conv_lhs => unfold parsePlayerInfos
    simp only [hcmd, ne_eq, hne, not_false_eq_true, if_true, not_true_eq_false, if_false,
      ge_iff_le, hlt]

/-- The `prev` of the record after the linear branch of
`CG_NewPacketEntityState`. -/
theorem newPacketEntityState_linearPrev (env : CgEnv) (cl : Client) (state : SyncEntityState)
    (hev : env.ISEVENTENTITY state = false) (hlin : state.linearMovement = true) :
    ((CG_NewPacketEntityState env cl state).cg_entities state.number).prev
      = if (cl.cg_entities state.number).serverFrame ≠ cl.cg.oldFrame.serverFrame
          ∨ state.teleported = true
          ∨ state.linearMovement ≠ (cl.cg_entities state.number).current.linearMovement
          ∨ state.linearMovementTimeStamp
              ≠ (cl.cg_entities state.number).current.linearMovementTimeStamp
        then state else (cl.cg_entities state.number).current := by
  unfold CG_NewPacketEntityState
  simp only [hev, Bool.false_eq_true, if_false, Function.update_same]
  rw [if_pos hlin]
  simp only [Function.update_same]
  exact (updateLinearProjectilePosition_fields env cl _).2.1

/-- A record that was not refreshed in `cg.oldFrame` has its history reset by
`CG_NewPacketEntityState` for a state that is not an event entity: `prev` is the
incoming state, and in the general branch, `cg.oldFrame` not carrying the
number `-99`, the smoothing counter is 0 and the velocity is zero unless it is
taken from `origin2`. -/
theorem newPacketEntityState_stale (env : CgEnv) (cl : Client) (state : SyncEntityState)
    (hev : env.ISEVENTENTITY state = false)
    (hold : (cl.cg_entities state.number).serverFrame ≠ cl.cg.oldFrame.serverFrame) :
    (state.linearMovement = true →
      ((CG_NewPacketEntityState env cl state).cg_entities state.number).prev = state) ∧
    (state.linearMovement = false → cl.cg.oldFrame.serverFrame ≠ -99 →
      ((CG_NewPacketEntityState env cl state).cg_entities state.number).prev = state ∧
      ((CG_NewPacketEntityState env cl state).cg_entities state.number).microSmooth = 0 ∧
      (¬ (cl.cgs.extrapolationTime ≠ 0 ∧
          (state.type = EntityType.ET_PLAYER ∨ state.type = EntityType.ET_CORPSE)) →
        ((CG_NewPacketEntityState env cl state).cg_entities state.number).velocity
          = Vec3.zero)) := by
  constructor
  · intro hlin
    rw [newPacketEntityState_linearPrev env cl state hev hlin, if_pos (Or.inl hold)]
  · intro hlin hframe
    have hsf : (if state.model ≠ (cl.cg_entities state.number).current.model
          ∨ state.teleported = true
          ∨ state.linearMovement ≠ (cl.cg_entities state.number).current.linearMovement
        then (-99 : Int)
        else if |f32 ((cl.cg_entities state.number).current.origin.x - state.origin.x)| > 512
            ∨ |f32 ((cl.cg_entities state.number).current.origin.y - state.origin.y)| > 512
            ∨ |f32 ((cl.cg_entities state.number).current.origin.z - state.origin.z)| > 512
          then -99 else (cl.cg_entities state.number).serverFrame)
        ≠ cl.cg.oldFrame.serverFrame := by
      by_cases c1 : state.model ≠ (cl.cg_entities state.number).current.model
          ∨ state.teleported = true
          ∨ state.linearMovement ≠ (cl.cg_entities state.number).current.linearMovement
      · rw [if_pos c1]
        exact fun h => hframe h.symm
      · rw [if_neg c1]
        by_cases c2 : |f32 ((cl.cg_entities state.number).current.origin.x - state.origin.x)| > 512
            ∨ |f32 ((cl.cg_entities state.number).current.origin.y - state.origin.y)| > 512
            ∨ |f32 ((cl.cg_entities state.number).current.origin.z - state.origin.z)| > 512
        · rw [if_pos c2]
          exact fun h => hframe h.symm
        · rw [if_neg c2]
          exact hold
    obtain ⟨_, hprev, _, hms, _, hvel, _⟩ :=
      newPacketEntityState_general env cl state hev hlin _ rfl _ rfl
    rw [if_pos hsf] at hprev hms hvel
    refine ⟨hprev, hms, fun hx => ?_⟩
    rw [hvel, if_neg hx, if_neg (fun h => h rfl)]

/-- The entity loop of `CG_NewFrameSnap` leaves the record of an entity number
that the remaining states do not carry as it is. -/
theorem newPacketEntities_untouched (env : CgEnv) (c : Consts) (frame : snapshot_t) (n : Int) :
    ∀ (k i : Nat) (cl : Client),
      (∀ i', i ≤ i' → i' < i + k → (frame.parsedEntities (c.entIndex i')).number ≠ n) →
      (newPacketEntities env c frame k i cl).cg_entities n = cl.cg_entities n := by
  intro k
  induction k with
  | zero => intro i cl _; rfl
  | succ k ih =>
    intro i cl h
    rw [newPacketEntities]
    rw [ih (i + 1) _ (fun i' h1 h2 => h i' (by omega) (by omega))]
    exact (newPacketEntityState_presence env cl _).2.2 n (h i (Nat.le_refl _) (by omega)).symm

/-- The record of an entity number carried by exactly one of the remaining
states, after the entity loop of `CG_NewFrameSnap`: it is the record that
`CG_NewPacketEntityState` leaves for that state, in a client state that has the
`cg`, the `cgs` and the record of that number as they were before the loop. -/
theorem newPacketEntities_once (env : CgEnv) (c : Consts) (frame : snapshot_t) (j : Nat) :
    ∀ (k i : Nat) (cl : Client), i ≤ j → j < i + k →
      (∀ i', i ≤ i' → i' < i + k → i' ≠ j →
        (frame.parsedEntities (c.entIndex i')).number
          ≠ (frame.parsedEntities (c.entIndex j)).number) →
      ∃ cl' : Client, cl'.cg = cl.cg ∧ cl'.cgs = cl.cgs ∧
        cl'.cg_entities (frame.parsedEntities (c.entIndex j)).number
          = cl.cg_entities (frame.parsedEntities (c.entIndex j)).number ∧
        (newPacketEntities env c frame k i cl).cg_entities
            (frame.parsedEntities (c.entIndex j)).number
          = (CG_NewPacketEntityState env cl' (frame.parsedEntities (c.entIndex j))).cg_entities
              (frame.parsedEntities (c.entIndex j)).number := by
  intro k
  induction k with
  | zero => intro i cl h1 h2 _; omega
  | succ k ih =>
    intro i cl h1 h2 h
    rw [newPacketEntities]
    by_cases hij : i = j
    · subst hij
      refine ⟨cl, rfl, rfl, rfl, ?_⟩
      exact newPacketEntities_untouched env c frame _ k (i + 1) _
        (fun i' h3 h4 => h i' (by omega) (by omega) (by omega))
    · obtain ⟨cl', e1, e2, e3, e4⟩ := ih (i + 1)
        (CG_NewPacketEntityState env cl (frame.parsedEntities (c.entIndex i)))
        (by omega) (by omega) (fun i' h3 h4 h5 => h i' (by omega) (by omega) h5)
      obtain ⟨g1, g2⟩ := newPacketEntityState_cg env cl (frame.parsedEntities (c.entIndex i))
      refine ⟨cl', e1.trans g1, e2.trans g2, e3.trans ?_, e4⟩
      exact (newPacketEntityState_presence env cl _).2.2 _
        (h i (Nat.le_refl _) (by omega) hij).symm

/-- C37. A new frame without a lerp frame. After lines 270 to 287 of
`CG_NewFrameSnap` with a null `lerpframe`, for a state of the frame that is not
an event entity, whose entity number no other state of the frame carries, and
whose record was last refreshed under a frame number other than that of the new
frame: the `prev` of the record is the incoming state when the state is in
linear movement; and when it is not, the number of the new frame not being
`-99`, the `prev` of the record is the incoming state, its smoothing counter is
0, and its velocity is zero unless extrapolation is on and the entity is a
player or a corpse, whose velocity is taken from `origin2`. -/
theorem CG_NewFrameSnap_no_lerpframe (env : FrameEnv) (c : Consts) (cl : Client)
    (frame : snapshot_t) (j : Nat) (hj : j < frame.numEntities)
    (hev : env.ISEVENTENTITY (frame.parsedEntities (c.entIndex j)) = false)
    (honce : ∀ i, i < frame.numEntities → i ≠ j →
      (frame.parsedEntities (c.entIndex i)).number
        ≠ (frame.parsedEntities (c.entIndex j)).number)
    (hold : (cl.cg_entities (frame.parsedEntities (c.entIndex j)).number).serverFrame
      ≠ frame.serverFrame) :
    ((frame.parsedEntities (c.entIndex j)).linearMovement = true →
      ((receiveFrame env c cl frame none).cg_entities
        (frame.parsedEntities (c.entIndex j)).number).prev
          = frame.parsedEntities (c.entIndex j)) ∧
    ((frame.parsedEntities (c.entIndex j)).linearMovement = false →
      frame.serverFrame ≠ -99 →
      ((receiveFrame env c cl frame none).cg_entities
        (frame.parsedEntities (c.entIndex j)).number).prev
          = frame.parsedEntities (c.entIndex j) ∧
      ((receiveFrame env c cl frame none).cg_entities
        (frame.parsedEntities (c.entIndex j)).number).microSmooth = 0 ∧
      (¬ (cl.cgs.extrapolationTime ≠ 0 ∧
          ((frame.parsedEntities (c.entIndex j)).type = EntityType.ET_PLAYER ∨
            (frame.parsedEntities (c.entIndex j)).type = EntityType.ET_CORPSE)) →
        ((receiveFrame env c cl frame none).cg_entities
          (frame.parsedEntities (c.entIndex j)).number).velocity = Vec3.zero)) := by
  have hup := updatePlayerState_frame env
    { cl with cg := { cl.cg with oldFrame := frame, frame := frame } }
  have hof := updatePlayerState_oldFrame env
    { cl with cg := { cl.cg with oldFrame := frame, frame := frame } }
  obtain ⟨cl', e1, e2, e3, e4⟩ := newPacketEntities_once
    { env.toCgEnv with
      GS_MatchPaused := env.GS_MatchPausedAt frame.gameState
      projectileAntilagOffset := antilagOffsetAfter env } c frame j frame.numEntities 0
    (CG_UpdatePlayerState env { cl with cg := { cl.cg with oldFrame := frame, frame := frame } })
    (Nat.zero_le _) (by omega) (fun i _ h2 h3 => honce i (by omega) h3)
  have hsf : cl'.cg.oldFrame.serverFrame = frame.serverFrame := by
    rw [e1, hof]
  have hrec : cl'.cg_entities (frame.parsedEntities (c.entIndex j)).number
      = cl.cg_entities (frame.parsedEntities (c.entIndex j)).number := by
    rw [e3, hup.2.2.2.2.2.2.2]
  have hcgs : cl'.cgs = cl.cgs := by
    rw [e2, hup.2.2.2.2.2.2.1]
  have hold' : (cl'.cg_entities (frame.parsedEntities (c.entIndex j)).number).serverFrame
      ≠ cl'.cg.oldFrame.serverFrame := by
    rw [hrec, hsf]
    exact hold
  have hst := newPacketEntityState_stale
    { env.toCgEnv with
      GS_MatchPaused := env.GS_MatchPausedAt frame.gameState
      projectileAntilagOffset := antilagOffsetAfter env } cl'
    (frame.parsedEntities (c.entIndex j)) hev hold'
  have hrun : (receiveFrame env c cl frame none).cg_entities
      (frame.parsedEntities (c.entIndex j)).number
      = (CG_NewPacketEntityState
          { env.toCgEnv with
            GS_MatchPaused := env.GS_MatchPausedAt frame.gameState
            projectileAntilagOffset := antilagOffsetAfter env } cl'
          (frame.parsedEntities (c.entIndex j))).cg_entities
          (frame.parsedEntities (c.entIndex j)).number := e4
  rw [hrun]
  rw [hsf, hcgs] at hst
  exact hst

theorem CG_NewFrameSnap_no_lerpframe_witness :
    ((receiveFrame plainFrameEnv smallConsts jumpClient nearFrame none).cg_entities 5).prev
      = entAt 5 3 0 0 ∧
    ((receiveFrame plainFrameEnv smallConsts jumpClient nearFrame none).cg_entities 5).microSmooth
      = 0 ∧
    ((receiveFrame plainFrameEnv smallConsts jumpClient nearFrame none).cg_entities 5).velocity
      = Vec3.zero := by
  have h := (CG_NewFrameSnap_no_lerpframe plainFrameEnv smallConsts jumpClient nearFrame 0
    (by decide) rfl (by decide) (by decide)).2 rfl (by decide)
  exact ⟨h.1, h.2.1, h.2.2 (by decide)⟩
/-! ## The next user command -/

/-- The loop of `SV_FindNextUserCommand` from index `i` with `n` indices left,
none of which is `UINT_MAX`: with enough fuel it returns the slot of the next
command among all the indices, given that `best` is the next command among the
indices before `i`, `ucmd` points to its slot and `higherTime` is its time
stamp. -/
theorem findNextUserCommand_spec (ops : ThinkOps) (cl : client_t) (s : Nat)
    (hR : cl.UcmdReceived < 2 ^ 32 - 1) :
    ∀ (n k i : Nat) (best : Option Nat) (ht : Int),
      i + n = cl.UcmdReceived + 1 → n + 1 ≤ k → s ≤ i →
      NextCommand ops cl s i best →
      (∀ b, best = some b → ht = stampAt ops cl b) →
      ∃ best' : Option Nat,
        findNextUserCommand ops cl k i (best.map (fun b => b &&& ops.CMD_MASK)) ht
          = Res.ok (best'.map (fun b => b &&& ops.CMD_MASK)) ∧
        NextCommand ops cl s (cl.UcmdReceived + 1) best' := by
  intro n
  induction n with
  | zero =>
    intro k i best ht hi hk _ hinv _
    obtain ⟨k', rfl⟩ : ∃ k', k = k' + 1 := ⟨k - 1, by omega⟩
    have hgt : ¬ i ≤ cl.UcmdReceived := by omega
    have hie : i = cl.UcmdReceived + 1 := by omega
    refine ⟨best, ?_, ?_⟩
    · rw [findNextUserCommand, if_neg hgt]
    · rw [← hie]
      exact hinv
  | succ n ih =>
    intro k i best ht hi hk hs hinv hht
    obtain ⟨k', rfl⟩ : ∃ k', k = k' + 1 := ⟨k - 1, by omega⟩
    have hle : i ≤ cl.UcmdReceived := by omega
    have hmod : (i + 1) % 2 ^ 32 = i + 1 := Nat.mod_eq_of_lt (by omega)
    rw [findNextUserCommand, if_pos hle, hmod]
    by_cases hskip : cl.UcmdTime ≥ (cl.ucmds (i &&& ops.CMD_MASK)).serverTimeStamp
    · rw [if_pos hskip]
      refine ih k' (i + 1) best ht (by omega) (by omega) (by omega) ?_ hht
      cases best with
      | none =>
        intro j hj1 hj2
        by_cases hji : j = i
        · subst hji
          exact not_lt.mpr hskip
        · exact hinv j hj1 (by omega)
      | some b =>
        obtain ⟨b1, b2, b3, b4⟩ := hinv
        refine ⟨b1, by omega, b3, fun j hj1 hj2 hj3 => ?_⟩
        by_cases hji : j = i
        · subst hji
          exact absurd hj3 (not_lt.mpr hskip)
        · exact b4 j hj1 (by omega) hj3
    · rw [if_neg hskip]
      have hel : cl.UcmdTime < stampAt ops cl i := not_le.mp hskip
      cases best with
      | none =>
        have hc : (Option.map (fun b => b &&& ops.CMD_MASK) (none : Option Nat) = none
            ∨ (cl.ucmds (i &&& ops.CMD_MASK)).serverTimeStamp < ht) := Or.inl rfl
        rw [if_pos hc]
        refine ih k' (i + 1) (some i) _ (by omega) (by omega) (by omega) ?_ ?_
        · refine ⟨hs, by omega, hel, fun j hj1 hj2 hj3 => ?_⟩
          by_cases hji : j = i
          · subst hji
            exact ⟨le_refl _, fun _ => Nat.le_refl _⟩
          · exact absurd hj3 (hinv j hj1 (by omega))
        · intro b hb
          injection hb with hb
          rw [← hb]
          rfl
      | some b =>
        obtain ⟨b1, b2, b3, b4⟩ := hinv
        have hhb : ht = stampAt ops cl b := hht b rfl
        by_cases hlt : (cl.ucmds (i &&& ops.CMD_MASK)).serverTimeStamp < ht
        · rw [if_pos (Or.inr hlt)]
          refine ih k' (i + 1) (some i) _ (by omega) (by omega) (by omega) ?_ ?_
          · refine ⟨hs, by omega, hel, fun j hj1 hj2 hj3 => ?_⟩
            by_cases hji : j = i
            · subst hji
              exact ⟨le_refl _, fun _ => Nat.le_refl _⟩
            · have hb := (b4 j hj1 (by omega) hj3).1
              have hlt' : stampAt ops cl i < stampAt ops cl b := by
                rw [← hhb]
                exact hlt
              exact ⟨le_of_lt (lt_of_lt_of_le hlt' hb),
                fun he => absurd (lt_of_lt_of_le hlt' hb) (by rw [he]; exact lt_irrefl _)⟩
          · intro b' hb'
            injection hb' with hb'
            rw [← hb']
            rfl
        · have hc : ¬ (Option.map (fun b => b &&& ops.CMD_MASK) (some b) = none
              ∨ (cl.ucmds (i &&& ops.CMD_MASK)).serverTimeStamp < ht) := by
            intro h
            cases h with
            | inl h => cases h
            | inr h => exact hlt h
          rw [if_neg hc]
          refine ih k' (i + 1) (some b) ht (by omega) (by omega) (by omega) ?_ hht
          refine ⟨b1, by omega, b3, fun j hj1 hj2 hj3 => ?_⟩
          by_cases hji : j = i
          · subst hji
            have hge : stampAt ops cl b ≤ stampAt ops cl j := by
              rw [← hhb]
              exact not_lt.mp hlt
            exact ⟨hge, fun _ => by omega⟩
          · exact b4 j hj1 (by omega) hj3

/-- With enough fuel `SV_FindNextUserCommand` returns the slot of the next
command among the indices from `UcmdExecuted + 1` to `UcmdReceived`. -/
theorem findNextUserCommand_next (ops : ThinkOps) (fuel : Nat) (cl : client_t)
    (hE : cl.UcmdExecuted < 2 ^ 32 - 1) (hR : cl.UcmdReceived < 2 ^ 32 - 1)
    (hfuel : cl.UcmdReceived + 2 ≤ fuel) :
    ∃ best : Option Nat,
      SV_FindNextUserCommand ops fuel (some cl)
        = Res.ok (best.map (fun b => b &&& ops.CMD_MASK)) ∧
      NextCommand ops cl (cl.UcmdExecuted + 1) (cl.UcmdReceived + 1) best := by
  have hmod : (cl.UcmdExecuted + 1) % 2 ^ 32 = cl.UcmdExecuted + 1 :=
    Nat.mod_eq_of_lt (by omega)
  show ∃ best : Option Nat,
      findNextUserCommand ops cl fuel ((cl.UcmdExecuted + 1) % 2 ^ 32) none ops.gametime
        = Res.ok (best.map (fun b => b &&& ops.CMD_MASK)) ∧
      NextCommand ops cl (cl.UcmdExecuted + 1) (cl.UcmdReceived + 1) best
  rw [hmod]
  by_cases hrange : cl.UcmdExecuted + 1 ≤ cl.UcmdReceived + 1
  · exact findNextUserCommand_spec ops cl (cl.UcmdExecuted + 1) hR
      (cl.UcmdReceived + 1 - (cl.UcmdExecuted + 1)) fuel (cl.UcmdExecuted + 1) none ops.gametime
      (by omega) (by omega) (Nat.le_refl _) (fun j hj1 hj2 => by omega)
      (fun b hb => by cases hb)
  · obtain ⟨k', rfl⟩ : ∃ k', fuel = k' + 1 := ⟨fuel - 1, by omega⟩
    refine ⟨none, ?_, fun j hj1 hj2 => by omega⟩
    rw [findNextUserCommand, if_neg (by omega)]
    rfl

/-- C38. The next user command. `SV_FindNextUserCommand` returns NULL for a null
client. For a client whose counters `UcmdExecuted` and `UcmdReceived` are below
`UINT_MAX`, with enough fuel: it returns NULL when no command with index in
`UcmdExecuted + 1 .. UcmdReceived` has a time stamp above `UcmdTime`; otherwise
it returns the slot `i & CMD_MASK` of an index `i` of that range whose time
stamp is above `UcmdTime`, is the smallest of those time stamps, and `i` is the
lowest index with that time stamp; and the result is the same whatever the
game time is. The embedded function returns the pointer only: the body makes
no assignment through `client`. -/
theorem SV_FindNextUserCommand_least (ops : ThinkOps) (fuel : Nat) (cl : client_t)
    (hE : cl.UcmdExecuted < 2 ^ 32 - 1) (hR : cl.UcmdReceived < 2 ^ 32 - 1)
    (hfuel : cl.UcmdReceived + 2 ≤ fuel) :
    SV_FindNextUserCommand ops fuel none = Res.ok none ∧
    ((∀ i, cl.UcmdExecuted + 1 ≤ i → i ≤ cl.UcmdReceived →
        ¬ (cl.ucmds (i &&& ops.CMD_MASK)).serverTimeStamp > cl.UcmdTime) →
      SV_FindNextUserCommand ops fuel (some cl) = Res.ok none) ∧
    ((∃ i, cl.UcmdExecuted + 1 ≤ i ∧ i ≤ cl.UcmdReceived ∧
        (cl.ucmds (i &&& ops.CMD_MASK)).serverTimeStamp > cl.UcmdTime) →
      ∃ i, cl.UcmdExecuted + 1 ≤ i ∧ i ≤ cl.UcmdReceived ∧
        (cl.ucmds (i &&& ops.CMD_MASK)).serverTimeStamp > cl.UcmdTime ∧
        SV_FindNextUserCommand ops fuel (some cl) = Res.ok (some (i &&& ops.CMD_MASK)) ∧
        ∀ j, cl.UcmdExecuted + 1 ≤ j → j ≤ cl.UcmdReceived →
          (cl.ucmds (j &&& ops.CMD_MASK)).serverTimeStamp > cl.UcmdTime →
          (cl.ucmds (i &&& ops.CMD_MASK)).serverTimeStamp
              ≤ (cl.ucmds (j &&& ops.CMD_MASK)).serverTimeStamp ∧
            ((cl.ucmds (j &&& ops.CMD_MASK)).serverTimeStamp
              = (cl.ucmds (i &&& ops.CMD_MASK)).serverTimeStamp → i ≤ j)) ∧
    (∀ g : Int, SV_FindNextUserCommand { ops with gametime := g } fuel (some cl)
      = SV_FindNextUserCommand ops fuel (some cl)) := by
  obtain ⟨best, hrun, hbest⟩ := findNextUserCommand_next ops fuel cl hE hR hfuel
  refine ⟨rfl, ?_, ?_, ?_⟩
  · intro hno
    cases best with
    | none => exact hrun
    | some b =>
      obtain ⟨b1, b2, b3, _⟩ := hbest
      exact absurd b3 (hno b b1 (by omega))
  · intro hex
    cases best with
    | none =>
      obtain ⟨i, h1, h2, h3⟩ := hex
      exact absurd h3 (hbest i h1 (by omega))
    | some b =>
      obtain ⟨b1, b2, b3, b4⟩ := hbest
      exact ⟨b, b1, by omega, b3, hrun, fun j hj1 hj2 hj3 => b4 j hj1 (by omega) hj3⟩
  · intro g
    obtain ⟨best', hrun', hbest'⟩ :=
      findNextUserCommand_next { ops with gametime := g } fuel cl hE hR hfuel
    rw [hrun, hrun']
    have hsame : best' = best := by
      cases best with
      | none =>
        cases best' with
        | none => rfl
        | some b' =>
          obtain ⟨b1, b2, b3, _⟩ := hbest'
          exact absurd b3 (hbest b' b1 b2)
      | some b =>
        obtain ⟨b1, b2, b3, b4⟩ := hbest
        cases best' with
        | none => exact absurd b3 (hbest' b b1 b2)
        | some b' =>
          obtain ⟨c1, c2, c3, c4⟩ := hbest'
          have h1 := b4 b' c1 c2 c3
          have h2 := c4 b b1 b2 b3
          have he : stampAt ops cl b' = stampAt ops cl b := le_antisymm h2.1 h1.1
          have hle1 := h1.2 he
          have hle2 := h2.2 he.symm
          have : b' = b := by omega
          rw [this]
    rw [hsame]

theorem SV_FindNextUserCommand_least_witness :
    SV_FindNextUserCommand { thinkOps with gametime := 100 } 14 (some tiedClient)
      = Res.ok (some 3) ∧
    SV_FindNextUserCommand thinkOps 14 (some tiedClient) = Res.ok (some 3) ∧
    SV_FindNextUserCommand thinkOps 14 (some { tiedClient with UcmdTime := 4600 })
      = Res.ok none := by
  have h := SV_FindNextUserCommand_least thinkOps 14 tiedClient
    (by decide) (by decide) (by decide)
  have h2 := SV_FindNextUserCommand_least thinkOps 14 { tiedClient with UcmdTime := 4600 }
    (by decide) (by decide) (by decide)
  have h3 : SV_FindNextUserCommand thinkOps 14 (some tiedClient) = Res.ok (some 3) := rfl
  exact ⟨(h.2.2.2 100).trans h3, h3, h2.2.1 (by decide)⟩
/-! ## The execution of the pending user commands -/

/-- Every command of a chain has a time stamp above the command time the chain
starts from. -/
theorem thinkChain_gt : ∀ (calls : List ThinkCall) (t : Int), ThinkChain t calls →
    ∀ c, c ∈ calls → t < c.cmd.serverTimeStamp := by
  intro calls
  induction calls with
  | nil => intro t _ c hc; cases hc
  | cons a as ih =>
    intro t h c hc
    obtain ⟨h1, _, h3⟩ := h
    cases hc with
    | head => exact h1
    | tail _ hc' => exact lt_trans h1 (ih _ h3 c hc')

/-- The calls of a chain whose commands carry the time stamps of their slots
go to pairwise distinct slots. -/
theorem thinkChain_nodup (stamp : Nat → Int) : ∀ (calls : List ThinkCall) (t : Int),
    ThinkChain t calls → (∀ c, c ∈ calls → c.cmd.serverTimeStamp = stamp c.slot) →
    (calls.map ThinkCall.slot).Nodup := by
  intro calls
  induction calls with
  | nil => intro _ _ _; exact List.nodup_nil
  | cons a as ih =>
    intro t h hs
    obtain ⟨_, _, h3⟩ := h
    rw [List.map_cons, List.nodup_cons]
    refine ⟨?_, ih _ h3 (fun c hc => hs c (List.mem_cons_of_mem _ hc))⟩
    intro hmem
    obtain ⟨c, hc, hslot⟩ := List.mem_map.mp hmem
    have hgt := thinkChain_gt as _ h3 c hc
    rw [hs c (List.mem_cons_of_mem _ hc), hslot, ← hs a (List.mem_cons_self _ _)] at hgt
    exact lt_irrefl _ hgt

/-- The loop of `SV_ExecuteClientThinks` ends when no command is found. -/
theorem executeThinks_done (ops : ThinkOps) (n fuel k : Nat) (client : client_t)
    (calls : List ThinkCall)
    (h : SV_FindNextUserCommand ops fuel (some client) = Res.ok none) :
    executeThinks ops n fuel (k + 1) client calls = Res.ok (client, calls) := by
  rw [executeThinks, h]

/-- One iteration of the loop of `SV_ExecuteClientThinks` for the command found
in slot `s`. -/
theorem executeThinks_step (ops : ThinkOps) (n fuel k : Nat) (client : client_t)
    (calls : List ThinkCall) (s : Nat)
    (h : SV_FindNextUserCommand ops fuel (some client) = Res.ok (some s)) :
    executeThinks ops n fuel (k + 1) client calls
      = executeThinks ops n fuel k
          { ops.ClientThink n s
              (if client.lastframe > 0 then
                -(toInt32 (ops.gametime - (client.ucmds s).serverTimeStamp))
              else 0)
              { client with
                ucmds := Function.update client.ucmds s
                  { client.ucmds s with
                    msec := ops.msecOf ((ops.Clamp 1
                      ((client.ucmds s).serverTimeStamp - client.UcmdTime) 200) % 2 ^ 32).toNat } }
            with
            UcmdTime := ((ops.ClientThink n s
              (if client.lastframe > 0 then
                -(toInt32 (ops.gametime - (client.ucmds s).serverTimeStamp))
              else 0)
              { client with
                ucmds := Function.update client.ucmds s
                  { client.ucmds s with
                    msec := ops.msecOf ((ops.Clamp 1
                      ((client.ucmds s).serverTimeStamp - client.UcmdTime) 200)
                        % 2 ^ 32).toNat } }).ucmds s).serverTimeStamp }
          (calls ++ [{ slot := s,
                       cmd := { client.ucmds s with
                         msec := ops.msecOf ((ops.Clamp 1
                           ((client.ucmds s).serverTimeStamp - client.UcmdTime) 200)
                             % 2 ^ 32).toNat },
                       timeDelta := if client.lastframe > 0 then
                           -(toInt32 (ops.gametime - (client.ucmds s).serverTimeStamp))
                         else 0 }]) := by
  rw [executeThinks, h]
  simp only [Function.update_same]

/-- The value stored in `msec`, when `Clamp` clamps and the field holds the
values up to 200. -/
theorem msec_clamped (ops : ThinkOps)
    (hclamp : ∀ x, ops.Clamp 1 x 200 = max 1 (min x 200))
    (hmsec : ∀ m, m ≤ 200 → ops.msecOf m = m) (d : Int) :
    ops.msecOf ((ops.Clamp 1 d 200) % 2 ^ 32).toNat = (max 1 (min d 200)).toNat := by
  rw [hclamp]
  have h1 : (1 : Int) ≤ max 1 (min d 200) := le_max_left _ _
  have h2 : max 1 (min d 200) ≤ (200 : Int) := max_le (by norm_num) (min_le_right _ _)
  have h3 : max 1 (min d 200) % 2 ^ 32 = max 1 (min d 200) :=
    Int.emod_eq_of_lt (by omega) (by omega)
  rw [h3]
  exact hmsec _ (by omega)

/-- The loop of `SV_ExecuteClientThinks` with enough fuel, for a `ClientThink`
that keeps the ring and its two counters: it returns after a chain of calls
that starts from the command time of the client, with the command time at the
end of the chain, and no command is found any more. -/
theorem executeThinks_run (ops : ThinkOps) (n fuel : Nat) (stamp : Nat → Int) (R : Nat)
    (hclamp : ∀ x, ops.Clamp 1 x 200 = max 1 (min x 200))
    (hmsec : ∀ m, m ≤ 200 → ops.msecOf m = m)
    (hthink : ∀ n s d cl, (ops.ClientThink n s d cl).ucmds = cl.ucmds ∧
      (ops.ClientThink n s d cl).UcmdReceived = cl.UcmdReceived ∧
      (ops.ClientThink n s d cl).UcmdExecuted = cl.UcmdExecuted)
    (hR : R < 2 ^ 32 - 1) (hfuel : R + 2 ≤ fuel) :
    ∀ (m : Nat) (S : Finset Nat) (k : Nat) (client : client_t) (calls : List ThinkCall),
      S.card ≤ m → m + 1 ≤ k →
      (∀ s, s ≤ ops.CMD_MASK → client.UcmdTime < (client.ucmds s).serverTimeStamp → s ∈ S) →
      client.UcmdReceived = R → client.UcmdExecuted < 2 ^ 32 - 1 →
      (∀ s, (client.ucmds s).serverTimeStamp = stamp s) →
      ∃ (client' : client_t) (calls' : List ThinkCall),
        executeThinks ops n fuel k client calls = Res.ok (client', calls ++ calls') ∧
        ThinkChain client.UcmdTime calls' ∧
        client'.UcmdTime = chainEnd client.UcmdTime calls' ∧
        client'.UcmdReceived = R ∧ client'.UcmdExecuted = client.UcmdExecuted ∧
        (∀ s, (client'.ucmds s).serverTimeStamp = stamp s) ∧
        (∀ c, c ∈ calls' → c.cmd.serverTimeStamp = stamp c.slot) ∧
        SV_FindNextUserCommand ops fuel (some client') = Res.ok none := by
  intro m
  induction m with
  | zero =>
    intro S k client calls hS hk hin hRc hE hst
    obtain ⟨k', rfl⟩ : ∃ k', k = k' + 1 := ⟨k - 1, by omega⟩
    obtain ⟨best, hrun, hbest⟩ := findNextUserCommand_next ops fuel client hE
      (by rw [hRc]; exact hR) (by rw [hRc]; exact hfuel)
    cases best with
    | none =>
      refine ⟨client, [], ?_, trivial, rfl, hRc, rfl, hst, (fun c hc => by cases hc), hrun⟩
      rw [executeThinks_done ops n fuel k' client calls hrun, List.append_nil]
    | some b =>
      have hsS : b &&& ops.CMD_MASK ∈ S := hin _ Nat.and_le_right hbest.2.2.1
      have hpos : 0 < S.card := Finset.card_pos.mpr ⟨_, hsS⟩
      omega
  | succ m ih =>
    intro S k client calls hS hk hin hRc hE hst
    obtain ⟨k', rfl⟩ : ∃ k', k = k' + 1 := ⟨k - 1, by omega⟩
    obtain ⟨best, hrun, hbest⟩ := findNextUserCommand_next ops fuel client hE
      (by rw [hRc]; exact hR) (by rw [hRc]; exact hfuel)
    cases best with
    | none =>
      refine ⟨client, [], ?_, trivial, rfl, hRc, rfl, hst, (fun c hc => by cases hc), hrun⟩
      rw [executeThinks_done ops n fuel k' client calls hrun, List.append_nil]
    | some b =>
      have hgt : client.UcmdTime < (client.ucmds (b &&& ops.CMD_MASK)).serverTimeStamp :=
        hbest.2.2.1
      have hsS : b &&& ops.CMD_MASK ∈ S := hin _ Nat.and_le_right hgt
      have hrun0 : SV_FindNextUserCommand ops fuel (some client)
          = Res.ok (some (b &&& ops.CMD_MASK)) := hrun
      generalize b &&& ops.CMD_MASK = s at hrun0 hgt hsS
      have hrun' : SV_FindNextUserCommand ops fuel (some client) = Res.ok (some s) := hrun0
      rw [executeThinks_step ops n fuel k' client calls s hrun']
      generalize hd : (if client.lastframe > 0 then
          -(toInt32 (ops.gametime - (client.ucmds s).serverTimeStamp)) else 0) = d
      have hms := msec_clamped ops hclamp hmsec
        ((client.ucmds s).serverTimeStamp - client.UcmdTime)
      generalize hu : ops.msecOf ((ops.Clamp 1
          ((client.ucmds s).serverTimeStamp - client.UcmdTime) 200) % 2 ^ 32).toNat = ms at hms
      obtain ⟨t1, t2, t3⟩ := hthink n s d
        { client with
          ucmds := Function.update client.ucmds s { client.ucmds s with msec := ms } }
      have hst1 : ∀ s', ((Function.update client.ucmds s
          { client.ucmds s with msec := ms }) s').serverTimeStamp = stamp s' := by
        intro s'
        by_cases hs : s' = s
        · rw [hs, Function.update_same]
          exact hst s
        · rw [Function.update_noteq hs]
          exact hst s'
      have hT : ((ops.ClientThink n s d
          { client with
            ucmds := Function.update client.ucmds s
              { client.ucmds s with msec := ms } }).ucmds s).serverTimeStamp = stamp s := by
        rw [t1]
        exact hst1 s
      obtain ⟨client', calls'', e, hchain, hend, hR', hE', hst', hcalls, hfin⟩ :=
        ih (S.erase s) k'
          { ops.ClientThink n s d
              { client with
                ucmds := Function.update client.ucmds s { client.ucmds s with msec := ms } }
            with
            UcmdTime := ((ops.ClientThink n s d
              { client with
                ucmds := Function.update client.ucmds s
                  { client.ucmds s with msec := ms } }).ucmds s).serverTimeStamp }
          (calls ++ [{ slot := s, cmd := { client.ucmds s with msec := ms }, timeDelta := d }])
          (by rw [Finset.card_erase_of_mem hsS]; omega) (by omega)
          (by
            intro s' hs' hlt
            have hlt' : stamp s < stamp s' := by
              have h1 : ((ops.ClientThink n s d
                  { client with
                    ucmds := Function.update client.ucmds s
                      { client.ucmds s with msec := ms } }).ucmds s').serverTimeStamp
                  = stamp s' := by
                rw [t1]
                exact hst1 s'
              have h2 := hlt
              simp only [] at h2
              rw [hT, h1] at h2
              exact h2
            refine Finset.mem_erase.mpr ⟨fun h => ?_, hin s' hs' ?_⟩
            · rw [h] at hlt'
              exact lt_irrefl _ hlt'
            · rw [hst s']
              rw [hst s] at hgt
              exact lt_trans hgt hlt')
          (t2.trans hRc) (by rw [show _ = _ from t3]; exact hE)
          (by
            intro s'
            show ((ops.ClientThink n s d _).ucmds s').serverTimeStamp = stamp s'
            rw [t1]
            exact hst1 s')
      refine ⟨client', { slot := s, cmd := { client.ucmds s with msec := ms }, timeDelta := d }
        :: calls'', ?_, ⟨hgt, hms, ?_⟩, ?_, hR', hE'.trans t3, hst', ?_, hfin⟩
      · rw [e, List.append_assoc]
        rfl
      · have hc : ThinkChain (stamp s) calls'' := by
          have := hchain
          simp only [] at this
          rw [hT] at this
          exact this
        show ThinkChain (client.ucmds s).serverTimeStamp calls''
        rw [hst s]
        exact hc
      · show client'.UcmdTime = chainEnd (client.ucmds s).serverTimeStamp calls''
        rw [hend, hst s]
        simp only []
        rw [hT]
      · intro c hc
        cases hc with
        | head => exact hst s
        | tail _ hc' => exact hcalls c hc'

/-- The client of `SV_ExecuteClientThinks` after the command time has been
raised to `minUcmdTime`. -/
theorem raisedUcmdTime_fields (client : client_t) (t : Int) :
    (if client.UcmdTime < t then { client with UcmdTime := t } else client).UcmdTime
      = max client.UcmdTime t ∧
    (if client.UcmdTime < t then { client with UcmdTime := t } else client).ucmds
      = client.ucmds ∧
    (if client.UcmdTime < t then { client with UcmdTime := t } else client).UcmdReceived
      = client.UcmdReceived ∧
    (if client.UcmdTime < t then { client with UcmdTime := t } else client).UcmdExecuted
      = client.UcmdExecuted := by
  by_cases h : client.UcmdTime < t
  · rw [if_pos h]
    exact ⟨(max_eq_right (le_of_lt h)).symm, rfl, rfl, rfl⟩
  · rw [if_neg h]
    exact ⟨(max_eq_left (not_lt.mp h)).symm, rfl, rfl, rfl⟩

/-- C39, amended. `SV_ExecuteClientThinks` returns, given enough fuel, a
`Clamp` that clamps, a field `msec` that holds the values up to 200, counters
`UcmdExecuted` and `UcmdReceived` below `UINT_MAX`, and a `ClientThink` that
keeps the command ring and its two counters. For a client number outside
`0 .. sv_maxclients - 1`, a client whose state is below `CS_SPAWNED` or a fake
client, it returns with no call of `ClientThink` and the clients as they were.
Otherwise the calls of `ClientThink` form a chain from the command time of the
client raised to `minUcmdTime`: each command handed over has a time stamp above
the command time, its `msec` is the difference clamped to 1 and 200, and the
command time becomes its time stamp; the commands carry the time stamps of
their slots and no slot is handed over twice; on exit the command time is the
end of the chain, `UcmdExecuted == UcmdReceived`, no command of the pending
range has a time stamp above the command time, and the other clients are as
they were. -/
theorem SV_ExecuteClientThinks_executes (ops : ThinkOps) (fuel : Nat)
    (clients : Nat → client_t) (clientNum : Int)
    (hclamp : ∀ x, ops.Clamp 1 x 200 = max 1 (min x 200))
    (hmsec : ∀ m, m ≤ 200 → ops.msecOf m = m)
    (hthink : ∀ n s d cl, (ops.ClientThink n s d cl).ucmds = cl.ucmds ∧
      (ops.ClientThink n s d cl).UcmdReceived = cl.UcmdReceived ∧
      (ops.ClientThink n s d cl).UcmdExecuted = cl.UcmdExecuted)
    (hE : (clients clientNum.toNat).UcmdExecuted < 2 ^ 32 - 1)
    (hR : (clients clientNum.toNat).UcmdReceived < 2 ^ 32 - 1)
    (hfuel : (clients clientNum.toNat).UcmdReceived + 2 ≤ fuel)
    (hmask : ops.CMD_MASK + 2 ≤ fuel) :
    ∃ r : ThinkResult, SV_ExecuteClientThinks ops fuel clients clientNum = Res.ok r ∧
      (((clientNum ≥ ops.maxclients ∨ clientNum < 0) ∨
          (clients clientNum.toNat).state < ops.CS_SPAWNED ∨
          ops.fakeClient clientNum.toNat = true) →
        r.clients = clients ∧ r.calls = []) ∧
      (¬ ((clientNum ≥ ops.maxclients ∨ clientNum < 0) ∨
          (clients clientNum.toNat).state < ops.CS_SPAWNED ∨
          ops.fakeClient clientNum.toNat = true) →
        ThinkChain (max (clients clientNum.toNat).UcmdTime
            (if ops.gametime > 999 then ops.gametime - 999 else 0)) r.calls ∧
        (r.clients clientNum.toNat).UcmdTime
          = chainEnd (max (clients clientNum.toNat).UcmdTime
              (if ops.gametime > 999 then ops.gametime - 999 else 0)) r.calls ∧
        (r.clients clientNum.toNat).UcmdExecuted = (r.clients clientNum.toNat).UcmdReceived ∧
        (r.clients clientNum.toNat).UcmdReceived = (clients clientNum.toNat).UcmdReceived ∧
        (∀ c, c ∈ r.calls →
          c.cmd.serverTimeStamp = ((clients clientNum.toNat).ucmds c.slot).serverTimeStamp) ∧
        (r.calls.map ThinkCall.slot).Nodup ∧
        (∀ i, (clients clientNum.toNat).UcmdExecuted + 1 ≤ i →
          i ≤ (clients clientNum.toNat).UcmdReceived →
          ¬ ((r.clients clientNum.toNat).ucmds (i &&& ops.CMD_MASK)).serverTimeStamp
            > (r.clients clientNum.toNat).UcmdTime) ∧
        (∀ a, a ≠ clientNum.toNat → r.clients a = clients a)) := by
  by_cases hg1 : clientNum ≥ ops.maxclients ∨ clientNum < 0
  · refine ⟨{ clients := clients, calls := [] }, ?_, fun _ => ⟨rfl, rfl⟩,
      fun h => absurd (Or.inl hg1) h⟩
    unfold SV_ExecuteClientThinks
    rw [if_pos hg1]
  by_cases hg2 : (clients clientNum.toNat).state < ops.CS_SPAWNED
  · refine ⟨{ clients := clients, calls := [] }, ?_, fun _ => ⟨rfl, rfl⟩,
      fun h => absurd (Or.inr (Or.inl hg2)) h⟩
    unfold SV_ExecuteClientThinks
    rw [if_neg hg1]
    simp only []
    rw [if_pos hg2]
  by_cases hg3 : ops.fakeClient clientNum.toNat = true
  · refine ⟨{ clients := clients, calls := [] }, ?_, fun _ => ⟨rfl, rfl⟩,
      fun h => absurd (Or.inr (Or.inr hg3)) h⟩
    unfold SV_ExecuteClientThinks
    rw [if_neg hg1]
    simp only []
    rw [if_neg hg2, if_pos hg3]
  obtain ⟨f1, f2, f3, f4⟩ := raisedUcmdTime_fields (clients clientNum.toNat)
    (if ops.gametime > 999 then ops.gametime - 999 else 0)
  obtain ⟨client', calls', e, hchain, hend, hR', hE', hst', hcalls, hfin⟩ :=
    executeThinks_run ops clientNum.toNat fuel
      (fun s => ((clients clientNum.toNat).ucmds s).serverTimeStamp)
      (clients clientNum.toNat).UcmdReceived hclamp hmsec hthink hR hfuel
      (ops.CMD_MASK + 1) (Finset.range (ops.CMD_MASK + 1)) fuel
      (if (clients clientNum.toNat).UcmdTime
          < (if ops.gametime > 999 then ops.gametime - 999 else 0)
        then { clients clientNum.toNat with
          UcmdTime := (if ops.gametime > 999 then ops.gametime - 999 else 0) }
        else clients clientNum.toNat) []
      (by rw [Finset.card_range]) hmask
      (fun s hs _ => Finset.mem_range.mpr (by omega)) f3 (by rw [f4]; exact hE)
      (fun s => by rw [f2])
  rw [List.nil_append] at e
  rw [f1] at hchain hend
  rw [f4] at hE'
  refine ⟨{ clients := Function.update clients clientNum.toNat
              { client' with UcmdExecuted := client'.UcmdReceived },
            calls := calls' }, ?_, fun h => ?_, fun _ => ?_⟩
  · unfold SV_ExecuteClientThinks
    rw [if_neg hg1]
    simp only []
    rw [if_neg hg2, if_neg hg3, e]
  · rcases h with h | h | h
    · exact absurd h hg1
    · exact absurd h hg2
    · exact absurd h hg3
  · refine ⟨hchain, ?_, ?_, ?_, hcalls, ?_, ?_, ?_⟩
    · show (Function.update clients clientNum.toNat _ clientNum.toNat).UcmdTime = _
      rw [Function.update_same]
      exact hend
    · show (Function.update clients clientNum.toNat _ clientNum.toNat).UcmdExecuted
        = (Function.update clients clientNum.toNat _ clientNum.toNat).UcmdReceived
      rw [Function.update_same]
    · show (Function.update clients clientNum.toNat _ clientNum.toNat).UcmdReceived = _
      rw [Function.update_same]
      exact hR'
    · exact thinkChain_nodup (fun s => ((clients clientNum.toNat).ucmds s).serverTimeStamp)
        calls' _ hchain hcalls
    · intro i hi1 hi2
      show ¬ ((Function.update clients clientNum.toNat _ clientNum.toNat).ucmds
          (i &&& ops.CMD_MASK)).serverTimeStamp
        > (Function.update clients clientNum.toNat _ clientNum.toNat).UcmdTime
      rw [Function.update_same]
      obtain ⟨best, hrun, hbest⟩ := findNextUserCommand_next ops fuel client'
        (by rw [hE']; exact hE) (by rw [hR']; exact hR) (by rw [hR']; exact hfuel)
      rw [hfin] at hrun
      cases best with
      | none =>
        have := hbest i (by rw [hE']; exact hi1) (by rw [hR']; omega)
        exact this
      | some b => cases hrun
    · intro a ha
      exact Function.update_noteq ha _ _

theorem SV_ExecuteClientThinks_executes_witness :
    Res.thinkCalls (SV_ExecuteClientThinks thinkOps 14 pendingClients 0)
      = some [{ slot := 3, cmd := { serverTimeStamp := 4550, msec := 50, rest := 0 },
                timeDelta := -450 },
              { slot := 2, cmd := { serverTimeStamp := 4600, msec := 50, rest := 0 },
                timeDelta := -400 },
              { slot := 4, cmd := { serverTimeStamp := 4900, msec := 200, rest := 0 },
                timeDelta := -100 }] ∧
    (Res.clientsOr pendingClients (SV_ExecuteClientThinks thinkOps 14 pendingClients 0)
      0).UcmdTime = 4900 ∧
    (Res.clientsOr pendingClients (SV_ExecuteClientThinks thinkOps 14 pendingClients 0)
      0).UcmdExecuted = 12 ∧
    Res.thinkCalls (SV_ExecuteClientThinks thinkOps 14 pendingClients 7) = some [] ∧
    ∃ r : ThinkResult, SV_ExecuteClientThinks thinkOps 14 pendingClients 0 = Res.ok r ∧
      (r.clients 0).UcmdExecuted = (r.clients 0).UcmdReceived ∧
      (r.calls.map ThinkCall.slot).Nodup := by
  obtain ⟨r, hr, _, h⟩ := SV_ExecuteClientThinks_executes thinkOps 14 pendingClients 0
    (fun _ => rfl) (fun m hm => Nat.mod_eq_of_lt (by omega)) (fun _ _ _ _ => ⟨rfl, rfl, rfl⟩)
    (by decide) (by decide) (by decide) (by decide)
  have h' := h (by decide)
  exact ⟨by decide, by decide, by decide, by decide, r, hr, h'.2.2.1, h'.2.2.2.2.2.1⟩

/-- C39 as stated fails for a client that is not spawned: the client in state
3, below `CS_SPAWNED`, has the commands 10 to 12 pending; the call returns at
the test of the state with no call of `ClientThink`, and on exit
`UcmdExecuted` is 9 and `UcmdReceived` is 12. -/
theorem SV_ExecuteClientThinks_executes_counterexample :
    thinkOps.CS_SPAWNED = 4 ∧ (connectingClients 0).state = 3 ∧
    Res.thinkCalls (SV_ExecuteClientThinks thinkOps 14 connectingClients 0) = some [] ∧
    (Res.clientsOr connectingClients (SV_ExecuteClientThinks thinkOps 14 connectingClients 0)
      0).UcmdExecuted = 9 ∧
    (Res.clientsOr connectingClients (SV_ExecuteClientThinks thinkOps 14 connectingClients 0)
      0).UcmdReceived = 12 := by
  refine ⟨rfl, rfl, by decide, by decide, by decide⟩
end Forksow
